import Mathlib

/-!
OpenApoc battle unit.

A shallow embedding of `BattleUnit` (`src/game/state/battle/battleunit.cpp`):
the mission-queue operations `popFinishedMissions`, `cancelMissions`,
`setMission` and the two `addMission` overloads with the small setters they
call; damage (`dealDamage`, `applyDamage`); the pose setters; attacking and the
firing stage of `update`; the tick convergence loop of `update`; vision
(`updateUnitVision`); the fatal-wound step of `update`; `requestGiveWay`; and
`groupMove`. The bool-vector value of a serialization node
(`src/framework/serialization/serialize.cpp`) is embedded as well.

Conventions of the embedding.

* A C++ method `bool BattleUnit::f(GameState &state, ...)` becomes a function
  `f cb u ... : Bool × BattleUnit G`: the state after the call is returned next
  to the result. The `GameState &state` argument travels inside the unit record
  as the field `state` of an arbitrary type `G`.
* `std::list<up<BattleUnitMission>> missions` is a `List BattleUnitMission`,
  front of the queue = head of the list.
* `int` values (time units, prepaid costs) are `Int`; the additions of
  `cancelMissions` are modelled without overflow.
* `unsigned int` tick counters and budgets are `Nat`. A subtraction that the
  source guards by a comparison is the subtraction of `Nat`; where a product or
  a difference could wrap around it is reduced modulo 2^32 (`u32`, `usub32`).
* `float` values are rationals: sums and differences are taken exactly, and
  roots, lengths and angles are parameters.
* `class BattleUnitMission` is declared outside the analysed sources. Its
  methods and the other external services are the fields of `Services`.
* A lookup `map.at(key)` answers an `Option`, `none` standing for the
  exception; a function that may throw or read past a container answers an
  `Option` or an `Except` as well.
* Where several units share the game state (`groupMove`), the state is handed
  from one unit to the next: the unit at work carries the current state.
-/

namespace OpenApoc

/-- Tag of a mission, `BattleUnitMission::Type`. -/
inductive MissionType where
  | GotoLocation
  | Snooze
  | RestartNextMission
  | AcquireTU
  | ChangeBodyState
  | ThrowItem
  | DropItem
  | ReachGoal
  | Turn
  | Teleport
  deriving DecidableEq, Repr

/-- Body pose, `BodyState`. -/
inductive BodyState where
  | Standing
  | Flying
  | Kneeling
  | Prone
  | Jumping
  | Throwing
  | Downed
  | Dead
  deriving DecidableEq, Repr

/-- Firing status, `WeaponStatus`. -/
inductive WeaponStatus where
  | NotFiring
  | FiringLeftHand
  | FiringRightHand
  | FiringBothHands
  deriving DecidableEq, Repr

/-- Kind of target, `BattleUnit::TargetingMode`. -/
inductive TargetingMode where
  | NoTarget
  | Unit
  | TileCenter
  | TileGround
  deriving DecidableEq, Repr

/-- Hand pose, `HandState`. -/
inductive HandState where
  | AtEase
  | Aiming
  | Firing
  deriving DecidableEq, Repr

/-- Movement mode, `MovementState`. -/
inductive MovementState where
  | None
  | Normal
  | Running
  | Strafing
  deriving DecidableEq, Repr

/-- Part of the body that a hit lands on, `BodyPart`. -/
inductive BodyPart where
  | Body
  | Helmet
  | Legs
  | RightArm
  | LeftArm
  deriving DecidableEq, Repr, Fintype

/-- Integer pair, `Vec2<int>` (facings). -/
structure Vec2 where
  x : Int := 0
  y : Int := 0
  deriving DecidableEq, Repr

/-- Integer triple, `Vec3<int>` (tiles). -/
structure Vec3 where
  x : Int := 0
  y : Int := 0
  z : Int := 0
  deriving DecidableEq, Repr

/-- Continuous position, `Vec3<float>`; the queue operations only pass it on
to external services, the carrier used here is the rationals. -/
structure Vec3f where
  x : ℚ := 0
  y : ℚ := 0
  z : ℚ := 0
  deriving DecidableEq

/-- One queued order, `BattleUnitMission`, with the members that
`battleunit.cpp` reads or writes. -/
structure BattleUnitMission where
  type : MissionType := MissionType.Snooze
  targetFacing : Vec2 := {}
  targetBodyState : BodyState := BodyState.Standing
  costPaidUpFront : Int := 0
  currentPlannedPath : List Vec3 := []
  cancelled : Bool := false
  item : Option String := none
  deriving DecidableEq

/-- Kind of an equipment type, `AEquipmentType::Type`, as far as
`battleunit.cpp` tells the kinds apart. -/
inductive AEquipmentKind where
  | DisruptorShield
  | MediKit
  | Other
  deriving DecidableEq, Repr

/-- Slot an item is equipped in, `AEquipmentSlotType`. -/
inductive AEquipmentSlotType where
  | General
  | ArmorBody
  | ArmorLegs
  | ArmorHelmet
  | ArmorLeftHand
  | ArmorRightHand
  | LeftHand
  | RightHand
  | None
  deriving DecidableEq, Repr

/-- One item carried by the agent, `AEquipment`, with the members that
`battleunit.cpp` reads or writes; `typeKind`, `damage_modifier` and `max_ammo`
are the members `type->type`, `type->damage_modifier` and `type->max_ammo` of
its equipment type, a `StateRef` is the identifier it holds. -/
structure AEquipment where
  type : String := ""
  typeKind : AEquipmentKind := AEquipmentKind.Other
  damage_modifier : String := ""
  max_ammo : Int := 0
  equippedSlotType : AEquipmentSlotType := AEquipmentSlotType.None
  ammo : Int := 0
  readyToFire : Bool := false
  deriving DecidableEq, Repr

/-- Effect of a damage type, `DamageType::EffectType`; `battleunit.cpp` singles
out `Smoke`. -/
inductive EffectType where
  | None
  | Smoke
  | Other
  deriving DecidableEq, Repr

/-- A damage type, `DamageType`: the members read by `applyDamage`, the
results of its parameterless tests, and its method `dealDamage(damage,
modifier)`, which looks the damage up in a damage-modifier table. The class is
declared outside the analysed sources. -/
structure DamageType where
  effectType : EffectType := EffectType.None
  explosive : Bool := false
  ignore_shield : Bool := false
  doesImpactDamage : Bool := false
  ignoresArmorValue : Bool := false
  dealsArmorDamage : Bool := true
  dealsFatalWounds : Bool := true
  dealsStunDamage : Bool := false
  dealDamage : Int → String → Int := fun damage _ => damage

/-- Everything a mission callback may write: the game state and every member
of the unit other than the mission queue itself. Members of the agent are
fields as well: `health` is `agent->modified_stats.health`,
`current_stats_health` is `agent->current_stats.health`, `equipment` is
`agent->equipment`, `typeArmor` and `typeDamageModifier` are
`agent->type->armor` and `agent->type->damage_modifier`. The flags
`hasTileObject` and `hasShadowObject` tell whether the pointers `tileObject`
and `shadowObject` are set. -/
structure UnitVars (G : Type) where
  state : G
  retreated : Bool := false
  destroyed : Bool := false
  atGoal : Bool := true
  hasTileObject : Bool := true
  position : Vec3f := {}
  goalPosition : Vec3f := {}
  facing : Vec2 := {}
  goalFacing : Vec2 := {}
  turning_animation_ticks_remaining : Nat := 0
  current_body_state : BodyState := BodyState.Standing
  target_body_state : BodyState := BodyState.Standing
  body_animation_ticks_remaining : Nat := 0
  time_units : Int := 0
  weaponStatus : WeaponStatus := WeaponStatus.NotFiring
  targetingMode : TargetingMode := TargetingMode.NoTarget
  targetUnit : Option String := none
  ticksTillNextTargetCheck : Nat := 0
  visibleUnits : List String := []
  hasShadowObject : Bool := true
  focusedByUnits : List String := []
  displayedItem : Option String := none
  current_hand_state : HandState := HandState.AtEase
  target_hand_state : HandState := HandState.AtEase
  hand_animation_ticks_remaining : Nat := 0
  firing_animation_ticks_remaining : Nat := 0
  aiming_ticks_remaining : Nat := 0
  current_movement_state : MovementState := MovementState.None
  movement_ticks_passed : Nat := 0
  movement_sounds_played : Nat := 0
  health : Int := 0
  stunDamageInTicks : Int := 0
  fatalWounds : BodyPart → Int := fun _ => 0
  equipment : List AEquipment := []
  typeArmor : BodyPart → Int := fun _ => 0
  typeDamageModifier : String := ""
  targetTile : Vec3 := {}
  id : String := ""
  owner : String := ""
  falling : Bool := false
  fallingSpeed : ℚ := 0
  flyingSpeedModifier : Nat := 0
  usingLift : Bool := false
  current_stats_health : Int := 0
  isHealing : Bool := false
  healingBodyPart : BodyPart := BodyPart.Body
  giveWayRequestData : List Vec2 := []
  deriving DecidableEq

/-- A battle unit: its variables and its mission queue (front = head). -/
structure BattleUnit (G : Type) extends UnitVars G where
  missions : List BattleUnitMission := []
  deriving DecidableEq

/-- Outcome of `mission->isFinished(state, unit)`. -/
structure FinishedReport (G : Type) where
  finished : Bool
  vars : UnitVars G
  mission : BattleUnitMission

/-- Outcome of `mission->start(state, unit)`. -/
structure StartReport (G : Type) where
  vars : UnitVars G
  mission : BattleUnitMission

/-- Outcome of `mission->getNextBodyState(state, unit, dest)`. -/
structure NextBodyStateReport (G : Type) where
  found : Bool
  dest : BodyState
  vars : UnitVars G
  mission : BattleUnitMission

/-- Outcome of `mission->getNextDestination(state, unit, dest)`. -/
structure NextDestinationReport (G : Type) where
  found : Bool
  dest : Vec3f
  vars : UnitVars G
  mission : BattleUnitMission

/-- Outcome of `mission->getNextFacing(state, unit, dest)`. -/
structure NextFacingReport (G : Type) where
  found : Bool
  dest : Vec2
  vars : UnitVars G
  mission : BattleUnitMission

/-- External collaborators of the queue operations, taken as parameters: the
methods of `BattleUnitMission` (battleunitmission.cpp) and the vision and map
services that `battleunit.cpp` calls. Each is an arbitrary function. A mission
callback sees the whole unit, may rewrite the game state, the unit variables
and the mission it is invoked on, and cannot add, remove or reorder queue
entries. -/
structure Services (G : Type) where
  /-- Method `BattleUnitMission::isFinished(state, u)`. -/
  isFinished : BattleUnit G → BattleUnitMission → FinishedReport G
  /-- Method `BattleUnitMission::start(state, u)`. -/
  start : BattleUnit G → BattleUnitMission → StartReport G
  /-- Factory `BattleUnitMission::reachGoal(u)`. -/
  reachGoal : BattleUnit G → BattleUnitMission
  /-- Factory `BattleUnitMission::restartNextMission(u)`. -/
  restartNextMission : BattleUnit G → BattleUnitMission
  /-- Static `BattleUnitMission::getFacingStep(u, targetFacing)`. -/
  getFacingStep : BattleUnit G → Vec2 → Vec2
  /-- Static `BattleUnitMission::getFacing(u, from, to)`. -/
  getFacing : BattleUnit G → Vec3f → Vec3f → Vec2
  /-- Static `BattleUnitMission::getFacing(u, to)`. -/
  getFacingTo : BattleUnit G → Vec3 → Vec2
  /-- Static `BattleUnitMission::getThrowCost(u)`. -/
  getThrowCost : BattleUnit G → Int
  /-- Test `state.current_battle->mode == Battle::Mode::RealTime`. -/
  realTime : G → Bool
  /-- Method `BattleUnit::updateUnitVision(state)`: it rewrites the game
  state (per-owner visibility) and the unit's set of visible units. -/
  updateUnitVision : BattleUnit G → G × List String
  /-- Method `BattleUnit::updateUnitVisibility(state)`: it re-runs the vision
  of the rival units that see this unit, which rewrites the game state. -/
  updateUnitVisibility : BattleUnit G → G
  /-- Calls `tileObject->setPosition(pos)` and `shadowObject->setPosition`. -/
  moveTileObject : BattleUnit G → G
  /-- Method `BattleUnitMission::getNextBodyState(state, u, dest)`. -/
  getNextBodyState : BattleUnit G → BattleUnitMission → NextBodyStateReport G :=
    fun u m => { found := false, dest := BodyState.Downed, vars := u.toUnitVars, mission := m }
  /-- Call `tileObject->removeFromMap()`. -/
  removeFromMap : BattleUnit G → G := fun u => u.state
  /-- Call `shadowObject->removeFromMap()`. -/
  removeShadowFromMap : BattleUnit G → G := fun u => u.state
  /-- Method `BattleUnit::removeFromSquad(battle)`. -/
  removeFromSquad : BattleUnit G → G := fun u => u.state
  /-- Call `randBoundsExclusive(state.rng, lo, hi)`: the number drawn and the
  game state with the generator advanced. -/
  randBoundsExclusive : G → Int → Int → Int × G := fun g lo _ => (lo, g)
  /-- Method `BattleUnit::dropDown(state)`: the unit drops its gear and goes
  down; it runs setters, mission factories and mission callbacks. -/
  dropDown : BattleUnit G → BattleUnit G := fun u => u
  /-- The effects of `die` on the rest of the game: the focus of the units
  focusing this one is cleared and the death sample is played. -/
  dieEffects : BattleUnit G → G := fun u => u.state
  /-- The fatal-wound sample is played, if the agent type has one. -/
  playFatalWoundSfx : BattleUnit G → G := fun u => u.state
  /-- The damage sample is played, if the agent type has one. -/
  playDamageSfx : BattleUnit G → G := fun u => u.state
  /-- Method `Agent::getFirstShield()`: the place of the item in
  `agent->equipment`, if there is one. A place outside the list stands for a
  null pointer. -/
  getFirstShield : List AEquipment → Option Nat :=
    fun eq => eq.findIdx? (fun e => decide (e.typeKind = AEquipmentKind.DisruptorShield))
  /-- Method `Agent::getArmor(bodyPart)`: the place of the item in
  `agent->equipment`, if there is one. -/
  getArmor : List AEquipment → BodyPart → Option Nat :=
    fun eq part => eq.findIdx? (fun e => decide (e.equippedSlotType =
      match part with
      | BodyPart.Body => AEquipmentSlotType.ArmorBody
      | BodyPart.Helmet => AEquipmentSlotType.ArmorHelmet
      | BodyPart.Legs => AEquipmentSlotType.ArmorLegs
      | BodyPart.RightArm => AEquipmentSlotType.ArmorRightHand
      | BodyPart.LeftArm => AEquipmentSlotType.ArmorLeftHand))
  /-- Method `Agent::getFirstItemInSlot(slot)`: the place of the item in
  `agent->equipment`, if there is one. -/
  getFirstItemInSlot : List AEquipment → AEquipmentSlotType → Option Nat :=
    fun eq slot => eq.findIdx? (fun e => decide (e.equippedSlotType = slot))
  /-- Call `randDamage050150(state.rng, power)`: the damage rolled and the
  game state with the generator advanced. -/
  randDamage050150 : G → Int → Int × G := fun g power => (power, g)
  /-- Call `randDamage000200(state.rng, power)`. -/
  randDamage000200 : G → Int → Int × G := fun g power => (power, g)
  /-- A generic hit sample is drawn with `state.rng` and played. -/
  playHitSfx : BattleUnit G → G := fun u => u.state
  /-- Call `state.current_battle->placeDoodad("DOODAD_27_SHIELD", ...)`. -/
  placeShieldDoodad : BattleUnit G → G := fun u => u.state
  /-- Method `AEquipment::needsReload()`. -/
  needsReload : AEquipment → Bool := fun _ => false
  /-- Method `AEquipment::canFire()`. -/
  canFire : AEquipment → Bool := fun e => decide (0 < e.ammo)
  /-- Method `AEquipment::canFire(targetPosition)`, the range check. -/
  canFireAt : BattleUnit G → AEquipment → Vec3f → Bool := fun _ e _ => decide (0 < e.ammo)
  /-- Method `AEquipment::isFiring()`. -/
  isFiring : AEquipment → Bool := fun _ => false
  /-- Call `weapon->loadAmmo(state)` on the item held in the given hand: it
  rewrites the agent's equipment and the game state. -/
  loadAmmo : BattleUnit G → AEquipmentSlotType → List AEquipment × G :=
    fun u _ => (u.equipment, u.state)
  /-- Call `weapon->startFiring(fire_aiming_mode)` on the item held in the
  given hand. -/
  startFiring : BattleUnit G → AEquipmentSlotType → List AEquipment := fun u _ => u.equipment
  /-- Call `firingWeapon->fire(state, targetPosition, target)` on the item held
  in the given hand: it rewrites the agent's equipment and the game state. -/
  fire : BattleUnit G → AEquipmentSlotType → Vec3f → List AEquipment × G :=
    fun u _ _ => (u.equipment, u.state)
  /-- Method `BattleUnit::getMuzzleLocation()`. -/
  getMuzzleLocation : BattleUnit G → Vec3f := fun u => u.position
  /-- Value `targetUnit->tileObject->getVoxelCentrePosition()`. -/
  targetUnitVoxelCentre : BattleUnit G → Vec3f := fun u => u.position
  /-- Value `targetUnit->isConscious()`. -/
  targetUnitIsConscious : BattleUnit G → Bool := fun _ => true
  /-- Value `targetUnit->position`, converted to a tile. -/
  targetUnitPosition : BattleUnit G → Vec3 := fun _ => {}
  /-- Value `targetUnit->owner`. -/
  targetUnitOwner : BattleUnit G → String := fun _ => ""
  /-- Factory `BattleUnitMission::turn(u, targetTile)`. -/
  turn : BattleUnit G → Vec3 → BattleUnitMission := fun _ _ => { type := MissionType.Turn }
  /-- Query `mission->isFinished(state, u, false)`: no callback is run. -/
  isFinishedQuiet : BattleUnit G → BattleUnitMission → Bool := fun _ _ => true
  /-- Test `glm::angle(glm::normalize(targetVector), glm::normalize(facing)) >=
  M_PI / 2` of the firing stage, a floating-point computation. -/
  outsideFrontalArc : Vec3f → Vec2 → Bool :=
    fun t f => decide (t.x * (f.x : ℚ) + t.y * (f.y : ℚ) ≤ 0)
  /-- Method `Agent::isBodyStateAllowed(bodyState)`. -/
  isBodyStateAllowed : BattleUnit G → BodyState → Bool := fun _ _ => false
  /-- Value `tileObject->getOwningTile()->getCanStand(isLarge())`. -/
  canStandHere : BattleUnit G → Bool := fun _ => true
  /-- Value `map.getTile(goalPosition)->getCanStand(isLarge())`. -/
  canStandAtGoal : BattleUnit G → Bool := fun _ => true
  /-- Value `agent->modified_stats.getActualSpeedValue()`. -/
  getActualSpeedValue : BattleUnit G → Nat := fun _ => 1
  /-- Test `map.getTile(newPosition)->getUnitIfPresent(true, true, false,
  tileObject)`: another unit occupies the tile of the position. -/
  unitBelow : BattleUnit G → Vec3f → Bool := fun _ _ => false
  /-- Method `BattleUnit::triggerProximity(state)`: primed items in range go
  off or hop; what goes off may hit this unit as well. -/
  triggerProximity : BattleUnit G → BattleUnit G := fun u => u
  /-- Value `tileObject->getOwningTile()->getRestingPosition(isLarge())`. -/
  getRestingPosition : BattleUnit G → Vec3f := fun u => u.position
  /-- Local `distanceToGoal` of the movement step: `(unsigned)ceilf(glm::length(
  vectorToGoal * VELOCITY_SCALE_BATTLE * (float)TICKS_PER_UNIT_TRAVELLED))`, a
  floating-point computation. -/
  distanceToGoal : BattleUnit G → Nat := fun _ => 0
  /-- Local `newPosition` of a partial move: the position reached from
  `getPosition()` along `glm::normalize(vectorToGoal)` for the two factors
  `moveTicksRemaining / moveTicksConsumeRate` and `speedModifier / 100`, a
  floating-point computation. -/
  advanceToGoal : BattleUnit G → Nat → Nat → Vec3f := fun u _ _ => u.position
  /-- The gravlift sample is played. -/
  playGravLiftSfx : BattleUnit G → G := fun u => u.state
  /-- A footstep sample of the agent type or of the tile is played, if any. -/
  playWalkSfx : BattleUnit G → G := fun u => u.state
  /-- Method `BattleUnit::getDistanceTravelled()`. -/
  getDistanceTravelled : BattleUnit G → Nat := fun u => u.movement_ticks_passed
  /-- Method `BattleUnitMission::getNextDestination(state, u, dest)`. -/
  getNextDestination : BattleUnit G → BattleUnitMission → NextDestinationReport G :=
    fun u m => { found := false, dest := {}, vars := u.toUnitVars, mission := m }
  /-- Method `BattleUnitMission::getNextFacing(state, u, dest)`. -/
  getNextFacing : BattleUnit G → BattleUnitMission → NextFacingReport G :=
    fun u m => { found := false, dest := {}, vars := u.toUnitVars, mission := m }
  /-- Method `Agent::getDominantItemInHands(itemToKeep)`, as the type of the
  item. -/
  getDominantItemInHands : BattleUnit G → Option String → Option String := fun _ keep => keep
  /-- Value `tileObject->getOwningTile()->position`. -/
  getOwningTilePosition : BattleUnit G → Vec3 := fun _ => {}
  /-- Factory `BattleUnitMission::gotoLocation(u, target)`. -/
  gotoLocation : BattleUnit G → Vec3 → BattleUnitMission :=
    fun _ _ => { type := MissionType.GotoLocation }
  /-- Call `map.findShortestPath(origin, destination, costLimit / 2.0f, h, true,
  nullptr, costLimit)` with the helper `h` of the leading unit, on the map of
  the game state; the last argument here is `costLimit`. -/
  findShortestPath : G → BattleUnit G → Vec3 → Vec3 → ℚ → List Vec3 := fun _ _ _ _ _ => []
  /-- Value `map.size`. -/
  mapSize : G → Vec3 := fun _ => {}
  /-- The first sort of `groupMove`, by `getDistanceStatic` to the target over
  speed. -/
  sortByStaticDistance : List (BattleUnit G) → Vec3 → List (BattleUnit G) := fun l _ => l
  /-- The second sort of `groupMove`, by the distance of the leader's tile
  helper to the target over speed. -/
  sortByDistance : BattleUnit G → List (BattleUnit G) → Vec3 → List (BattleUnit G) :=
    fun _ l _ => l

/-- Tick constants of the game clock, declared outside the analysed sources
and taken as parameters. -/
structure GameTime where
  TICKS_PER_SECOND : Nat
  TICKS_PER_FRAME_UNIT : Nat

/-- Constants of movement, declared outside the analysed sources and taken as
parameters; `VELOCITY_SCALE_BATTLE_Z` is the third component of
`VELOCITY_SCALE_BATTLE`. -/
structure MoveConsts where
  FALLING_ACCELERATION_UNIT : ℚ
  TICK_SCALE : ℚ
  VELOCITY_SCALE_BATTLE_Z : ℚ
  FLYING_ACCELERATION_DIVISOR : Nat
  UNITS_TRAVELLED_PER_SOUND : Nat
  UNITS_TRAVELLED_PER_SOUND_RUNNING_DIVISOR : Nat

/-- The frame-count tables of the agent's animation pack,
`BattleUnitAnimationPack`, taken as parameters; a frame count is a number of
frames. -/
structure BattleUnitAnimationPack where
  /-- Table `getFrameCountBody(item, currentBody, targetBody, hand, movement, facing)`. -/
  getFrameCountBody :
    Option String → BodyState → BodyState → HandState → MovementState → Vec2 → Nat
  /-- Table `getFrameCountHands(item, body, currentHand, targetHand, movement, facing)`. -/
  getFrameCountHands :
    Option String → BodyState → HandState → HandState → MovementState → Vec2 → Nat
  /-- Table `getFrameCountFiring(item, body, movement, facing)`. -/
  getFrameCountFiring : Option String → BodyState → MovementState → Vec2 → Nat

variable {G : Type}

/-- BattleUnit::popFinishedMissions, the loop entered with front mission `m`
and the missions `rest` behind it. -/
def popFinishedLoop (cb : Services G) :
    BattleUnitMission → List BattleUnitMission → UnitVars G → Bool × BattleUnit G
  | m, rest, v =>
    let r := cb.isFinished { toUnitVars := v, missions := m :: rest } m
    if r.finished then
      -- missions.pop_front()
      if r.vars.retreated then
        (true, { toUnitVars := r.vars, missions := rest })
      else
        match rest with
        | [] => (false, { toUnitVars := r.vars, missions := [] })
        | n :: rest1 =>
          let s := cb.start { toUnitVars := r.vars, missions := n :: rest1 } n
          popFinishedLoop cb s.mission rest1 s.vars
    else
      (false, { toUnitVars := r.vars, missions := r.mission :: rest })

/-- BattleUnit::popFinishedMissions. -/
def popFinishedMissions (cb : Services G) (u : BattleUnit G) : Bool × BattleUnit G :=
  match u.missions with
  | [] => (false, u)
  | m :: rest => popFinishedLoop cb m rest u.toUnitVars

/-- The inner switch of `addMission` for a ReachGoal mission: does the front
mission's tag prevent going to goal? -/
def preventsReachGoal : MissionType → Bool
  | MissionType.Snooze => true
  | MissionType.ThrowItem => true
  | MissionType.ChangeBodyState => true
  | MissionType.ReachGoal => true
  | MissionType.DropItem => true
  | MissionType.Teleport => true
  | MissionType.RestartNextMission => true
  | MissionType.GotoLocation => true
  | MissionType.Turn => true
  | MissionType.AcquireTU => false

/-- The code `missions.emplace_front(mission); mission->start(state, *this)`. -/
def emplaceFrontAndStart (cb : Services G) (u : BattleUnit G) (mission : BattleUnitMission) :
    BattleUnit G :=
  let s := cb.start { u with missions := mission :: u.missions } mission
  { toUnitVars := s.vars, missions := s.mission :: u.missions }

/-- BattleUnit::addMission(GameState &, BattleUnitMission *mission, bool toBack). -/
def addMission (cb : Services G) (u : BattleUnit G) (mission : BattleUnitMission)
    (toBack : Bool) : Bool × BattleUnit G :=
  if toBack then
    (true, { u with missions := u.missions ++ [mission] })
  else
    match mission.type with
    -- Reach goal can only be added if it can overwrite the mission
    | MissionType.ReachGoal =>
      match u.missions with
      | front :: _ =>
        if preventsReachGoal front.type then (false, u)
        else (true, emplaceFrontAndStart cb u mission)
      | [] => (true, emplaceFrontAndStart cb u mission)
    -- Missions that can be added to the back at any time
    | MissionType.Turn | MissionType.ChangeBodyState | MissionType.ThrowItem
    | MissionType.GotoLocation | MissionType.Teleport =>
      let u1 : BattleUnit G := { u with missions := u.missions ++ [mission] }
      if u1.missions.length = 1 ∨ mission.type = MissionType.Teleport then
        let s := cb.start u1 mission
        (true, { toUnitVars := s.vars, missions := u.missions ++ [s.mission] })
      else
        (true, u1)
    -- Missions that can be added to the front at any time
    | MissionType.Snooze | MissionType.AcquireTU | MissionType.RestartNextMission
    | MissionType.DropItem =>
      (true, emplaceFrontAndStart cb u mission)

/-- BattleUnit::addMission(GameState &, BattleUnitMission::Type type). -/
def addMissionByType (cb : Services G) (u : BattleUnit G) (type : MissionType) :
    Bool × BattleUnit G :=
  match type with
  | MissionType.RestartNextMission => addMission cb u (cb.restartNextMission u) false
  | MissionType.ReachGoal => addMission cb u (cb.reachGoal u) false
  | _ => (false, u)

/-- The switch of `cancelMissions` on the tag of the front mission: `none` for
a mission that cannot be cancelled, otherwise the initial value of `letFinish`. -/
def cancelPolicy : MissionType → Option Bool
  -- Missions that cannot be cancelled
  | MissionType.ThrowItem => none
  -- Missions that must be let finish (unless forcing)
  | MissionType.ChangeBodyState => some true
  | MissionType.Turn => some true
  | MissionType.GotoLocation => some true
  | MissionType.ReachGoal => some true
  -- Missions that can be cancelled
  | MissionType.Snooze => some false
  | MissionType.DropItem => some false
  | MissionType.Teleport => some false
  | MissionType.RestartNextMission => some false
  | MissionType.AcquireTU => some false

/-- The block `if (letFinish) { ... }` of `cancelMissions` for front mission `m`
and the missions `rest` behind it: the final value of `letFinish` and the unit
with the front mission rewritten in place. -/
def downgradeFront (u : BattleUnit G) (m : BattleUnitMission) (rest : List BattleUnitMission)
    (letFinish : Bool) : Bool × BattleUnit G :=
  if letFinish then
    -- If turning - downgrade to a turning mission
    if u.facing ≠ u.goalFacing then
      let m1 : BattleUnitMission :=
        { m with type := MissionType.Turn, targetFacing := u.goalFacing }
      if m.costPaidUpFront > 0 then
        -- Refund queued action, subtract turning cost
        (true, { u with time_units := u.time_units + (m.costPaidUpFront - 1),
                        missions := m1 :: rest })
      else
        (true, { u with missions := m1 :: rest })
    -- If changing body - downgrade to a body state change mission
    else if u.current_body_state ≠ u.target_body_state then
      let m1 : BattleUnitMission :=
        { m with type := MissionType.ChangeBodyState, targetBodyState := u.target_body_state }
      (true, { u with missions := m1 :: rest })
    else
      (false, { u with missions := m :: rest })
  else
    (false, { u with missions := m :: rest })

/-- The loop `while (missions.size() > keep) { time_units +=
missions.back()->costPaidUpFront; missions.pop_back(); }` on the queue listed
from the back: each pass credits the cost of the back mission and removes it. -/
def popBackLoop (keep : Nat) : List BattleUnitMission → Int → List BattleUnitMission × Int
  | [], tu => ([], tu)
  | back :: more, tu =>
    if (back :: more).length > keep then
      popBackLoop keep more (tu + back.costPaidUpFront)
    else
      (back :: more, tu)

/-- The cancel loop of `cancelMissions` on the unit; `keep` is
`letFinish ? 1 : 0`. -/
def cancelLoop (u : BattleUnit G) (keep : Nat) : BattleUnit G :=
  let r := popBackLoop keep u.missions.reverse u.time_units
  { u with time_units := r.2, missions := r.1.reverse }

/-- BattleUnit::cancelMissions. -/
def cancelMissions (cb : Services G) (u : BattleUnit G) : Bool × BattleUnit G :=
  let p := popFinishedMissions cb u
  if p.1 then
    -- Unit retreated
    (false, p.2)
  else
    match p.2.missions with
    | [] => (true, p.2)
    | m :: rest =>
      -- Figure out if we can cancel the mission in front
      match cancelPolicy m.type with
      | none => (false, p.2)
      | some letFinish =>
        -- Figure out what to do with the unfinished mission
        let d := downgradeFront p.2 m rest letFinish
        -- Cancel missions
        let u2 := cancelLoop d.2 (if d.1 then 1 else 0)
        if u2.missions.isEmpty ∧ ¬ u2.atGoal then
          (true, (addMissionByType cb u2 MissionType.ReachGoal).2)
        else
          (true, u2)

/-- BattleUnit::stopAttacking. -/
def stopAttacking (u : BattleUnit G) : BattleUnit G :=
  { u with weaponStatus := WeaponStatus.NotFiring
           targetingMode := TargetingMode.NoTarget
           targetUnit := none
           ticksTillNextTargetCheck := 0 }

/-- BattleUnit::canAfford. -/
def canAfford (cb : Services G) (u : BattleUnit G) (cost : Int) : Bool :=
  if cb.realTime u.state then true else decide (u.time_units ≥ cost)

/-- The call `updateUnitVision(state)` applied to the unit. -/
def updateUnitVision (cb : Services G) (u : BattleUnit G) : BattleUnit G :=
  let r := cb.updateUnitVision u
  { u with state := r.1, visibleUnits := r.2 }

/-- BattleUnit::setFacing. -/
def setFacing (cb : Services G) (u : BattleUnit G) (newFacing : Vec2) : BattleUnit G :=
  updateUnitVision cb
    { u with facing := newFacing, goalFacing := newFacing
             turning_animation_ticks_remaining := 0 }

/-- Conversion `(int)f` of a float: truncation towards zero. -/
def truncToInt (q : ℚ) : Int := if 0 ≤ q then ⌊q⌋ else ⌈q⌉

/-- Conversion `(Vec3<int>)pos`. -/
def Vec3f.toTile (p : Vec3f) : Vec3 :=
  { x := truncToInt p.x, y := truncToInt p.y, z := truncToInt p.z }

/-- BattleUnit::setPosition. -/
def setPosition (cb : Services G) (u : BattleUnit G) (pos : Vec3f) : BattleUnit G :=
  let unitChangedTiles := decide (pos.toTile ≠ u.position.toTile)
  let u1 : BattleUnit G := { u with position := pos }
  if ¬ u1.hasTileObject then
    u1
  else
    let u2 : BattleUnit G := { u1 with state := cb.moveTileObject u1 }
    if unitChangedTiles then
      -- updateUnitVisibilityAndVision
      let u3 := updateUnitVision cb u2
      { u3 with state := cb.updateUnitVisibility u3 }
    else
      u2

/-- BattleUnit::setBodyState. -/
def setBodyState (cb : Services G) (u : BattleUnit G) (bodyState : BodyState) : BattleUnit G :=
  let u1 : BattleUnit G :=
    { u with current_body_state := bodyState, target_body_state := bodyState
             body_animation_ticks_remaining := 0 }
  if u1.hasTileObject then
    updateUnitVision cb (setPosition cb u1 u1.position)
  else
    u1

/-- The local constant of `setMission` ("FIXME: actually read the option"). -/
def USER_OPTION_ALLOW_INSTANT_THROWS : Bool := false

/-- The inner switch of `setMission` that computes `nextFacing` (`none` when
`haveNextFacing` is false); a GotoLocation mission is started to learn its path. -/
def nextFacingOf (cb : Services G) (u : BattleUnit G) (mission : BattleUnitMission) :
    BattleUnit G × BattleUnitMission × Option Vec2 :=
  match mission.type with
  | MissionType.Turn => (u, mission, some (cb.getFacingStep u mission.targetFacing))
  | MissionType.GotoLocation =>
    -- We have to start it in order to see where we're going
    let s := cb.start u mission
    let u1 : BattleUnit G := { toUnitVars := s.vars, missions := u.missions }
    match s.mission.currentPlannedPath with
    | [] => (u1, s.mission, none)
    | p :: _ => (u1, s.mission, some (cb.getFacingStep u1 (cb.getFacingTo u1 p)))
  | MissionType.ReachGoal =>
    (u, mission, some (cb.getFacingStep u (cb.getFacing u u.position u.goalPosition)))
  -- not reached: the enclosing case admits only the three tags above
  | _ => (u, mission, some {})

/-- The block of `setMission` guarded by `if (!missions.empty())`: the override
rules applied when a mission remains after cancellation. Returns the unit and
the mission to add (started already in one case). -/
def overrideRemaining (cb : Services G) (u : BattleUnit G) (mission : BattleUnitMission) :
    BattleUnit G × BattleUnitMission :=
  match u.missions with
  | [] => (u, mission)
  | front :: _ =>
    match mission.type with
    -- Instant throw always cancels if agent can afford it
    | MissionType.ThrowItem =>
      if USER_OPTION_ALLOW_INSTANT_THROWS && canAfford cb u (cb.getThrowCost u) then
        let u1 := setBodyState cb u u.current_body_state
        let u2 := setFacing cb u1 u1.facing
        ({ u2 with missions := [] }, mission)
      else
        (u, mission)
    -- Turning can be cancelled if our mission will require us to turn in a different dir
    -- Also reachGoal can be cancelled by GotoLocation
    | MissionType.Turn | MissionType.GotoLocation | MissionType.ReachGoal =>
      if front.type = MissionType.ReachGoal ∧ mission.type = MissionType.GotoLocation then
        ({ u with missions := [] }, mission)
      else if u.facing ≠ u.goalFacing then
        let n := nextFacingOf cb u mission
        match n.2.2 with
        | some nextFacing =>
          if nextFacing ≠ n.1.goalFacing then
            let u2 := setFacing cb n.1 n.1.facing
            ({ u2 with missions := [] }, n.2.1)
          else
            (n.1, n.2.1)
        | none => (n.1, n.2.1)
      else
        (u, mission)
    | _ => (u, mission)

/-- BattleUnit::setMission; `none` stands for a null mission pointer. -/
def setMission (cb : Services G) (u : BattleUnit G) (mission : Option BattleUnitMission) :
    Bool × BattleUnit G :=
  match mission with
  -- We can receive nullptr here in case mission was impossible
  | none => (false, u)
  | some mission =>
    -- Special checks and actions based on mission type
    let u0 := match mission.type with
      | MissionType.Turn => stopAttacking u
      | _ => u
    let c := cancelMissions cb u0
    if ¬ c.1 then
      (false, c.2)
    else
      -- There is a mission remaining that wants to let it finish
      let o := overrideRemaining cb c.2 mission
      -- Finally, add the mission
      addMission cb o.1 o.2 false

/-! ## Vitals and damage -/

/-- BattleUnit::getHealth. -/
def getHealth (u : BattleUnit G) : Int := u.health

/-- BattleUnit::getStunDamage; `int` division truncates towards zero. -/
def getStunDamage (gt : GameTime) (u : BattleUnit G) : Int :=
  let SCALE : Int := gt.TICKS_PER_SECOND
  Int.tdiv u.stunDamageInTicks SCALE

/-- BattleUnit::isDead. -/
def isDead (u : BattleUnit G) : Bool :=
  decide (getHealth u ≤ 0) || u.destroyed

/-- BattleUnit::isUnconscious. -/
def isUnconscious (gt : GameTime) (u : BattleUnit G) : Bool :=
  !isDead u && decide (getStunDamage gt u ≥ getHealth u)

/-- BattleUnit::isConscious. -/
def isConscious (gt : GameTime) (u : BattleUnit G) : Bool :=
  !isDead u && decide (getStunDamage gt u < getHealth u) &&
    (decide (u.current_body_state ≠ BodyState.Downed) ||
      decide (u.target_body_state ≠ BodyState.Downed))

/-- The helper `clamp(v, lo, hi)`. -/
def clamp (v lo hi : Int) : Int :=
  if v < lo then lo else if hi < v then hi else v

/-- BattleUnit::addFatalWound: `fatalWounds[fatalWoundPart]++`. -/
def addFatalWound (u : BattleUnit G) (fatalWoundPart : BodyPart) : BattleUnit G :=
  { u with fatalWounds :=
      Function.update u.fatalWounds fatalWoundPart (u.fatalWounds fatalWoundPart + 1) }

/-- The loop `while (woundDamageRemaining > 10) { woundDamageRemaining -= 10;
addFatalWound(state, fatalWoundPart); fatal = true; }` of `dealDamage`: the
final values of `woundDamageRemaining`, of the unit and of `fatal`. -/
def woundLoop (fatalWoundPart : BodyPart) (woundDamageRemaining : Int) (u : BattleUnit G)
    (fatal : Bool) : Int × BattleUnit G × Bool :=
  if woundDamageRemaining > 10 then
    woundLoop fatalWoundPart (woundDamageRemaining - 10) (addFatalWound u fatalWoundPart) true
  else
    (woundDamageRemaining, u, fatal)
termination_by woundDamageRemaining.toNat
decreasing_by omega

/-- The block `if (generateFatalWounds) { ... }` of `dealDamage`: the unit and
the value of `fatal` after it. -/
def generateWounds (cb : Services G) (u : BattleUnit G) (damage : Int)
    (fatalWoundPart : BodyPart) : BattleUnit G × Bool :=
  let l := woundLoop fatalWoundPart damage u false
  let r := cb.randBoundsExclusive l.2.1.state 0 10
  let u1 : BattleUnit G := { l.2.1 with state := r.2 }
  if r.1 < l.1 then
    (addFatalWound u1 fatalWoundPart, true)
  else
    (u1, l.2.2)

/-- BattleUnit::die; the flags only select log messages. -/
def die (cb : Services G) (u : BattleUnit G) (_violently : Bool) (_bledToDeath : Bool) :
    BattleUnit G :=
  -- Clear focus, emit sound
  let u1 : BattleUnit G := { u with state := cb.dieEffects u, focusedByUnits := [] }
  cb.dropDown u1

/-- BattleUnit::fallUnconscious. -/
def fallUnconscious (cb : Services G) (u : BattleUnit G) : BattleUnit G :=
  cb.dropDown u

/-- The first block of `dealDamage`: "Deal stun damage" when `stunPower > 0`,
"Deal health damage" otherwise. -/
def dealStunOrHealthDamage (gt : GameTime) (u : BattleUnit G) (damage : Int)
    (stunPower : Int) : BattleUnit G :=
  -- Deal stun damage
  if stunPower > 0 then
    let SCALE : Int := gt.TICKS_PER_SECOND
    { u with stunDamageInTicks := u.stunDamageInTicks +
        clamp (damage * SCALE) 0 (max 0 (stunPower * SCALE - u.stunDamageInTicks)) }
  -- Deal health damage
  else
    { u with health := u.health - damage }

/-- The end of `dealDamage` for a unit `u` that is not dead: it falls
unconscious if it was conscious and is not any more, then a sample is played. -/
def dealDamageTail (cb : Services G) (gt : GameTime) (u : BattleUnit G) (wasConscious : Bool)
    (fatal : Bool) (generateFatalWounds : Bool) (stunPower : Int) : BattleUnit G :=
  let u3 : BattleUnit G :=
    if !isConscious gt u && wasConscious then fallUnconscious cb u else u
  -- Emit sound fatal wound
  if fatal then
    { u3 with state := cb.playFatalWoundSfx u3 }
  -- Emit sound wound (unless if dealing damage from a fatal wound)
  else if stunPower = 0 ∧ generateFatalWounds = true then
    { u3 with state := cb.playDamageSfx u3 }
  else
    u3

/-- The unit of `dealDamage` once the damage is dealt and the wounds are
generated, with the value of `fatal`. -/
def damaged (cb : Services G) (gt : GameTime) (u : BattleUnit G) (damage : Int)
    (generateFatalWounds : Bool) (fatalWoundPart : BodyPart) (stunPower : Int) :
    BattleUnit G × Bool :=
  let u1 := dealStunOrHealthDamage gt u damage stunPower
  -- Generate fatal wounds
  if generateFatalWounds then generateWounds cb u1 damage fatalWoundPart else (u1, false)

/-- BattleUnit::dealDamage. -/
def dealDamage (cb : Services G) (gt : GameTime) (u : BattleUnit G) (damage : Int)
    (generateFatalWounds : Bool) (fatalWoundPart : BodyPart) (stunPower : Int) :
    BattleUnit G :=
  let wasConscious := isConscious gt u
  let w := damaged cb gt u damage generateFatalWounds fatalWoundPart stunPower
  -- Die or go unconscious
  if isDead w.1 then
    die cb w.1 true false
  else
    dealDamageTail cb gt w.1 wasConscious w.2 generateFatalWounds stunPower

/-! ## Damage resolution: `applyDamage` -/

/-- Local `USER_OPTION_UFO_DAMAGE_MODEL` of `applyDamage`. -/
def USER_OPTION_UFO_DAMAGE_MODEL : Bool := false

/-- Outcome of the damage roll of `applyDamage`: the value of `power` after
it (smoke overwrites it), the damage rolled, the game state. -/
structure DamageRoll (G : Type) where
  power : Int
  damage : Int
  state : G

/-- The block "Calculate damage" of `applyDamage`. -/
def rollDamage (cb : Services G) (g : G) (power : Int) (damageType : DamageType) :
    DamageRoll G :=
  if damageType.effectType = EffectType.Smoke then
    { power := 2, damage := (cb.randDamage050150 g 2).1, state := (cb.randDamage050150 g 2).2 }
  else if damageType.explosive then
    { power := power, damage := (cb.randDamage050150 g power).1,
      state := (cb.randDamage050150 g power).2 }
  else if USER_OPTION_UFO_DAMAGE_MODEL then
    { power := power, damage := (cb.randDamage000200 g power).1,
      state := (cb.randDamage000200 g power).2 }
  else
    { power := power, damage := (cb.randDamage050150 g power).1,
      state := (cb.randDamage050150 g power).2 }

/-- The item a lookup of the agent points at: place and value; a place
outside the list is a null pointer. -/
def itemAt (eq : List AEquipment) (place : Option Nat) : Option (Nat × AEquipment) :=
  match place with
  | none => none
  | some i =>
    match eq[i]? with
    | none => none
    | some e => some (i, e)

/-- The statements `item->ammo -= amount; if (item->ammo <= 0)
agent->removeEquipment(item);` for the item at place `i`. -/
def wearDown (eq : List AEquipment) (i : Nat) (item : AEquipment) (amount : Int) :
    List AEquipment :=
  if item.ammo - amount ≤ 0 then eq.eraseIdx i
  else eq.set i { item with ammo := item.ammo - amount }

/-- The branch "Hit shield if present" of `applyDamage`, entered with the
shield found. -/
def applyDamageToShield (cb : Services G) (u : BattleUnit G) (damage : Int)
    (damageType : DamageType) (i : Nat) (shield : AEquipment) : Bool × BattleUnit G :=
  let u1 : BattleUnit G :=
    { u with equipment :=
        wearDown u.equipment i shield (damageType.dealDamage damage shield.damage_modifier) }
  (true, { u1 with state := cb.placeShieldDoodad u1 })

/-- Locals `armorValue` and `damageModifier` of `applyDamage`. -/
def armorValueAndModifier (u : BattleUnit G) (bodyPart : BodyPart)
    (armor : Option (Nat × AEquipment)) : Int × String :=
  match armor with
  | some (_, a) => (a.ammo, a.damage_modifier)
  | none => (u.typeArmor bodyPart, u.typeDamageModifier)

/-- Value of `damage` after the armor: `damageType->dealDamage(damage,
damageModifier) - (damageType->ignoresArmorValue() ? 0 : armorValue)`. -/
def residualDamage (u : BattleUnit G) (damage : Int) (damageType : DamageType)
    (bodyPart : BodyPart) (armor : Option (Nat × AEquipment)) : Int :=
  damageType.dealDamage damage (armorValueAndModifier u bodyPart armor).2 -
    (if damageType.ignoresArmorValue then 0 else (armorValueAndModifier u bodyPart armor).1)

/-- The block "Armor damage" of `applyDamage` for a positive `damage`. -/
def damageArmor (u : BattleUnit G) (damage : Int) (damageType : DamageType)
    (armor : Option (Nat × AEquipment)) : BattleUnit G :=
  match armor with
  | some (j, a) =>
    if damageType.dealsArmorDamage then
      { u with equipment := wearDown u.equipment j a (Int.tdiv damage 10 + 1) }
    else u
  | none => u

/-- The part of `applyDamage` after the shield test. -/
def applyDamageToArmor (cb : Services G) (gt : GameTime) (u : BattleUnit G) (power : Int)
    (damage : Int) (damageType : DamageType) (bodyPart : BodyPart) : Bool × BattleUnit G :=
  let armor := itemAt u.equipment (cb.getArmor u.equipment bodyPart)
  let residual := residualDamage u damage damageType bodyPart armor
  if residual ≤ 0 then (false, u)
  else
    (false, dealDamage cb gt (damageArmor u residual damageType armor) residual
      damageType.dealsFatalWounds bodyPart (if damageType.dealsStunDamage then power else 0))

/-- The unit at the shield test of `applyDamage`: the hit sample has been
played and the damage rolled. -/
def afterRoll (cb : Services G) (u : BattleUnit G) (power : Int) (damageType : DamageType) :
    BattleUnit G :=
  { u with state :=
      (rollDamage cb (if damageType.doesImpactDamage then cb.playHitSfx u else u.state)
        power damageType).state }

/-- Local `damage` of `applyDamage` after the roll. -/
def rolledDamage (cb : Services G) (u : BattleUnit G) (power : Int) (damageType : DamageType) :
    Int :=
  (rollDamage cb (if damageType.doesImpactDamage then cb.playHitSfx u else u.state)
    power damageType).damage

/-- Parameter `power` of `applyDamage` after the roll. -/
def rolledPower (cb : Services G) (u : BattleUnit G) (power : Int) (damageType : DamageType) :
    Int :=
  (rollDamage cb (if damageType.doesImpactDamage then cb.playHitSfx u else u.state)
    power damageType).power

/-- Local `shield` of `applyDamage`: looked up unless the damage type ignores
shields. -/
def shieldHit (cb : Services G) (u : BattleUnit G) (damageType : DamageType) :
    Option (Nat × AEquipment) :=
  if damageType.ignore_shield then none
  else itemAt u.equipment (cb.getFirstShield u.equipment)

/-- BattleUnit::applyDamage(state, power, damageType, bodyPart). -/
def applyDamage (cb : Services G) (gt : GameTime) (u : BattleUnit G) (power : Int)
    (damageType : DamageType) (bodyPart : BodyPart) : Bool × BattleUnit G :=
  match shieldHit cb (afterRoll cb u power damageType) damageType with
  | some (i, shield) =>
    applyDamageToShield cb (afterRoll cb u power damageType)
      (rolledDamage cb u power damageType) damageType i shield
  | none =>
    applyDamageToArmor cb gt (afterRoll cb u power damageType)
      (rolledPower cb u power damageType) (rolledDamage cb u power damageType)
      damageType bodyPart

/-! ## Removal from the battle and the guard of `update` -/

/-- BattleUnit::destroy; `none` stands for the dereference of a null
`tileObject` or `shadowObject`. -/
def destroy (cb : Services G) (u : BattleUnit G) : Option (BattleUnit G) :=
  if u.hasTileObject ∧ u.hasShadowObject then
    let u1 : BattleUnit G := { u with state := cb.removeFromMap u }
    let u2 : BattleUnit G := { u1 with state := cb.removeShadowFromMap u1 }
    some { u2 with hasTileObject := false, hasShadowObject := false }
  else
    none

/-- BattleUnit::retreat; `none` stands for the dereference of a null
`tileObject`. -/
def retreat (cb : Services G) (u : BattleUnit G) : Option (BattleUnit G) :=
  if u.hasTileObject then
    let u1 : BattleUnit G := { u with state := cb.removeFromMap u, retreated := true }
    some { u1 with state := cb.removeFromSquad u1 }
  else
    none

/-- BattleUnit::update, its first statements: the guard on `destroyed` and
`retreated`, and `auto &map = tileObject->map` (`none` stands for the
dereference of a null `tileObject`). The statements that follow, from "Update
other classes" to the end of the function, are the parameter `updateLive`. -/
def update (updateLive : BattleUnit G → Nat → Option (BattleUnit G)) (u : BattleUnit G)
    (ticks : Nat) : Option (BattleUnit G) :=
  -- Destroyed or retreated units do not exist in the battlescape
  if u.destroyed ∨ u.retreated then
    some u
  else if ¬ u.hasTileObject then
    none
  else
    updateLive u ticks

/-! ## Pose changes -/

/-- BattleUnit::setHandState. -/
def setHandState (gt : GameTime) (ap : BattleUnitAnimationPack) (u : BattleUnit G)
    (state : HandState) : BattleUnit G :=
  { u with
    current_hand_state := state
    target_hand_state := state
    hand_animation_ticks_remaining := 0
    firing_animation_ticks_remaining :=
      if state ≠ HandState.Firing then 0
      else ap.getFrameCountFiring u.displayedItem u.current_body_state
             u.current_movement_state u.facing * gt.TICKS_PER_FRAME_UNIT
    aiming_ticks_remaining :=
      if state = HandState.Aiming then gt.TICKS_PER_SECOND / 3 else 0 }

/-- BattleUnit::beginHandStateChange. -/
def beginHandStateChange (gt : GameTime) (ap : BattleUnitAnimationPack) (u : BattleUnit G)
    (state : HandState) : BattleUnit G :=
  let frameCount := ap.getFrameCountHands u.displayedItem u.current_body_state
    u.current_hand_state state u.current_movement_state u.facing
  let ticks := frameCount * gt.TICKS_PER_FRAME_UNIT
  let u1 : BattleUnit G :=
    if ticks > 0 ∧ u.current_hand_state ≠ state then
      { u with target_hand_state := state, hand_animation_ticks_remaining := ticks }
    else
      setHandState gt ap u state
  { u1 with aiming_ticks_remaining := 0 }

/-- BattleUnit::setMovementState. -/
def setMovementState (gt : GameTime) (ap : BattleUnitAnimationPack) (u : BattleUnit G)
    (state : MovementState) : BattleUnit G :=
  let u1 : BattleUnit G := { u with current_movement_state := state }
  match state with
  | MovementState.None =>
    { u1 with movement_ticks_passed := 0, movement_sounds_played := 0
              ticksTillNextTargetCheck := 0 }
  | MovementState.Running | MovementState.Strafing =>
    if u1.current_hand_state ≠ HandState.AtEase ∨ u1.target_hand_state ≠ HandState.AtEase then
      setHandState gt ap u1 HandState.AtEase
    else
      u1
  | MovementState.Normal => u1

/-- The end of `beginBodyStateChange`, from `int ticks = frameCount *
TICKS_PER_FRAME_UNIT` on: the animation is begun if it has ticks and the state
differs, otherwise the state is set at once. -/
def commitBodyStateChange (cb : Services G) (gt : GameTime) (u : BattleUnit G)
    (frameCount : Nat) (bodyState : BodyState) : BattleUnit G :=
  let ticks := frameCount * gt.TICKS_PER_FRAME_UNIT
  if ticks > 0 ∧ u.current_body_state ≠ bodyState then
    let u4 : BattleUnit G :=
      { u with target_body_state := bodyState, body_animation_ticks_remaining := ticks }
    -- Updates bounds etc.
    if u4.hasTileObject then setPosition cb u4 u4.position else u4
  else
    setBodyState cb u bodyState

/-- BattleUnit::beginBodyStateChange. -/
def beginBodyStateChange (cb : Services G) (gt : GameTime) (ap : BattleUnitAnimationPack)
    (u : BattleUnit G) (bodyState : BodyState) : BattleUnit G :=
  -- Cease hand animation immediately
  let u1 : BattleUnit G :=
    if u.hand_animation_ticks_remaining ≠ 0 then setHandState gt ap u u.target_hand_state else u
  -- Find which animation is possible
  let frameCount0 := ap.getFrameCountBody u1.displayedItem u1.current_body_state bodyState
    u1.current_hand_state u1.current_movement_state u1.facing
  -- No such animation: try stopping movement
  let a : BattleUnit G × Nat :=
    if frameCount0 = 0 ∧ u1.current_movement_state ≠ MovementState.None then
      let frameCount := ap.getFrameCountBody u1.displayedItem u1.current_body_state bodyState
        u1.current_hand_state MovementState.None u1.facing
      if frameCount ≠ 0 then (setMovementState gt ap u1 MovementState.None, frameCount)
      else (u1, frameCount)
    else
      (u1, frameCount0)
  -- Try stopping aiming
  let b : BattleUnit G × Nat :=
    if a.2 = 0 ∧ a.1.current_hand_state ≠ HandState.AtEase then
      let frameCount := ap.getFrameCountBody a.1.displayedItem a.1.current_body_state bodyState
        HandState.AtEase a.1.current_movement_state a.1.facing
      if frameCount ≠ 0 then (setHandState gt ap a.1 HandState.AtEase, frameCount)
      else (a.1, frameCount)
    else
      a
  commitBodyStateChange cb gt b.1 b.2 bodyState

/-- BattleUnit::getNextBodyState: found, destination, and the unit after the
query of the front mission. -/
def getNextBodyState (cb : Services G) (u : BattleUnit G) (dest : BodyState) :
    Bool × BodyState × BattleUnit G :=
  match u.missions with
  | [] => (false, dest, u)
  | m :: rest =>
    let r := cb.getNextBodyState u m
    (r.found, r.dest, { toUnitVars := r.vars, missions := r.mission :: rest })

/-- Outcome of one step of the convergence loop of `update`: whether `update`
returned from inside the step, the unit, and the tick budget left. -/
structure StepResult (G : Type) where
  returned : Bool
  unit : BattleUnit G
  ticksRemaining : Nat

/-- The block `if (body_animation_ticks_remaining > 0) { bodyTicksRemaining -=
body_animation_ticks_remaining; setBodyState(state, target_body_state); }` of
the body step: the unit and the budget left. -/
def finishBodyAnimation (cb : Services G) (u : BattleUnit G) (bodyTicksRemaining : Nat) :
    BattleUnit G × Nat :=
  if u.body_animation_ticks_remaining > 0 then
    (setBodyState cb u u.target_body_state,
      bodyTicksRemaining - u.body_animation_ticks_remaining)
  else
    (u, bodyTicksRemaining)

/-- The block "Try to get new body state change" of the body step. -/
def tryNextBodyState (cb : Services G) (gt : GameTime) (ap : BattleUnitAnimationPack)
    (u : BattleUnit G) : BattleUnit G :=
  -- Can do it if we're not firing and (either not changing hand state, or starting to aim)
  if u.firing_animation_ticks_remaining = 0 ∧
      (u.hand_animation_ticks_remaining = 0 ∨ u.target_hand_state = HandState.Aiming) then
    let n := getNextBodyState cb u BodyState.Downed
    if n.1 then beginBodyStateChange cb gt ap n.2.2 n.2.1 else n.2.2
  else
    u

/-- The step "Change body state" of the convergence loop of `update`, run with
the budget `bodyTicksRemaining`. -/
def updateBodyStep (cb : Services G) (gt : GameTime) (ap : BattleUnitAnimationPack)
    (u : BattleUnit G) (bodyTicksRemaining : Nat) : StepResult G :=
  if bodyTicksRemaining > 0 then
    if u.body_animation_ticks_remaining > bodyTicksRemaining then
      { returned := false
        unit := { u with body_animation_ticks_remaining :=
                    u.body_animation_ticks_remaining - bodyTicksRemaining }
        ticksRemaining := 0 }
    else
      let a := finishBodyAnimation cb u bodyTicksRemaining
      -- Pop finished missions if present
      let p := popFinishedMissions cb a.1
      if p.1 then
        { returned := true, unit := p.2, ticksRemaining := a.2 }
      else
        { returned := false, unit := tryNextBodyState cb gt ap p.2, ticksRemaining := a.2 }
  else
    { returned := false, unit := u, ticksRemaining := bodyTicksRemaining }

/-- The step "Change hand state" of the convergence loop of `update`, run with
the budget `handTicksRemaining`: the unit and the budget left. -/
def updateHandStep (gt : GameTime) (ap : BattleUnitAnimationPack) (u : BattleUnit G)
    (handTicksRemaining : Nat) : BattleUnit G × Nat :=
  if handTicksRemaining > 0 then
    if u.firing_animation_ticks_remaining > 0 then
      if u.firing_animation_ticks_remaining > handTicksRemaining then
        ({ u with firing_animation_ticks_remaining :=
              u.firing_animation_ticks_remaining - handTicksRemaining }, 0)
      else
        (setHandState gt ap { u with firing_animation_ticks_remaining := 0 } HandState.Aiming,
          handTicksRemaining - u.firing_animation_ticks_remaining)
    else
      if u.hand_animation_ticks_remaining > handTicksRemaining then
        ({ u with hand_animation_ticks_remaining :=
              u.hand_animation_ticks_remaining - handTicksRemaining }, 0)
      else
        if u.hand_animation_ticks_remaining > 0 then
          (setHandState gt ap { u with hand_animation_ticks_remaining := 0 } u.target_hand_state,
            handTicksRemaining - u.hand_animation_ticks_remaining)
        else
          (u, handTicksRemaining)
  else
    (u, handTicksRemaining)

/-! ## Attacking and the firing stage of `update` -/

/-- BattleUnit::isAttacking(). -/
def isAttacking (u : BattleUnit G) : Bool :=
  decide (u.weaponStatus ≠ WeaponStatus.NotFiring)

/-- The item `agent->getFirstItemInSlot(slot)` points at, if any. -/
def handItem (cb : Services G) (u : BattleUnit G) (slot : AEquipmentSlotType) :
    Option AEquipment :=
  (itemAt u.equipment (cb.getFirstItemInSlot u.equipment slot)).map Prod.snd

/-- Value of `status` after the TurnBased case of `startAttacking`: both hands
are replaced by the right hand if its item can fire, else by the left hand. -/
def turnBasedStatus (cb : Services G) (u : BattleUnit G) (status : WeaponStatus) :
    WeaponStatus :=
  if status = WeaponStatus.FiringBothHands then
    match handItem cb u AEquipmentSlotType.RightHand with
    | some rhItem =>
      if cb.canFire rhItem then WeaponStatus.FiringRightHand else WeaponStatus.FiringLeftHand
    | none => WeaponStatus.FiringLeftHand
  else status

/-- Value of `status` after the RealTime case of `startAttacking`. -/
def realTimeStatus (u : BattleUnit G) (status : WeaponStatus) : WeaponStatus :=
  if (u.weaponStatus = WeaponStatus.FiringLeftHand ∧ status = WeaponStatus.FiringRightHand) ∨
     (u.weaponStatus = WeaponStatus.FiringRightHand ∧ status = WeaponStatus.FiringLeftHand) then
    WeaponStatus.FiringBothHands
  else status

/-- BattleUnit::startAttacking(state, status). -/
def startAttacking (cb : Services G) (u : BattleUnit G) (status : WeaponStatus) :
    BattleUnit G :=
  if cb.realTime u.state then
    { u with weaponStatus := realTimeStatus u status, ticksTillNextTargetCheck := 0 }
  else
    -- In Turn based we cannot override firing
    if isAttacking u then u
    else { u with weaponStatus := turnBasedStatus cb u status, ticksTillNextTargetCheck := 0 }

/-- BattleUnit::startAttacking(state, unit, status). -/
def startAttackingUnit (cb : Services G) (u : BattleUnit G) (unit : String)
    (status : WeaponStatus) : BattleUnit G :=
  { startAttacking cb u status with
    targetUnit := some unit, targetingMode := TargetingMode.Unit }

/-- BattleUnit::startAttacking(state, tile, status, atGround). -/
def startAttackingTile (cb : Services G) (u : BattleUnit G) (tile : Vec3)
    (status : WeaponStatus) (atGround : Bool) : BattleUnit G :=
  { startAttacking cb u status with
    targetTile := tile
    targetingMode := if atGround then TargetingMode.TileGround else TargetingMode.TileCenter }

/-- Local `targetPosition` of `update`; the sums of the source are taken
exactly. With no target the local stays uninitialised, here the origin. -/
def targetPositionOf (cb : Services G) (u : BattleUnit G) : Vec3f :=
  match u.targetingMode with
  | TargetingMode.Unit => cb.targetUnitVoxelCentre u
  | TargetingMode.TileCenter =>
    { x := (u.targetTile.x : ℚ) + 1 / 2
      y := (u.targetTile.y : ℚ) + 1 / 2
      z := (u.targetTile.z : ℚ) +
        ((cb.getMuzzleLocation u).z - (truncToInt (cb.getMuzzleLocation u).z : ℚ)) }
  | TargetingMode.TileGround =>
    { x := (u.targetTile.x : ℚ) + 1 / 2
      y := (u.targetTile.y : ℚ) + 1 / 2
      z := (u.targetTile.z : ℚ) + 10 / 40 }
  | TargetingMode.NoTarget => {}

/-- The unit in the firing stage together with the locals `weaponRight` and
`weaponLeft`: each flag tells whether the pointer is still set; the item it
points at is the one held in that hand. -/
structure FiringLocals (G : Type) where
  unit : BattleUnit G
  weaponRight : Bool
  weaponLeft : Bool

/-- The statements `if (w && w->needsReload()) w->loadAmmo(state); if (w &&
!w->canFire()) w = nullptr;` for the weapon of one hand; the flag returned tells
whether the pointer is still set. -/
def prepareWeapon (cb : Services G) (u : BattleUnit G) (slot : AEquipmentSlotType) :
    BattleUnit G × Bool :=
  match handItem cb u slot with
  | none => (u, false)
  | some w =>
    let u1 : BattleUnit G :=
      if cb.needsReload w then
        { u with equipment := (cb.loadAmmo u slot).1, state := (cb.loadAmmo u slot).2 }
      else u
    match handItem cb u1 slot with
    | none => (u1, false)
    | some w1 => (u1, cb.canFire w1)

/-- The switch "prepare weapons we can use" of `update`. -/
def prepareWeapons (cb : Services G) (u : BattleUnit G) : FiringLocals G :=
  match u.weaponStatus with
  | WeaponStatus.FiringBothHands =>
    let r := prepareWeapon cb u AEquipmentSlotType.RightHand
    let l := prepareWeapon cb r.1 AEquipmentSlotType.LeftHand
    { unit := l.1, weaponRight := r.2, weaponLeft := l.2 }
  | WeaponStatus.FiringRightHand =>
    let r := prepareWeapon cb u AEquipmentSlotType.RightHand
    { unit := r.1, weaponRight := r.2, weaponLeft := false }
  | WeaponStatus.FiringLeftHand =>
    let l := prepareWeapon cb u AEquipmentSlotType.LeftHand
    { unit := l.1, weaponRight := false, weaponLeft := l.2 }
  | WeaponStatus.NotFiring =>
    { unit := u
      weaponRight := (handItem cb u AEquipmentSlotType.RightHand).isSome
      weaponLeft := (handItem cb u AEquipmentSlotType.LeftHand).isSome }

/-- Test `w && !w->canFire(targetPosition)` failing: the pointer stays set. -/
def inRange (cb : Services G) (u : BattleUnit G) (slot : AEquipmentSlotType) (set : Bool)
    (targetPosition : Vec3f) : Bool :=
  set &&
    match handItem cb u slot with
    | some w => cb.canFireAt u w targetPosition
    | none => false

/-- The block `if (canFire && current_movement_state == MovementState::None)`
of the target check: a Turn mission towards the target tile is added unless it
is finished already. -/
def turnToTarget (cb : Services G) (u : BattleUnit G) : BattleUnit G :=
  if u.current_movement_state = MovementState.None then
    if cb.isFinishedQuiet u (cb.turn u u.targetTile) then u
    else (addMission cb u (cb.turn u u.targetTile) false).2
  else u

/-- The statements at the head of the block `if (ticksTillNextTargetCheck ==
0)`, entered with `canFire` true, down to "Check if we are in range": the
interval is reset and, for a unit target, `canFire` becomes
`targetUnit->isConscious()`. This is the value of `canFire` there. -/
def targetConscious (cb : Services G) (losCheckInterval : Nat) (u : BattleUnit G) : Bool :=
  if u.targetingMode = TargetingMode.Unit then
    cb.targetUnitIsConscious { u with ticksTillNextTargetCheck := losCheckInterval }
  else true

/-- The unit at "Check if we are in range": `targetTile` follows a conscious
target unit. -/
def trackTarget (cb : Services G) (losCheckInterval : Nat) (u : BattleUnit G) : BattleUnit G :=
  if u.targetingMode = TargetingMode.Unit ∧ targetConscious cb losCheckInterval u = true then
    { u with ticksTillNextTargetCheck := losCheckInterval
             targetTile :=
               cb.targetUnitPosition { u with ticksTillNextTargetCheck := losCheckInterval } }
  else { u with ticksTillNextTargetCheck := losCheckInterval }

/-- The block `if (ticksTillNextTargetCheck == 0)` of the firing stage, entered
with `canFire` true; the result is the locals and the value of `canFire`. -/
def targetCheck (cb : Services G) (losCheckInterval : Nat) (s : FiringLocals G)
    (targetPosition : Vec3f) : FiringLocals G × Bool :=
  if targetConscious cb losCheckInterval s.unit then
    if inRange cb (trackTarget cb losCheckInterval s.unit) AEquipmentSlotType.LeftHand
          s.weaponLeft targetPosition ||
        inRange cb (trackTarget cb losCheckInterval s.unit) AEquipmentSlotType.RightHand
          s.weaponRight targetPosition then
      ({ unit := turnToTarget cb (trackTarget cb losCheckInterval s.unit)
         weaponRight := inRange cb (trackTarget cb losCheckInterval s.unit)
           AEquipmentSlotType.RightHand s.weaponRight targetPosition
         weaponLeft := inRange cb (trackTarget cb losCheckInterval s.unit)
           AEquipmentSlotType.LeftHand s.weaponLeft targetPosition }, true)
    else
      ({ unit := trackTarget cb losCheckInterval s.unit
         weaponRight := inRange cb (trackTarget cb losCheckInterval s.unit)
           AEquipmentSlotType.RightHand s.weaponRight targetPosition
         weaponLeft := inRange cb (trackTarget cb losCheckInterval s.unit)
           AEquipmentSlotType.LeftHand s.weaponLeft targetPosition }, false)
  else
    ({ unit := trackTarget cb losCheckInterval s.unit
       weaponRight := s.weaponRight, weaponLeft := s.weaponLeft }, false)

/-- The countdown of `ticksTillNextTargetCheck` for a unit target. -/
def countDownTargetCheck (u : BattleUnit G) (ticks : Nat) : BattleUnit G :=
  if u.targetingMode = TargetingMode.Unit then
    { u with ticksTillNextTargetCheck :=
        if u.ticksTillNextTargetCheck > ticks then u.ticksTillNextTargetCheck - ticks else 0 }
  else u

/-- The block "Firing - check if we should stop firing" of `update`. -/
def checkStopFiring (cb : Services G) (losCheckInterval : Nat) (s : FiringLocals G)
    (ticks : Nat) (targetPosition : Vec3f) : FiringLocals G :=
  if isAttacking s.unit then
    if s.weaponLeft || s.weaponRight then
      if (countDownTargetCheck s.unit ticks).ticksTillNextTargetCheck = 0 then
        if (targetCheck cb losCheckInterval
            { s with unit := countDownTargetCheck s.unit ticks } targetPosition).2 then
          (targetCheck cb losCheckInterval
            { s with unit := countDownTargetCheck s.unit ticks } targetPosition).1
        else
          { (targetCheck cb losCheckInterval
              { s with unit := countDownTargetCheck s.unit ticks } targetPosition).1 with
            unit := stopAttacking (targetCheck cb losCheckInterval
              { s with unit := countDownTargetCheck s.unit ticks } targetPosition).1.unit }
      else { s with unit := countDownTargetCheck s.unit ticks }
    else { s with unit := stopAttacking (countDownTargetCheck s.unit ticks) }
  else s

/-- Subtraction of `unsigned int` values: the result wraps around modulo
2^32. -/
def usub32 (a b : Nat) : Nat :=
  (a + 2 ^ 32 - b % 2 ^ 32) % 2 ^ 32

/-- Test `w && !w->isFiring()` for the weapon of one hand. -/
def idleWeapon (cb : Services G) (u : BattleUnit G) (slot : AEquipmentSlotType) (set : Bool) :
    Bool :=
  set &&
    match handItem cb u slot with
    | some w => !cb.isFiring w
    | none => false

/-- The block "Should we start firing a gun?" of the firing stage. -/
def startFiringWeapons (cb : Services G) (s : FiringLocals G) : BattleUnit G :=
  if s.unit.target_hand_state = HandState.Aiming then
    let u1 : BattleUnit G :=
      if idleWeapon cb s.unit AEquipmentSlotType.RightHand s.weaponRight then
        { s.unit with equipment := cb.startFiring s.unit AEquipmentSlotType.RightHand }
      else s.unit
    if idleWeapon cb u1 AEquipmentSlotType.LeftHand s.weaponLeft then
      { u1 with equipment := cb.startFiring u1 AEquipmentSlotType.LeftHand }
    else u1
  else s.unit

/-- Test `w && w->readyToFire` for the weapon of one hand. -/
def weaponReady (cb : Services G) (u : BattleUnit G) (slot : AEquipmentSlotType) (set : Bool) :
    Bool :=
  set &&
    match handItem cb u slot with
    | some w => w.readyToFire
    | none => false

/-- Locals of the block "Is a gun ready to fire?": the hand of `firingWeapon`
(none for a null pointer) and the two weapon flags. -/
structure FiringChoice where
  firingWeapon : Option AEquipmentSlotType
  weaponRight : Bool
  weaponLeft : Bool

/-- Choice of `firingWeapon`: the right hand if it is ready, else the left
hand if it is ready; the pointer of the chosen hand is cleared. -/
def pickFiringWeapon (cb : Services G) (s : FiringLocals G) : FiringChoice :=
  if weaponReady cb s.unit AEquipmentSlotType.RightHand s.weaponRight then
    { firingWeapon := some AEquipmentSlotType.RightHand
      weaponRight := false, weaponLeft := s.weaponLeft }
  else if weaponReady cb s.unit AEquipmentSlotType.LeftHand s.weaponLeft then
    { firingWeapon := some AEquipmentSlotType.LeftHand
      weaponRight := s.weaponRight, weaponLeft := false }
  else
    { firingWeapon := none, weaponRight := s.weaponRight, weaponLeft := s.weaponLeft }

/-- The check "Target must be within frontal arc": `firingWeapon` is cleared
when the angle between the horizontal vector from the muzzle to the target and
the facing is at least a right angle. -/
def withinArc (cb : Services G) (u : BattleUnit G) (firingWeapon : Option AEquipmentSlotType)
    (targetPosition muzzleLocation : Vec3f) : Option AEquipmentSlotType :=
  match firingWeapon with
  | some slot =>
    if cb.outsideFrontalArc
        { x := targetPosition.x - muzzleLocation.x, y := targetPosition.y - muzzleLocation.y
          z := 0 } u.facing
    then none else some slot
  | none => none

/-- The block "If still OK - fire!" for the weapon of the given hand. -/
def fireWeapon (cb : Services G) (gt : GameTime) (ap : BattleUnitAnimationPack)
    (u : BattleUnit G) (slot : AEquipmentSlotType) (targetPosition : Vec3f) : BattleUnit G :=
  let u1 : BattleUnit G :=
    { u with equipment := (cb.fire u slot targetPosition).1
             state := (cb.fire u slot targetPosition).2 }
  setHandState gt ap
    { u1 with displayedItem := (handItem cb u1 slot).map AEquipment.type } HandState.Firing

/-- The block "Is a gun ready to fire?" of the firing stage; the flag returned
is the local `weaponFired`. -/
def fireIfReady (cb : Services G) (gt : GameTime) (ap : BattleUnitAnimationPack)
    (s : FiringLocals G) (targetPosition muzzleLocation : Vec3f) : FiringLocals G × Bool :=
  if s.unit.firing_animation_ticks_remaining = 0 ∧
      s.unit.target_hand_state = HandState.Aiming then
    match withinArc cb s.unit (pickFiringWeapon cb s).firingWeapon
        targetPosition muzzleLocation with
    | some slot =>
      ({ unit := fireWeapon cb gt ap s.unit slot targetPosition
         weaponRight := (pickFiringWeapon cb s).weaponRight
         weaponLeft := (pickFiringWeapon cb s).weaponLeft }, true)
    | none =>
      ({ unit := s.unit
         weaponRight := (pickFiringWeapon cb s).weaponRight
         weaponLeft := (pickFiringWeapon cb s).weaponLeft }, false)
  else (s, false)

/-- The switch "If fired weapon at ground or ally - stop firing that hand". -/
def stopFiredHand (s : FiringLocals G) : BattleUnit G :=
  match s.unit.weaponStatus with
  | WeaponStatus.FiringBothHands =>
    if !s.weaponRight then
      if !s.weaponLeft then stopAttacking s.unit
      else { s.unit with weaponStatus := WeaponStatus.FiringLeftHand }
    else if !s.weaponLeft then
      { s.unit with weaponStatus := WeaponStatus.FiringRightHand }
    else s.unit
  | WeaponStatus.FiringLeftHand =>
    if !s.weaponLeft then stopAttacking s.unit else s.unit
  | WeaponStatus.FiringRightHand =>
    if !s.weaponRight then stopAttacking s.unit else s.unit
  | WeaponStatus.NotFiring => s.unit

/-- Condition of "Should we start aiming?". -/
def shouldStartAiming (u : BattleUnit G) : Bool :=
  decide (u.firing_animation_ticks_remaining = 0) &&
  decide (u.hand_animation_ticks_remaining = 0) &&
  decide (u.body_animation_ticks_remaining = 0) &&
  decide (u.current_hand_state ≠ HandState.Aiming) &&
  decide (u.current_movement_state ≠ MovementState.Running) &&
  decide (u.current_movement_state ≠ MovementState.Strafing) &&
  !(decide (u.current_body_state = BodyState.Prone) &&
    decide (u.current_movement_state ≠ MovementState.None))

/-- The block "If fired weapon at ground or ally - stop firing that hand",
entered with the locals and `weaponFired`. -/
def collapseFiredHand (cb : Services G) (f : FiringLocals G × Bool) : BattleUnit G :=
  if f.2 && (decide (f.1.unit.targetingMode ≠ TargetingMode.Unit) ||
      decide (cb.targetUnitOwner f.1.unit = f.1.unit.owner)) then
    stopFiredHand f.1
  else f.1.unit

/-- The block "Should we start aiming?". -/
def startAiming (gt : GameTime) (ap : BattleUnitAnimationPack) (u : BattleUnit G) :
    BattleUnit G :=
  if shouldStartAiming u then beginHandStateChange gt ap u HandState.Aiming else u

/-- The block "Firing - process unit that is firing" of `update`. -/
def processFiring (cb : Services G) (gt : GameTime) (ap : BattleUnitAnimationPack)
    (s : FiringLocals G) (targetPosition muzzleLocation : Vec3f) : BattleUnit G :=
  if isAttacking s.unit then
    startAiming gt ap
      (collapseFiredHand cb
        (fireIfReady cb gt ap { s with unit := startFiringWeapons cb s }
          targetPosition muzzleLocation))
  else s.unit

/-- The block "Not Firing (or may have just stopped firing)" of `update`. -/
def notFiring (gt : GameTime) (ap : BattleUnitAnimationPack) (u : BattleUnit G)
    (ticks : Nat) : BattleUnit G :=
  if !isAttacking u then
    if u.aiming_ticks_remaining > 0 then
      { u with aiming_ticks_remaining := usub32 u.aiming_ticks_remaining ticks }
    else if u.firing_animation_ticks_remaining = 0 ∧ u.hand_animation_ticks_remaining = 0 ∧
        u.current_hand_state = HandState.Aiming then
      beginHandStateChange gt ap u HandState.AtEase
    else u
  else u

/-- The firing stage of BattleUnit::update(state, ticks): everything after
the comment "Firing". Constant `LOS_CHECK_INTERVAL_TRACKING` is a parameter. -/
def updateFiring (cb : Services G) (gt : GameTime) (ap : BattleUnitAnimationPack)
    (losCheckInterval : Nat) (u : BattleUnit G) (ticks : Nat) : BattleUnit G :=
  notFiring gt ap
    (processFiring cb gt ap
      (checkStopFiring cb losCheckInterval (prepareWeapons cb u) ticks (targetPositionOf cb u))
      (targetPositionOf cb u) (cb.getMuzzleLocation u))
    ticks

/-! ## The tick convergence loop of `update` -/

/-- Value of an `unsigned int` expression: reduction modulo 2^32. -/
def u32 (x : Nat) : Nat := x % 2 ^ 32

/-- BattleUnit::canFly(). -/
def canFly (cb : Services G) (gt : GameTime) (u : BattleUnit G) : Bool :=
  isConscious gt u && cb.isBodyStateAllowed u BodyState.Flying

/-- BattleUnit::startFalling(). -/
def startFalling (gt : GameTime) (ap : BattleUnitAnimationPack) (u : BattleUnit G) :
    BattleUnit G :=
  { setMovementState gt ap u MovementState.None with falling := true }

/-- BattleUnit::resetGoal(). -/
def resetGoal (u : BattleUnit G) : BattleUnit G :=
  { u with goalPosition := u.position, goalFacing := u.facing, atGoal := true }

/-- Locals `hasSupport` and `fullySupported` of the check "Begin falling or
changing stance to flying if appropriate". -/
def supportCheck (cb : Services G) (u : BattleUnit G) : Bool × Bool :=
  if u.atGoal then (cb.canStandHere u, cb.canStandHere u)
  else if cb.canStandAtGoal u then (true, cb.canStandHere u)
  else (cb.canStandHere u, false)

/-- The statements `setBodyState(state, BodyState::Flying); if
(!missions.empty()) missions.front()->targetBodyState = current_body_state;`. -/
def takeOff (cb : Services G) (u : BattleUnit G) : BattleUnit G :=
  match (setBodyState cb u BodyState.Flying).missions with
  | m :: rest =>
    { setBodyState cb u BodyState.Flying with
      missions :=
        { m with targetBodyState := (setBodyState cb u BodyState.Flying).current_body_state }
          :: rest }
  | [] => setBodyState cb u BodyState.Flying

/-- The block "If flying and not supported both on current and goal locations
- start flying". -/
def startFlying (cb : Services G) (gt : GameTime) (u : BattleUnit G) (fullySupported : Bool) :
    BattleUnit G :=
  if !fullySupported && canFly cb gt u then
    if u.current_body_state = u.target_body_state then takeOff cb u else u
  else u

/-- The block "Begin falling or changing stance to flying if appropriate" of
the convergence loop. -/
def beginFallingOrFlying (cb : Services G) (gt : GameTime) (ap : BattleUnitAnimationPack)
    (u : BattleUnit G) : BattleUnit G :=
  if !u.falling then
    if !canFly cb gt u || decide (u.current_body_state ≠ BodyState.Flying) then
      if !(supportCheck cb u).1 && !canFly cb gt u then
        startFlying cb gt (startFalling gt ap u) (supportCheck cb u).2
      else
        startFlying cb gt u (supportCheck cb u).2
    else u
  else u

/-- The loop `while (fallTicksRemaining-- > 0)` of the falling branch, run for
the given number of ticks on the pair of `fallingSpeed` and `newPosition`; the
sums of the source are taken exactly. -/
def fallLoop (mc : MoveConsts) : Nat → ℚ × Vec3f → ℚ × Vec3f
  | 0, s => s
  | n + 1, s =>
    fallLoop mc n
      (s.1 + mc.FALLING_ACCELERATION_UNIT,
       { s.2 with
         z := s.2.z -
           (s.1 + mc.FALLING_ACCELERATION_UNIT) / mc.TICK_SCALE / mc.VELOCITY_SCALE_BATTLE_Z })

/-- The block "Fell into a unit" of the falling branch. -/
def fellIntoUnit (cb : Services G) (gt : GameTime) (u : BattleUnit G) (newPosition : Vec3f) :
    BattleUnit G :=
  if isConscious gt u && cb.unitBelow u newPosition then
    fallUnconscious cb
      (dealDamage cb gt { u with stunDamageInTicks := 0 }
        (Int.tdiv (u.current_stats_health * 3) 2) false BodyPart.Body 9001)
  else u

/-- The block "Check if reached ground" of the falling branch. -/
def reachGround (cb : Services G) (gt : GameTime) (u : BattleUnit G) : BattleUnit G :=
  if u.position.z < (cb.getRestingPosition u).z then
    -- Stopped falling
    { resetGoal
        (cb.triggerProximity
          (if !isConscious gt { u with falling := false } then
            setPosition cb { u with falling := false }
              { x := u.position.x, y := u.position.y, z := (cb.getRestingPosition u).z }
          else
            setPosition cb { u with falling := false } (cb.getRestingPosition u))) with
      fallingSpeed := 0 }
  else u

/-- The unit after `setPosition(state, newPosition); triggerProximity(state);
goalPosition = position; atGoal = true;` in the falling branch. -/
def landAt (cb : Services G) (u : BattleUnit G) (newPosition : Vec3f) : BattleUnit G :=
  { (cb.triggerProximity (setPosition cb u newPosition)) with
    goalPosition := (cb.triggerProximity (setPosition cb u newPosition)).position
    atGoal := true }

/-- The branch "If falling then process falling" of the movement step; the
move budget is set to 0 by the caller. -/
def processFalling (cb : Services G) (gt : GameTime) (mc : MoveConsts) (u : BattleUnit G)
    (moveTicksRemaining : Nat) : BattleUnit G :=
  reachGround cb gt
    (landAt cb
      (fellIntoUnit cb gt
        { u with fallingSpeed :=
            (fallLoop mc (moveTicksRemaining / u32 (cb.getActualSpeedValue u * 2))
              (u.fallingSpeed, u.position)).1 }
        (fallLoop mc (moveTicksRemaining / u32 (cb.getActualSpeedValue u * 2))
          (u.fallingSpeed, u.position)).2)
      (fallLoop mc (moveTicksRemaining / u32 (cb.getActualSpeedValue u * 2))
        (u.fallingSpeed, u.position)).2)

/-- Local `speedModifier` of the movement step. -/
def speedModifierOf (u : BattleUnit G) : Nat :=
  if u.current_body_state = BodyState.Flying then max 1 u.flyingSpeedModifier else 100

/-- Local `moveTicksConsumeRate` of the movement step. -/
def moveTicksConsumeRateOf (u : BattleUnit G) : Nat :=
  if u.current_movement_state = MovementState.Running then 1 else 2

/-- The guard of the movement step, `distanceToGoal * moveTicksConsumeRate *
100 / speedModifier > moveTicksRemaining`, in `unsigned int` arithmetic: the
budget cannot cover the distance. -/
def cannotReach (distanceToGoal moveTicksConsumeRate speedModifier moveTicksRemaining : Nat) :
    Bool :=
  decide (u32 (u32 (distanceToGoal * moveTicksConsumeRate) * 100) / speedModifier >
    moveTicksRemaining)

/-- The block "Quick check, if moving strictly vertical then using lift". -/
def liftCheck (cb : Services G) (u : BattleUnit G) (wasUsingLift : Bool) : BattleUnit G :=
  if cb.distanceToGoal u > 0 ∧ u.current_body_state ≠ BodyState.Flying ∧
      u.goalPosition.x - u.position.x = 0 ∧ u.goalPosition.y - u.position.y = 0 then
    { u with state := if !wasUsingLift then cb.playGravLiftSfx u else u.state
             usingLift := true
             movement_ticks_passed := 0 }
  else u

/-- The statement `if (flyingSpeedModifier != 100) flyingSpeedModifier =
std::min((unsigned)100, flyingSpeedModifier + gain);`. -/
def accelerate (u : BattleUnit G) (gain : Nat) : BattleUnit G :=
  if u.flyingSpeedModifier ≠ 100 then
    { u with flyingSpeedModifier := min 100 (u32 (u.flyingSpeedModifier + gain)) }
  else u

/-- The advance of a partial move in tick units: the product of the factors
`moveTicksRemaining / moveTicksConsumeRate` and `speedModifier / 100`, both
integer quotients. -/
def partialAdvance (moveTicksRemaining moveTicksConsumeRate speedModifier : Nat) : Nat :=
  (moveTicksRemaining / moveTicksConsumeRate) * (speedModifier / 100)

/-- The branch of the movement step taken when the budget cannot cover the
distance: the unit advances towards the goal. The locals `distanceToGoal`,
`moveTicksConsumeRate`, `speedModifier` and `dir` were computed before, from
the unit the branch is entered with. -/
def moveTowardsGoal (cb : Services G) (mc : MoveConsts) (u : BattleUnit G)
    (moveTicksRemaining moveTicksConsumeRate speedModifier : Nat) : BattleUnit G :=
  { (cb.triggerProximity
      (setPosition cb
        (accelerate u
          (moveTicksRemaining / moveTicksConsumeRate / mc.FLYING_ACCELERATION_DIVISOR))
        (cb.advanceToGoal u (moveTicksRemaining / moveTicksConsumeRate)
          (speedModifier / 100)))) with
    atGoal := false }

/-- The block `if (distanceToGoal > 0)` of the branch taken when the budget
covers the distance: the unit is put on its goal. -/
def arriveAtGoal (cb : Services G) (mc : MoveConsts) (u : BattleUnit G)
    (distanceToGoal : Nat) : BattleUnit G :=
  if distanceToGoal > 0 then
    { (cb.triggerProximity
        (setPosition cb
          (accelerate u (distanceToGoal / mc.FLYING_ACCELERATION_DIVISOR))
          u.goalPosition)) with
      goalPosition :=
        (cb.triggerProximity
          (setPosition cb
            (accelerate u (distanceToGoal / mc.FLYING_ACCELERATION_DIVISOR))
            u.goalPosition)).position }
  else u

/-- BattleUnit::getNextDestination(state, dest) followed by `goalPosition =
nextGoal; atGoal = false;` when it answers true. -/
def requestNextDestination (cb : Services G) (u : BattleUnit G) : BattleUnit G :=
  match u.missions with
  | [] => u
  | m :: rest =>
    if (cb.getNextDestination u m).found then
      { toUnitVars :=
          { (cb.getNextDestination u m).vars with
            goalPosition := (cb.getNextDestination u m).dest, atGoal := false }
        missions := (cb.getNextDestination u m).mission :: rest }
    else
      { toUnitVars := (cb.getNextDestination u m).vars
        missions := (cb.getNextDestination u m).mission :: rest }

/-- Value added to `movement_ticks_passed`: the ticks accumulated, scaled by
the facing so that animations look proper on the isometric screen. -/
def scaledTicks (facing : Vec2) (movementTicksAccumulated : Nat) : Nat :=
  if facing.x = facing.y then u32 (movementTicksAccumulated * 100) / 150
  else if facing.x = -facing.y then u32 (movementTicksAccumulated * 141) / 150
  else movementTicksAccumulated

/-- BattleUnit::shouldPlaySoundNow(). -/
def shouldPlaySoundNow (cb : Services G) (mc : MoveConsts) (u : BattleUnit G) :
    Bool × BattleUnit G :=
  if cb.getDistanceTravelled u / mc.UNITS_TRAVELLED_PER_SOUND ≠ u.movement_sounds_played then
    (decide
      ((cb.getDistanceTravelled u / mc.UNITS_TRAVELLED_PER_SOUND +
          (if u.current_movement_state = MovementState.Running
            then mc.UNITS_TRAVELLED_PER_SOUND_RUNNING_DIVISOR else 1) - 1) %
        (if u.current_movement_state = MovementState.Running
          then mc.UNITS_TRAVELLED_PER_SOUND_RUNNING_DIVISOR else 1) = 0),
     { u with movement_sounds_played :=
         cb.getDistanceTravelled u / mc.UNITS_TRAVELLED_PER_SOUND })
  else (false, u)

/-- The statement `movement_ticks_passed += ...` of the moving branch. -/
def passTicks (u : BattleUnit G) (movementTicksAccumulated : Nat) : BattleUnit G :=
  { u with
    movement_ticks_passed :=
      (u.movement_ticks_passed + scaledTicks u.facing movementTicksAccumulated) % 2 ^ 32 }

/-- The tail of the moving branch: `movement_ticks_passed` is advanced and a
footstep sample is played when due. -/
def footsteps (cb : Services G) (mc : MoveConsts) (u : BattleUnit G)
    (movementTicksAccumulated : Nat) : BattleUnit G :=
  if (shouldPlaySoundNow cb mc (passTicks u movementTicksAccumulated)).1 &&
      decide ((shouldPlaySoundNow cb mc (passTicks u movementTicksAccumulated)
        ).2.current_body_state ≠ BodyState.Flying) then
    { (shouldPlaySoundNow cb mc (passTicks u movementTicksAccumulated)).2 with
      state :=
        cb.playWalkSfx (shouldPlaySoundNow cb mc (passTicks u movementTicksAccumulated)).2 }
  else
    (shouldPlaySoundNow cb mc (passTicks u movementTicksAccumulated)).2

/-- The branch of the movement step taken when the budget covers the distance,
entered with the locals computed before; `ticksRemaining` is the move budget
after it. -/
def moveToGoal (cb : Services G) (mc : MoveConsts) (u : BattleUnit G)
    (moveTicksRemaining distanceToGoal moveTicksConsumeRate : Nat) : StepResult G :=
  if (popFinishedMissions cb
      { arriveAtGoal cb mc u distanceToGoal with atGoal := true }).1 then
    { returned := true
      unit := (popFinishedMissions cb
        { arriveAtGoal cb mc u distanceToGoal with atGoal := true }).2
      ticksRemaining :=
        if distanceToGoal > 0
        then usub32 moveTicksRemaining (u32 (distanceToGoal * moveTicksConsumeRate))
        else moveTicksRemaining }
  else
    { returned := false
      unit :=
        footsteps cb mc
          (requestNextDestination cb
            (popFinishedMissions cb
              { arriveAtGoal cb mc u distanceToGoal with atGoal := true }).2)
          distanceToGoal
      ticksRemaining :=
        if distanceToGoal > 0
        then usub32 moveTicksRemaining (u32 (distanceToGoal * moveTicksConsumeRate))
        else moveTicksRemaining }

/-- The branch "We are moving and not falling" of the movement step. -/
def processMoving (cb : Services G) (mc : MoveConsts) (u : BattleUnit G)
    (wasUsingLift : Bool) (moveTicksRemaining : Nat) : StepResult G :=
  if cannotReach (cb.distanceToGoal u) (moveTicksConsumeRateOf u) (speedModifierOf u)
      moveTicksRemaining then
    { returned := false
      unit :=
        footsteps cb mc
          (moveTowardsGoal cb mc (liftCheck cb u wasUsingLift) moveTicksRemaining
            (moveTicksConsumeRateOf u) (speedModifierOf u))
          (moveTicksRemaining / moveTicksConsumeRateOf u)
      ticksRemaining := moveTicksRemaining % moveTicksConsumeRateOf u }
  else
    moveToGoal cb mc (liftCheck cb u wasUsingLift) moveTicksRemaining (cb.distanceToGoal u)
      (moveTicksConsumeRateOf u)

/-- The head of the branch "We are not moving and not falling": a unit on its
goal takes the resting position of its tile as the goal, and `atGoal` tells
whether the goal is the position. -/
def settleGoal (cb : Services G) (u : BattleUnit G) : BattleUnit G :=
  if u.goalPosition = u.position then
    { u with goalPosition := cb.getRestingPosition u
             atGoal := decide (cb.getRestingPosition u = u.position) }
  else
    { u with atGoal := false }

/-- The branch "We are not moving and not falling" of the movement step. -/
def processStanding (cb : Services G) (u : BattleUnit G) : Bool × BattleUnit G :=
  if !(settleGoal cb u).atGoal then
    -- If not at goal - go to goal
    (false, (addMissionByType cb (settleGoal cb u) MissionType.ReachGoal).2)
  else
    -- If at goal - try to request new destination
    if (popFinishedMissions cb (settleGoal cb u)).1 then
      (true, (popFinishedMissions cb (settleGoal cb u)).2)
    else
      (false, requestNextDestination cb (popFinishedMissions cb (settleGoal cb u)).2)

/-- The block "Try moving" of the convergence loop; `ticksRemaining` is the
move budget after it. -/
def updateMoveStep (cb : Services G) (gt : GameTime) (mc : MoveConsts) (u : BattleUnit G)
    (wasUsingLift : Bool) (moveTicksRemaining : Nat) : StepResult G :=
  if moveTicksRemaining > 0 then
    if u.falling then
      { returned := false, unit := processFalling cb gt mc u moveTicksRemaining
        ticksRemaining := 0 }
    else if u.current_movement_state ≠ MovementState.None then
      processMoving cb mc u wasUsingLift moveTicksRemaining
    else
      { returned := (processStanding cb u).1, unit := (processStanding cb u).2
        ticksRemaining := moveTicksRemaining }
  else
    { returned := false, unit := u, ticksRemaining := moveTicksRemaining }

/-- BattleUnit::beginTurning(state, newFacing). -/
def beginTurning (gt : GameTime) (u : BattleUnit G) (newFacing : Vec2) : BattleUnit G :=
  { u with goalFacing := newFacing
           turning_animation_ticks_remaining := gt.TICKS_PER_FRAME_UNIT }

/-- BattleUnit::getNextFacing(state, dest) followed by `beginTurning(state,
nextFacing)` when it answers true. -/
def requestNextFacing (cb : Services G) (gt : GameTime) (u : BattleUnit G) : BattleUnit G :=
  match u.missions with
  | [] => u
  | m :: rest =>
    if (cb.getNextFacing u m).found then
      beginTurning gt
        { toUnitVars := (cb.getNextFacing u m).vars
          missions := (cb.getNextFacing u m).mission :: rest }
        (cb.getNextFacing u m).dest
    else
      { toUnitVars := (cb.getNextFacing u m).vars
        missions := (cb.getNextFacing u m).mission :: rest }

/-- The statements `if (turning_animation_ticks_remaining > 0) {
turnTicksRemaining -= turning_animation_ticks_remaining; setFacing(state,
goalFacing); }`. -/
def finishTurning (cb : Services G) (u : BattleUnit G) (turnTicksRemaining : Nat) :
    BattleUnit G × Nat :=
  if u.turning_animation_ticks_remaining > 0 then
    (setFacing cb u u.goalFacing, turnTicksRemaining - u.turning_animation_ticks_remaining)
  else
    (u, turnTicksRemaining)

/-- The block "Try turning" of the convergence loop; `ticksRemaining` is the
turn budget after it. -/
def updateTurnStep (cb : Services G) (gt : GameTime) (u : BattleUnit G)
    (turnTicksRemaining : Nat) : StepResult G :=
  if turnTicksRemaining > 0 then
    if u.turning_animation_ticks_remaining > turnTicksRemaining then
      { returned := false
        unit := { u with turning_animation_ticks_remaining :=
                    u.turning_animation_ticks_remaining - turnTicksRemaining }
        ticksRemaining := 0 }
    else
      if (popFinishedMissions cb (finishTurning cb u turnTicksRemaining).1).1 then
        { returned := true
          unit := (popFinishedMissions cb (finishTurning cb u turnTicksRemaining).1).2
          ticksRemaining := (finishTurning cb u turnTicksRemaining).2 }
      else
        { returned := false
          unit :=
            requestNextFacing cb gt
              (popFinishedMissions cb (finishTurning cb u turnTicksRemaining).1).2
          ticksRemaining := (finishTurning cb u turnTicksRemaining).2 }
  else
    { returned := false, unit := u, ticksRemaining := turnTicksRemaining }

/-- The type of the item of the first ThrowItem mission that has one, the
value `m->item->type` found by the loop of `updateDisplayedItem`; an item is
modelled by the identifier of its type. -/
def thrownItem : List BattleUnitMission → Option String
  | [] => none
  | m :: rest =>
    if m.type = MissionType.ThrowItem ∧ m.item.isSome = true then m.item else thrownItem rest

/-- Value `agent->getDominantItemInHands(firing_animation_ticks_remaining > 0
? lastDisplayedItem : nullptr)` of `updateDisplayedItem`. -/
def dominantItem (cb : Services G) (u : BattleUnit G) : Option String :=
  cb.getDominantItemInHands u
    (if u.firing_animation_ticks_remaining > 0 then u.displayedItem else none)

/-- The tail of `updateDisplayedItem`: with a thrown item or a changed item on
display the hands are brought to ease at once. -/
def easeHands (gt : GameTime) (ap : BattleUnitAnimationPack) (u : BattleUnit G)
    (atOnce : Bool) : BattleUnit G :=
  if atOnce = true ∧
      (u.hand_animation_ticks_remaining > 0 ∨ u.current_hand_state ≠ HandState.AtEase) then
    setHandState gt ap u HandState.AtEase
  else u

/-- BattleUnit::updateDisplayedItem(). -/
def updateDisplayedItem (cb : Services G) (gt : GameTime) (ap : BattleUnitAnimationPack)
    (u : BattleUnit G) : BattleUnit G :=
  match thrownItem u.missions with
  | some item => easeHands gt ap { u with displayedItem := some item } true
  | none =>
    easeHands gt ap { u with displayedItem := dominantItem cb u }
      (decide (dominantItem cb u ≠ u.displayedItem))

/-- The four tick budgets of the convergence loop: `moveTicksRemaining`,
`bodyTicksRemaining`, `handTicksRemaining`, `turnTicksRemaining`. -/
structure Budgets where
  move : Nat
  body : Nat
  hand : Nat
  turn : Nat
  deriving DecidableEq, Repr

/-- Outcome of one pass of the convergence loop: whether `update` returned
from inside it, the unit, the budgets. -/
structure PassResult (G : Type) where
  returned : Bool
  unit : BattleUnit G
  budgets : Budgets

/-- A pass from "Try turning" on. -/
def passTurn (cb : Services G) (gt : GameTime) (ap : BattleUnitAnimationPack)
    (u : BattleUnit G) (b : Budgets) : PassResult G :=
  if (updateTurnStep cb gt u b.turn).returned then
    { returned := true, unit := (updateTurnStep cb gt u b.turn).unit
      budgets := { b with turn := (updateTurnStep cb gt u b.turn).ticksRemaining } }
  else
    { returned := false
      unit := updateDisplayedItem cb gt ap (updateTurnStep cb gt u b.turn).unit
      budgets := { b with turn := (updateTurnStep cb gt u b.turn).ticksRemaining } }

/-- A pass from "Try moving" on. -/
def passMove (cb : Services G) (gt : GameTime) (ap : BattleUnitAnimationPack)
    (mc : MoveConsts) (wasUsingLift : Bool) (u : BattleUnit G) (b : Budgets) : PassResult G :=
  if (updateMoveStep cb gt mc u wasUsingLift b.move).returned then
    { returned := true, unit := (updateMoveStep cb gt mc u wasUsingLift b.move).unit
      budgets := { b with move := (updateMoveStep cb gt mc u wasUsingLift b.move).ticksRemaining } }
  else
    passTurn cb gt ap (updateMoveStep cb gt mc u wasUsingLift b.move).unit
      { b with move := (updateMoveStep cb gt mc u wasUsingLift b.move).ticksRemaining }

/-- A pass from "Change body state" on. -/
def passBody (cb : Services G) (gt : GameTime) (ap : BattleUnitAnimationPack)
    (mc : MoveConsts) (wasUsingLift : Bool) (u : BattleUnit G) (b : Budgets) : PassResult G :=
  if (updateBodyStep cb gt ap u b.body).returned then
    { returned := true, unit := (updateBodyStep cb gt ap u b.body).unit
      budgets := { b with body := (updateBodyStep cb gt ap u b.body).ticksRemaining } }
  else
    passMove cb gt ap mc wasUsingLift
      (updateHandStep gt ap (updateBodyStep cb gt ap u b.body).unit b.hand).1
      { b with body := (updateBodyStep cb gt ap u b.body).ticksRemaining
               hand := (updateHandStep gt ap (updateBodyStep cb gt ap u b.body).unit b.hand).2 }

/-- One pass of the convergence loop of `update`, the body of the `while`. -/
def convergencePass (cb : Services G) (gt : GameTime) (ap : BattleUnitAnimationPack)
    (mc : MoveConsts) (wasUsingLift : Bool) (u : BattleUnit G) (b : Budgets) : PassResult G :=
  passBody cb gt ap mc wasUsingLift (beginFallingOrFlying cb gt ap u) b

/-- The convergence loop of `update`, `while (last... != ...Remaining || ...)`,
entered with the budgets `last` of the previous pass and the current budgets;
`fuel` bounds the number of passes and the result is `none` when it runs out. -/
def convergenceLoop (cb : Services G) (gt : GameTime) (ap : BattleUnitAnimationPack)
    (mc : MoveConsts) (wasUsingLift : Bool) :
    Nat → Budgets → Budgets → BattleUnit G → Option (PassResult G)
  | 0, last, b, u =>
    if last = b then some { returned := false, unit := u, budgets := b } else none
  | fuel + 1, last, b, u =>
    if last = b then some { returned := false, unit := u, budgets := b }
    else if (convergencePass cb gt ap mc wasUsingLift u b).returned then
      some (convergencePass cb gt ap mc wasUsingLift u b)
    else
      convergenceLoop cb gt ap mc wasUsingLift fuel b
        (convergencePass cb gt ap mc wasUsingLift u b).budgets
        (convergencePass cb gt ap mc wasUsingLift u b).unit

/-- The unit at the head of the block "Movement and Body Animation" of
`update`: `usingLift` is cleared and jetpacks are turned off. -/
def beforeLoop (u : BattleUnit G) : BattleUnit G :=
  if u.current_body_state ≠ BodyState.Flying then
    { u with usingLift := false, flyingSpeedModifier := 0 }
  else
    { u with usingLift := false }

/-- The budgets the loop is entered with for `ticks` ticks. -/
def initialBudgets (cb : Services G) (gt : GameTime) (u : BattleUnit G) (ticks : Nat) : Budgets :=
  { move := u32 (u32 (ticks * cb.getActualSpeedValue u) * 2)
    body := ticks
    hand := if isConscious gt u then ticks else 0
    turn := if isConscious gt u then ticks else 0 }

/-- The block "Movement and Body Animation" of `update`. -/
def movementAndBody (cb : Services G) (gt : GameTime) (ap : BattleUnitAnimationPack)
    (mc : MoveConsts) (fuel : Nat) (u : BattleUnit G) (ticks : Nat) : Option (PassResult G) :=
  convergenceLoop cb gt ap mc u.usingLift fuel
    { move := 0, body := 0, hand := 0, turn := 0 }
    (initialBudgets cb gt (beforeLoop u) ticks) (beforeLoop u)

/-- Locals of the ray loop of `updateUnitVision` that persist from one
iteration to the next: `swap`, `inverseC1`, `signC1`, `signC2`. -/
structure RaySweep where
  swap : Bool
  inverseC1 : Bool
  signC1 : Int
  signC2 : Int
  deriving DecidableEq, Repr

/-- Local `diagonal` of `updateUnitVision`. -/
def isDiagonal (facing : Vec2) : Bool :=
  decide (facing.x ≠ 0) && decide (facing.y ≠ 0)

/-- Values of the loop locals before the first iteration. -/
def raySweepInit (facing : Vec2) : RaySweep :=
  let swap := decide (facing.x = 0)
  { swap := swap
    inverseC1 := false
    signC2 := if isDiagonal facing && decide (facing.y > 0) then -1 else 1
    signC1 :=
      if (swap && decide (facing.y < 0)) || (!swap && decide (facing.x < 0)) then -1 else 1 }

/-- Local `c2` of iteration `i`: `inverseC1 ? 1 - i : i`. -/
def rayC2 (s : RaySweep) (i : Int) : Int :=
  if s.inverseC1 then 1 - i else i

/-- Local `c1`: `20 - (std::abs(c2) + 1) / 2`. -/
def rayC1 (c2 : Int) : Int :=
  20 - Int.tdiv ((c2.natAbs : Int) + 1) 2

/-- Offset added to `position.x` and `position.y` in iteration `i` of the ray
loop: `(swap ? c2 * signC2 : c1 * signC1, swap ? c1 * signC1 : c2 * signC2)`. -/
def rayOffset (s : RaySweep) (i : Int) : Int × Int :=
  (if s.swap then rayC2 s i * s.signC2 else rayC1 (rayC2 s i) * s.signC1,
   if s.swap then rayC1 (rayC2 s i) * s.signC1 else rayC2 s i * s.signC2)

/-- Update of the loop locals in iteration `i`: after the middle ray of a
diagonal facing the axes are swapped and the signs flipped. -/
def raySweepNext (facing : Vec2) (s : RaySweep) (i : Int) : RaySweep :=
  if i = 0 ∧ isDiagonal facing = true then
    { swap := !s.swap, signC1 := -s.signC2, signC2 := -s.signC1, inverseC1 := true }
  else s

/-- Iterations `i, i + 1, ...` of `for (int i = -13; i < 14; i++)`, `n` of
them: the offsets of the ray end points in loop order. -/
def rayLoop (facing : Vec2) : Nat → Int → RaySweep → List (Int × Int)
  | 0, _, _ => []
  | n + 1, i, s => rayOffset s i :: rayLoop facing n (i + 1) (raySweepNext facing s i)

/-- Offsets of the end columns of the rays cast by `updateUnitVision` for a
facing, in loop order. -/
def rayOffsets (facing : Vec2) : List (Int × Int) :=
  rayLoop facing 27 (-13) (raySweepInit facing)

/-! ## Vision: rays, visible tiles and visible units -/

/-- Kind of a map part a ray can collide with: the members of `mapPartSet`. -/
inductive TileObjectType where
  | Ground
  | LeftWall
  | RightWall
  | Feature
  deriving DecidableEq, Repr

/-- A tile a ray passes, with what `updateUnitVision` reads from it: its
position, its vision blockage, and the unit that `getUnitIfPresent(true, true)`
reports (its id and its owner), if any. -/
structure Tile where
  position : Vec3
  visionBlockage : Int := 0
  unitPresent : Option (String × String) := none
  deriving DecidableEq

/-- Result of `map.findCollision`: the type of the object hit, if the ray hit
anything, and the tiles passed. -/
structure Collision where
  hit : Option TileObjectType := none
  tilesPassed : List Tile := []

/-- The read-only queries of `updateUnitVision` on the battle map, taken as
parameters: `battle.getLosBlockID`, the bounds `start` and `end` of
`battle.los_blocks.at(idx)`, `map.findCollision` from the eyes to a target
point, and the distance `sqrtf(...)` between the unit's position and a tile (a
floating-point computation). -/
structure VisionMap where
  getLosBlockID : Vec3f → Nat
  los_blocks : Nat → Vec3 × Vec3
  findCollision : Vec3f → Vec3f → Collision
  tileDistance : Vec3f → Vec3 → ℚ

/-- What `updateUnitVision` sees of another unit of the battle. -/
structure BattleUnitView where
  id : String
  owner : String
  visibleUnits : List String := []
  deriving DecidableEq

/-- The part of `Battle` that `updateUnitVision` reads and writes. A `std::set`
is a list read as a set; `units` holds the units of the battle other than the
one whose vision is updated; `visibleTiles` and `visibleBlocks` hold, for each
owner, the tiles and the line-of-sight blocks whose flag is set. -/
structure Battle where
  size_z : Nat := 1
  units : List BattleUnitView := []
  visibleUnits : String → List String := fun _ => []
  visibleTiles : String → List Vec3 := fun _ => []
  visibleBlocks : String → List Nat := fun _ => []

/-- Call `battle.setVisible(owner, x, y, z)`, guarded or not by `getVisible`:
the flag of the tile is set. -/
def Battle.setVisible (b : Battle) (owner : String) (t : Vec3) : Battle :=
  { b with
    visibleTiles :=
      Function.update b.visibleTiles owner (List.insert t (b.visibleTiles owner)) }

/-- The integers `lo, lo + 1, ..., hi - 1` of a loop `for (int i = lo; i < hi;
i++)`. -/
def intRange (lo hi : Int) : List Int :=
  (List.range (hi - lo).toNat).map (fun (k : Nat) => lo + (k : Int))

/-- The tiles of a line-of-sight block, in the order of the three nested
loops. -/
def blockTiles (l : Vec3 × Vec3) : List Vec3 :=
  (intRange l.1.x l.2.x).flatMap (fun x =>
    (intRange l.1.y l.2.y).flatMap (fun y =>
      (intRange l.1.z l.2.z).map (fun z => ({ x := x, y := y, z := z } : Vec3))))

/-- The block "Update unit's vision of los blocks". -/
def seeLosBlock (m : VisionMap) (b : Battle) (owner : String) (position : Vec3f) : Battle :=
  if m.getLosBlockID position ∈ b.visibleBlocks owner then b
  else
    (blockTiles (m.los_blocks (m.getLosBlockID position))).foldl
      (fun acc t => acc.setVisible owner t)
      { b with
        visibleBlocks :=
          Function.update b.visibleBlocks owner
            (m.getLosBlockID position :: b.visibleBlocks owner) }

/-- Locals of the walk along a ray: `blockageAccumulatedSoFar`,
`distanceToLastTile`, `accumulatedSinceLastTile`, `numberTilesWithBlockage`.
The sums and quotients of the source are taken exactly. -/
structure RayBlockage where
  blockageAccumulatedSoFar : ℚ := 0
  distanceToLastTile : Int := 0
  accumulatedSinceLastTile : ℚ := 0
  numberTilesWithBlockage : Int := 0

/-- The block "Apply vision blockage if we passed at least 1 tile". -/
def RayBlockage.pass (a : RayBlockage) (thisDistance : ℚ) : RayBlockage :=
  if truncToInt thisDistance > a.distanceToLastTile then
    { blockageAccumulatedSoFar :=
        if a.numberTilesWithBlockage > 0 then
          a.blockageAccumulatedSoFar +
            a.accumulatedSinceLastTile *
              ((truncToInt thisDistance - a.distanceToLastTile : Int) : ℚ) /
              (a.numberTilesWithBlockage : ℚ)
        else a.blockageAccumulatedSoFar
      distanceToLastTile := truncToInt thisDistance
      accumulatedSinceLastTile := 0
      numberTilesWithBlockage := 0 }
  else a

/-- The block "Add this tile's vision blockage to accumulated since last tile
blockage". -/
def RayBlockage.add (a : RayBlockage) (thisBlockage : Int) : RayBlockage :=
  if thisBlockage > 0 then
    { a with accumulatedSinceLastTile := a.accumulatedSinceLastTile + (thisBlockage : ℚ)
             numberTilesWithBlockage := a.numberTilesWithBlockage + 1 }
  else a

/-- What the walk along the rays builds up: the battle (visible tiles) and the
unit's `visibleUnits`. -/
structure Sight where
  battle : Battle
  visibleUnits : List String

/-- The statements at the end of the walk loop for a tile in sight: the tile
is set visible and a unit of another owner on it is inserted into
`visibleUnits`. -/
def Sight.see (s : Sight) (owner : String) (t : Tile) : Sight :=
  { battle := s.battle.setVisible owner t.position
    visibleUnits :=
      match t.unitPresent with
      | some (id, unitOwner) =>
        if unitOwner ≠ owner then List.insert id s.visibleUnits else s.visibleUnits
      | none => s.visibleUnits }

/-- The loop `for (auto t : c.tilesPassed)` of `updateUnitVision`, with its
`continue` on the unit's own tile and its `break` at the end of the line of
sight. Constant `LOS_RANGE` is a parameter. -/
def walkRay (m : VisionMap) (LOS_RANGE : Int) (owner : String) (position : Vec3f) :
    List Tile → RayBlockage → Sight → Sight
  | [], _, s => s
  | t :: rest, a, s =>
    if t.position = position.toTile then walkRay m LOS_RANGE owner position rest a s
    else if truncToInt (m.tileDistance position t.position +
        (a.pass (m.tileDistance position t.position)).blockageAccumulatedSoFar) > LOS_RANGE then
      s
    else
      walkRay m LOS_RANGE owner position rest
        ((a.pass (m.tileDistance position t.position)).add t.visionBlockage)
        (s.see owner t)

/-- End column of a ray: `int x = position.x + dx; int y = position.y + dy;`,
a sum of a float and an integer converted to `int`. -/
def rayEnd (position : Vec3f) (o : Int × Int) : Int × Int :=
  (truncToInt (position.x + (o.1 : ℚ)), truncToInt (position.y + (o.2 : ℚ)))

/-- The tiles walked for the ray to the centre of tile `(x, y, z)`: the tiles
passed by `map.findCollision`, less the last one when the ray hit a wall or
the ground coming from outside the tile. -/
def rayTiles (m : VisionMap) (position eyesPos : Vec3f) (x y z : Int) : List Tile :=
  match (m.findCollision eyesPos
      { x := (x : ℚ) + 1 / 2, y := (y : ℚ) + 1 / 2, z := (z : ℚ) + 1 / 2 }).hit with
  | some t =>
    if (t = TileObjectType.Ground ∧ (z : ℚ) > position.z) ∨
        (t = TileObjectType.LeftWall ∧ (x : ℚ) > position.x) ∨
        (t = TileObjectType.RightWall ∧ (y : ℚ) > position.y) then
      (m.findCollision eyesPos
        { x := (x : ℚ) + 1 / 2, y := (y : ℚ) + 1 / 2, z := (z : ℚ) + 1 / 2 }).tilesPassed.dropLast
    else
      (m.findCollision eyesPos
        { x := (x : ℚ) + 1 / 2, y := (y : ℚ) + 1 / 2, z := (z : ℚ) + 1 / 2 }).tilesPassed
  | none =>
    (m.findCollision eyesPos
      { x := (x : ℚ) + 1 / 2, y := (y : ℚ) + 1 / 2, z := (z : ℚ) + 1 / 2 }).tilesPassed

/-- The body of the loop `for (int z = 0; z < battle.size.z; z++)`: one ray. -/
def castRay (m : VisionMap) (LOS_RANGE : Int) (owner : String) (position eyesPos : Vec3f)
    (s : Sight) (o : Int × Int) (z : Nat) : Sight :=
  walkRay m LOS_RANGE owner position
    (rayTiles m position eyesPos (rayEnd position o).1 (rayEnd position o).2 (z : Int)) {} s

/-- The rays to one end column, one per level of the map. -/
def castColumn (m : VisionMap) (LOS_RANGE : Int) (owner : String) (position eyesPos : Vec3f)
    (s : Sight) (o : Int × Int) : Sight :=
  (List.range s.battle.size_z).foldl
    (fun acc z => castRay m LOS_RANGE owner position eyesPos acc o z) s

/-- The loop `for (int i = -13; i < 14; i++)` of `updateUnitVision` over the
end columns of a facing. -/
def castRays (m : VisionMap) (LOS_RANGE : Int) (owner : String) (position eyesPos : Vec3f)
    (facing : Vec2) (s : Sight) : Sight :=
  (rayOffsets facing).foldl
    (fun acc o => castColumn m LOS_RANGE owner position eyesPos acc o) s

/-- The loop "Add newly visible units to owner's list". -/
def addNewlyVisible (lastVisibleUnits visibleUnits index : List String) : List String :=
  visibleUnits.foldl
    (fun idx vu => if vu ∈ lastVisibleUnits then idx else List.insert vu idx) index

/-- Local `someoneElseSees`: some unit of the battle with the same owner has
`lvu` in its visible units. The loop runs over all units of the battle, the
updated unit (with its new set) among them. -/
def someoneElseSees (owner : String) (others : List BattleUnitView)
    (visibleUnits : List String) (lvu : String) : Bool :=
  decide (lvu ∈ visibleUnits) ||
    others.any (fun w => decide (w.owner = owner) && decide (lvu ∈ w.visibleUnits))

/-- The loop "See if someone else sees a unit we stopped seeing". -/
def eraseUnseen (owner : String) (others : List BattleUnitView)
    (lastVisibleUnits visibleUnits index : List String) : List String :=
  lastVisibleUnits.foldl
    (fun idx lvu =>
      if lvu ∈ visibleUnits then idx
      else if someoneElseSees owner others visibleUnits lvu then idx
      else idx.filter (fun x => decide (x ≠ lvu)))
    index

/-- The sight the unit gathers: nothing unless it is conscious. -/
def gatherSight (cb : Services Battle) (gt : GameTime) (LOS_RANGE : Int) (m : VisionMap)
    (u : BattleUnit Battle) : Sight :=
  if isConscious gt u then
    castRays m LOS_RANGE u.owner u.position (cb.getMuzzleLocation u) u.facing
      { battle := seeLosBlock m u.state u.owner u.position, visibleUnits := [] }
  else
    { battle := u.state, visibleUnits := [] }

/-- BattleUnit::updateUnitVision(state), on the battle of `Battle`. -/
def updateUnitVisionOn (cb : Services Battle) (gt : GameTime) (LOS_RANGE : Int)
    (m : VisionMap) (u : BattleUnit Battle) : BattleUnit Battle :=
  { u with
    visibleUnits := (gatherSight cb gt LOS_RANGE m u).visibleUnits
    state :=
      { (gatherSight cb gt LOS_RANGE m u).battle with
        visibleUnits :=
          Function.update (gatherSight cb gt LOS_RANGE m u).battle.visibleUnits u.owner
            (eraseUnseen u.owner (gatherSight cb gt LOS_RANGE m u).battle.units u.visibleUnits
              (gatherSight cb gt LOS_RANGE m u).visibleUnits
              (addNewlyVisible u.visibleUnits (gatherSight cb gt LOS_RANGE m u).visibleUnits
                ((gatherSight cb gt LOS_RANGE m u).battle.visibleUnits u.owner))) } }

/-! ## The fatal-wound step of `update` -/

/-- The healing of a wound in the loop over `fatalWounds`: `if (isHealing &&
healingBodyPart == w.first) { w.second--; agent->modified_stats.health += 4;
agent->modified_stats.health = std::min(agent->modified_stats.health,
agent->current_stats.health); }`. -/
def healWound (u : BattleUnit G) (part : BodyPart) : BattleUnit G :=
  if u.isHealing = true ∧ u.healingBodyPart = part then
    -- healing fatal wound heals 3hp, as well as 1hp we just dealt in damage
    { u with fatalWounds := Function.update u.fatalWounds part (u.fatalWounds part - 1)
             health := min (u.health + 4) u.current_stats_health }
  else u

/-- The body of the loop `for (auto &w : fatalWounds)` of the fatal-wound step
of `update`, for the entry of the body part `part`. -/
def woundEffect (cb : Services G) (gt : GameTime) (u : BattleUnit G) (part : BodyPart) :
    BattleUnit G :=
  if u.fatalWounds part > 0 then
    healWound (dealDamage cb gt u (u.fatalWounds part) false BodyPart.Body 0) part
  else u

/-- The loop `for (auto &w : fatalWounds)`, run once per wound effect period
(each `TICKS_PER_UNIT_EFFECT` accumulated ticks); `parts` lists the body parts
in the order of the map, that of the enumeration `BodyPart`, which is declared
outside the analysed sources. -/
def woundEffects (cb : Services G) (gt : GameTime) (parts : List BodyPart)
    (u : BattleUnit G) : BattleUnit G :=
  parts.foldl (woundEffect cb gt) u

/-! ## Giving way -/

/-- BattleUnit::isStatic. -/
def isStatic (u : BattleUnit G) : Bool :=
  if u.falling then false
  else if (match u.missions with
      | m :: _ => decide (m.type = MissionType.AcquireTU)
      | [] => false) then true
  else
    !u.missions.any (fun m =>
      match m.type with
      | MissionType.ChangeBodyState => true
      | MissionType.ReachGoal => true
      | MissionType.ThrowItem => true
      | MissionType.Turn => true
      | MissionType.GotoLocation => true
      | MissionType.AcquireTU => false
      | MissionType.DropItem => false
      | MissionType.RestartNextMission => false
      | MissionType.Snooze => false
      | MissionType.Teleport => false)

/-- BattleUnit::isBusy. -/
def isBusy (u : BattleUnit G) : Bool :=
  !isStatic u || isAttacking u

/-- The entries of the map `facing_dir_map` of `requestGiveWay`. -/
def facingDirEntries : List (Vec2 × Nat) :=
  [({ x := 0, y := -1 }, 0), ({ x := 1, y := -1 }, 1), ({ x := 1, y := 0 }, 2),
   ({ x := 1, y := 1 }, 3), ({ x := 0, y := 1 }, 4), ({ x := -1, y := 1 }, 5),
   ({ x := -1, y := 0 }, 6), ({ x := -1, y := -1 }, 7)]

/-- The entries of the map `dir_facing_map` of `requestGiveWay`. -/
def dirFacingEntries : List (Nat × Vec2) :=
  [(0, { x := 0, y := -1 }), (1, { x := 1, y := -1 }), (2, { x := 1, y := 0 }),
   (3, { x := 1, y := 1 }), (4, { x := 0, y := 1 }), (5, { x := -1, y := 1 }),
   (6, { x := -1, y := 0 }), (7, { x := -1, y := -1 })]

/-- The lookup `facing_dir_map.at(facing)`; `none` stands for the exception
`std::out_of_range`. -/
def facing_dir_map (facing : Vec2) : Option Nat :=
  (facingDirEntries.find? (fun e => decide (e.1 = facing))).map Prod.snd

/-- The lookup `dir_facing_map.at(dir)`; `none` stands for the exception
`std::out_of_range`. -/
def dir_facing_map (dir : Nat) : Option Vec2 :=
  (dirFacingEntries.find? (fun e => decide (e.1 = dir))).map Prod.snd

/-- Local `nextPos` of `requestGiveWay`: the tile of the position moved by
`nextFacing`, `{position.x + nextFacing.x, position.y + nextFacing.y,
position.z}` converted to integers. -/
def nextPosOf (u : BattleUnit G) (nextFacing : Vec2) : Vec3 :=
  { x := truncToInt (u.position.x + (nextFacing.x : ℚ))
    y := truncToInt (u.position.y + (nextFacing.y : ℚ))
    z := truncToInt u.position.z }

/-- The body of the inner loop of `requestGiveWay` for the direction
`nextFacings[j]`: the facing is appended to the request data unless its tile is
the requestor's or lies on the planned path. -/
def giveWayTry (u requestor : BattleUnit G) (plannedPath : List Vec3) (data : List Vec2)
    (dir : Nat) : Option (List Vec2) :=
  match dir_facing_map dir with
  | none => none
  | some nextFacing =>
    if nextPosOf u nextFacing = requestor.position.toTile ∨
        nextPosOf u nextFacing ∈ plannedPath then
      some data
    else
      some (data ++ [nextFacing])

/-- The inner loop `for (int j = 0; j <= limit; j++)` of `requestGiveWay`. -/
def giveWayInner (u requestor : BattleUnit G) (plannedPath : List Vec3)
    (nextFacings : Nat × Nat) (limit : Nat) (data : List Vec2) : Option (List Vec2) :=
  (giveWayTry u requestor plannedPath data nextFacings.1).bind
    (fun data1 =>
      if limit = 0 then some data1
      else giveWayTry u requestor plannedPath data1 nextFacings.2)

/-- The outer loop `for (int i = 0; i <= 4; i++)` of `requestGiveWay`, run on
the values of `i` still to come. -/
def giveWayOuter (u requestor : BattleUnit G) (plannedPath : List Vec3) :
    List Nat → Nat × Nat → List Vec2 → Option (List Vec2)
  | [], _, data => some data
  | i :: more, nextFacings, data =>
    (giveWayInner u requestor plannedPath nextFacings (if i = 0 ∨ i = 4 then 0 else 1) data).bind
      (fun data1 =>
        giveWayOuter u requestor plannedPath more
          (if nextFacings.1 = 7 then 0 else nextFacings.1 + 1,
           if nextFacings.2 = 0 then 7 else nextFacings.2 - 1)
          data1)

/-- BattleUnit::requestGiveWay; `none` stands for the exception of a failed
map lookup. -/
def requestGiveWay (cb : Services G) (u requestor : BattleUnit G) (plannedPath : List Vec3)
    (pos : Vec3) : Option (BattleUnit G) :=
  -- If asked already or busy - cannot give way
  if !u.giveWayRequestData.isEmpty || isBusy u then some u
  -- If unit is prone and we're trying to go into it's legs
  else if u.current_body_state = BodyState.Prone ∧ cb.getOwningTilePosition u ≠ pos then
    some { u with giveWayRequestData := u.giveWayRequestData ++ [{ x := 0, y := 0 }] }
  -- If unit is not prone or we're trying to go into it's body
  else
    match facing_dir_map u.facing with
    | none => none
    | some dir =>
      (giveWayOuter u requestor plannedPath [0, 1, 2, 3, 4] (dir, dir) u.giveWayRequestData).map
        (fun data => { u with giveWayRequestData := data })

/-! ## Group movement -/

/-- The free function `rotate(vec, rotation)`. -/
def rotate (vec : Vec3) (rotation : Int) : Vec3 :=
  if rotation = 1 then { x := -vec.y, y := vec.x, z := vec.z }
  else if rotation = 2 then { x := -vec.x, y := -vec.y, z := vec.z }
  else if rotation = 3 then { x := vec.y, y := -vec.x, z := vec.z }
  else vec

/-- The list `targetOffsetsDiagonal` of `groupMove`. -/
def targetOffsetsDiagonal : List Vec3 :=
  [{ x := -1, y := -1, z := 0 }, { x := 1, y := 1, z := 0 }, { x := -1, y := 1, z := 0 },
   { x := -2, y := 0, z := 0 }, { x := 0, y := 2, z := 0 }, { x := -2, y := 2, z := 0 },
   { x := -3, y := 1, z := 0 }, { x := -1, y := 3, z := 0 }, { x := -4, y := 0, z := 0 },
   { x := 0, y := 4, z := 0 }, { x := -3, y := -1, z := 0 }, { x := 1, y := 3, z := 0 },
   { x := -2, y := -2, z := 0 }, { x := 2, y := 2, z := 0 }, { x := 1, y := -1, z := 0 },
   { x := 0, y := -2, z := 0 }, { x := 2, y := 0, z := 0 }, { x := -1, y := -3, z := 0 },
   { x := 3, y := 1, z := 0 }, { x := 2, y := -2, z := 0 }, { x := 1, y := -3, z := 0 },
   { x := 3, y := -1, z := 0 }, { x := 0, y := -4, z := 0 }, { x := 4, y := 0, z := 0 }]

/-- The entries of the map `rotationDiagonal` of `groupMove`. -/
def rotationDiagonalEntries : List (Vec2 × Int) :=
  [({ x := 1, y := -1 }, 0), ({ x := 1, y := 1 }, 1), ({ x := -1, y := 1 }, 2),
   ({ x := -1, y := -1 }, 3)]

/-- The lookup `rotationDiagonal.at(dir)`; `none` stands for the exception
`std::out_of_range`. -/
def rotationDiagonal (dir : Vec2) : Option Int :=
  (rotationDiagonalEntries.find? (fun e => decide (e.1 = dir))).map Prod.snd

/-- The list `targetOffsetsLinear` of `groupMove`. -/
def targetOffsetsLinear : List Vec3 :=
  [{ x := -1, y := 1, z := 0 }, { x := 1, y := 1, z := 0 }, { x := 0, y := 2, z := 0 },
   { x := -2, y := 2, z := 0 }, { x := 2, y := 2, z := 0 }, { x := -1, y := 3, z := 0 },
   { x := 1, y := 3, z := 0 }, { x := 0, y := 4, z := 0 }, { x := -3, y := 1, z := 0 },
   { x := 3, y := 1, z := 0 }, { x := -2, y := 0, z := 0 }, { x := 2, y := 0, z := 0 },
   { x := -4, y := 0, z := 0 }, { x := 4, y := 0, z := 0 }, { x := -1, y := -1, z := 0 },
   { x := 1, y := -1, z := 0 }, { x := -3, y := -1, z := 0 }, { x := 3, y := -1, z := 0 },
   { x := 0, y := -2, z := 0 }, { x := -2, y := -2, z := 0 }, { x := 2, y := -2, z := 0 },
   { x := -1, y := -3, z := 0 }, { x := 1, y := -3, z := 0 }, { x := 0, y := -4, z := 0 }]

/-- The entries of the map `rotationLinear` of `groupMove`. -/
def rotationLinearEntries : List (Vec2 × Int) :=
  [({ x := 0, y := -1 }, 0), ({ x := 1, y := 0 }, 1), ({ x := 0, y := 1 }, 2),
   ({ x := -1, y := 0 }, 3)]

/-- The lookup `rotationLinear.at(dir)`; `none` stands for the exception
`std::out_of_range`. -/
def rotationLinear (dir : Vec2) : Option Int :=
  (rotationLinearEntries.find? (fun e => decide (e.1 = dir))).map Prod.snd

/-- Sum of two tiles, `Vec3<int>` addition. -/
def Vec3.add (a b : Vec3) : Vec3 :=
  { x := a.x + b.x, y := a.y + b.y, z := a.z + b.z }

/-- The trial mission of a unit in the leader loop of `groupMove`: the pointer
`mission` refers to the entry that `addMission` put at the back of the queue,
a GotoLocation mission being emplaced at the back. -/
def trialMission (u : BattleUnit G) : Option BattleUnitMission :=
  u.missions.getLast?

/-- The call `mission->start(state, *curUnit)` of the leader loop on the trial
mission. -/
def startTrial (cb : Services G) (u : BattleUnit G) : BattleUnit G :=
  match trialMission u with
  | none => u
  | some m =>
    { toUnitVars := (cb.start u m).vars
      missions := u.missions.dropLast ++ [(cb.start u m).mission] }

/-- The assignment `mission->cancelled = true` on the trial mission of the
unit. -/
def cancelTrial (u : BattleUnit G) : BattleUnit G :=
  match trialMission u with
  | none => u
  | some m => { u with missions := u.missions.dropLast ++ [{ m with cancelled := true }] }

/-- The assignment `leadMission->cancelled = true` on the unit at the given
place of the list. -/
def cancelTrialAt : List (BattleUnit G) → Nat → List (BattleUnit G)
  | [], _ => []
  | u :: rest, 0 => cancelTrial u :: rest
  | u :: rest, i + 1 => u :: cancelTrialAt rest i

/-- Local `distance` of the leader loop: `max(max(absX, absY), absZ) + absX +
absY + absZ`. -/
def leaderDistance (targetLocation unitTarget : Vec3) : Int :=
  max (max ((targetLocation.x - unitTarget.x).natAbs : Int)
        ((targetLocation.y - unitTarget.y).natAbs : Int))
      ((targetLocation.z - unitTarget.z).natAbs : Int)
    + ((targetLocation.x - unitTarget.x).natAbs : Int)
    + ((targetLocation.y - unitTarget.y).natAbs : Int)
    + ((targetLocation.z - unitTarget.z).natAbs : Int)

/-- The variables of the leader loop of `groupMove`: the game state, the
units gone through that stay in `units` (in order), the units erased from it,
the place of `leadUnit` among the former (`leadMission` is its trial mission)
and `minDistance`. -/
structure LeaderSearch (G : Type) where
  state : G
  tried : List (BattleUnit G) := []
  removed : List (BattleUnit G) := []
  lead : Option Nat := none
  minDistance : Int := 2147483647

/-- The block `if (distance < minDistance) { ... }` of the leader loop, for
the unit about to take the place `s.tried.length`. -/
def rememberLeader (s : LeaderSearch G) (distance : Int) : LeaderSearch G :=
  if distance < s.minDistance then
    -- Cancel last leader's mission
    { s with
      tried :=
        match s.lead with
        | some i => cancelTrialAt s.tried i
        | none => s.tried
      minDistance := distance
      lead := some s.tried.length }
  else s

/-- The head of the body of the leader loop: the trial mission is created and
given to the unit by `setMission`, and started when it was added. The answer
is `missionAdded` with the unit. -/
def tryUnit (cb : Services G) (targetLocation : Vec3) (state : G) (curUnit : BattleUnit G) :
    Bool × BattleUnit G :=
  if (setMission cb { curUnit with state := state }
      (some (cb.gotoLocation { curUnit with state := state } targetLocation))).1 then
    (true, startTrial cb
      (setMission cb { curUnit with state := state }
        (some (cb.gotoLocation { curUnit with state := state } targetLocation))).2)
  else
    (false,
      (setMission cb { curUnit with state := state }
        (some (cb.gotoLocation { curUnit with state := state } targetLocation))).2)

/-- The last tile of the planned path of the trial mission,
`mission->currentPlannedPath.back()`, if the path is not empty. -/
def pathEnd (u : BattleUnit G) : Option Vec3 :=
  (trialMission u).bind (fun mission => mission.currentPlannedPath.getLast?)

/-- The rest of the body of the leader loop for a unit whose mission was
added: the variables after it and whether the loop is left by `break`. -/
def considerUnit (targetLocation : Vec3) (s : LeaderSearch G) (u : BattleUnit G) :
    LeaderSearch G × Bool :=
  match pathEnd u with
  | some unitTarget =>
    if leaderDistance targetLocation unitTarget = 0 then
      -- Unit could reach target, chosen to be the leader
      ({ rememberLeader s (leaderDistance targetLocation unitTarget) with
         state := u.state
         tried := (rememberLeader s (leaderDistance targetLocation unitTarget)).tried ++ [u] },
       true)
    else
      ({ rememberLeader s (leaderDistance targetLocation unitTarget) with
         state := u.state
         tried :=
           (rememberLeader s (leaderDistance targetLocation unitTarget)).tried ++
             [cancelTrial u] },
       false)
  | none =>
    ({ s with state := u.state, tried := s.tried ++ [cancelTrial u] }, false)

/-- The body of the leader loop for the unit `curUnit`: the variables after
it and whether the loop is left by `break`. -/
def leaderStep (cb : Services G) (targetLocation : Vec3) (s : LeaderSearch G)
    (curUnit : BattleUnit G) : LeaderSearch G × Bool :=
  if (tryUnit cb targetLocation s.state curUnit).1 then
    considerUnit targetLocation s (tryUnit cb targetLocation s.state curUnit).2
  else
    -- Unit cannot add a movement mission - remove him
    ({ s with
       state := (tryUnit cb targetLocation s.state curUnit).2.state
       removed := s.removed ++ [(tryUnit cb targetLocation s.state curUnit).2] },
     false)

/-- Outcome of the leader loop: its variables, the units after `itUnit` that
were not gone through, and whether the loop was left by `break`. -/
structure LeaderOutcome (G : Type) where
  search : LeaderSearch G
  untried : List (BattleUnit G)
  reached : Bool

/-- The loop `while (itUnit != units.end())` of `groupMove` that looks for the
leader, run on the units from `itUnit` on. -/
def leaderLoop (cb : Services G) (targetLocation : Vec3) :
    List (BattleUnit G) → LeaderSearch G → LeaderOutcome G
  | [], s => { search := s, untried := [], reached := false }
  | curUnit :: rest, s =>
    if (leaderStep cb targetLocation s curUnit).2 then
      { search := (leaderStep cb targetLocation s curUnit).1, untried := rest, reached := true }
    else
      leaderLoop cb targetLocation rest (leaderStep cb targetLocation s curUnit).1

/-- The unit `leadUnit` after the leader loop, if one was chosen. -/
def LeaderSearch.leadUnit (s : LeaderSearch G) : Option (BattleUnit G) :=
  s.lead.bind (fun i => s.tried[i]?)

/-- The element `*fromIt` once `fromIt` has been advanced `min(3, size)` times
from `rbegin()`; `none` when the iterator has reached `rend()`. -/
def approachFrom (path : List Vec3) : Option Vec3 :=
  path.reverse[min 3 path.length]?

/-- Local `dir` of `groupMove`: the clamped difference between the target and
the tile the leader approaches it from, north when both are zero. -/
def approachDir (targetLocation fromTile : Vec3) : Vec2 :=
  if clamp (targetLocation.x - fromTile.x) (-1) 1 = 0 ∧
      clamp (targetLocation.y - fromTile.y) (-1) 1 = 0 then
    { x := clamp (targetLocation.x - fromTile.x) (-1) 1, y := -1 }
  else
    { x := clamp (targetLocation.x - fromTile.x) (-1) 1
      y := clamp (targetLocation.y - fromTile.y) (-1) 1 }

/-- Local `diagonal` of `groupMove`. -/
def diagonalDir (dir : Vec2) : Bool :=
  decide (dir.x ≠ 0) && decide (dir.y ≠ 0)

/-- Local `targetOffsets` of `groupMove`. -/
def formationOffsets (dir : Vec2) : List Vec3 :=
  if diagonalDir dir then targetOffsetsDiagonal else targetOffsetsLinear

/-- Local `rotation` of `groupMove`; `none` stands for the exception of a
failed lookup. -/
def formationRotation (dir : Vec2) : Option Int :=
  if diagonalDir dir then rotationDiagonal dir else rotationLinear dir

/-- The bounds test of the follower loop: the tile lies inside the map. -/
def insideMap (size tile : Vec3) : Bool :=
  !(decide (tile.x < 0) || decide (tile.x ≥ size.x) ||
    decide (tile.y < 0) || decide (tile.y ≥ size.y) ||
    decide (tile.z < 0) || decide (tile.z ≥ size.z))

/-- Local `costLimit` of the follower loop, `1.50f * 2.0f * (float)(max(|x|,
|y|) + |x| + |y|)`. -/
def pathCostLimit (offset : Vec3) : ℚ :=
  3 / 2 * 2 *
    ((max (offset.x.natAbs : Int) (offset.y.natAbs : Int) + (offset.x.natAbs : Int) +
      (offset.y.natAbs : Int) : Int) : ℚ)

/-- The loop `while (itOffset != targetOffsets.end())` of the follower loop
for one unit, run on the offsets from `itOffset` on: the unit after it, the
offsets left and the tile the unit was sent to, if any. -/
def assignOffset (cb : Services G) (leadUnit : BattleUnit G) (size targetLocation : Vec3)
    (rotation : Int) (unit : BattleUnit G) :
    List Vec3 → BattleUnit G × List Vec3 × Option Vec3
  | [] => (unit, [], none)
  | offset :: more =>
    if !insideMap size (targetLocation.add (rotate offset rotation)) then
      -- Location was outside map bounds, trying next one
      assignOffset cb leadUnit size targetLocation rotation unit more
    else if (cb.findShortestPath unit.state leadUnit targetLocation
          (targetLocation.add (rotate offset rotation))
          (pathCostLimit (rotate offset rotation))).getLast? =
        some (targetLocation.add (rotate offset rotation)) then
      -- Location checks out, pathing to it
      ((setMission cb unit
          (some (cb.gotoLocation unit (targetLocation.add (rotate offset rotation))))).2,
        more, some (targetLocation.add (rotate offset rotation)))
    else
      -- Location was unreachable, trying next one
      assignOffset cb leadUnit size targetLocation rotation unit more

/-- The loop `for (auto unit : units)` of `groupMove` that paths every other
unit to the areas around the target: each unit with the tile it was sent to,
if any, and the game state at the end. -/
def followerLoop (cb : Services G) (leadUnit : BattleUnit G) (size targetLocation : Vec3)
    (rotation : Int) :
    List (BattleUnit G) → List Vec3 → G → List (BattleUnit G × Option Vec3) × G
  | [], _, state => ([], state)
  | unit :: more, offsets, state =>
    if offsets.isEmpty then
      -- Ran out of location offsets, exiting
      ((unit :: more).map (fun u => (u, none)), state)
    else
      (((assignOffset cb leadUnit size targetLocation rotation { unit with state := state }
            offsets).1,
          (assignOffset cb leadUnit size targetLocation rotation { unit with state := state }
            offsets).2.2) ::
        (followerLoop cb leadUnit size targetLocation rotation more
          (assignOffset cb leadUnit size targetLocation rotation { unit with state := state }
            offsets).2.1
          (assignOffset cb leadUnit size targetLocation rotation { unit with state := state }
            offsets).1.state).1,
       (followerLoop cb leadUnit size targetLocation rotation more
          (assignOffset cb leadUnit size targetLocation rotation { unit with state := state }
            offsets).2.1
          (assignOffset cb leadUnit size targetLocation rotation { unit with state := state }
            offsets).1.state).2)

/-- What `groupMove` leaves behind: the game state, the leader if one was
chosen, the target (the end of the leader's path), the other units with the
tile each was sent to, and the units erased from the list. -/
structure GroupMoveOutcome (G : Type) where
  state : G
  leadUnit : Option (BattleUnit G) := none
  targetLocation : Vec3
  followers : List (BattleUnit G × Option Vec3) := []
  removed : List (BattleUnit G) := []

/-- The part of `groupMove` after the leader loop, for the leader `leadUnit`
whose planned path is `path` and ends on `target`; `none` stands for a read
through `rend()` or the exception of a failed lookup. -/
def pathFollowers (cb : Services G) (o : LeaderOutcome G) (leadUnit : BattleUnit G)
    (path : List Vec3) (target : Vec3) : Option (GroupMoveOutcome G) :=
  match approachFrom path with
  | none => none
  | some fromTile =>
    match formationRotation (approachDir target fromTile) with
    | none => none
    | some rotation =>
      some
        { state :=
            (followerLoop cb leadUnit (cb.mapSize o.search.state) target rotation
              (cb.sortByDistance leadUnit
                ((o.search.tried ++ o.untried).filter (fun u => decide (u.id ≠ leadUnit.id)))
                target)
              (formationOffsets (approachDir target fromTile)) o.search.state).2
          leadUnit := some leadUnit
          targetLocation := target
          followers :=
            (followerLoop cb leadUnit (cb.mapSize o.search.state) target rotation
              (cb.sortByDistance leadUnit
                ((o.search.tried ++ o.untried).filter (fun u => decide (u.id ≠ leadUnit.id)))
                target)
              (formationOffsets (approachDir target fromTile)) o.search.state).1
          removed := o.search.removed }

/-- BattleUnit::groupMove, from the game state and the selected units. -/
def groupMove (cb : Services G) (state : G) (selectedUnits : List (BattleUnit G))
    (targetLocation : Vec3) (_demandGiveWay : Bool) : Option (GroupMoveOutcome G) :=
  if selectedUnits.isEmpty then
    some { state := state, targetLocation := targetLocation }
  else
    match (leaderLoop cb targetLocation (cb.sortByStaticDistance selectedUnits targetLocation)
        { state := state }).search.leadUnit with
    | none =>
      -- Noone could path to target, aborting
      some
        { state := (leaderLoop cb targetLocation
            (cb.sortByStaticDistance selectedUnits targetLocation) { state := state }).search.state
          targetLocation := targetLocation
          followers := (leaderLoop cb targetLocation
            (cb.sortByStaticDistance selectedUnits targetLocation)
            { state := state }).search.tried.map (fun u => (u, none))
          removed := (leaderLoop cb targetLocation
            (cb.sortByStaticDistance selectedUnits targetLocation)
            { state := state }).search.removed }
    | some leadUnit =>
      match trialMission leadUnit, pathEnd leadUnit with
      | some leadMission, some target =>
        -- In case we couldn't reach it, change our target
        pathFollowers cb
          (leaderLoop cb targetLocation (cb.sortByStaticDistance selectedUnits targetLocation)
            { state := state })
          leadUnit leadMission.currentPlannedPath target
      | _, _ => none

/-! ## Serialization: the bool-vector value of a node -/

/-- The exception thrown by the readers of a serialization node; for the
bool-vector reader it carries the character of the message `Unknown char '%c'
in bool vector`. -/
inductive SerializationException where
  | unknownChar (c : Char)
  deriving DecidableEq, Repr

/-- An XML serialization node, as far as its value goes: `text` is the text of
the pugixml node, listed `char` by `char`. -/
structure XMLSerializationNode where
  text : List Char := []
  deriving DecidableEq, Repr

/-- XMLSerializationNode::getValue. -/
def XMLSerializationNode.getValue (node : XMLSerializationNode) : List Char :=
  node.text

/-- XMLSerializationNode::setValue. -/
def XMLSerializationNode.setValue (_node : XMLSerializationNode) (str : List Char) :
    XMLSerializationNode :=
  { text := str }

/-- The loop of `getValueBoolVector` over the characters of the string, from
the first on: '1' gives true, '0' gives false, any other character throws. -/
def readBoolVector : List Char → Except SerializationException (List Bool)
  | [] => Except.ok []
  | c :: rest =>
    if c = '1' then (readBoolVector rest).map (List.cons true)
    else if c = '0' then (readBoolVector rest).map (List.cons false)
    else Except.error (SerializationException.unknownChar c)

/-- XMLSerializationNode::getValueBoolVector. -/
def XMLSerializationNode.getValueBoolVector (node : XMLSerializationNode) :
    Except SerializationException (List Bool) :=
  readBoolVector node.getValue

/-- The loop of `setValueBoolVector`: the character written for each
element. -/
def writeBoolVector (vec : List Bool) : List Char :=
  vec.map (fun b => if b then '1' else '0')

/-- XMLSerializationNode::setValueBoolVector. -/
def XMLSerializationNode.setValueBoolVector (node : XMLSerializationNode) (vec : List Bool) :
    XMLSerializationNode :=
  node.setValue (writeBoolVector vec)

/-! ## Vocabulary of the statements -/

/-- The body-pose predicate: ticks remain exactly when the body is between two
states. -/
def BodyPoseOK (v : UnitVars G) : Prop :=
  0 < v.body_animation_ticks_remaining ↔ v.current_body_state ≠ v.target_body_state

/-- The hand-pose predicate: ticks remain exactly when the hands are between
two states. -/
def HandPoseOK (v : UnitVars G) : Prop :=
  0 < v.hand_animation_ticks_remaining ↔ v.current_hand_state ≠ v.target_hand_state

/-- The mission callbacks used by the body step keep the body-pose predicate. -/
def KeepsBodyPose (cb : Services G) : Prop :=
  (∀ u m, BodyPoseOK u.toUnitVars → BodyPoseOK (cb.isFinished u m).vars) ∧
  (∀ u m, BodyPoseOK u.toUnitVars → BodyPoseOK (cb.start u m).vars) ∧
  (∀ u m, BodyPoseOK u.toUnitVars → BodyPoseOK (cb.getNextBodyState u m).vars)

/-- The sequences run on death or loss of consciousness leave the vitals
alone: health, stun ticks, wound counts and the destroyed flag. -/
def KeepsVitals (cb : Services G) : Prop :=
  ∀ u, (cb.dropDown u).health = u.health ∧
    (cb.dropDown u).stunDamageInTicks = u.stunDamageInTicks ∧
    (cb.dropDown u).fatalWounds = u.fatalWounds ∧
    (cb.dropDown u).destroyed = u.destroyed


/-- The front mission `m` of `u` does not report finished: the query answers
false and, being a query, leaves the game state, the unit and the mission as
they are. -/
def ReportsUnfinished (cb : Services G) (u : BattleUnit G) (m : BattleUnitMission) : Prop :=
  cb.isFinished u m = { finished := false, vars := u.toUnitVars, mission := m }

/-- The mission callbacks never change the tag of the mission they run on. -/
def TagPreserving (cb : Services G) : Prop :=
  (∀ u m, (cb.isFinished u m).mission.type = m.type) ∧
  (∀ u m, (cb.start u m).mission.type = m.type)

/-- Number of ReachGoal-tagged entries of a queue. -/
def reachGoalCount (q : List BattleUnitMission) : Nat :=
  q.countP (fun m => decide (m.type = MissionType.ReachGoal))

/-- Sum of the prepaid costs of a list of missions. -/
def prepaidSum (q : List BattleUnitMission) : Int :=
  (q.map (fun m => m.costPaidUpFront)).sum

/-- The unit in which `cancelMissions` has removed every mission of the queue
`m :: rest` of `u1`, all prepaid costs credited. -/
def allCancelled (u1 : BattleUnit G) (m : BattleUnitMission) (rest : List BattleUnitMission) :
    BattleUnit G :=
  { u1 with time_units := u1.time_units + prepaidSum (m :: rest), missions := [] }

/-- The unit `u2` (whose queue is empty) once the ReachGoal mission made by the
factory is queued and started. -/
def reachGoalSynthesized (cb : Services G) (u2 : BattleUnit G) : BattleUnit G :=
  { toUnitVars := (cb.start { u2 with missions := [cb.reachGoal u2] } (cb.reachGoal u2)).vars
    missions := [(cb.start { u2 with missions := [cb.reachGoal u2] } (cb.reachGoal u2)).mission] }

/-- A call of the public queue interface. -/
inductive QueueCall where
  | setMission (mission : Option BattleUnitMission)
  | cancelMissions

/-- The unit after one call of the queue interface. -/
def applyCall (cb : Services G) (u : BattleUnit G) : QueueCall → BattleUnit G
  | QueueCall.setMission mission => (setMission cb u mission).2
  | QueueCall.cancelMissions => (cancelMissions cb u).2

/-- The unit after a sequence of calls, first call first. -/
def applyCalls (cb : Services G) (u : BattleUnit G) (calls : List QueueCall) : BattleUnit G :=
  calls.foldl (applyCall cb) u

/-- The mission callbacks return the mission they run on as it was. -/
def MissionPreserving (cb : Services G) : Prop :=
  (∀ u m, (cb.isFinished u m).mission = m) ∧ (∀ u m, (cb.start u m).mission = m)

/-- A negative answer of `isFinished` has no side effect. -/
def QueryPure (cb : Services G) : Prop :=
  ∀ u m, (cb.isFinished u m).finished = false →
    cb.isFinished u m = { finished := false, vars := u.toUnitVars, mission := m }

/-- Specification of a run of `popFinishedMissions`, after section 4.1 of the
spec: "while the front mission reports finished, pop it and start the new front
(if any); returns true if the unit retreated during this process".
`PopRun cb u res` holds when the run that begins in `u` ends with result `res`. -/
inductive PopRun (cb : Services G) : BattleUnit G → Bool × BattleUnit G → Prop where
  /-- Nothing is queued: the answer is false and nothing happens. -/
  | idle (u : BattleUnit G) (hq : u.missions = []) : PopRun cb u (false, u)
  /-- The front mission does not report finished: the answer is false. -/
  | unfinished (u : BattleUnit G) (m : BattleUnitMission) (rest : List BattleUnitMission)
      (hq : u.missions = m :: rest) (hf : (cb.isFinished u m).finished = false) :
      PopRun cb u (false, { toUnitVars := (cb.isFinished u m).vars
                            missions := (cb.isFinished u m).mission :: rest })
  /-- The front mission reports finished and is popped; the unit is retreated:
  the answer is true and nothing else is popped or started. -/
  | retreated (u : BattleUnit G) (m : BattleUnitMission) (rest : List BattleUnitMission)
      (hq : u.missions = m :: rest) (hf : (cb.isFinished u m).finished = true)
      (hr : (cb.isFinished u m).vars.retreated = true) :
      PopRun cb u (true, { toUnitVars := (cb.isFinished u m).vars, missions := rest })
  /-- The only mission reports finished and is popped: the unit goes idle. -/
  | last (u : BattleUnit G) (m : BattleUnitMission)
      (hq : u.missions = [m]) (hf : (cb.isFinished u m).finished = true)
      (hr : (cb.isFinished u m).vars.retreated = false) :
      PopRun cb u (false, { toUnitVars := (cb.isFinished u m).vars, missions := [] })
  /-- The front mission reports finished and is popped; the mission `n` behind
  it becomes the front, is started, and the run goes on from there. -/
  | next (u : BattleUnit G) (m n : BattleUnitMission) (rest : List BattleUnitMission)
      (res : Bool × BattleUnit G)
      (hq : u.missions = m :: n :: rest) (hf : (cb.isFinished u m).finished = true)
      (hr : (cb.isFinished u m).vars.retreated = false)
      (hrun : PopRun cb
        { toUnitVars :=
            (cb.start { toUnitVars := (cb.isFinished u m).vars, missions := n :: rest } n).vars
          missions :=
            (cb.start { toUnitVars := (cb.isFinished u m).vars, missions := n :: rest } n).mission
              :: rest } res) :
      PopRun cb u res

/-- Concrete services used to evaluate the operations on examples: the game
state counts the calls of `start`; a mission reports finished exactly when its
`cancelled` flag is set, and finishing a mission that carries the item "exit"
retreats the unit. -/
def demoServices : Services Nat where
  isFinished u m :=
    { finished := m.cancelled
      vars := if m.cancelled ∧ m.item = some "exit"
              then { u.toUnitVars with retreated := true } else u.toUnitVars
      mission := m }
  start u m := { vars := { u.toUnitVars with state := u.state + 1 }, mission := m }
  reachGoal _ := { type := MissionType.ReachGoal }
  restartNextMission _ := { type := MissionType.RestartNextMission }
  getFacingStep _ f := f
  getFacing _ _ _ := {}
  getFacingTo _ _ := {}
  getThrowCost _ := 0
  realTime _ := false
  updateUnitVision u := (u.state, u.visibleUnits)
  updateUnitVisibility u := u.state
  moveTileObject u := u.state

/-- Number of passes of the wound loop of `dealDamage` on the damage `d`. -/
def woundLoopPasses (d : Int) : Int := if d > 10 then (d - 1) / 10 else 0

/-- The unit on which `setMission` attempts cancellation: a Turn mission has
stopped the attack first. -/
def afterPreAction (u : BattleUnit G) (mission : BattleUnitMission) : BattleUnit G :=
  if mission.type = MissionType.Turn then stopAttacking u else u

/-- A unit at its goal with the given queue that is firing its left-hand
weapon at the unit "rival", the next target check being 5 ticks away. -/
def demoAttacking (q : List BattleUnitMission) : BattleUnit Nat :=
  { state := 0, missions := q, weaponStatus := WeaponStatus.FiringLeftHand
    targetingMode := TargetingMode.Unit, targetUnit := some "rival"
    ticksTillNextTargetCheck := 5 }

/-- A unit with the given health, stun ticks and destroyed flag. -/
def demoVitals (health stun : Int) (destroyed : Bool) : BattleUnit Nat :=
  { state := 0, health := health, stunDamageInTicks := stun, destroyed := destroyed }

/-- Concrete clock constants for the examples. -/
def demoGameTime : GameTime := { TICKS_PER_SECOND := 144, TICKS_PER_FRAME_UNIT := 8 }

/-- A concrete animation pack for the examples: every body change takes 2
frames, every hand change 1 frame, firing 3 frames. -/
def demoAnimationPack : BattleUnitAnimationPack where
  getFrameCountBody _ _ _ _ _ _ := 2
  getFrameCountHands _ _ _ _ _ _ := 1
  getFrameCountFiring _ _ _ _ := 3

/-- A mission of the given tag and prepaid cost, other members default. -/
def demoMission (t : MissionType) (cost : Int) : BattleUnitMission :=
  { type := t, costPaidUpFront := cost }

/-- A unit with the given queue, time units and at-goal flag. -/
def demoUnit (q : List BattleUnitMission) (tu : Int) (atGoal : Bool) : BattleUnit Nat :=
  { state := 0, missions := q, time_units := tu, atGoal := atGoal }

/-- A unit at its goal that faces (0, 1) and is turning to (1, 0). -/
def demoTurning (q : List BattleUnitMission) (tu : Int) : BattleUnit Nat :=
  { demoUnit q tu true with facing := { x := 0, y := 1 }, goalFacing := { x := 1, y := 0 } }

/-- The four cardinal facings. -/
def cardinalFacings : List Vec2 :=
  [{ x := 0, y := -1 }, { x := 1, y := 0 }, { x := 0, y := 1 }, { x := -1, y := 0 }]

/-- The eight compass facings, clockwise from north. -/
def compassFacings : List Vec2 :=
  [{ x := 0, y := -1 }, { x := 1, y := -1 }, { x := 1, y := 0 }, { x := 1, y := 1 },
   { x := 0, y := 1 }, { x := -1, y := 1 }, { x := -1, y := 0 }, { x := -1, y := -1 }]

/-- Depth of an offset along a cardinal facing. -/
def forwardDepth (facing : Vec2) (o : Int × Int) : Int :=
  o.1 * facing.x + o.2 * facing.y

/-- Offset across a cardinal facing: the coordinate on the other axis. -/
def lateralOffset (facing : Vec2) (o : Int × Int) : Int :=
  if facing.x = 0 then o.1 else o.2

/-- Lateral offsets -13 ... 13. -/
def lateralRange : List Int :=
  (List.range 27).map (fun (n : Nat) => (n : Int) - 13)

/-- Depth announced for a lateral offset: 20 less one per two tiles aside. -/
def depthAt (c2 : Int) : Int :=
  20 - ((c2.natAbs : Int) + 1) / 2

/-- Membership in the closed quarter circle centred on the facing. -/
def inFacingArc (facing : Vec2) (o : Int × Int) : Bool :=
  if isDiagonal facing then decide (0 ≤ o.1 * facing.x) && decide (0 ≤ o.2 * facing.y)
  else decide (((lateralOffset facing o).natAbs : Int) ≤ forwardDepth facing o)

/-- Reflection of an offset in the line through the origin along the facing. -/
def mirrorAbout (facing : Vec2) (o : Int × Int) : Int × Int :=
  if isDiagonal facing then (o.2 * facing.y * facing.x, o.1 * facing.x * facing.y)
  else (2 * forwardDepth facing o * facing.x - o.1, 2 * forwardDepth facing o * facing.y - o.2)

/-- The two quarter arcs of a diagonal facing: `(fx (20 - ⌈k/2⌉), fy k)` for
`k` up to 13 and `(fx k, fy (20 - ⌈k/2⌉))` for `k` up to 12. -/
def quarterArcs (facing : Vec2) : List (Int × Int) :=
  (List.range 14).map (fun (k : Nat) => (facing.x * (20 - (Int.ofNat ((k + 1) / 2))), facing.y * (k : Int)))
  ++ (List.range 13).map (fun (k : Nat) => (facing.x * (k : Int), facing.y * (20 - (Int.ofNat ((k + 1) / 2)))))

/-- A shield with 30 points of charge. -/
def demoShield : AEquipment :=
  { type := "shield", typeKind := AEquipmentKind.DisruptorShield,
    damage_modifier := "shieldTable", max_ammo := 100, ammo := 30 }

/-- A body armor with 12 points of durability. -/
def demoArmor : AEquipment :=
  { type := "armor", equippedSlotType := AEquipmentSlotType.ArmorBody,
    damage_modifier := "armorTable", max_ammo := 20, ammo := 12 }

/-- A damage type whose table doubles the damage done to shields. -/
def demoDamageType : DamageType :=
  { dealDamage := fun damage modifier => if modifier = "shieldTable" then 2 * damage else damage }

/-- A unit of 50 health wearing the demo armor, with or without the demo
shield. -/
def demoEquipped (shielded : Bool) : BattleUnit Nat :=
  { state := 0, health := 50,
    equipment := if shielded then [demoArmor, demoShield] else [demoArmor] }

/-- Mission start callbacks leave the firing status alone. -/
def KeepsWeaponStatus (cb : Services G) : Prop :=
  ∀ u m, (cb.start u m).vars.weaponStatus = u.weaponStatus

/-- The battle is turn based, whatever happens to the game state. -/
def TurnBasedBattle (cb : Services G) : Prop :=
  ∀ g, cb.realTime g = false

/-- One of the operations on the firing status: the three overloads of
`startAttacking`, `stopAttacking`, and the firing stage of `update`. -/
inductive AttackStep (cb : Services G) (gt : GameTime) (ap : BattleUnitAnimationPack)
    (losCheckInterval : Nat) : BattleUnit G → BattleUnit G → Prop where
  | start (u : BattleUnit G) (status : WeaponStatus) :
      AttackStep cb gt ap losCheckInterval u (startAttacking cb u status)
  | startUnit (u : BattleUnit G) (unit : String) (status : WeaponStatus) :
      AttackStep cb gt ap losCheckInterval u (startAttackingUnit cb u unit status)
  | startTile (u : BattleUnit G) (tile : Vec3) (status : WeaponStatus) (atGround : Bool) :
      AttackStep cb gt ap losCheckInterval u (startAttackingTile cb u tile status atGround)
  | stop (u : BattleUnit G) :
      AttackStep cb gt ap losCheckInterval u (stopAttacking u)
  | firing (u : BattleUnit G) (ticks : Nat) :
      AttackStep cb gt ap losCheckInterval u (updateFiring cb gt ap losCheckInterval u ticks)

/-- States reachable from a unit that is not firing by the operations of
`AttackStep`. -/
inductive AttackReachable (cb : Services G) (gt : GameTime) (ap : BattleUnitAnimationPack)
    (losCheckInterval : Nat) : BattleUnit G → Prop where
  | init (u : BattleUnit G) (h : u.weaponStatus = WeaponStatus.NotFiring) :
      AttackReachable cb gt ap losCheckInterval u
  | step (u w : BattleUnit G) (hu : AttackReachable cb gt ap losCheckInterval u)
      (hs : AttackStep cb gt ap losCheckInterval u w) :
      AttackReachable cb gt ap losCheckInterval w

/-- A loaded weapon held in the right hand. -/
def demoGun : AEquipment :=
  { type := "gun", equippedSlotType := AEquipmentSlotType.RightHand, max_ammo := 10, ammo := 5,
    readyToFire := true }

/-- A unit of 50 health that holds the demo gun and is not firing. -/
def demoArmed : BattleUnit Nat :=
  { state := 0, health := 50, equipment := [demoGun] }

/-- Movement constants for the examples. -/
def demoMoveConsts : MoveConsts :=
  { FALLING_ACCELERATION_UNIT := 1, TICK_SCALE := 36, VELOCITY_SCALE_BATTLE_Z := 16
    FLYING_ACCELERATION_DIVISOR := 2, UNITS_TRAVELLED_PER_SOUND := 12
    UNITS_TRAVELLED_PER_SOUND_RUNNING_DIVISOR := 2 }

/-- Services for the examples of movement: the goal is always 4 tick units
away. -/
def demoMoveServices : Services Nat :=
  { demoServices with distanceToGoal := fun _ => 4 }

/-- A walking unit of 50 health that is not at its goal. -/
def demoWalker : BattleUnit Nat :=
  { state := 0, health := 50, atGoal := false
    current_movement_state := MovementState.Normal
    goalPosition := { x := 1, y := 0, z := 0 } }

/-- The flying speed modifier is a percentage: at most 100. The movement step
keeps it so (it assigns 0 or a minimum with 100). -/
def FlyingSpeedOK (v : UnitVars G) : Prop :=
  v.flyingSpeedModifier ≤ 100

/-- The external services that may rewrite the unit keep the flying speed
modifier a percentage. -/
def KeepsFlyingSpeed (cb : Services G) : Prop :=
  (∀ u m, FlyingSpeedOK u.toUnitVars → FlyingSpeedOK (cb.isFinished u m).vars) ∧
  (∀ u m, FlyingSpeedOK u.toUnitVars → FlyingSpeedOK (cb.start u m).vars) ∧
  (∀ u m, FlyingSpeedOK u.toUnitVars → FlyingSpeedOK (cb.getNextBodyState u m).vars) ∧
  (∀ u m, FlyingSpeedOK u.toUnitVars → FlyingSpeedOK (cb.getNextDestination u m).vars) ∧
  (∀ u m, FlyingSpeedOK u.toUnitVars → FlyingSpeedOK (cb.getNextFacing u m).vars) ∧
  (∀ u, FlyingSpeedOK u.toUnitVars → FlyingSpeedOK (cb.dropDown u).toUnitVars) ∧
  (∀ u, FlyingSpeedOK u.toUnitVars → FlyingSpeedOK (cb.triggerProximity u).toUnitVars)

/-- Distances to the goal stay in the range in which the products of the
movement guard do not wrap around: `distanceToGoal * 2 * 100 < 2^32`. -/
def DistancesInRange (cb : Services G) : Prop :=
  ∀ u, cb.distanceToGoal u * 200 < 2 ^ 32

/-- Sum of the four budgets. -/
def Budgets.total (b : Budgets) : Nat :=
  b.move + b.body + b.hand + b.turn

/-- No budget of the first exceeds that of the second. -/
def Budgets.le (a b : Budgets) : Prop :=
  a.move ≤ b.move ∧ a.body ≤ b.body ∧ a.hand ≤ b.hand ∧ a.turn ≤ b.turn

/-- Some unit of the owner sees `x`: the unit itself, whose set is given, or
another unit of the battle with the same owner. -/
def SeenByOwner (owner : String) (others : List BattleUnitView) (visibleUnits : List String)
    (x : String) : Prop :=
  x ∈ visibleUnits ∨ ∃ w ∈ others, w.owner = owner ∧ x ∈ w.visibleUnits

/-- The index `battle.visibleUnits[owner]` is the union of the visible sets of
the units of that owner. -/
def IndexConsistent (b : Battle) (owner : String) (visibleUnits : List String) : Prop :=
  ∀ x, x ∈ b.visibleUnits owner ↔ SeenByOwner owner b.units visibleUnits x

/-- The tiles of a ray that are looked at before the walk ends: the unit's own
tile is skipped, and the walk ends at the first tile whose truncated distance
from the unit exceeds `LOS_RANGE`. -/
def visiblePrefix (m : VisionMap) (LOS_RANGE : Int) (position : Vec3f) : List Tile → List Tile
  | [] => []
  | t :: rest =>
    if t.position = position.toTile then visiblePrefix m LOS_RANGE position rest
    else if truncToInt (m.tileDistance position t.position) > LOS_RANGE then []
    else t :: visiblePrefix m LOS_RANGE position rest

/-- No blockage has been met on the ray so far. -/
def RayBlockage.Clear (a : RayBlockage) : Prop :=
  a.blockageAccumulatedSoFar = 0 ∧ a.accumulatedSinceLastTile = 0 ∧
    a.numberTilesWithBlockage = 0

/-- Everything visible in the first sight is visible in the second: tiles for
the owner, and units. -/
def Sight.Within (owner : String) (s s' : Sight) : Prop :=
  (∀ p, p ∈ s.battle.visibleTiles owner → p ∈ s'.battle.visibleTiles owner) ∧
  (∀ x, x ∈ s.visibleUnits → x ∈ s'.visibleUnits)

/-- The tiles are visible for the owner, and so is every unit of another owner
that one of them reports. -/
def Sight.Marked (owner : String) (tiles : List Tile) (s : Sight) : Prop :=
  ∀ t, t ∈ tiles →
    t.position ∈ s.battle.visibleTiles owner ∧
    ∀ id unitOwner, t.unitPresent = some (id, unitOwner) → unitOwner ≠ owner →
      id ∈ s.visibleUnits

/-- Every unit in sight was reported, with another owner, by a tile that some
ray from the eyes passes. -/
def Sight.Rivals (m : VisionMap) (owner : String) (eyesPos : Vec3f) (s : Sight) : Prop :=
  ∀ x, x ∈ s.visibleUnits →
    ∃ target t unitOwner, t ∈ (m.findCollision eyesPos target).tilesPassed ∧
      t.unitPresent = some (x, unitOwner) ∧ unitOwner ≠ owner

/-- The tiles `(1, 0, 0), ..., (20, 0, 0)` east of the origin; a unit "raider"
of owner "aliens" stands on the tile at distance 15. -/
def demoCorridor : List Tile :=
  (List.range 20).map (fun (k : Nat) =>
    { position := { x := (k : Int) + 1, y := 0, z := 0 }
      unitPresent := if k = 14 then some ("raider", "aliens") else none })

/-- Services on `Battle` for the examples of vision: missions never finish
and nothing else happens. -/
def demoVisionServices : Services Battle where
  isFinished u m := { finished := false, vars := u.toUnitVars, mission := m }
  start u m := { vars := u.toUnitVars, mission := m }
  reachGoal _ := { type := MissionType.ReachGoal }
  restartNextMission _ := { type := MissionType.RestartNextMission }
  getFacingStep _ f := f
  getFacing _ _ _ := {}
  getFacingTo _ _ := {}
  getThrowCost _ := 0
  realTime _ := false
  updateUnitVision u := (u.state, u.visibleUnits)
  updateUnitVisibility u := u.state
  moveTileObject u := u.state

/-- A flat map for the examples: a ray to the east along the row `y = 0` of
level 0 passes the corridor, every other ray passes nothing; the distance of a
tile of the corridor is its `x`. -/
def demoVisionMap : VisionMap :=
  { getLosBlockID := fun _ => 0
    los_blocks := fun _ => ({}, {})
    findCollision := fun _ target =>
      if target.y = 1 / 2 ∧ target.z = 1 / 2 ∧ 0 < target.x then
        { tilesPassed := demoCorridor } else {}
    tileDistance := fun _ t => (t.x : ℚ) }

/-- A battle of one level in which a second unit of owner "xcom" sees the
unit "sniper", and the index of "xcom" holds "sniper" and "raider". -/
def demoBattle : Battle :=
  { size_z := 1
    units := [{ id := "scout", owner := "xcom", visibleUnits := ["sniper"] }]
    visibleUnits := fun o => if o = "xcom" then ["sniper", "raider"] else [] }

/-- A unit of owner "xcom" on tile (0, 0, 0), facing east, that saw "raider"
before; `health` tells whether it is conscious. -/
def demoWatcher (health : Int) : BattleUnit Battle :=
  { state := demoBattle, health := health, id := "watcher", owner := "xcom"
    facing := { x := 1, y := 0 }, position := { x := 1 / 2, y := 1 / 2, z := 0 }
    visibleUnits := ["raider"] }

/-- A flying unit at half of its flying speed that is not at its goal. -/
def demoFlyer : BattleUnit Nat :=
  { state := 0, health := 50, atGoal := false
    current_movement_state := MovementState.Normal
    current_body_state := BodyState.Flying
    target_body_state := BodyState.Flying
    flyingSpeedModifier := 50
    goalPosition := { x := 1, y := 0, z := 0 } }

/-- Services for the example of a fall: a unit at height 1 or above has lost
its floor, and the tile below offers a ledge at height 999/1000 to stand
on. -/
def demoFallServices : Services Nat :=
  { demoServices with
    canStandHere := fun u => decide (u.position.z < 1)
    getRestingPosition := fun u =>
      { x := u.position.x, y := u.position.y
        z := if u.position.z < 1 then 999 / 1000 else 1 } }

/-- A conscious unit of 50 health that stands still at its goal, at height 1. -/
def demoLedgeUnit : BattleUnit Nat :=
  { state := 0, health := 50, position := { x := 0, y := 0, z := 1 }
    goalPosition := { x := 0, y := 0, z := 1 } }

/-- The sequence run on death or loss of consciousness leaves the healing
flags and the maximum health alone. -/
def KeepsHealing (cb : Services G) : Prop :=
  ∀ u, (cb.dropDown u).isHealing = u.isHealing ∧
    (cb.dropDown u).healingBodyPart = u.healingBodyPart ∧
    (cb.dropDown u).current_stats_health = u.current_stats_health

/-- A unit of 10 health out of 20 whose body has `n` fatal wounds and is being
healed when `healing` is set. -/
def demoBleeding (n : Int) (healing : Bool) : BattleUnit Nat :=
  { state := 0, health := 10, current_stats_health := 20, isHealing := healing
    healingBodyPart := BodyPart.Body
    fatalWounds := fun p => if p = BodyPart.Body then n else 0 }

/-- The compass facing reached from `facing` by `k` clockwise steps of 45
degrees (the facing itself when it is not a compass facing). -/
def compassTurn (facing : Vec2) (k : Nat) : Vec2 :=
  compassFacings.getD ((compassFacings.indexOf facing + k) % 8) facing

/-- The headings in the order facing, +45, -45, +90, -90, +135, -135, 180
degrees, clockwise counted positive. -/
def giveWayOrder (facing : Vec2) : List Vec2 :=
  [0, 1, 7, 2, 6, 3, 5, 4].map (compassTurn facing)

/-- A standing unit at (7/2, 9/2, 0) with the given facing and nothing
queued. -/
def demoBystander (facing : Vec2) : BattleUnit Nat :=
  { state := 0, health := 50, facing := facing, goalFacing := facing
    position := { x := 7 / 2, y := 9 / 2, z := 0 }
    goalPosition := { x := 7 / 2, y := 9 / 2, z := 0 } }

/-- The tile next to the unit in the direction `heading`, as `requestGiveWay`
computes it, is neither the requestor's tile nor on the planned path. -/
def headingFree (u requestor : BattleUnit G) (plannedPath : List Vec3) (heading : Vec2) : Bool :=
  decide (nextPosOf u heading ≠ requestor.position.toTile ∧
    nextPosOf u heading ∉ plannedPath)

/-- The tiles the followers of a group move were sent to, in the order of the
units. -/
def sentTiles (followers : List (BattleUnit G × Option Vec3)) : List Vec3 :=
  followers.filterMap Prod.snd

/-- The offsets of the formation as the claim describes them: the points
(x, y, 0) with x + y even and |x| + |y| equal to 2 or 4. -/
def FormationPoint (o : Vec3) : Prop :=
  o.z = 0 ∧ (o.x + o.y) % 2 = 0 ∧ (|o.x| + |o.y| = 2 ∨ |o.x| + |o.y| = 4)

/-- The trial mission of the unit is in its queue and cancelled. -/
def TrialCancelled (u : BattleUnit G) : Prop :=
  ∃ m, trialMission u = some m ∧ m.cancelled = true

/-- The variables of the leader loop between two units: the trial missions of
the units gone through are cancelled, the leader is one of them, and
`minDistance` is positive. -/
def LeaderSearch.AllCancelled (s : LeaderSearch G) : Prop :=
  (∀ u ∈ s.tried, TrialCancelled u) ∧ (∀ i, s.lead = some i → i < s.tried.length) ∧
    0 < s.minDistance

/-- Services for the examples of a group move: the path planned by a mission
that is started has the single tile `reach`, paths between two tiles of the
map are always found, and the map has 10 by 10 tiles on one level. -/
def demoGroupServices (reach : Vec3) : Services Nat :=
  { demoServices with
    start := fun u m =>
      { vars := { u.toUnitVars with state := u.state + 1 }
        mission := { m with currentPlannedPath := [reach] } }
    findShortestPath := fun _ _ _ destination _ => [destination]
    mapSize := fun _ => { x := 10, y := 10, z := 1 } }

/-- A unit with the given identifier and nothing queued. -/
def demoSoldier (id : String) : BattleUnit Nat :=
  { state := 0, health := 50, id := id }

/-- A flying unit whose flying speed modifier is 200, above a percentage. -/
def demoOverdrive : BattleUnit Nat :=
  { demoFlyer with flyingSpeedModifier := 200 }

/-! ## Auxiliary lemmas -/

theorem popFinishedLoop_unfold (cb : Services G) (m : BattleUnitMission)
    (rest : List BattleUnitMission) (v : UnitVars G) :
    popFinishedLoop cb m rest v =
      (if (cb.isFinished { toUnitVars := v, missions := m :: rest } m).finished then
        if (cb.isFinished { toUnitVars := v, missions := m :: rest } m).vars.retreated then
          (true, { toUnitVars := (cb.isFinished { toUnitVars := v, missions := m :: rest } m).vars,
                   missions := rest })
        else
          match rest with
          | [] => (false, { toUnitVars :=
                      (cb.isFinished { toUnitVars := v, missions := m :: rest } m).vars,
                            missions := [] })
          | n :: rest1 =>
            popFinishedLoop cb
              (cb.start { toUnitVars :=
                  (cb.isFinished { toUnitVars := v, missions := m :: rest } m).vars,
                          missions := n :: rest1 } n).mission rest1
              (cb.start { toUnitVars :=
                  (cb.isFinished { toUnitVars := v, missions := m :: rest } m).vars,
                          missions := n :: rest1 } n).vars
      else
        (false, { toUnitVars := (cb.isFinished { toUnitVars := v, missions := m :: rest } m).vars,
                  missions := (cb.isFinished { toUnitVars := v, missions := m :: rest } m).mission
                    :: rest })) := by
  cases rest <;> rfl

theorem popFinishedMissions_unfinished (cb : Services G) (u : BattleUnit G)
    (m : BattleUnitMission) (rest : List BattleUnitMission)
    (hq : u.missions = m :: rest) (hnf : ReportsUnfinished cb u m) :
    popFinishedMissions cb u = (false, u) := by
  obtain ⟨v, q⟩ := u
  simp only at hq
  subst hq
  unfold ReportsUnfinished at hnf
  simp [popFinishedMissions, popFinishedLoop_unfold, hnf]

/-- The loop of `popFinishedMissions` performs a run of the specification. -/
theorem popFinishedLoop_run (cb : Services G) (rest : List BattleUnitMission) :
    ∀ (m : BattleUnitMission) (v : UnitVars G),
      PopRun cb { toUnitVars := v, missions := m :: rest } (popFinishedLoop cb m rest v) := by
  induction rest with
  | nil =>
    intro m v
    rw [popFinishedLoop_unfold]
    by_cases hf : (cb.isFinished { toUnitVars := v, missions := [m] } m).finished = true
    · by_cases hr : (cb.isFinished { toUnitVars := v, missions := [m] } m).vars.retreated = true
      · simp only [hf, hr, if_true]
        exact PopRun.retreated _ m [] rfl hf hr
      · simp only [hf, hr, if_true, if_false]
        exact PopRun.last _ m rfl hf (by simpa using hr)
    · simp only [hf, if_false]
      exact PopRun.unfinished _ m [] rfl (by simpa using hf)
  | cons n rest1 ih =>
    intro m v
    rw [popFinishedLoop_unfold]
    by_cases hf : (cb.isFinished { toUnitVars := v, missions := m :: n :: rest1 } m).finished = true
    · by_cases hr :
        (cb.isFinished { toUnitVars := v, missions := m :: n :: rest1 } m).vars.retreated = true
      · simp only [hf, hr, if_true]
        exact PopRun.retreated _ m (n :: rest1) rfl hf hr
      · simp only [hf, hr, if_true, if_false]
        exact PopRun.next _ m n rest1 _ rfl hf (by simpa using hr) (ih _ _)
    · simp only [hf, if_false]
      exact PopRun.unfinished _ m (n :: rest1) rfl (by simpa using hf)

/-- The function `popFinishedMissions` performs a run of the specification. -/
theorem popFinishedMissions_run (cb : Services G) (u : BattleUnit G) :
    PopRun cb u (popFinishedMissions cb u) := by
  obtain ⟨v, q⟩ := u
  cases q with
  | nil => exact PopRun.idle _ rfl
  | cons m rest => exact popFinishedLoop_run cb rest m v

/-- A run answers true only for a retreated unit. -/
theorem PopRun.retreated_of_true {cb : Services G} {u : BattleUnit G}
    {res : Bool × BattleUnit G} (h : PopRun cb u res) :
    res.1 = true → res.2.retreated = true := by
  induction h with
  | idle u hq => simp
  | unfinished u m rest hq hf => simp
  | retreated u m rest hq hf hr => intro _; exact hr
  | last u m hq hf hr => simp
  | next u m n rest res hq hf hr hrun ih => exact ih

/-- A run that answers false ends with an empty queue or right after a
negative answer of the front mission. -/
theorem PopRun.front_of_false {cb : Services G} {u : BattleUnit G}
    {res : Bool × BattleUnit G} (h : PopRun cb u res) :
    res.1 = false → res.2.missions = [] ∨
      ∃ (u0 : BattleUnit G) (m0 : BattleUnitMission) (rest0 : List BattleUnitMission),
        u0.missions = m0 :: rest0 ∧ (cb.isFinished u0 m0).finished = false ∧
        res.2 = { toUnitVars := (cb.isFinished u0 m0).vars
                  missions := (cb.isFinished u0 m0).mission :: rest0 } := by
  induction h with
  | idle u hq => intro _; exact Or.inl hq
  | unfinished u m rest hq hf => intro _; exact Or.inr ⟨u, m, rest, hq, hf, rfl⟩
  | retreated u m rest hq hf hr => simp
  | last u m hq hf hr => intro _; exact Or.inl rfl
  | next u m n rest res hq hf hr hrun ih => exact ih

/-- A run keeps the queue slots of a suffix of the queue; behind the front
slot the content is untouched. -/
theorem PopRun.slots {cb : Services G} {u : BattleUnit G}
    {res : Bool × BattleUnit G} (h : PopRun cb u res) :
    ∃ n, n ≤ u.missions.length ∧ res.2.missions.length = u.missions.length - n ∧
      res.2.missions.tail = (u.missions.drop n).tail ∧
      (MissionPreserving cb → res.2.missions = u.missions.drop n) := by
  induction h with
  | idle u hq => exact ⟨0, by simp, by simp, by simp, by simp⟩
  | unfinished u m rest hq hf =>
    exact ⟨0, by simp, by simp [hq], by simp [hq], fun hp => by simp [hq, hp.1 u m]⟩
  | retreated u m rest hq hf hr =>
    exact ⟨1, by simp [hq], by simp [hq], by simp [hq], fun _ => by simp [hq]⟩
  | last u m hq hf hr =>
    exact ⟨1, by simp [hq], by simp [hq], by simp [hq], fun _ => by simp [hq]⟩
  | next u m n rest res hq hf hr hrun ih =>
    obtain ⟨k, hk, hlen, htail, hpres⟩ := ih
    simp only [List.length_cons] at hk hlen
    refine ⟨k + 1, by simp [hq]; omega, by simp [hq]; omega, ?_, ?_⟩
    · rw [htail, hq]
      cases k with
      | zero => simp
      | succ k => simp
    · intro hp
      rw [hpres hp, hq, hp.2]
      simp

/-- Under side-effect-free negative answers, the front mission left by a run
that answers false does not report finished. -/
theorem PopRun.front_unfinished {cb : Services G} {u : BattleUnit G}
    {res : Bool × BattleUnit G} (h : PopRun cb u res) (hpure : QueryPure cb)
    (hres : res.1 = false) (m : BattleUnitMission) (hm : res.2.missions.head? = some m) :
    (cb.isFinished res.2 m).finished = false := by
  rcases h.front_of_false hres with hnil | ⟨u0, m0, rest0, hq0, hf0, hres0⟩
  · simp [hnil] at hm
  · have hp := hpure u0 m0 hf0
    have hu : res.2 = u0 := by
      rw [hres0, hp]
      obtain ⟨v0, q0⟩ := u0
      simp only at hq0
      simp [hq0]
    rw [hu] at hm ⊢
    rw [hq0] at hm
    simp only [List.head?_cons, Option.some.injEq] at hm
    rw [← hm]
    exact hf0

/-- The pop-back loop keeps the first `keep` missions and credits the prepaid
cost of every other one. -/
theorem popBackLoop_reverse (keep : Nat) (q : List BattleUnitMission) :
    ∀ tu : Int, popBackLoop keep q.reverse tu
      = ((q.take keep).reverse, tu + prepaidSum (q.drop keep)) := by
  induction q using List.reverseRecOn with
  | nil => intro tu; simp [popBackLoop, prepaidSum]
  | append_singleton q b ih =>
    intro tu
    rw [List.reverse_append, List.reverse_singleton, List.singleton_append]
    by_cases hk : keep ≤ q.length
    · have hlen : (b :: q.reverse).length > keep := by simp; omega
      rw [popBackLoop, if_pos hlen, ih, List.take_append_of_le_length hk,
        List.drop_append_of_le_length hk]
      simp [prepaidSum]
      ring
    · have hlen : ¬ (b :: q.reverse).length > keep := by simp; omega
      have hle : (q ++ [b]).length ≤ keep := by simp; omega
      rw [popBackLoop, if_neg hlen, List.take_of_length_le hle, List.drop_of_length_le hle]
      simp [prepaidSum]

/-- The cancel loop keeps the first `keep` missions and credits the prepaid cost
of every other one. -/
theorem cancelLoop_eq (u : BattleUnit G) (keep : Nat) :
    cancelLoop u keep =
      { u with time_units := u.time_units + prepaidSum (u.missions.drop keep)
               missions := u.missions.take keep } := by
  simp [cancelLoop, popBackLoop_reverse]

/-- One pass of the cancel loop: the back mission is credited and removed. -/
theorem cancelLoop_step (w : BattleUnit G) (keep : Nat) (q : List BattleUnitMission)
    (b : BattleUnitMission) (hw : w.missions = q ++ [b]) (hk : keep ≤ q.length) :
    cancelLoop w keep =
      cancelLoop { w with missions := q, time_units := w.time_units + b.costPaidUpFront } keep := by
  simp [cancelLoop, hw, popBackLoop, Nat.lt_succ_of_le hk]

/-- Adding a ReachGoal by type to an empty queue: the mission made by the
factory is queued and started. -/
theorem addMissionByType_reachGoal_nil (cb : Services G) (u : BattleUnit G)
    (hq : u.missions = []) :
    addMissionByType cb u MissionType.ReachGoal =
      (true, { toUnitVars :=
                 (cb.start { u with missions := [cb.reachGoal u] } (cb.reachGoal u)).vars
               missions :=
                 [(cb.start { u with missions := [cb.reachGoal u] } (cb.reachGoal u)).mission] }) := by
  cases h : (cb.reachGoal u).type <;>
    simp [addMissionByType, addMission, h, hq, emplaceFrontAndStart]

/-- Outcome of `cancelMissions` when the front mission is downgraded to a Turn. -/
theorem cancelMissions_turn_stub (cb : Services G) (u u1 : BattleUnit G)
    (m : BattleUnitMission) (rest : List BattleUnitMission)
    (hp : popFinishedMissions cb u = (false, u1)) (hq : u1.missions = m :: rest)
    (hpol : cancelPolicy m.type = some true) (hturn : u1.facing ≠ u1.goalFacing) :
    cancelMissions cb u =
      (true, { u1 with
        time_units := u1.time_units
          + (if 0 < m.costPaidUpFront then m.costPaidUpFront - 1 else 0) + prepaidSum rest
        missions := [{ m with type := MissionType.Turn, targetFacing := u1.goalFacing }] }) := by
  by_cases hc : 0 < m.costPaidUpFront
  · simp [cancelMissions, hp, hq, hpol, downgradeFront, hturn, hc, cancelLoop_eq]
  · simp [cancelMissions, hp, hq, hpol, downgradeFront, hturn, hc, cancelLoop_eq]

/-- Outcome of `cancelMissions` when the front mission is downgraded to a
ChangeBodyState. -/
theorem cancelMissions_body_stub (cb : Services G) (u u1 : BattleUnit G)
    (m : BattleUnitMission) (rest : List BattleUnitMission)
    (hp : popFinishedMissions cb u = (false, u1)) (hq : u1.missions = m :: rest)
    (hpol : cancelPolicy m.type = some true) (hturn : u1.facing = u1.goalFacing)
    (hbody : u1.current_body_state ≠ u1.target_body_state) :
    cancelMissions cb u =
      (true, { u1 with
        time_units := u1.time_units + prepaidSum rest
        missions := [{ m with type := MissionType.ChangeBodyState
                              targetBodyState := u1.target_body_state }] }) := by
  simp [cancelMissions, hp, hq, hpol, downgradeFront, hturn, hbody, cancelLoop_eq]

/-- Outcome of `cancelMissions` when no front mission is retained. -/
theorem cancelMissions_none_retained (cb : Services G) (u u1 : BattleUnit G)
    (m : BattleUnitMission) (rest : List BattleUnitMission) (lf : Bool)
    (hp : popFinishedMissions cb u = (false, u1)) (hq : u1.missions = m :: rest)
    (hpol : cancelPolicy m.type = some lf)
    (hno : lf = false ∨
      (u1.facing = u1.goalFacing ∧ u1.current_body_state = u1.target_body_state)) :
    cancelMissions cb u =
      (true, if u1.atGoal then allCancelled u1 m rest
             else reachGoalSynthesized cb (allCancelled u1 m rest)) := by
  have hd : downgradeFront u1 m rest lf = (false, { u1 with missions := m :: rest }) := by
    rcases hno with h | ⟨h1, h2⟩
    · simp [downgradeFront, h]
    · cases lf <;> simp [downgradeFront, h1, h2]
  have hsyn := addMissionByType_reachGoal_nil cb (allCancelled u1 m rest) rfl
  have hcl : cancelLoop { u1 with missions := m :: rest } 0 = allCancelled u1 m rest := by
    simp [cancelLoop_eq, allCancelled]
  have h1 : (allCancelled u1 m rest).missions.isEmpty = true := rfl
  have h2 : (allCancelled u1 m rest).atGoal = u1.atGoal := rfl
  simp only [cancelMissions, hp, hq, hpol, hd, Bool.false_eq_true, if_false, hcl, h1, h2, hsyn,
    true_and]
  cases hg : u1.atGoal <;> simp [reachGoalSynthesized]

/-- Outcome of `cancelMissions` when nothing is queued once the finished
missions are popped. -/
theorem cancelMissions_idle (cb : Services G) (u u1 : BattleUnit G)
    (hp : popFinishedMissions cb u = (false, u1)) (hq : u1.missions = []) :
    cancelMissions cb u = (true, u1) := by
  simp [cancelMissions, hp, hq]

/-- Outcome of `cancelMissions` when the front mission cannot be cancelled. -/
theorem cancelMissions_refused (cb : Services G) (u u1 : BattleUnit G)
    (m : BattleUnitMission) (rest : List BattleUnitMission)
    (hp : popFinishedMissions cb u = (false, u1)) (hq : u1.missions = m :: rest)
    (hpol : cancelPolicy m.type = none) :
    cancelMissions cb u = (false, u1) := by
  simp [cancelMissions, hp, hq, hpol]

/-- Outcome of `cancelMissions` when the unit retreated while finished missions
were popped. -/
theorem cancelMissions_retreated (cb : Services G) (u u1 : BattleUnit G)
    (hp : popFinishedMissions cb u = (true, u1)) :
    cancelMissions cb u = (false, u1) := by
  simp [cancelMissions, hp]

/-- The let-finish tags of the switch of `cancelMissions`. -/
theorem cancelPolicy_letFinish (t : MissionType)
    (h : t ∈ [MissionType.ChangeBodyState, MissionType.Turn, MissionType.GotoLocation,
      MissionType.ReachGoal]) : cancelPolicy t = some true := by
  simp only [List.mem_cons, List.mem_singleton, List.not_mem_nil, or_false] at h
  rcases h with h | h | h | h <;> simp [h, cancelPolicy]

/-- The freely cancellable tags of the switch of `cancelMissions`. -/
theorem cancelPolicy_free (t : MissionType)
    (h : t ∈ [MissionType.Snooze, MissionType.DropItem, MissionType.Teleport,
      MissionType.RestartNextMission, MissionType.AcquireTU]) : cancelPolicy t = some false := by
  simp only [List.mem_cons, List.mem_singleton, List.not_mem_nil, or_false] at h
  rcases h with h | h | h | h | h <;> simp [h, cancelPolicy]

/-- After a successful `cancelMissions` at most one mission is queued. -/
theorem cancelMissions_length_le_one (cb : Services G) (u : BattleUnit G)
    (hok : (cancelMissions cb u).1 = true) : (cancelMissions cb u).2.missions.length ≤ 1 := by
  rcases hp : popFinishedMissions cb u with ⟨b, u1⟩
  cases b with
  | true => rw [cancelMissions_retreated cb u u1 hp] at hok; simp at hok
  | false =>
    cases hq : u1.missions with
    | nil => rw [cancelMissions_idle cb u u1 hp hq]; simp [hq]
    | cons m rest =>
      cases hpol : cancelPolicy m.type with
      | none => rw [cancelMissions_refused cb u u1 m rest hp hq hpol] at hok; simp at hok
      | some lf =>
        by_cases hno : lf = false ∨
            (u1.facing = u1.goalFacing ∧ u1.current_body_state = u1.target_body_state)
        · rw [cancelMissions_none_retained cb u u1 m rest lf hp hq hpol hno]
          cases u1.atGoal <;> simp [allCancelled, reachGoalSynthesized]
        · have hlf : lf = true := by
            cases lf
            · exact absurd (Or.inl rfl) hno
            · rfl
          subst hlf
          by_cases hturn : u1.facing = u1.goalFacing
          · have hbody : u1.current_body_state ≠ u1.target_body_state :=
              fun hb => hno (Or.inr ⟨hturn, hb⟩)
            rw [cancelMissions_body_stub cb u u1 m rest hp hq hpol hturn hbody]
            simp
          · rw [cancelMissions_turn_stub cb u u1 m rest hp hq hpol hturn]
            simp

/-- The callbacks of a run leave the time units alone when each callback does. -/
theorem PopRun.time_units_eq {cb : Services G} {u : BattleUnit G}
    {res : Bool × BattleUnit G} (h : PopRun cb u res)
    (hfin : ∀ w x, (cb.isFinished w x).vars.time_units = w.time_units)
    (hstart : ∀ w x, (cb.start w x).vars.time_units = w.time_units) :
    res.2.time_units = u.time_units := by
  induction h with
  | idle u hq => rfl
  | unfinished u m rest hq hf => exact hfin u m
  | retreated u m rest hq hf hr => exact hfin u m
  | last u m hq hf hr => exact hfin u m
  | next u m n rest res hq hf hr hrun ih =>
    rw [ih]
    simp only
    rw [hstart]
    exact hfin u m

/-- A run does not raise the number of ReachGoal entries when the callbacks
keep tags. -/
theorem PopRun.reachGoalCount_le {cb : Services G} {u : BattleUnit G}
    {res : Bool × BattleUnit G} (h : PopRun cb u res) (htag : TagPreserving cb) :
    reachGoalCount res.2.missions ≤ reachGoalCount u.missions := by
  induction h with
  | idle u hq => exact le_rfl
  | unfinished u m rest hq hf =>
    simp [reachGoalCount, hq, List.countP_cons, htag.1 u m]
  | retreated u m rest hq hf hr =>
    simp [reachGoalCount, hq, List.countP_cons]
  | last u m hq hf hr => simp [reachGoalCount]
  | next u m n rest res hq hf hr hrun ih =>
    refine le_trans ih ?_
    simp [reachGoalCount, hq, List.countP_cons, htag.2]

/-- A queue has at most as many ReachGoal entries as entries. -/
theorem reachGoalCount_le_length (q : List BattleUnitMission) :
    reachGoalCount q ≤ q.length := List.countP_le_length _

/-- The ReachGoal bound is kept by `cancelMissions`. -/
theorem cancelMissions_reachGoalCount (cb : Services G) (htag : TagPreserving cb)
    (u : BattleUnit G) (h : reachGoalCount u.missions ≤ 1) :
    reachGoalCount (cancelMissions cb u).2.missions ≤ 1 := by
  cases hok : (cancelMissions cb u).1 with
  | true =>
    exact le_trans (reachGoalCount_le_length _) (cancelMissions_length_le_one cb u hok)
  | false =>
    have hrun := popFinishedMissions_run cb u
    have hle := hrun.reachGoalCount_le htag
    rcases hp : popFinishedMissions cb u with ⟨b, u1⟩
    rw [hp] at hle
    simp only at hle
    cases b with
    | true =>
      rw [cancelMissions_retreated cb u u1 hp]
      exact le_trans hle h
    | false =>
      cases hq : u1.missions with
      | nil => rw [cancelMissions_idle cb u u1 hp hq] at hok; simp at hok
      | cons m rest =>
        cases hpol : cancelPolicy m.type with
        | none =>
          rw [cancelMissions_refused cb u u1 m rest hp hq hpol]
          exact le_trans hle h
        | some lf =>
          by_cases hno : lf = false ∨
              (u1.facing = u1.goalFacing ∧ u1.current_body_state = u1.target_body_state)
          · rw [cancelMissions_none_retained cb u u1 m rest lf hp hq hpol hno] at hok
            simp at hok
          · have hlf : lf = true := by
              cases lf
              · exact absurd (Or.inl rfl) hno
              · rfl
            subst hlf
            by_cases hturn : u1.facing = u1.goalFacing
            · have hbody : u1.current_body_state ≠ u1.target_body_state :=
                fun hb => hno (Or.inr ⟨hturn, hb⟩)
              rw [cancelMissions_body_stub cb u u1 m rest hp hq hpol hturn hbody] at hok
              simp at hok
            · rw [cancelMissions_turn_stub cb u u1 m rest hp hq hpol hturn] at hok
              simp at hok

/-- The vision update leaves the queue alone. -/
theorem updateUnitVision_missions (cb : Services G) (u : BattleUnit G) :
    (updateUnitVision cb u).missions = u.missions := rfl

/-- The setter `setFacing` leaves the queue alone. -/
theorem setFacing_missions (cb : Services G) (u : BattleUnit G) (f : Vec2) :
    (setFacing cb u f).missions = u.missions := rfl

/-- The override rules of `setMission` keep the queue or clear it, and hand on
a mission of the same tag. -/
theorem overrideRemaining_spec (cb : Services G) (htag : TagPreserving cb)
    (u : BattleUnit G) (mission : BattleUnitMission) :
    ((overrideRemaining cb u mission).1.missions = u.missions ∨
      (overrideRemaining cb u mission).1.missions = []) ∧
    (overrideRemaining cb u mission).2.type = mission.type := by
  obtain ⟨v, q⟩ := u
  cases q with
  | nil => simp [overrideRemaining]
  | cons front rest =>
    have hnext : ∀ w : BattleUnit G, (nextFacingOf cb w mission).1.missions = w.missions ∧
        (nextFacingOf cb w mission).2.1.type = mission.type := by
      intro w
      unfold nextFacingOf
      cases ht : mission.type <;> simp [ht]
      · split <;> simp [htag.2, ht]
    cases ht : mission.type
    case ThrowItem => simp [overrideRemaining, ht, USER_OPTION_ALLOW_INSTANT_THROWS]
    case Snooze => simp [overrideRemaining, ht]
    case RestartNextMission => simp [overrideRemaining, ht]
    case AcquireTU => simp [overrideRemaining, ht]
    case ChangeBodyState => simp [overrideRemaining, ht]
    case DropItem => simp [overrideRemaining, ht]
    case Teleport => simp [overrideRemaining, ht]
    all_goals
      simp only [overrideRemaining, ht]
      split
      · exact ⟨Or.inr rfl, ht⟩
      · split
        · split
          · split
            · exact ⟨Or.inr rfl, by rw [(hnext _).2, ht]⟩
            · exact ⟨Or.inl (by rw [(hnext _).1]), by rw [(hnext _).2, ht]⟩
          · exact ⟨Or.inl (by rw [(hnext _).1]), by rw [(hnext _).2, ht]⟩
        · exact ⟨Or.inl rfl, ht⟩

/-- Adding a mission to a queue of at most one entry leaves at most one
ReachGoal entry. -/
theorem addMission_reachGoalCount (cb : Services G) (htag : TagPreserving cb)
    (u : BattleUnit G) (mission : BattleUnitMission) (hlen : u.missions.length ≤ 1) :
    reachGoalCount (addMission cb u mission false).2.missions ≤ 1 := by
  obtain ⟨v, q⟩ := u
  have hs := htag.2
  cases q with
  | nil =>
    cases ht : mission.type <;>
      simp [addMission, ht, emplaceFrontAndStart, reachGoalCount, List.countP_cons] <;>
      split <;> simp
  | cons front rest =>
    cases rest with
    | cons x xs => simp at hlen
    | nil =>
      cases ht : mission.type <;> cases hf : front.type <;>
        simp [addMission, ht, hf, hs, preventsReachGoal, emplaceFrontAndStart, reachGoalCount,
          List.countP_cons]

/-- The ReachGoal bound is kept by `setMission`. -/
theorem setMission_reachGoalCount (cb : Services G) (htag : TagPreserving cb)
    (u : BattleUnit G) (mission : Option BattleUnitMission)
    (h : reachGoalCount u.missions ≤ 1) :
    reachGoalCount (setMission cb u mission).2.missions ≤ 1 := by
  cases mission with
  | none => exact h
  | some mission =>
    have h0 : ∀ u0 : BattleUnit G, u0.missions = u.missions →
        reachGoalCount
          (if ¬ (cancelMissions cb u0).1 = true then (false, (cancelMissions cb u0).2)
           else addMission cb (overrideRemaining cb (cancelMissions cb u0).2 mission).1
             (overrideRemaining cb (cancelMissions cb u0).2 mission).2 false).2.missions ≤ 1 := by
      intro u0 hu0
      have hc := cancelMissions_reachGoalCount cb htag u0 (by rw [hu0]; exact h)
      by_cases hok : (cancelMissions cb u0).1 = true
      · simp only [hok, not_true_eq_false, if_false]
        apply addMission_reachGoalCount cb htag
        have hlen := cancelMissions_length_le_one cb u0 hok
        rcases (overrideRemaining_spec cb htag (cancelMissions cb u0).2 mission).1 with ho | ho
        · rw [ho]; exact hlen
        · rw [ho]; simp
      · simp only [hok, not_false_eq_true, if_true]
        exact hc
    cases ht : mission.type <;> simp only [setMission, ht]
    case Turn => exact h0 (stopAttacking u) rfl
    all_goals exact h0 u rfl

/-- The ReachGoal bound is kept by every sequence of calls. -/
theorem applyCalls_reachGoalCount (cb : Services G) (htag : TagPreserving cb)
    (calls : List QueueCall) :
    ∀ u : BattleUnit G, reachGoalCount u.missions ≤ 1 →
      reachGoalCount (applyCalls cb u calls).missions ≤ 1 := by
  induction calls with
  | nil => intro u h; exact h
  | cons c calls ih =>
    intro u h
    simp only [applyCalls, List.foldl_cons]
    apply ih
    cases c with
    | setMission mission => exact setMission_reachGoalCount cb htag u mission h
    | cancelMissions => exact cancelMissions_reachGoalCount cb htag u h

/-! ## Popping finished missions -/

/-- C7: `popFinishedMissions` is a total function (the loop is a recursion on
the queue, it ends for every queue) and its result is the outcome of a run
"while the front mission reports finished, pop it and start the new front":
every mission that becomes the front is started before it is queried. The
resulting queue consists of the slots of a suffix of the original queue (only
the front slot can differ in content, by what its own callbacks wrote; with
callbacks that leave missions as they are it is a suffix). If the answer is
false the resulting queue is empty or its front mission has just answered not
finished (and answers so again when negative answers have no side effect). The
answer is true only if the unit is retreated, and a finished front mission of a
retreated unit ends the loop at once: that mission is popped, nothing else is
popped or started. -/
theorem popFinishedMissions_spec (cb : Services G) (u : BattleUnit G) :
    PopRun cb u (popFinishedMissions cb u) ∧
    (∃ n, n ≤ u.missions.length ∧
      (popFinishedMissions cb u).2.missions.length = u.missions.length - n ∧
      (popFinishedMissions cb u).2.missions.tail = (u.missions.drop n).tail ∧
      (MissionPreserving cb → (popFinishedMissions cb u).2.missions = u.missions.drop n)) ∧
    (MissionPreserving cb → (popFinishedMissions cb u).2.missions <:+ u.missions) ∧
    ((popFinishedMissions cb u).1 = false →
      (popFinishedMissions cb u).2.missions = [] ∨
      ∃ (u0 : BattleUnit G) (m0 : BattleUnitMission) (rest0 : List BattleUnitMission),
        u0.missions = m0 :: rest0 ∧ (cb.isFinished u0 m0).finished = false ∧
        (popFinishedMissions cb u).2 =
          { toUnitVars := (cb.isFinished u0 m0).vars
            missions := (cb.isFinished u0 m0).mission :: rest0 }) ∧
    (QueryPure cb → (popFinishedMissions cb u).1 = false →
      ∀ m, (popFinishedMissions cb u).2.missions.head? = some m →
        (cb.isFinished (popFinishedMissions cb u).2 m).finished = false) ∧
    ((popFinishedMissions cb u).1 = true → (popFinishedMissions cb u).2.retreated = true) ∧
    (∀ m rest, u.missions = m :: rest → (cb.isFinished u m).finished = true →
      (cb.isFinished u m).vars.retreated = true →
      popFinishedMissions cb u =
        (true, { toUnitVars := (cb.isFinished u m).vars, missions := rest })) := by
  have hrun := popFinishedMissions_run cb u
  refine ⟨hrun, hrun.slots, ?_, hrun.front_of_false, ?_, hrun.retreated_of_true, ?_⟩
  · intro hp
    obtain ⟨n, _, _, _, hdrop⟩ := hrun.slots
    rw [hdrop hp]
    exact List.drop_suffix n u.missions
  · intro hpure hres m hm
    exact hrun.front_unfinished hpure hres m hm
  · intro m rest hq hf hr
    obtain ⟨v, q⟩ := u
    simp only at hq
    subst hq
    simp only [popFinishedMissions]
    rw [popFinishedLoop_unfold]
    simp [hf, hr]

/-- Concrete run for C7: the queue is a finished Turn, a finished GotoLocation
whose completion retreats the unit, and a Snooze. The Turn is popped, the
GotoLocation is started (one call of `start`) and popped, the unit is then
retreated: the answer is true and the Snooze stays, not started. -/
theorem popFinishedMissions_spec_witness :
    popFinishedMissions demoServices
      (demoUnit [{ type := MissionType.Turn, cancelled := true },
                 { type := MissionType.GotoLocation, cancelled := true, item := some "exit" },
                 demoMission MissionType.Snooze 0] 0 true)
      = (true, { demoUnit [demoMission MissionType.Snooze 0] 0 true with
                   state := 1, retreated := true }) ∧
    (popFinishedMissions demoServices
      (demoUnit [{ type := MissionType.Turn, cancelled := true },
                 { type := MissionType.GotoLocation, cancelled := true, item := some "exit" },
                 demoMission MissionType.Snooze 0] 0 true)).2.retreated = true :=
  ⟨rfl, (popFinishedMissions_spec demoServices
      (demoUnit [{ type := MissionType.Turn, cancelled := true },
                 { type := MissionType.GotoLocation, cancelled := true, item := some "exit" },
                 demoMission MissionType.Snooze 0] 0 true)).2.2.2.2.2.1 rfl⟩

/-! ## Cancellation with a ThrowItem in front -/

/-- C1: for every unit whose front mission is a ThrowItem that does not report
finished, `cancelMissions` returns false and cancels nothing: the unit after
the call is the unit before the call, in particular the mission queue (content
and order) and the time units are the same. -/
theorem cancelMissions_throwItem_front (cb : Services G) (u : BattleUnit G)
    (m : BattleUnitMission) (rest : List BattleUnitMission)
    (hq : u.missions = m :: rest) (ht : m.type = MissionType.ThrowItem)
    (hnf : ReportsUnfinished cb u m) :
    (cancelMissions cb u).1 = false ∧
    (cancelMissions cb u).2.missions = m :: rest ∧
    (cancelMissions cb u).2.time_units = u.time_units ∧
    (cancelMissions cb u).2 = u := by
  have hp := popFinishedMissions_unfinished cb u m rest hq hnf
  have h : cancelMissions cb u = (false, u) := by
    simp [cancelMissions, hp, hq, ht, cancelPolicy]
  simp [h, hq]

/-- Concrete instance of C1: a unit with 10 time units whose queue is an
unfinished ThrowItem (prepaid 5) followed by a Turn (prepaid 3). -/
theorem cancelMissions_throwItem_front_witness :
    (cancelMissions demoServices
        (demoUnit [demoMission MissionType.ThrowItem 5, demoMission MissionType.Turn 3]
          10 false)).1 = false ∧
    (cancelMissions demoServices
        (demoUnit [demoMission MissionType.ThrowItem 5, demoMission MissionType.Turn 3]
          10 false)).2.missions
      = [demoMission MissionType.ThrowItem 5, demoMission MissionType.Turn 3] ∧
    (cancelMissions demoServices
        (demoUnit [demoMission MissionType.ThrowItem 5, demoMission MissionType.Turn 3]
          10 false)).2.time_units = 10 :=
  have h := cancelMissions_throwItem_front demoServices
    (demoUnit [demoMission MissionType.ThrowItem 5, demoMission MissionType.Turn 3] 10 false)
    (demoMission MissionType.ThrowItem 5) [demoMission MissionType.Turn 3] rfl rfl rfl
  ⟨h.1, h.2.1, h.2.2.1⟩

/-! ## At most one ReachGoal mission -/

/-- C2: with mission callbacks that do not edit the queue (they cannot add,
remove or reorder entries, and they keep the tag of the mission they run on),
a queue that holds at most one ReachGoal-tagged mission, in particular the empty
queue, still holds at most one after every finite sequence of `setMission` and
`cancelMissions` calls, whatever the missions passed to `setMission`. -/
theorem reachGoal_at_most_one (cb : Services G) (htag : TagPreserving cb)
    (u : BattleUnit G) (calls : List QueueCall)
    (h : reachGoalCount u.missions ≤ 1) :
    reachGoalCount (applyCalls cb u calls).missions ≤ 1 :=
  applyCalls_reachGoalCount cb htag calls u h

/-- Concrete instance of C2: from the empty queue of a unit that is not at its
goal, set a ReachGoal, set a GotoLocation, cancel, set a ReachGoal again and
set a Snooze; the queue ends as Snooze, ReachGoal. -/
theorem reachGoal_at_most_one_witness :
    (applyCalls demoServices (demoUnit [] 0 false)
      [QueueCall.setMission (some (demoMission MissionType.ReachGoal 0)),
       QueueCall.setMission (some (demoMission MissionType.GotoLocation 0)),
       QueueCall.cancelMissions,
       QueueCall.setMission (some (demoMission MissionType.ReachGoal 0)),
       QueueCall.setMission (some (demoMission MissionType.Snooze 0))]).missions
      = [demoMission MissionType.Snooze 0, demoMission MissionType.ReachGoal 0] ∧
    reachGoalCount (applyCalls demoServices (demoUnit [] 0 false)
      [QueueCall.setMission (some (demoMission MissionType.ReachGoal 0)),
       QueueCall.setMission (some (demoMission MissionType.GotoLocation 0)),
       QueueCall.cancelMissions,
       QueueCall.setMission (some (demoMission MissionType.ReachGoal 0)),
       QueueCall.setMission (some (demoMission MissionType.Snooze 0))]).missions ≤ 1 :=
  ⟨rfl, reachGoal_at_most_one demoServices ⟨fun _ _ => rfl, fun _ _ => rfl⟩
      (demoUnit [] 0 false) _ (by decide)⟩

/-! ## Synthesis of a ReachGoal mission -/

/-- C3, the claim as stated fails: a unit that is not at its goal and has
nothing queued gets the answer true from `cancelMissions` and its queue stays
empty; the same happens when its only mission has finished and is popped. No
ReachGoal mission is synthesized on the early return `if (missions.empty())
return true`. -/
theorem cancelMissions_idle_not_synthesized :
    (demoUnit [] 0 false).atGoal = false ∧
    (cancelMissions demoServices (demoUnit [] 0 false)).1 = true ∧
    (cancelMissions demoServices (demoUnit [] 0 false)).2.missions = [] ∧
    (demoUnit [{ type := MissionType.Turn, cancelled := true }] 0 false).atGoal = false ∧
    (cancelMissions demoServices
      (demoUnit [{ type := MissionType.Turn, cancelled := true }] 0 false)).1 = true ∧
    (cancelMissions demoServices
      (demoUnit [{ type := MissionType.Turn, cancelled := true }] 0 false)).2.missions = [] :=
  ⟨rfl, rfl, rfl, rfl, rfl, rfl⟩

/-- C3, amended: let `u1` be the unit once `cancelMissions` has popped the
finished missions, not at its goal. If a mission is still queued in `u1` and
`cancelMissions` returns true, the resulting queue is not empty; and if
cancellation leaves no mission (the front mission is freely cancellable, or
the unit is neither turning nor changing body state) every mission is removed,
the mission made by the ReachGoal factory is queued and started, and it is the
front (and only) mission, tagged ReachGoal whenever the factory tags it so and
`start` keeps tags. If nothing is queued in `u1`, `cancelMissions` returns true
at once and the queue stays empty. -/
theorem cancelMissions_synthesizes (cb : Services G) (u u1 : BattleUnit G)
    (hp : popFinishedMissions cb u = (false, u1)) (hgoal : u1.atGoal = false) :
    (∀ m rest, u1.missions = m :: rest → (cancelMissions cb u).1 = true →
      (cancelMissions cb u).2.missions ≠ [] ∧
      (∀ lf, cancelPolicy m.type = some lf →
        (lf = false ∨
          (u1.facing = u1.goalFacing ∧ u1.current_body_state = u1.target_body_state)) →
        (cancelMissions cb u).2 = reachGoalSynthesized cb (allCancelled u1 m rest) ∧
        (cancelMissions cb u).2.missions.head? =
          some (cb.start { allCancelled u1 m rest with
                  missions := [cb.reachGoal (allCancelled u1 m rest)] }
                (cb.reachGoal (allCancelled u1 m rest))).mission ∧
        ((cb.reachGoal (allCancelled u1 m rest)).type = MissionType.ReachGoal →
          TagPreserving cb →
          ∀ x ∈ (cancelMissions cb u).2.missions, x.type = MissionType.ReachGoal))) ∧
    (u1.missions = [] → cancelMissions cb u = (true, u1)) := by
  refine ⟨?_, cancelMissions_idle cb u u1 hp⟩
  intro m rest hq hok
  have hsyn : ∀ lf, cancelPolicy m.type = some lf →
      (lf = false ∨
        (u1.facing = u1.goalFacing ∧ u1.current_body_state = u1.target_body_state)) →
      (cancelMissions cb u).2 = reachGoalSynthesized cb (allCancelled u1 m rest) := by
    intro lf hpol hno
    rw [cancelMissions_none_retained cb u u1 m rest lf hp hq hpol hno]
    simp [hgoal]
  refine ⟨?_, ?_⟩
  · cases hpol : cancelPolicy m.type with
    | none => rw [cancelMissions_refused cb u u1 m rest hp hq hpol] at hok; simp at hok
    | some lf =>
      by_cases hno : lf = false ∨
          (u1.facing = u1.goalFacing ∧ u1.current_body_state = u1.target_body_state)
      · rw [hsyn lf hpol hno]
        simp [reachGoalSynthesized]
      · have hlf : lf = true := by
          cases lf
          · exact absurd (Or.inl rfl) hno
          · rfl
        subst hlf
        by_cases hturn : u1.facing = u1.goalFacing
        · have hbody : u1.current_body_state ≠ u1.target_body_state :=
            fun hb => hno (Or.inr ⟨hturn, hb⟩)
          rw [cancelMissions_body_stub cb u u1 m rest hp hq hpol hturn hbody]
          simp
        · rw [cancelMissions_turn_stub cb u u1 m rest hp hq hpol hturn]
          simp
  · intro lf hpol hno
    rw [hsyn lf hpol hno]
    refine ⟨rfl, rfl, ?_⟩
    intro htag hpres x hx
    simp only [reachGoalSynthesized, List.mem_singleton] at hx
    rw [hx, hpres.2, htag]

/-- Concrete instance of C3 as amended: a unit that is not at its goal, with
10 time units and the queue Snooze (prepaid 2), Turn (prepaid 3). Both missions
are cancelled and refunded, and a started ReachGoal is the only mission left. -/
theorem cancelMissions_synthesizes_witness :
    cancelMissions demoServices
        (demoUnit [demoMission MissionType.Snooze 2, demoMission MissionType.Turn 3] 10 false)
      = (true, { demoUnit [demoMission MissionType.ReachGoal 0] 15 false with state := 1 }) ∧
    (cancelMissions demoServices
        (demoUnit [demoMission MissionType.Snooze 2, demoMission MissionType.Turn 3] 10 false)
      ).2.missions ≠ [] :=
  ⟨rfl, ((cancelMissions_synthesizes demoServices
      (demoUnit [demoMission MissionType.Snooze 2, demoMission MissionType.Turn 3] 10 false)
      (demoUnit [demoMission MissionType.Snooze 2, demoMission MissionType.Turn 3] 10 false)
      rfl rfl).1 _ _ rfl rfl).1⟩

/-! ## Refunds of `cancelMissions` -/

/-- C4: let `u1` be the unit once `cancelMissions` has popped the finished
missions. The cancel loop works from the back: one pass credits the prepaid
cost of the back mission and removes it, and the loop stops when only the
missions to keep are left. If nothing is queued in `u1` nothing is removed or
credited. Otherwise let the queue of `u1` be `m :: rest`, with a front mission
that may be cancelled. If the head is retained, exactly the missions behind it
are removed and the time units grow by the sum of their prepaid costs. If no
head is retained, every mission is removed and the time units are those of
`u1` plus the sum of the prepaid costs of the whole queue (a ReachGoal is then
started if the unit is not at its goal; the sum is the final value when the
unit is at its goal or `start` leaves the time units alone). Popping the
finished missions refunds nothing: the time units of `u1` are those of `u`
when the callbacks leave them alone. -/
theorem cancelMissions_refunds (cb : Services G) (u u1 : BattleUnit G)
    (hp : popFinishedMissions cb u = (false, u1)) :
    (∀ (w : BattleUnit G) (keep : Nat) (q : List BattleUnitMission) (b : BattleUnitMission),
      w.missions = q ++ [b] → keep ≤ q.length →
      cancelLoop w keep =
        cancelLoop { w with missions := q, time_units := w.time_units + b.costPaidUpFront }
          keep) ∧
    (∀ (w : BattleUnit G) (keep : Nat), w.missions.length ≤ keep → cancelLoop w keep = w) ∧
    (u1.missions = [] → cancelMissions cb u = (true, u1)) ∧
    (∀ m rest lf, u1.missions = m :: rest → cancelPolicy m.type = some lf →
      ((downgradeFront u1 m rest lf).1 = true →
        (cancelMissions cb u).1 = true ∧
        (cancelMissions cb u).2.missions = (downgradeFront u1 m rest lf).2.missions.take 1 ∧
        (cancelMissions cb u).2.time_units =
          (downgradeFront u1 m rest lf).2.time_units + prepaidSum rest) ∧
      ((downgradeFront u1 m rest lf).1 = false →
        cancelMissions cb u =
          (true, if u1.atGoal then allCancelled u1 m rest
                 else reachGoalSynthesized cb (allCancelled u1 m rest)) ∧
        (allCancelled u1 m rest).time_units = u1.time_units + prepaidSum (m :: rest) ∧
        ((u1.atGoal = true ∨ ∀ w x, (cb.start w x).vars.time_units = w.time_units) →
          (cancelMissions cb u).2.time_units = u1.time_units + prepaidSum (m :: rest)))) ∧
    ((∀ w x, (cb.isFinished w x).vars.time_units = w.time_units) →
      (∀ w x, (cb.start w x).vars.time_units = w.time_units) →
      u1.time_units = u.time_units) := by
  refine ⟨cancelLoop_step, ?_, cancelMissions_idle cb u u1 hp, ?_, ?_⟩
  · intro w keep hk
    rw [cancelLoop_eq, List.drop_of_length_le hk, List.take_of_length_le hk]
    simp [prepaidSum]
  · intro m rest lf hq hpol
    refine ⟨?_, ?_⟩
    · intro hd
      by_cases hno : lf = false ∨
          (u1.facing = u1.goalFacing ∧ u1.current_body_state = u1.target_body_state)
      · rcases hno with h | ⟨h1, h2⟩
        · simp [downgradeFront, h] at hd
        · cases lf <;> simp [downgradeFront, h1, h2] at hd
      · have hlf : lf = true := by
          cases lf
          · exact absurd (Or.inl rfl) hno
          · rfl
        subst hlf
        by_cases hturn : u1.facing = u1.goalFacing
        · have hbody : u1.current_body_state ≠ u1.target_body_state :=
            fun hb => hno (Or.inr ⟨hturn, hb⟩)
          rw [cancelMissions_body_stub cb u u1 m rest hp hq hpol hturn hbody]
          simp [downgradeFront, hturn, hbody]
        · rw [cancelMissions_turn_stub cb u u1 m rest hp hq hpol hturn]
          by_cases hc : 0 < m.costPaidUpFront <;> simp [downgradeFront, hturn, hc]
    · intro hd
      have hno : lf = false ∨
          (u1.facing = u1.goalFacing ∧ u1.current_body_state = u1.target_body_state) := by
        cases lf
        · exact Or.inl rfl
        · right
          by_contra hcon
          by_cases hturn : u1.facing = u1.goalFacing
          · have hbody : u1.current_body_state ≠ u1.target_body_state :=
              fun hb => hcon ⟨hturn, hb⟩
            simp [downgradeFront, hturn, hbody] at hd
          · by_cases hc : 0 < m.costPaidUpFront <;> simp [downgradeFront, hturn, hc] at hd
      have hres := cancelMissions_none_retained cb u u1 m rest lf hp hq hpol hno
      refine ⟨hres, rfl, ?_⟩
      rw [hres]
      rintro (hg | hstart)
      · simp [hg, allCancelled]
      · cases hg : u1.atGoal
        · simp only [Bool.false_eq_true, if_false, reachGoalSynthesized]
          rw [hstart]
          rfl
        · simp [allCancelled]
  · intro hfin hstart
    have hrun := popFinishedMissions_run cb u
    rw [hp] at hrun
    exact hrun.time_units_eq hfin hstart

/-- Concrete instance of C4: a unit at its goal with 10 time units and the
queue Snooze (prepaid 2), Turn (prepaid 3), GotoLocation (prepaid 4): all three
are removed and the unit ends with 19 time units. -/
theorem cancelMissions_refunds_witness :
    cancelMissions demoServices
        (demoUnit [demoMission MissionType.Snooze 2, demoMission MissionType.Turn 3,
          demoMission MissionType.GotoLocation 4] 10 true)
      = (true, demoUnit [] 19 true) ∧
    (cancelMissions demoServices
        (demoUnit [demoMission MissionType.Snooze 2, demoMission MissionType.Turn 3,
          demoMission MissionType.GotoLocation 4] 10 true)).2.time_units
      = 10 + prepaidSum [demoMission MissionType.Snooze 2, demoMission MissionType.Turn 3,
          demoMission MissionType.GotoLocation 4] :=
  have h := cancelMissions_refunds demoServices
    (demoUnit [demoMission MissionType.Snooze 2, demoMission MissionType.Turn 3,
      demoMission MissionType.GotoLocation 4] 10 true)
    (demoUnit [demoMission MissionType.Snooze 2, demoMission MissionType.Turn 3,
      demoMission MissionType.GotoLocation 4] 10 true) rfl
  ⟨rfl, (((h.2.2.2.1 (demoMission MissionType.Snooze 2)
      [demoMission MissionType.Turn 3, demoMission MissionType.GotoLocation 4] false
      rfl rfl).2 rfl).2.2) (Or.inl rfl)⟩

/-! ## What `cancelMissions` retains -/

/-- C5: after `cancelMissions` returns true the queue holds at most one
mission. Let `u1` be the unit once the finished missions are popped, with
front mission `m`. If `m` is a ChangeBodyState, Turn, GotoLocation or
ReachGoal: when facing ≠ goalFacing the queue becomes the single mission `m`
retagged Turn with targetFacing = goalFacing; otherwise, when
current_body_state ≠ target_body_state, it becomes the single mission `m`
retagged ChangeBodyState with targetBodyState = target_body_state; otherwise
nothing is retained. If `m` is a Snooze, DropItem, Teleport, RestartNextMission
or AcquireTU nothing is retained. When nothing is retained the queue is empty,
or holds only the synthesized ReachGoal if the unit is not at its goal. -/
theorem cancelMissions_retained (cb : Services G) (u : BattleUnit G) :
    ((cancelMissions cb u).1 = true → (cancelMissions cb u).2.missions.length ≤ 1) ∧
    (∀ u1 m rest, popFinishedMissions cb u = (false, u1) → u1.missions = m :: rest →
      (m.type ∈ [MissionType.ChangeBodyState, MissionType.Turn, MissionType.GotoLocation,
          MissionType.ReachGoal] →
        (cancelMissions cb u).1 = true ∧
        (u1.facing ≠ u1.goalFacing →
          (cancelMissions cb u).2.missions =
            [{ m with type := MissionType.Turn, targetFacing := u1.goalFacing }]) ∧
        (u1.facing = u1.goalFacing → u1.current_body_state ≠ u1.target_body_state →
          (cancelMissions cb u).2.missions =
            [{ m with type := MissionType.ChangeBodyState
                      targetBodyState := u1.target_body_state }]) ∧
        (u1.facing = u1.goalFacing → u1.current_body_state = u1.target_body_state →
          (cancelMissions cb u).2 =
            if u1.atGoal then allCancelled u1 m rest
            else reachGoalSynthesized cb (allCancelled u1 m rest))) ∧
      (m.type ∈ [MissionType.Snooze, MissionType.DropItem, MissionType.Teleport,
          MissionType.RestartNextMission, MissionType.AcquireTU] →
        cancelMissions cb u =
          (true, if u1.atGoal then allCancelled u1 m rest
                 else reachGoalSynthesized cb (allCancelled u1 m rest)))) ∧
    (∀ u1 m rest, (allCancelled u1 m rest).missions = [] ∧
      (reachGoalSynthesized cb (allCancelled u1 m rest)).missions =
        [(cb.start { allCancelled u1 m rest with
              missions := [cb.reachGoal (allCancelled u1 m rest)] }
            (cb.reachGoal (allCancelled u1 m rest))).mission]) := by
  refine ⟨cancelMissions_length_le_one cb u, ?_, fun _ _ _ => ⟨rfl, rfl⟩⟩
  intro u1 m rest hp hq
  refine ⟨?_, ?_⟩
  · intro hlet
    have hpol := cancelPolicy_letFinish m.type hlet
    refine ⟨?_, ?_, ?_, ?_⟩
    · by_cases hturn : u1.facing = u1.goalFacing
      · by_cases hbody : u1.current_body_state = u1.target_body_state
        · rw [cancelMissions_none_retained cb u u1 m rest true hp hq hpol
            (Or.inr ⟨hturn, hbody⟩)]
        · rw [cancelMissions_body_stub cb u u1 m rest hp hq hpol hturn hbody]
      · rw [cancelMissions_turn_stub cb u u1 m rest hp hq hpol hturn]
    · intro hturn
      rw [cancelMissions_turn_stub cb u u1 m rest hp hq hpol hturn]
    · intro hturn hbody
      rw [cancelMissions_body_stub cb u u1 m rest hp hq hpol hturn hbody]
    · intro hturn hbody
      rw [cancelMissions_none_retained cb u u1 m rest true hp hq hpol (Or.inr ⟨hturn, hbody⟩)]
  · intro hfree
    exact cancelMissions_none_retained cb u u1 m rest false hp hq
      (cancelPolicy_free m.type hfree) (Or.inl rfl)

/-- Concrete instance of C5: a unit facing (0, 1) that is turning to (1, 0),
with the queue GotoLocation, Snooze. The GotoLocation is kept as a Turn towards
(1, 0) and the Snooze is removed. -/
theorem cancelMissions_retained_witness :
    (cancelMissions demoServices
        (demoTurning [demoMission MissionType.GotoLocation 0, demoMission MissionType.Snooze 0] 0)
      ).2.missions = [{ type := MissionType.Turn, targetFacing := { x := 1, y := 0 } }] ∧
    (cancelMissions demoServices
        (demoTurning [demoMission MissionType.GotoLocation 0, demoMission MissionType.Snooze 0] 0)
      ).2.missions.length ≤ 1 :=
  have h := cancelMissions_retained demoServices
    (demoTurning [demoMission MissionType.GotoLocation 0, demoMission MissionType.Snooze 0] 0)
  ⟨((h.2.1
      (demoTurning [demoMission MissionType.GotoLocation 0, demoMission MissionType.Snooze 0] 0)
      (demoMission MissionType.GotoLocation 0) [demoMission MissionType.Snooze 0] rfl rfl).1
      (by simp [demoMission])).2.1 (by decide),
   h.1 rfl⟩

/-! ## Refund of a front mission downgraded to a Turn -/

/-- The sum of non-negative prepaid costs is non-negative. -/
theorem prepaidSum_nonneg (q : List BattleUnitMission)
    (h : ∀ x ∈ q, 0 ≤ x.costPaidUpFront) : 0 ≤ prepaidSum q := by
  induction q with
  | nil => simp [prepaidSum]
  | cons a q ih =>
    have ha := h a (List.mem_cons_self a q)
    have hq := ih (fun x hx => h x (List.mem_cons_of_mem a hx))
    simp only [prepaidSum, List.map_cons, List.sum_cons] at hq ⊢
    omega

/-- C6: let `u1` be the unit once the finished missions are popped, turning
(facing ≠ goalFacing), with a let-finish front mission `m` of prepaid cost `c`.
The downgrade of `m` to a Turn credits `c - 1` time units when `c` is positive
and nothing when `c = 0`; this credit never lowers the time units. After
`cancelMissions` the time units are those of `u1` plus that credit plus the
prepaid costs of the missions behind `m`; they do not decrease when these
costs are non-negative. -/
theorem cancelMissions_turn_refund (cb : Services G) (u u1 : BattleUnit G)
    (m : BattleUnitMission) (rest : List BattleUnitMission)
    (hp : popFinishedMissions cb u = (false, u1)) (hq : u1.missions = m :: rest)
    (hlet : m.type ∈ [MissionType.ChangeBodyState, MissionType.Turn, MissionType.GotoLocation,
      MissionType.ReachGoal])
    (hturn : u1.facing ≠ u1.goalFacing) :
    (downgradeFront u1 m rest true).1 = true ∧
    (downgradeFront u1 m rest true).2.missions =
      { m with type := MissionType.Turn, targetFacing := u1.goalFacing } :: rest ∧
    (0 < m.costPaidUpFront →
      (downgradeFront u1 m rest true).2.time_units = u1.time_units + (m.costPaidUpFront - 1)) ∧
    (m.costPaidUpFront = 0 → (downgradeFront u1 m rest true).2.time_units = u1.time_units) ∧
    u1.time_units ≤ (downgradeFront u1 m rest true).2.time_units ∧
    (cancelMissions cb u).2.time_units =
      u1.time_units + (if 0 < m.costPaidUpFront then m.costPaidUpFront - 1 else 0)
        + prepaidSum rest ∧
    ((∀ x ∈ rest, 0 ≤ x.costPaidUpFront) → u1.time_units ≤ (cancelMissions cb u).2.time_units) := by
  have hpol := cancelPolicy_letFinish m.type hlet
  have hres := cancelMissions_turn_stub cb u u1 m rest hp hq hpol hturn
  refine ⟨?_, ?_, ?_, ?_, ?_, ?_, ?_⟩
  · by_cases hc : 0 < m.costPaidUpFront <;> simp [downgradeFront, hturn, hc]
  · by_cases hc : 0 < m.costPaidUpFront <;> simp [downgradeFront, hturn, hc]
  · intro hc
    simp [downgradeFront, hturn, hc]
  · intro hc
    simp [downgradeFront, hturn, hc]
  · by_cases hc : 0 < m.costPaidUpFront
    · simp [downgradeFront, hturn, hc]
      omega
    · simp [downgradeFront, hturn, hc]
  · rw [hres]
  · intro hnn
    rw [hres]
    have hs := prepaidSum_nonneg rest hnn
    by_cases hc : 0 < m.costPaidUpFront
    · simp only [hc, if_true]
      omega
    · simp only [hc, if_false]
      omega

/-- Concrete instance of C6: a unit with 10 time units, facing (0, 1) and
turning to (1, 0), with the queue GotoLocation (prepaid 4), Snooze (prepaid 2):
4 - 1 = 3 units are credited for the front mission and 2 for the Snooze. -/
theorem cancelMissions_turn_refund_witness :
    (cancelMissions demoServices
        (demoTurning [demoMission MissionType.GotoLocation 4, demoMission MissionType.Snooze 2] 10)
      ).2.time_units = 15 ∧
    (downgradeFront
        (demoTurning [demoMission MissionType.GotoLocation 4, demoMission MissionType.Snooze 2] 10)
        (demoMission MissionType.GotoLocation 4) [demoMission MissionType.Snooze 2] true
      ).2.time_units = 10 + (4 - 1) :=
  have h := cancelMissions_turn_refund demoServices
    (demoTurning [demoMission MissionType.GotoLocation 4, demoMission MissionType.Snooze 2] 10)
    (demoTurning [demoMission MissionType.GotoLocation 4, demoMission MissionType.Snooze 2] 10)
    (demoMission MissionType.GotoLocation 4) [demoMission MissionType.Snooze 2]
    rfl rfl (by simp [demoMission]) (by decide)
  ⟨h.2.2.2.2.2.1, h.2.2.1 (by decide)⟩

/-! ## Insertion policy of `addMission` -/

/-- C8: a ReachGoal mission added with `addMission` (not to-back) is refused,
leaving the unit unchanged, when the queue is non-empty and its front is tagged
Snooze, ThrowItem, ChangeBodyState, ReachGoal, DropItem, Teleport,
RestartNextMission, GotoLocation or Turn; when the queue is empty or its front
is AcquireTU the mission is inserted at the front and started, and the call
returns true. In every case the queue afterwards is the old queue, possibly
with the (started) mission in front of it: a ReachGoal is placed nowhere else. -/
theorem addMission_reachGoal (cb : Services G) (u : BattleUnit G)
    (mission : BattleUnitMission) (ht : mission.type = MissionType.ReachGoal) :
    (∀ front rest, u.missions = front :: rest →
      front.type ∈ [MissionType.Snooze, MissionType.ThrowItem, MissionType.ChangeBodyState,
        MissionType.ReachGoal, MissionType.DropItem, MissionType.Teleport,
        MissionType.RestartNextMission, MissionType.GotoLocation, MissionType.Turn] →
      addMission cb u mission false = (false, u)) ∧
    ((u.missions = [] ∨
        ∃ front rest, u.missions = front :: rest ∧ front.type = MissionType.AcquireTU) →
      addMission cb u mission false =
        (true, { toUnitVars := (cb.start { u with missions := mission :: u.missions } mission).vars
                 missions := (cb.start { u with missions := mission :: u.missions } mission).mission
                   :: u.missions })) ∧
    ((addMission cb u mission false).2.missions = u.missions ∨
      (addMission cb u mission false).2.missions =
        (cb.start { u with missions := mission :: u.missions } mission).mission :: u.missions) := by
  refine ⟨?_, ?_, ?_⟩
  · intro front rest hq hfront
    simp only [List.mem_cons, List.mem_singleton, List.not_mem_nil, or_false] at hfront
    rcases hfront with h | h | h | h | h | h | h | h | h <;>
      simp [addMission, ht, hq, h, preventsReachGoal]
  · rintro (hq | ⟨front, rest, hq, hfront⟩)
    · simp [addMission, ht, hq, emplaceFrontAndStart]
    · simp [addMission, ht, hq, hfront, preventsReachGoal, emplaceFrontAndStart]
  · cases hq : u.missions with
    | nil => right; simp [addMission, ht, hq, emplaceFrontAndStart]
    | cons front rest =>
      by_cases hb : preventsReachGoal front.type = true
      · left; simp [addMission, ht, hq, hb]
      · right; simp [addMission, ht, hq, hb, emplaceFrontAndStart]

/-- Concrete instance of C8: a ReachGoal is refused in front of a Turn and
accepted, and started once, in front of an AcquireTU. -/
theorem addMission_reachGoal_witness :
    addMission demoServices (demoUnit [demoMission MissionType.Turn 0] 0 false)
        (demoMission MissionType.ReachGoal 0) false
      = (false, demoUnit [demoMission MissionType.Turn 0] 0 false) ∧
    addMission demoServices (demoUnit [demoMission MissionType.AcquireTU 0] 0 false)
        (demoMission MissionType.ReachGoal 0) false
      = (true, { demoUnit [demoMission MissionType.ReachGoal 0,
                            demoMission MissionType.AcquireTU 0] 0 false with state := 1 }) :=
  have h := addMission_reachGoal demoServices (demoUnit [demoMission MissionType.Turn 0] 0 false)
    (demoMission MissionType.ReachGoal 0) rfl
  have k := addMission_reachGoal demoServices
    (demoUnit [demoMission MissionType.AcquireTU 0] 0 false)
    (demoMission MissionType.ReachGoal 0) rfl
  ⟨h.1 _ _ rfl (by simp [demoMission]), k.2.1 (Or.inr ⟨_, _, rfl, rfl⟩)⟩

/-- C9: a non-ReachGoal mission added with `addMission` (not to-back) is always
accepted and the existing missions keep their order. A Turn, ChangeBodyState,
ThrowItem, GotoLocation or Teleport becomes the last element, and it is started
exactly when the queue was empty (it is then the only element) or it is a
Teleport. A Snooze, AcquireTU, RestartNextMission or DropItem becomes the first
element and is always started. -/
theorem addMission_other (cb : Services G) (u : BattleUnit G)
    (mission : BattleUnitMission) (ht : mission.type ≠ MissionType.ReachGoal) :
    (addMission cb u mission false).1 = true ∧
    (mission.type ∈ [MissionType.Turn, MissionType.ChangeBodyState, MissionType.ThrowItem,
        MissionType.GotoLocation, MissionType.Teleport] →
      ((u.missions = [] ∨ mission.type = MissionType.Teleport) →
        addMission cb u mission false =
          (true, { toUnitVars :=
                     (cb.start { u with missions := u.missions ++ [mission] } mission).vars
                   missions := u.missions ++
                     [(cb.start { u with missions := u.missions ++ [mission] } mission).mission] })) ∧
      (¬ (u.missions = [] ∨ mission.type = MissionType.Teleport) →
        addMission cb u mission false = (true, { u with missions := u.missions ++ [mission] }))) ∧
    (mission.type ∈ [MissionType.Snooze, MissionType.AcquireTU, MissionType.RestartNextMission,
        MissionType.DropItem] →
      addMission cb u mission false =
        (true, { toUnitVars := (cb.start { u with missions := mission :: u.missions } mission).vars
                 missions := (cb.start { u with missions := mission :: u.missions } mission).mission
                   :: u.missions })) := by
  have hlen : (u.missions.length + 1 = 1) ↔ u.missions = [] := by
    cases u.missions <;> simp
  refine ⟨?_, ?_, ?_⟩
  · cases h : mission.type <;> simp_all [addMission] <;> split <;> rfl
  · intro hmem
    simp only [List.mem_cons, List.mem_singleton, List.not_mem_nil, or_false] at hmem
    refine ⟨?_, ?_⟩
    · intro hc
      rcases hmem with h | h | h | h | h <;> simp_all [addMission]
    · intro hc
      rcases hmem with h | h | h | h | h <;> simp_all [addMission]
  · intro hmem
    simp only [List.mem_cons, List.mem_singleton, List.not_mem_nil, or_false] at hmem
    rcases hmem with h | h | h | h <;> simp [addMission, h, emplaceFrontAndStart]

/-- Concrete instance of C9: behind a Snooze, a Turn is appended without being
started, a Teleport is appended and started, and a DropItem is put in front
and started. -/
theorem addMission_other_witness :
    addMission demoServices (demoUnit [demoMission MissionType.Snooze 0] 0 true)
        (demoMission MissionType.Turn 0) false
      = (true, demoUnit [demoMission MissionType.Snooze 0, demoMission MissionType.Turn 0]
          0 true) ∧
    addMission demoServices (demoUnit [demoMission MissionType.Snooze 0] 0 true)
        (demoMission MissionType.Teleport 0) false
      = (true, { demoUnit [demoMission MissionType.Snooze 0, demoMission MissionType.Teleport 0]
          0 true with state := 1 }) ∧
    addMission demoServices (demoUnit [demoMission MissionType.Snooze 0] 0 true)
        (demoMission MissionType.DropItem 0) false
      = (true, { demoUnit [demoMission MissionType.DropItem 0, demoMission MissionType.Snooze 0]
          0 true with state := 1 }) :=
  have a := addMission_other demoServices (demoUnit [demoMission MissionType.Snooze 0] 0 true)
    (demoMission MissionType.Turn 0) (by simp [demoMission])
  have b := addMission_other demoServices (demoUnit [demoMission MissionType.Snooze 0] 0 true)
    (demoMission MissionType.Teleport 0) (by simp [demoMission])
  have c := addMission_other demoServices (demoUnit [demoMission MissionType.Snooze 0] 0 true)
    (demoMission MissionType.DropItem 0) (by simp [demoMission])
  ⟨(a.2.1 (by simp [demoMission])).2 (by simp [demoMission, demoUnit]),
   (b.2.1 (by simp [demoMission])).1 (Or.inr rfl),
   c.2.2 (by simp [demoMission])⟩

/-! ## `setMission` -/

/-- C10: `setMission` called with a null mission returns false and is a no-op:
the unit after the call, with its queue, time units, attack state, facing and
body state, is the unit before the call. -/
theorem setMission_null (cb : Services G) (u : BattleUnit G) :
    setMission cb u none = (false, u) := rfl

/-! ## `setMission` when cancellation fails -/

/-- The function `setMission` on a non-null mission, in terms of the unit on
which cancellation is attempted. -/
theorem setMission_some (cb : Services G) (u : BattleUnit G) (mission : BattleUnitMission) :
    setMission cb u (some mission) =
      if ¬ (cancelMissions cb (afterPreAction u mission)).1 = true then
        (false, (cancelMissions cb (afterPreAction u mission)).2)
      else
        addMission cb
          (overrideRemaining cb (cancelMissions cb (afterPreAction u mission)).2 mission).1
          (overrideRemaining cb (cancelMissions cb (afterPreAction u mission)).2 mission).2
          false := by
  cases ht : mission.type <;> simp [setMission, afterPreAction, ht]

/-- C11, the claim as stated fails. A unit firing at a rival whose queue is an
unfinished ThrowItem is given a Turn mission: `setMission` returns false, the
queue is unchanged, and the attack state is reset all the same (`stopAttacking`
runs before cancellation is attempted). And when a finished Snooze precedes
the unfinished ThrowItem, `setMission` returns false after the Snooze has been
popped and the ThrowItem started: the queue is not the one before the call. -/
theorem setMission_failed_cancel_not_noop :
    setMission demoServices (demoAttacking [demoMission MissionType.ThrowItem 0])
        (some (demoMission MissionType.Turn 0))
      = (false, { state := 0, missions := [demoMission MissionType.ThrowItem 0] }) ∧
    (demoAttacking [demoMission MissionType.ThrowItem 0]).weaponStatus
      = WeaponStatus.FiringLeftHand ∧
    (setMission demoServices (demoAttacking [demoMission MissionType.ThrowItem 0])
        (some (demoMission MissionType.Turn 0))).2.weaponStatus = WeaponStatus.NotFiring ∧
    setMission demoServices
        (demoUnit [{ type := MissionType.Snooze, cancelled := true },
                   demoMission MissionType.ThrowItem 0] 0 true)
        (some (demoMission MissionType.Snooze 0))
      = (false, { demoUnit [demoMission MissionType.ThrowItem 0] 0 true with state := 1 }) :=
  ⟨rfl, rfl, rfl, rfl⟩

/-- C11, amended: for every mission type, if cancellation fails inside
`setMission`, `setMission` returns false and the new mission is not inserted:
the unit is left as the failed `cancelMissions` left it. When the failure is an
unfinished ThrowItem at the head, the queue and the time units are the same as
before the call; the whole unit is unchanged unless the new mission is a Turn,
and for a Turn the attack state has been reset by `stopAttacking` before the
cancellation was attempted (weaponStatus NotFiring, targetingMode NoTarget,
no target unit, ticksTillNextTargetCheck 0) while everything else is unchanged. -/
theorem setMission_cancel_fails (cb : Services G) (u : BattleUnit G)
    (mission : BattleUnitMission) :
    ((cancelMissions cb (afterPreAction u mission)).1 = false →
      setMission cb u (some mission) =
        (false, (cancelMissions cb (afterPreAction u mission)).2)) ∧
    (∀ m rest, u.missions = m :: rest → m.type = MissionType.ThrowItem →
      ReportsUnfinished cb (afterPreAction u mission) m →
      setMission cb u (some mission) = (false, afterPreAction u mission) ∧
      (setMission cb u (some mission)).2.missions = u.missions ∧
      (setMission cb u (some mission)).2.time_units = u.time_units ∧
      (mission.type ≠ MissionType.Turn → (setMission cb u (some mission)).2 = u) ∧
      (mission.type = MissionType.Turn →
        (setMission cb u (some mission)).2 = stopAttacking u ∧
        (setMission cb u (some mission)).2.weaponStatus = WeaponStatus.NotFiring ∧
        (setMission cb u (some mission)).2.targetingMode = TargetingMode.NoTarget ∧
        (setMission cb u (some mission)).2.targetUnit = none ∧
        (setMission cb u (some mission)).2.ticksTillNextTargetCheck = 0)) := by
  have hfail : (cancelMissions cb (afterPreAction u mission)).1 = false →
      setMission cb u (some mission) =
        (false, (cancelMissions cb (afterPreAction u mission)).2) := by
    intro h
    rw [setMission_some]
    simp [h]
  refine ⟨hfail, ?_⟩
  intro m rest hq ht hnf
  have hq0 : (afterPreAction u mission).missions = m :: rest := by
    unfold afterPreAction
    split <;> simpa [stopAttacking] using hq
  have hp := popFinishedMissions_unfinished cb (afterPreAction u mission) m rest hq0 hnf
  have hc : cancelMissions cb (afterPreAction u mission) = (false, afterPreAction u mission) :=
    cancelMissions_refused cb _ _ m rest hp hq0 (by simp [ht, cancelPolicy])
  have hres : setMission cb u (some mission) = (false, afterPreAction u mission) := by
    rw [hfail (by rw [hc]), hc]
  rw [hres]
  refine ⟨rfl, ?_, ?_, ?_, ?_⟩
  · unfold afterPreAction
    split <;> simp [stopAttacking]
  · unfold afterPreAction
    split <;> simp [stopAttacking]
  · intro hne
    simp [afterPreAction, hne]
  · intro he
    simp [afterPreAction, he, stopAttacking]

/-- Concrete instance of C11 as amended: a firing unit whose queue is an
unfinished ThrowItem; a Snooze mission is refused and the unit is unchanged, a
Turn mission is refused and only the attack state is reset. -/
theorem setMission_cancel_fails_witness :
    (setMission demoServices (demoAttacking [demoMission MissionType.ThrowItem 0])
        (some (demoMission MissionType.Snooze 0))).2
      = demoAttacking [demoMission MissionType.ThrowItem 0] ∧
    (setMission demoServices (demoAttacking [demoMission MissionType.ThrowItem 0])
        (some (demoMission MissionType.Turn 0))).2
      = stopAttacking (demoAttacking [demoMission MissionType.ThrowItem 0]) :=
  have a := (setMission_cancel_fails demoServices
    (demoAttacking [demoMission MissionType.ThrowItem 0])
    (demoMission MissionType.Snooze 0)).2
    (demoMission MissionType.ThrowItem 0) [] rfl rfl rfl
  have b := (setMission_cancel_fails demoServices
    (demoAttacking [demoMission MissionType.ThrowItem 0])
    (demoMission MissionType.Turn 0)).2
    (demoMission MissionType.ThrowItem 0) [] rfl rfl rfl
  ⟨a.2.2.2.1 (by simp [demoMission]), (b.2.2.2.2 rfl).1⟩

/-! ## Units removed from the battle -/

/-- C12: for every unit whose destroyed flag or retreated flag is set and every
tick count, `update` returns at its guard, whatever the rest of the function
does: the unit after the call is the unit before the call, so position,
facing, pose states and counters, stun ticks, health, fatal wounds, mission
queue and attack state are all unchanged. -/
theorem update_removed_unit (updateLive : BattleUnit G → Nat → Option (BattleUnit G))
    (u : BattleUnit G) (ticks : Nat) (h : u.destroyed = true ∨ u.retreated = true) :
    update updateLive u ticks = some u := by
  simp [update, h]

/-- Concrete instance of C12: a destroyed unit with 5 health and 7 stun ticks,
updated for 10 ticks by a rest of `update` that would clear its queue. -/
theorem update_removed_unit_witness :
    update (fun u _ => some { u with missions := [], health := 0 })
        (demoVitals 5 7 true) 10 = some (demoVitals 5 7 true) :=
  update_removed_unit _ (demoVitals 5 7 true) 10 (Or.inl rfl)

/-- C13, the code at the failing input: `destroy` on a live unit removes and
resets the tile object and the shadow object and leaves the `destroyed` flag
false, so that a later `update` passes the guard and dereferences the reset
tile object (`none`), whatever follows in `update`. The sibling `retreat` sets
its flag, and a later `update` returns the unit unchanged. -/
theorem destroy_leaves_flag_unset :
    destroy demoServices (demoUnit [] 0 true)
      = some { demoUnit [] 0 true with hasTileObject := false, hasShadowObject := false } ∧
    (∀ u1, destroy demoServices (demoUnit [] 0 true) = some u1 →
      u1.destroyed = false ∧
      ∀ (updateLive : BattleUnit Nat → Nat → Option (BattleUnit Nat)) (ticks : Nat),
        update updateLive u1 ticks = none) ∧
    retreat demoServices (demoUnit [] 0 true)
      = some { demoUnit [] 0 true with retreated := true } ∧
    (∀ u1, retreat demoServices (demoUnit [] 0 true) = some u1 →
      u1.retreated = true ∧
      ∀ (updateLive : BattleUnit Nat → Nat → Option (BattleUnit Nat)) (ticks : Nat),
        update updateLive u1 ticks = some u1) := by
  refine ⟨rfl, ?_, rfl, ?_⟩
  · intro u1 h
    have h1 : u1 = { demoUnit [] 0 true with hasTileObject := false, hasShadowObject := false } :=
      (Option.some.inj (h.symm.trans rfl)).symm ▸ rfl
    subst h1
    exact ⟨rfl, fun _ _ => rfl⟩
  · intro u1 h
    have h1 : u1 = { demoUnit [] 0 true with retreated := true } :=
      (Option.some.inj (h.symm.trans rfl)).symm ▸ rfl
    subst h1
    exact ⟨rfl, fun _ _ => rfl⟩

/-! ## Consciousness -/

/-- C14: for every unit state, `isConscious` implies not `isDead`, a stun
damage (stunDamageInTicks / TICKS_PER_SECOND) strictly below health, and not
(current body state = Downed and target body state = Downed); `isDead` implies
neither `isConscious` nor `isUnconscious`; and `isConscious` and
`isUnconscious` never hold together. -/
theorem consciousness_relations (gt : GameTime) (u : BattleUnit G) :
    (isConscious gt u = true →
      isDead u = false ∧
      Int.tdiv u.stunDamageInTicks gt.TICKS_PER_SECOND < u.health ∧
      ¬ (u.current_body_state = BodyState.Downed ∧ u.target_body_state = BodyState.Downed)) ∧
    (isDead u = true → isConscious gt u = false ∧ isUnconscious gt u = false) ∧
    ¬ (isConscious gt u = true ∧ isUnconscious gt u = true) := by
  refine ⟨?_, ?_, ?_⟩
  · intro h
    simp only [isConscious, getStunDamage, getHealth, Bool.and_eq_true, Bool.not_eq_true',
      decide_eq_true_eq, Bool.or_eq_true] at h
    refine ⟨h.1.1, h.1.2, ?_⟩
    rintro ⟨h1, h2⟩
    rcases h.2 with h3 | h3
    · exact h3 h1
    · exact h3 h2
  · intro h
    simp [isConscious, isUnconscious, h]
  · rintro ⟨h1, h2⟩
    simp only [isConscious, isUnconscious, getStunDamage, getHealth, Bool.and_eq_true,
      Bool.not_eq_true', decide_eq_true_eq, Bool.or_eq_true] at h1 h2
    omega

/-! ## The body-pose predicate -/

/-- The setter `setPosition` leaves the body pose alone. -/
theorem setPosition_body (cb : Services G) (u : BattleUnit G) (pos : Vec3f) :
    (setPosition cb u pos).current_body_state = u.current_body_state ∧
    (setPosition cb u pos).target_body_state = u.target_body_state ∧
    (setPosition cb u pos).body_animation_ticks_remaining = u.body_animation_ticks_remaining := by
  by_cases h1 : u.hasTileObject = true <;> by_cases h2 : pos.toTile = u.position.toTile <;>
    simp [setPosition, updateUnitVision, h1, h2]

/-- The setter `setBodyState` makes the requested state current and target,
with no tick remaining. -/
theorem setBodyState_body (cb : Services G) (u : BattleUnit G) (bodyState : BodyState) :
    (setBodyState cb u bodyState).current_body_state = bodyState ∧
    (setBodyState cb u bodyState).target_body_state = bodyState ∧
    (setBodyState cb u bodyState).body_animation_ticks_remaining = 0 := by
  by_cases h1 : u.hasTileObject = true
  · have h := setPosition_body cb
      { u with current_body_state := bodyState, target_body_state := bodyState
               body_animation_ticks_remaining := 0 }
      u.position
    simpa [setBodyState, h1, updateUnitVision] using h
  · simp [setBodyState, h1]

/-- The body-pose predicate holds after `setBodyState`. -/
theorem setBodyState_bodyPoseOK (cb : Services G) (u : BattleUnit G) (bodyState : BodyState) :
    BodyPoseOK (setBodyState cb u bodyState).toUnitVars := by
  obtain ⟨h1, h2, h3⟩ := setBodyState_body cb u bodyState
  unfold BodyPoseOK
  rw [h1, h2, h3]
  simp

/-- The setter `setPosition` keeps the body-pose predicate. -/
theorem setPosition_bodyPoseOK (cb : Services G) (u : BattleUnit G) (pos : Vec3f)
    (hu : BodyPoseOK u.toUnitVars) : BodyPoseOK (setPosition cb u pos).toUnitVars := by
  obtain ⟨h1, h2, h3⟩ := setPosition_body cb u pos
  unfold BodyPoseOK at hu ⊢
  rw [h1, h2, h3]
  exact hu

/-- The body-pose predicate holds after the end of `beginBodyStateChange`. -/
theorem commitBodyStateChange_bodyPoseOK (cb : Services G) (gt : GameTime)
    (u : BattleUnit G) (frameCount : Nat) (bodyState : BodyState) :
    BodyPoseOK (commitBodyStateChange cb gt u frameCount bodyState).toUnitVars := by
  by_cases hc : frameCount * gt.TICKS_PER_FRAME_UNIT > 0 ∧ u.current_body_state ≠ bodyState
  · have hu4 : BodyPoseOK
        ({ u with target_body_state := bodyState
                  body_animation_ticks_remaining := frameCount * gt.TICKS_PER_FRAME_UNIT } :
          BattleUnit G).toUnitVars := by
      unfold BodyPoseOK
      simp [hc.1, hc.2]
    unfold commitBodyStateChange
    rw [if_pos hc]
    by_cases h1 : u.hasTileObject = true
    · rw [if_pos h1]
      exact setPosition_bodyPoseOK cb _ _ hu4
    · rw [if_neg h1]
      exact hu4
  · unfold commitBodyStateChange
    rw [if_neg hc]
    exact setBodyState_bodyPoseOK cb u bodyState

/-- The body-pose predicate holds after `beginBodyStateChange`. -/
theorem beginBodyStateChange_bodyPoseOK (cb : Services G) (gt : GameTime)
    (ap : BattleUnitAnimationPack) (u : BattleUnit G) (bodyState : BodyState) :
    BodyPoseOK (beginBodyStateChange cb gt ap u bodyState).toUnitVars := by
  unfold beginBodyStateChange
  exact commitBodyStateChange_bodyPoseOK cb gt _ _ bodyState

/-- A run of `popFinishedMissions` keeps the body-pose predicate when the
callbacks do. -/
theorem PopRun.bodyPoseOK {cb : Services G} {u : BattleUnit G}
    {res : Bool × BattleUnit G} (h : PopRun cb u res) (hk : KeepsBodyPose cb)
    (hu : BodyPoseOK u.toUnitVars) : BodyPoseOK res.2.toUnitVars := by
  induction h with
  | idle u hq => exact hu
  | unfinished u m rest hq hf => exact hk.1 u m hu
  | retreated u m rest hq hf hr => exact hk.1 u m hu
  | last u m hq hf hr => exact hk.1 u m hu
  | next u m n rest res hq hf hr hrun ih =>
    apply ih
    exact hk.2.1 _ n (hk.1 u m hu)

/-- The body-pose predicate is kept by the query of the next body state. -/
theorem tryNextBodyState_bodyPoseOK (cb : Services G) (gt : GameTime)
    (ap : BattleUnitAnimationPack) (hk : KeepsBodyPose cb) (u : BattleUnit G)
    (hu : BodyPoseOK u.toUnitVars) : BodyPoseOK (tryNextBodyState cb gt ap u).toUnitVars := by
  unfold tryNextBodyState
  by_cases hc : u.firing_animation_ticks_remaining = 0 ∧
      (u.hand_animation_ticks_remaining = 0 ∨ u.target_hand_state = HandState.Aiming)
  · rw [if_pos hc]
    by_cases hn : (getNextBodyState cb u BodyState.Downed).1 = true
    · simp only [hn, if_true]
      exact beginBodyStateChange_bodyPoseOK cb gt ap _ _
    · simp only [hn, if_false]
      unfold getNextBodyState
      cases hq : u.missions with
      | nil => exact hu
      | cons m rest => exact hk.2.2 u m hu
  · rw [if_neg hc]
    exact hu

/-- The body-pose predicate is kept by the body step of `update`. -/
theorem updateBodyStep_bodyPoseOK (cb : Services G) (gt : GameTime)
    (ap : BattleUnitAnimationPack) (hk : KeepsBodyPose cb) (u : BattleUnit G)
    (hu : BodyPoseOK u.toUnitVars) (budget : Nat) :
    BodyPoseOK (updateBodyStep cb gt ap u budget).unit.toUnitVars := by
  unfold updateBodyStep
  by_cases hb : budget > 0
  · rw [if_pos hb]
    by_cases hgt : u.body_animation_ticks_remaining > budget
    · rw [if_pos hgt]
      unfold BodyPoseOK at hu ⊢
      show 0 < u.body_animation_ticks_remaining - budget ↔ _
      rw [← hu]
      omega
    · rw [if_neg hgt]
      have ha : BodyPoseOK (finishBodyAnimation cb u budget).1.toUnitVars := by
        unfold finishBodyAnimation
        by_cases hpos : u.body_animation_ticks_remaining > 0
        · rw [if_pos hpos]
          exact setBodyState_bodyPoseOK cb u _
        · rw [if_neg hpos]
          exact hu
      have hp := (popFinishedMissions_run cb (finishBodyAnimation cb u budget).1).bodyPoseOK
        hk ha
      by_cases hr : (popFinishedMissions cb (finishBodyAnimation cb u budget).1).1 = true
      · simp only [hr, if_true]
        exact hp
      · simp only [hr, if_false]
        exact tryNextBodyState_bodyPoseOK cb gt ap hk _ hp
  · rw [if_neg hb]
    exact hu

/-- C15: the body-pose predicate "body_animation_ticks_remaining > 0 if and
only if current_body_state ≠ target_body_state" is an invariant: it holds
after `setBodyState` and after `beginBodyStateChange` for every requested
state and every animation frame-count table, and, if it holds before, it holds
after the body-advance step of `update` for every tick budget (the mission
callbacks run by that step being assumed to keep it). -/
theorem bodyPose_invariant (cb : Services G) (gt : GameTime) (ap : BattleUnitAnimationPack)
    (u : BattleUnit G) (h : BodyPoseOK u.toUnitVars) :
    (∀ bodyState, BodyPoseOK (setBodyState cb u bodyState).toUnitVars) ∧
    (∀ bodyState, BodyPoseOK (beginBodyStateChange cb gt ap u bodyState).toUnitVars) ∧
    (KeepsBodyPose cb →
      ∀ budget, BodyPoseOK (updateBodyStep cb gt ap u budget).unit.toUnitVars) :=
  ⟨setBodyState_bodyPoseOK cb u, beginBodyStateChange_bodyPoseOK cb gt ap u,
   fun hk budget => updateBodyStep_bodyPoseOK cb gt ap hk u h budget⟩

/-- Concrete instance of C15: a standing unit is asked to kneel (2 frames of
8 ticks): 16 ticks remain towards Kneeling and the predicate holds; the body
step with a budget of 20 ticks then completes the change. -/
theorem bodyPose_invariant_witness :
    (beginBodyStateChange demoServices demoGameTime demoAnimationPack (demoUnit [] 0 true)
        BodyState.Kneeling).body_animation_ticks_remaining = 16 ∧
    (beginBodyStateChange demoServices demoGameTime demoAnimationPack (demoUnit [] 0 true)
        BodyState.Kneeling).target_body_state = BodyState.Kneeling ∧
    BodyPoseOK (beginBodyStateChange demoServices demoGameTime demoAnimationPack
        (demoUnit [] 0 true) BodyState.Kneeling).toUnitVars ∧
    (updateBodyStep demoServices demoGameTime demoAnimationPack
        (beginBodyStateChange demoServices demoGameTime demoAnimationPack (demoUnit [] 0 true)
          BodyState.Kneeling) 20).unit.current_body_state = BodyState.Kneeling ∧
    BodyPoseOK (updateBodyStep demoServices demoGameTime demoAnimationPack
        (beginBodyStateChange demoServices demoGameTime demoAnimationPack (demoUnit [] 0 true)
          BodyState.Kneeling) 20).unit.toUnitVars :=
  have h0 : BodyPoseOK (demoUnit [] 0 true).toUnitVars := by
    simp [BodyPoseOK, demoUnit]
  have hk : KeepsBodyPose demoServices :=
    ⟨fun u m h => by
        show BodyPoseOK (if m.cancelled ∧ m.item = some "exit"
          then { u.toUnitVars with retreated := true } else u.toUnitVars)
        split
        · exact h
        · exact h,
     fun _ _ h => h, fun _ _ h => h⟩
  have a := (bodyPose_invariant demoServices demoGameTime demoAnimationPack
    (demoUnit [] 0 true) h0).2.1 BodyState.Kneeling
  have b := (bodyPose_invariant demoServices demoGameTime demoAnimationPack
    (beginBodyStateChange demoServices demoGameTime demoAnimationPack (demoUnit [] 0 true)
      BodyState.Kneeling) a).2.2 hk 20
  ⟨rfl, rfl, a, rfl, b⟩

/-! ## The hand-pose predicate -/

/-- The hand-pose predicate holds after `setHandState`. -/
theorem setHandState_handPoseOK (gt : GameTime) (ap : BattleUnitAnimationPack)
    (u : BattleUnit G) (state : HandState) :
    HandPoseOK (setHandState gt ap u state).toUnitVars := by
  simp [HandPoseOK, setHandState]

/-- The hand-pose predicate holds after `beginHandStateChange`. -/
theorem beginHandStateChange_handPoseOK (gt : GameTime) (ap : BattleUnitAnimationPack)
    (u : BattleUnit G) (state : HandState) :
    HandPoseOK (beginHandStateChange gt ap u state).toUnitVars := by
  unfold beginHandStateChange
  by_cases hc : ap.getFrameCountHands u.displayedItem u.current_body_state u.current_hand_state
      state u.current_movement_state u.facing * gt.TICKS_PER_FRAME_UNIT > 0 ∧
      u.current_hand_state ≠ state
  · simp only [hc, and_self, if_true]
    unfold HandPoseOK
    simp [hc.1, hc.2]
  · simp only [hc, if_false]
    exact setHandState_handPoseOK gt ap u state

/-- The hand-pose predicate is kept by `setMovementState`. -/
theorem setMovementState_handPoseOK (gt : GameTime) (ap : BattleUnitAnimationPack)
    (u : BattleUnit G) (state : MovementState) (hu : HandPoseOK u.toUnitVars) :
    HandPoseOK (setMovementState gt ap u state).toUnitVars := by
  cases state
  case None => exact hu
  case Normal => exact hu
  case Running =>
    unfold setMovementState
    simp only
    split
    · exact setHandState_handPoseOK gt ap _ _
    · exact hu
  case Strafing =>
    unfold setMovementState
    simp only
    split
    · exact setHandState_handPoseOK gt ap _ _
    · exact hu

/-- The hand-pose predicate is kept by the hand step of `update`. -/
theorem updateHandStep_handPoseOK (gt : GameTime) (ap : BattleUnitAnimationPack)
    (u : BattleUnit G) (hu : HandPoseOK u.toUnitVars) (budget : Nat) :
    HandPoseOK (updateHandStep gt ap u budget).1.toUnitVars := by
  unfold updateHandStep
  by_cases hb : budget > 0
  · rw [if_pos hb]
    by_cases hf : u.firing_animation_ticks_remaining > 0
    · rw [if_pos hf]
      by_cases hgt : u.firing_animation_ticks_remaining > budget
      · rw [if_pos hgt]
        exact hu
      · rw [if_neg hgt]
        exact setHandState_handPoseOK gt ap _ _
    · rw [if_neg hf]
      by_cases hgt : u.hand_animation_ticks_remaining > budget
      · rw [if_pos hgt]
        unfold HandPoseOK at hu ⊢
        show 0 < u.hand_animation_ticks_remaining - budget ↔ _
        rw [← hu]
        omega
      · rw [if_neg hgt]
        by_cases hpos : u.hand_animation_ticks_remaining > 0
        · rw [if_pos hpos]
          exact setHandState_handPoseOK gt ap _ _
        · rw [if_neg hpos]
          exact hu
  · rw [if_neg hb]
    exact hu

/-- The hand step with enough budget and no firing animation commits the
target hand state. -/
theorem updateHandStep_commits (gt : GameTime) (ap : BattleUnitAnimationPack)
    (u : BattleUnit G) (hu : HandPoseOK u.toUnitVars) (budget : Nat)
    (hle : u.hand_animation_ticks_remaining ≤ budget)
    (hf : u.firing_animation_ticks_remaining = 0) :
    (updateHandStep gt ap u budget).1.current_hand_state = u.target_hand_state ∧
    (updateHandStep gt ap u budget).1.target_hand_state = u.target_hand_state ∧
    (updateHandStep gt ap u budget).1.hand_animation_ticks_remaining = 0 ∧
    (updateHandStep gt ap u budget).2 = budget - u.hand_animation_ticks_remaining := by
  have hf0 : ¬ u.firing_animation_ticks_remaining > 0 := by omega
  have hgt : ¬ u.hand_animation_ticks_remaining > budget := by omega
  unfold HandPoseOK at hu
  unfold updateHandStep
  by_cases hb : budget > 0
  · rw [if_pos hb, if_neg hf0, if_neg hgt]
    by_cases hpos : u.hand_animation_ticks_remaining > 0
    · rw [if_pos hpos]
      exact ⟨rfl, rfl, rfl, rfl⟩
    · rw [if_neg hpos]
      have h0 : u.hand_animation_ticks_remaining = 0 := by omega
      have hct : u.current_hand_state = u.target_hand_state := by
        by_contra hne
        exact hpos (hu.2 hne)
      exact ⟨hct, rfl, h0, by simp [h0]⟩
  · rw [if_neg hb]
    have h0 : u.hand_animation_ticks_remaining = 0 := by omega
    have hct : u.current_hand_state = u.target_hand_state := by
      by_contra hne
      have := hu.2 hne
      omega
    exact ⟨hct, rfl, h0, by simp [h0]⟩

/-- C16: the hand-pose predicate "hand_animation_ticks_remaining > 0 if and
only if current_hand_state ≠ target_hand_state" is an invariant of
`setHandState`, `beginHandStateChange`, `setMovementState` and the
hand-advance step of `update`; and in a state where it holds, when the hand
budget is at least the remaining hand ticks and no firing animation is
running, the hand-advance step commits the target hand state as current with
zero ticks remaining, the budget being reduced by the ticks consumed. -/
theorem handPose_invariant (gt : GameTime) (ap : BattleUnitAnimationPack)
    (u : BattleUnit G) (h : HandPoseOK u.toUnitVars) :
    (∀ state, HandPoseOK (setHandState gt ap u state).toUnitVars) ∧
    (∀ state, HandPoseOK (beginHandStateChange gt ap u state).toUnitVars) ∧
    (∀ state, HandPoseOK (setMovementState gt ap u state).toUnitVars) ∧
    (∀ budget, HandPoseOK (updateHandStep gt ap u budget).1.toUnitVars) ∧
    (∀ budget, u.hand_animation_ticks_remaining ≤ budget →
      u.firing_animation_ticks_remaining = 0 →
      (updateHandStep gt ap u budget).1.current_hand_state = u.target_hand_state ∧
      (updateHandStep gt ap u budget).1.target_hand_state = u.target_hand_state ∧
      (updateHandStep gt ap u budget).1.hand_animation_ticks_remaining = 0 ∧
      (updateHandStep gt ap u budget).2 = budget - u.hand_animation_ticks_remaining) :=
  ⟨setHandState_handPoseOK gt ap u, beginHandStateChange_handPoseOK gt ap u,
   fun state => setMovementState_handPoseOK gt ap u state h,
   updateHandStep_handPoseOK gt ap u h,
   fun budget hle hf => updateHandStep_commits gt ap u h budget hle hf⟩

/-- Concrete instance of C16: a unit at ease begins to aim (1 frame of 8
ticks); the hand step with a budget of 10 ticks commits Aiming and leaves 2
ticks of budget. -/
theorem handPose_invariant_witness :
    (beginHandStateChange demoGameTime demoAnimationPack (demoUnit [] 0 true)
        HandState.Aiming).hand_animation_ticks_remaining = 8 ∧
    HandPoseOK (beginHandStateChange demoGameTime demoAnimationPack (demoUnit [] 0 true)
        HandState.Aiming).toUnitVars ∧
    (updateHandStep demoGameTime demoAnimationPack
        (beginHandStateChange demoGameTime demoAnimationPack (demoUnit [] 0 true)
          HandState.Aiming) 10).1.current_hand_state = HandState.Aiming ∧
    (updateHandStep demoGameTime demoAnimationPack
        (beginHandStateChange demoGameTime demoAnimationPack (demoUnit [] 0 true)
          HandState.Aiming) 10).2 = 2 :=
  have h0 : HandPoseOK (demoUnit [] 0 true).toUnitVars := by
    simp [HandPoseOK, demoUnit]
  have a := (handPose_invariant demoGameTime demoAnimationPack (demoUnit [] 0 true) h0).2.1
    HandState.Aiming
  have b := (handPose_invariant demoGameTime demoAnimationPack
    (beginHandStateChange demoGameTime demoAnimationPack (demoUnit [] 0 true) HandState.Aiming)
    a).2.2.2.2 10 (by decide) rfl
  ⟨rfl, a, b.1, b.2.2.2⟩

/-! ## Damage -/

/-- The wound loop in closed form: it runs `woundLoopPasses` times, each pass
takes 10 from the remaining damage and adds one wound to the part. -/
theorem woundLoop_eq (p : BodyPart) :
    ∀ (n : Nat) (rem : Int) (u : BattleUnit G) (fatal : Bool), rem.toNat ≤ n →
      woundLoop p rem u fatal =
        (rem - 10 * woundLoopPasses rem,
         { u with fatalWounds :=
             Function.update u.fatalWounds p (u.fatalWounds p + woundLoopPasses rem) },
         fatal || decide (rem > 10)) := by
  intro n
  induction n with
  | zero =>
    intro rem u fatal hn
    have hrem : ¬ rem > 10 := by omega
    rw [woundLoop, if_neg hrem]
    simp [woundLoopPasses, hrem]
  | succ n ih =>
    intro rem u fatal hn
    by_cases hrem : rem > 10
    · rw [woundLoop, if_pos hrem, ih (rem - 10) _ true (by omega)]
      have hk : woundLoopPasses rem = woundLoopPasses (rem - 10) + 1 := by
        unfold woundLoopPasses
        rw [if_pos hrem]
        split <;> omega
      rw [hk]
      refine Prod.ext ?_ (Prod.ext ?_ ?_)
      · show rem - 10 - 10 * woundLoopPasses (rem - 10) = _
        omega
      · show ({ addFatalWound u p with fatalWounds := _ } : BattleUnit G) = _
        simp only [addFatalWound, Function.update_same, Function.update_idem]
        rw [add_assoc, add_comm (1 : Int) (woundLoopPasses (rem - 10))]
      · simp [hrem]
    · rw [woundLoop, if_neg hrem]
      simp [woundLoopPasses, hrem]

/-- The wound block of `dealDamage`: the part hit gains the wounds of the
loop, and one more when the number drawn is below the remaining damage;
nothing else but the game state changes. -/
theorem generateWounds_eq (cb : Services G) (u : BattleUnit G) (d : Int) (p : BodyPart) :
    (generateWounds cb u d p).1 =
      { u with
        state := (cb.randBoundsExclusive u.state 0 10).2
        fatalWounds := Function.update u.fatalWounds p
          (u.fatalWounds p + (woundLoopPasses d +
            if (cb.randBoundsExclusive u.state 0 10).1 < d - 10 * woundLoopPasses d
            then 1 else 0)) } := by
  unfold generateWounds
  rw [woundLoop_eq p d.toNat d u false le_rfl]
  by_cases hr : (cb.randBoundsExclusive u.state 0 10).1 < d - 10 * woundLoopPasses d
  · simp only [hr, if_true, addFatalWound, Function.update_same, Function.update_idem, add_assoc]
  · simp only [hr, if_false, add_zero]

/-- The damage and wound blocks of `dealDamage` leave the destroyed flag and
the body states alone, and the wound block leaves health and stun ticks alone. -/
theorem damaged_fields (cb : Services G) (gt : GameTime) (u : BattleUnit G) (d : Int)
    (gfw : Bool) (p : BodyPart) (sp : Int) :
    (damaged cb gt u d gfw p sp).1.health = (dealStunOrHealthDamage gt u d sp).health ∧
    (damaged cb gt u d gfw p sp).1.stunDamageInTicks =
      (dealStunOrHealthDamage gt u d sp).stunDamageInTicks ∧
    (damaged cb gt u d gfw p sp).1.destroyed = u.destroyed := by
  have hd : (dealStunOrHealthDamage gt u d sp).destroyed = u.destroyed := by
    unfold dealStunOrHealthDamage
    split <;> rfl
  unfold damaged
  cases gfw
  · exact ⟨rfl, rfl, hd⟩
  · simp only [if_true]
    rw [generateWounds_eq]
    exact ⟨rfl, rfl, hd⟩

/-- The end of `dealDamage` leaves the vitals as the damage and wound blocks
made them, when the drop-down sequence leaves them alone. -/
theorem dealDamage_vitals (cb : Services G) (hk : KeepsVitals cb) (gt : GameTime)
    (u : BattleUnit G) (d : Int) (gfw : Bool) (p : BodyPart) (sp : Int) :
    (dealDamage cb gt u d gfw p sp).health = (damaged cb gt u d gfw p sp).1.health ∧
    (dealDamage cb gt u d gfw p sp).stunDamageInTicks =
      (damaged cb gt u d gfw p sp).1.stunDamageInTicks ∧
    (dealDamage cb gt u d gfw p sp).fatalWounds = (damaged cb gt u d gfw p sp).1.fatalWounds ∧
    (dealDamage cb gt u d gfw p sp).destroyed = (damaged cb gt u d gfw p sp).1.destroyed := by
  unfold dealDamage
  simp only
  by_cases hdead : isDead (damaged cb gt u d gfw p sp).1 = true
  · rw [if_pos hdead]
    unfold die
    obtain ⟨h1, h2, h3, h4⟩ := hk
      { (damaged cb gt u d gfw p sp).1 with
        state := cb.dieEffects (damaged cb gt u d gfw p sp).1, focusedByUnits := [] }
    exact ⟨h1, h2, h3, h4⟩
  · rw [if_neg hdead]
    unfold dealDamageTail fallUnconscious
    simp only
    have hdrop := hk (damaged cb gt u d gfw p sp).1
    split <;> split <;> first
      | exact hdrop
      | exact ⟨rfl, rfl, rfl, rfl⟩
      | (split <;> first | exact hdrop | exact ⟨rfl, rfl, rfl, rfl⟩)

/-- Truncating division by a positive number is monotone. -/
theorem tdiv_le_tdiv_of_le (a b t : Int) (ht : 0 < t) (h : a ≤ b) :
    Int.tdiv a t ≤ Int.tdiv b t := by
  have hneg : ∀ x : Int, x < 0 → Int.tdiv x t = -((-x) / t) := by
    intro x hx
    have h1 : Int.tdiv x t = -(Int.tdiv (-x) t) := by
      rw [Int.neg_tdiv, neg_neg]
    rw [h1, Int.tdiv_eq_ediv (by omega) ht.le]
  rcases le_or_lt 0 a with ha | ha
  · rw [Int.tdiv_eq_ediv ha ht.le, Int.tdiv_eq_ediv (le_trans ha h) ht.le]
    exact Int.ediv_le_ediv ht h
  · rcases le_or_lt 0 b with hb | hb
    · have h1 : 0 ≤ (-a) / t := Int.ediv_nonneg (by omega) ht.le
      have h2 : 0 ≤ Int.tdiv b t := Int.tdiv_nonneg hb ht.le
      rw [hneg a ha]
      omega
    · have h1 : (-b) / t ≤ (-a) / t := Int.ediv_le_ediv ht (by omega)
      rw [hneg a ha, hneg b hb]
      omega

/-- The stun block of `dealDamage`. -/
theorem dealStunOrHealthDamage_stun (gt : GameTime) (u : BattleUnit G) (d sp : Int)
    (hs : 0 < sp) :
    (dealStunOrHealthDamage gt u d sp).health = u.health ∧
    (dealStunOrHealthDamage gt u d sp).stunDamageInTicks =
      u.stunDamageInTicks +
        clamp (d * gt.TICKS_PER_SECOND) 0
          (max 0 (sp * gt.TICKS_PER_SECOND - u.stunDamageInTicks)) := by
  unfold dealStunOrHealthDamage
  rw [if_pos hs]
  exact ⟨rfl, rfl⟩

/-- The health block of `dealDamage`. -/
theorem dealStunOrHealthDamage_health (gt : GameTime) (u : BattleUnit G) (d sp : Int)
    (hs : ¬ 0 < sp) :
    (dealStunOrHealthDamage gt u d sp).health = u.health - d ∧
    (dealStunOrHealthDamage gt u d sp).stunDamageInTicks = u.stunDamageInTicks := by
  unfold dealStunOrHealthDamage
  rw [if_neg hs]
  exact ⟨rfl, rfl⟩

/-- The value `clamp v 0 hi` lies between 0 and `hi` when `hi` is not negative. -/
theorem clamp_zero_bounds (v hi : Int) (hhi : 0 ≤ hi) :
    0 ≤ clamp v 0 hi ∧ clamp v 0 hi ≤ hi := by
  unfold clamp
  split
  · exact ⟨le_rfl, hhi⟩
  · split <;> constructor <;> omega

/-- C17: for every unit, every damage value and every stunPower > 0,
`dealDamage` leaves the unit's health unchanged and never decreases
stunDamageInTicks; the increase of stunDamageInTicks is exactly
clamp(damage × TICKS_PER_SECOND, 0, max(0, stunPower × TICKS_PER_SECOND −
stunDamageInTicks)). The sequence run when the unit dies or falls unconscious
is assumed to leave the vitals alone. -/
theorem dealDamage_stun (cb : Services G) (gt : GameTime) (u : BattleUnit G) (damage : Int)
    (generateFatalWounds : Bool) (fatalWoundPart : BodyPart) (stunPower : Int)
    (hk : KeepsVitals cb) (hs : 0 < stunPower) :
    (dealDamage cb gt u damage generateFatalWounds fatalWoundPart stunPower).health
      = u.health ∧
    u.stunDamageInTicks ≤
      (dealDamage cb gt u damage generateFatalWounds fatalWoundPart stunPower).stunDamageInTicks ∧
    (dealDamage cb gt u damage generateFatalWounds fatalWoundPart stunPower).stunDamageInTicks
        - u.stunDamageInTicks
      = clamp (damage * gt.TICKS_PER_SECOND) 0
          (max 0 (stunPower * gt.TICKS_PER_SECOND - u.stunDamageInTicks)) := by
  obtain ⟨h1, h2, _, _⟩ :=
    dealDamage_vitals cb hk gt u damage generateFatalWounds fatalWoundPart stunPower
  obtain ⟨d1, d2, _⟩ := damaged_fields cb gt u damage generateFatalWounds fatalWoundPart stunPower
  obtain ⟨s1, s2⟩ := dealStunOrHealthDamage_stun gt u damage stunPower hs
  have hb := clamp_zero_bounds (damage * gt.TICKS_PER_SECOND)
    (max 0 (stunPower * gt.TICKS_PER_SECOND - u.stunDamageInTicks)) (le_max_left _ _)
  rw [h1, h2, d1, d2, s1, s2]
  refine ⟨rfl, ?_, ?_⟩
  · omega
  · omega

/-- Concrete instance of C17: a unit with 10 health and 100 stun ticks takes 1
point of stun damage of power 5 (144 ticks per second): health stays 10 and
the stun ticks grow by 144. -/
theorem dealDamage_stun_witness :
    (dealDamage demoServices demoGameTime (demoVitals 10 100 false) 1 false BodyPart.Body 5).health
      = 10 ∧
    (dealDamage demoServices demoGameTime (demoVitals 10 100 false) 1 false BodyPart.Body 5
      ).stunDamageInTicks - 100 = 144 :=
  have h := dealDamage_stun demoServices demoGameTime (demoVitals 10 100 false) 1 false
    BodyPart.Body 5 (fun _ => ⟨rfl, rfl, rfl, rfl⟩) (by decide)
  ⟨h.1, h.2.2.trans (by decide)⟩

/-- C18, the claim as stated fails: a unit with 10 health and no stun damage
takes 15 points of stun damage of power 9001 (the call made by `update` when a
unit of maximum health 10 falls into another unit). Its health stays 10 and its
stun damage becomes 15: the cap is the stun power, not the health. -/
theorem dealDamage_stun_exceeds_health :
    getStunDamage demoGameTime (demoVitals 10 0 false) ≤ (demoVitals 10 0 false).health ∧
    (dealDamage demoServices demoGameTime (demoVitals 10 0 false) 15 false BodyPart.Body 9001
      ).health = 10 ∧
    getStunDamage demoGameTime
      (dealDamage demoServices demoGameTime (demoVitals 10 0 false) 15 false BodyPart.Body 9001)
      = 15 ∧
    ¬ getStunDamage demoGameTime
        (dealDamage demoServices demoGameTime (demoVitals 10 0 false) 15 false BodyPart.Body 9001)
      ≤ (dealDamage demoServices demoGameTime (demoVitals 10 0 false) 15 false BodyPart.Body 9001
        ).health := by
  refine ⟨by decide, rfl, rfl, ?_⟩
  decide

/-- C18, amended: stun accumulation is capped by the stun power, not by the
current health. For every unit and every `dealDamage` call with stunPower > 0,
the stun ticks after the call are at most the larger of the stun ticks before
the call and stunPower × TICKS_PER_SECOND; hence the stun damage
(stunDamageInTicks / TICKS_PER_SECOND) after the call is at most the larger of
the stun damage before the call and stunPower. Health is unchanged. -/
theorem dealDamage_stun_cap (cb : Services G) (gt : GameTime) (u : BattleUnit G) (damage : Int)
    (generateFatalWounds : Bool) (fatalWoundPart : BodyPart) (stunPower : Int)
    (hk : KeepsVitals cb) (hs : 0 < stunPower) (ht : 0 < gt.TICKS_PER_SECOND) :
    (dealDamage cb gt u damage generateFatalWounds fatalWoundPart stunPower).stunDamageInTicks
      ≤ max u.stunDamageInTicks (stunPower * gt.TICKS_PER_SECOND) ∧
    getStunDamage gt (dealDamage cb gt u damage generateFatalWounds fatalWoundPart stunPower)
      ≤ max (getStunDamage gt u) stunPower ∧
    (dealDamage cb gt u damage generateFatalWounds fatalWoundPart stunPower).health
      = u.health := by
  obtain ⟨h1, h2, _, _⟩ :=
    dealDamage_vitals cb hk gt u damage generateFatalWounds fatalWoundPart stunPower
  obtain ⟨d1, d2, _⟩ := damaged_fields cb gt u damage generateFatalWounds fatalWoundPart stunPower
  obtain ⟨s1, s2⟩ := dealStunOrHealthDamage_stun gt u damage stunPower hs
  have hb := clamp_zero_bounds (damage * gt.TICKS_PER_SECOND)
    (max 0 (stunPower * gt.TICKS_PER_SECOND - u.stunDamageInTicks)) (le_max_left _ _)
  have hT : (0 : Int) < gt.TICKS_PER_SECOND := by exact_mod_cast ht
  have hticks :
      (dealDamage cb gt u damage generateFatalWounds fatalWoundPart stunPower).stunDamageInTicks
        ≤ max u.stunDamageInTicks (stunPower * gt.TICKS_PER_SECOND) := by
    rw [h2, d2, s2]
    omega
  refine ⟨hticks, ?_, ?_⟩
  · unfold getStunDamage
    simp only
    rcases le_max_iff.mp hticks with hle | hle
    · exact le_trans (tdiv_le_tdiv_of_le _ _ _ hT hle) (le_max_left _ _)
    · have := tdiv_le_tdiv_of_le _ _ _ hT hle
      rw [Int.mul_tdiv_cancel _ (ne_of_gt hT)] at this
      exact le_trans this (le_max_right _ _)
  · rw [h1, d1, s1]

/-- Concrete instance of C18 as amended: 15 points of stun damage of power 12
on a unit with 10 health and no stun damage leave a stun damage of at most 12. -/
theorem dealDamage_stun_cap_witness :
    getStunDamage demoGameTime
      (dealDamage demoServices demoGameTime (demoVitals 10 0 false) 15 false BodyPart.Body 12)
      ≤ 12 ∧
    getStunDamage demoGameTime
      (dealDamage demoServices demoGameTime (demoVitals 10 0 false) 15 false BodyPart.Body 12)
      = 12 :=
  have h := dealDamage_stun_cap demoServices demoGameTime (demoVitals 10 0 false) 15 false
    BodyPart.Body 12 (fun _ => ⟨rfl, rfl, rfl, rfl⟩) (by decide) (by decide)
  ⟨h.2.1, rfl⟩

/-- The wounds of the loop and of the draw add up to one wound per full 10
points plus one when the number drawn is below the remainder. -/
theorem wound_count (d r : Int) (hd : 0 ≤ d) (hr0 : 0 ≤ r) (hr : r < 10) :
    (woundLoopPasses d + if r < d - 10 * woundLoopPasses d then 1 else 0)
      = d / 10 + if r < d % 10 then 1 else 0 := by
  unfold woundLoopPasses
  by_cases h10 : d > 10
  · rw [if_pos h10]
    by_cases hm : d % 10 = 0
    · have h1 : r < d - 10 * ((d - 1) / 10) := by omega
      have h2 : ¬ r < d % 10 := by omega
      rw [if_pos h1, if_neg h2]
      omega
    · have h3 : d - 10 * ((d - 1) / 10) = d % 10 := by omega
      rw [h3]
      split <;> omega
  · rw [if_neg h10]
    by_cases hm : d = 10
    · subst hm
      have h1 : r < 10 - 10 * 0 := by omega
      have h2 : ¬ r < 10 % 10 := by omega
      rw [if_pos h1, if_neg h2]
      decide
    · have h3 : d - 10 * 0 = d % 10 := by omega
      have h4 : d / 10 = 0 := by omega
      rw [h3, h4]

/-- C19: for every damage d ≥ 0, body part p and number r in {0,…,9} drawn by
`randBoundsExclusive(state.rng, 0, 10)`, `dealDamage` with generateFatalWounds
= true raises the fatal-wound count of p by exactly ⌊d/10⌋ + (1 if r < d mod
10, else 0) and leaves the wound counts of all other body parts unchanged; for
d = 25 this is two wounds plus a third exactly when r < 5. The sequence run
when the unit dies or falls unconscious is assumed to leave the vitals alone. -/
theorem dealDamage_fatalWounds (cb : Services G) (gt : GameTime) (u : BattleUnit G) (d : Int)
    (p : BodyPart) (stunPower : Int) (hk : KeepsVitals cb) (hd : 0 ≤ d)
    (hr0 : 0 ≤ (cb.randBoundsExclusive u.state 0 10).1)
    (hr : (cb.randBoundsExclusive u.state 0 10).1 < 10) :
    (dealDamage cb gt u d true p stunPower).fatalWounds p =
      u.fatalWounds p + (d / 10 + if (cb.randBoundsExclusive u.state 0 10).1 < d % 10
        then 1 else 0) ∧
    (∀ q, q ≠ p → (dealDamage cb gt u d true p stunPower).fatalWounds q = u.fatalWounds q) ∧
    (d = 25 →
      (dealDamage cb gt u d true p stunPower).fatalWounds p =
        u.fatalWounds p + 2 + if (cb.randBoundsExclusive u.state 0 10).1 < 5 then 1 else 0) := by
  obtain ⟨_, _, h3, _⟩ := dealDamage_vitals cb hk gt u d true p stunPower
  have hstate : (dealStunOrHealthDamage gt u d stunPower).state = u.state := by
    unfold dealStunOrHealthDamage
    split <;> rfl
  have hfw : (dealStunOrHealthDamage gt u d stunPower).fatalWounds = u.fatalWounds := by
    unfold dealStunOrHealthDamage
    split <;> rfl
  have hw : (damaged cb gt u d true p stunPower).1.fatalWounds =
      Function.update u.fatalWounds p
        (u.fatalWounds p + (d / 10 + if (cb.randBoundsExclusive u.state 0 10).1 < d % 10
          then 1 else 0)) := by
    unfold damaged
    simp only [if_true]
    rw [generateWounds_eq]
    simp only [hstate, hfw]
    rw [wound_count d _ hd hr0 hr]
  have hp : (dealDamage cb gt u d true p stunPower).fatalWounds p =
      u.fatalWounds p + (d / 10 + if (cb.randBoundsExclusive u.state 0 10).1 < d % 10
        then 1 else 0) := by
    rw [h3, hw, Function.update_same]
  refine ⟨hp, ?_, ?_⟩
  · intro q hq
    rw [h3, hw, Function.update_noteq hq]
  · intro h25
    rw [hp, h25]
    have e1 : (25 : Int) / 10 = 2 := by decide
    have e2 : (25 : Int) % 10 = 5 := by decide
    rw [e1, e2, add_assoc]

/-- Concrete instance of C19: 25 points of wounding damage to the body with
the number 0 drawn: the body has 3 fatal wounds, the legs none. -/
theorem dealDamage_fatalWounds_witness :
    (dealDamage demoServices demoGameTime (demoVitals 10 0 false) 25 true BodyPart.Body 0
      ).fatalWounds BodyPart.Body = 3 ∧
    (dealDamage demoServices demoGameTime (demoVitals 10 0 false) 25 true BodyPart.Body 0
      ).fatalWounds BodyPart.Legs = 0 :=
  have h := dealDamage_fatalWounds demoServices demoGameTime (demoVitals 10 0 false) 25
    BodyPart.Body 0 (fun _ => ⟨rfl, rfl, rfl, rfl⟩) (by decide) (by decide) (by decide)
  ⟨h.1.trans (by decide), h.2.1 BodyPart.Legs (by decide)⟩

/-- C20: for every unit with health h and every damage d, `dealDamage` with
stunPower = 0 sets health to exactly h − d and leaves stunDamageInTicks
unchanged; the unit is dead afterwards if and only if h − d ≤ 0 or it was
already destroyed, and exactly in that case the death sequence `die` is run
(otherwise the end of `dealDamage` for a unit that is not dead is run). With
h = 10 and d = 25 the health becomes −15 and the unit is dead. The sequence run
when the unit dies or falls unconscious is assumed to leave the vitals alone. -/
theorem dealDamage_health (cb : Services G) (gt : GameTime) (u : BattleUnit G) (d : Int)
    (generateFatalWounds : Bool) (fatalWoundPart : BodyPart) (stunPower : Int)
    (hk : KeepsVitals cb) (hs : stunPower = 0) :
    (dealDamage cb gt u d generateFatalWounds fatalWoundPart stunPower).health = u.health - d ∧
    (dealDamage cb gt u d generateFatalWounds fatalWoundPart stunPower).stunDamageInTicks
      = u.stunDamageInTicks ∧
    (isDead (dealDamage cb gt u d generateFatalWounds fatalWoundPart stunPower) = true ↔
      (u.health - d ≤ 0 ∨ u.destroyed = true)) ∧
    ((u.health - d ≤ 0 ∨ u.destroyed = true) →
      dealDamage cb gt u d generateFatalWounds fatalWoundPart stunPower =
        die cb (damaged cb gt u d generateFatalWounds fatalWoundPart stunPower).1 true false) ∧
    (¬ (u.health - d ≤ 0 ∨ u.destroyed = true) →
      dealDamage cb gt u d generateFatalWounds fatalWoundPart stunPower =
        dealDamageTail cb gt (damaged cb gt u d generateFatalWounds fatalWoundPart stunPower).1
          (isConscious gt u) (damaged cb gt u d generateFatalWounds fatalWoundPart stunPower).2
          generateFatalWounds stunPower) ∧
    (u.health = 10 → d = 25 →
      (dealDamage cb gt u d generateFatalWounds fatalWoundPart stunPower).health = -15 ∧
      isDead (dealDamage cb gt u d generateFatalWounds fatalWoundPart stunPower) = true) := by
  obtain ⟨h1, h2, _, h4⟩ :=
    dealDamage_vitals cb hk gt u d generateFatalWounds fatalWoundPart stunPower
  obtain ⟨d1, d2, d3⟩ := damaged_fields cb gt u d generateFatalWounds fatalWoundPart stunPower
  obtain ⟨s1, s2⟩ := dealStunOrHealthDamage_health gt u d stunPower (by omega)
  have hh : (dealDamage cb gt u d generateFatalWounds fatalWoundPart stunPower).health
      = u.health - d := by rw [h1, d1, s1]
  have hdead : isDead (dealDamage cb gt u d generateFatalWounds fatalWoundPart stunPower) = true ↔
      (u.health - d ≤ 0 ∨ u.destroyed = true) := by
    simp only [isDead, getHealth, Bool.or_eq_true, decide_eq_true_eq, hh, h4, d3]
  have hdeadw : isDead (damaged cb gt u d generateFatalWounds fatalWoundPart stunPower).1 = true ↔
      (u.health - d ≤ 0 ∨ u.destroyed = true) := by
    simp only [isDead, getHealth, Bool.or_eq_true, decide_eq_true_eq, d1, s1, d3]
  refine ⟨hh, by rw [h2, d2, s2], hdead, ?_, ?_, ?_⟩
  · intro hc
    unfold dealDamage
    simp only
    rw [if_pos (hdeadw.mpr hc)]
  · intro hc
    unfold dealDamage
    simp only
    rw [if_neg (fun hx => hc (hdeadw.mp hx))]
  · intro h10 h25
    refine ⟨by rw [hh, h10, h25]; decide, hdead.mpr (Or.inl ?_)⟩
    rw [h10, h25]
    decide

/-- Concrete instance of C20: a unit with 10 health takes 25 points of health
damage: its health is -15 and it is dead. -/
theorem dealDamage_health_witness :
    (dealDamage demoServices demoGameTime (demoVitals 10 0 false) 25 false BodyPart.Body 0
      ).health = -15 ∧
    isDead (dealDamage demoServices demoGameTime (demoVitals 10 0 false) 25 false
      BodyPart.Body 0) = true :=
  (dealDamage_health demoServices demoGameTime (demoVitals 10 0 false) 25 false BodyPart.Body 0
    (fun _ => ⟨rfl, rfl, rfl, rfl⟩) rfl).2.2.2.2.2 rfl rfl


/-! ## The vision sweep -/

/-- C24: for each of the four cardinal facings the sweep of `updateUnitVision`
has exactly 27 end columns; in loop order their lateral offsets are -13 ... 13,
each lies at forward depth `20 - (|c2| + 1) / 2` along the facing axis, and the
depths read 13 at the two ends (lateral 13, the pure diagonal), one more per
two tiles of lateral offset, and 20 in the middle. -/
theorem rayOffsets_cardinal (f : Vec2) (hf : f ∈ cardinalFacings) :
    (rayOffsets f).length = 27 ∧
    (rayOffsets f).map (lateralOffset f) = lateralRange ∧
    (∀ o ∈ rayOffsets f, forwardDepth f o = depthAt (lateralOffset f o)) ∧
    (rayOffsets f).map (forwardDepth f) =
      [13, 14, 14, 15, 15, 16, 16, 17, 17, 18, 18, 19, 19, 20,
       19, 19, 18, 18, 17, 17, 16, 16, 15, 15, 14, 14, 13] := by
  revert f
  decide

theorem rayOffsets_cardinal_witness :
    (rayOffsets { x := 0, y := -1 }).length = 27 ∧
    (rayOffsets { x := 0, y := -1 }).map (lateralOffset { x := 0, y := -1 }) = lateralRange ∧
    (∀ o ∈ rayOffsets { x := 0, y := -1 },
      forwardDepth { x := 0, y := -1 } o = depthAt (lateralOffset { x := 0, y := -1 } o)) ∧
    (rayOffsets { x := 0, y := -1 }).map (forwardDepth { x := 0, y := -1 }) =
      [13, 14, 14, 15, 15, 16, 16, 17, 17, 18, 18, 19, 19, 20,
       19, 19, 18, 18, 17, 17, 16, 16, 15, 15, 14, 14, 13] :=
  rayOffsets_cardinal { x := 0, y := -1 } (by decide)

/-- C25: for each of the eight compass facings the 27 end offsets of the sweep
are pairwise distinct, lie in the closed quarter circle centred on the facing,
and form a set that is its own mirror image about the facing direction; for a
diagonal facing the set is the union of the two quarter arcs. -/
theorem rayOffsets_compass (f : Vec2) (hf : f ∈ compassFacings) :
    (rayOffsets f).length = 27 ∧
    (rayOffsets f).Nodup ∧
    (∀ o ∈ rayOffsets f, inFacingArc f o = true) ∧
    (∀ o ∈ rayOffsets f, mirrorAbout f o ∈ rayOffsets f) ∧
    (isDiagonal f = true →
      (∀ o ∈ rayOffsets f, o ∈ quarterArcs f) ∧ (∀ o ∈ quarterArcs f, o ∈ rayOffsets f)) := by
  revert f
  decide

theorem rayOffsets_compass_witness :
    (rayOffsets { x := 1, y := 1 }).length = 27 ∧
    (rayOffsets { x := 1, y := 1 }).Nodup ∧
    (∀ o ∈ rayOffsets { x := 1, y := 1 }, inFacingArc { x := 1, y := 1 } o = true) ∧
    (∀ o ∈ rayOffsets { x := 1, y := 1 },
      mirrorAbout { x := 1, y := 1 } o ∈ rayOffsets { x := 1, y := 1 }) ∧
    (isDiagonal { x := 1, y := 1 } = true →
      (∀ o ∈ rayOffsets { x := 1, y := 1 }, o ∈ quarterArcs { x := 1, y := 1 }) ∧
      (∀ o ∈ quarterArcs { x := 1, y := 1 }, o ∈ rayOffsets { x := 1, y := 1 })) :=
  rayOffsets_compass { x := 1, y := 1 } (by decide)


/-! ## Damage resolution -/

theorem afterRoll_equipment (cb : Services G) (u : BattleUnit G) (power : Int)
    (dt : DamageType) : (afterRoll cb u power dt).equipment = u.equipment := rfl

theorem shieldHit_afterRoll (cb : Services G) (u : BattleUnit G) (power : Int)
    (dt : DamageType) : shieldHit cb (afterRoll cb u power dt) dt = shieldHit cb u dt := rfl

theorem applyDamageToArmor_fst (cb : Services G) (gt : GameTime) (u : BattleUnit G)
    (power damage : Int) (dt : DamageType) (part : BodyPart) :
    (applyDamageToArmor cb gt u power damage dt part).1 = false := by
  unfold applyDamageToArmor
  by_cases h : residualDamage u damage dt part
      (itemAt u.equipment (cb.getArmor u.equipment part)) ≤ 0
  · simp only [h, if_true]
  · simp only [h, if_false]

theorem applyDamage_no_shield (cb : Services G) (gt : GameTime) (u : BattleUnit G)
    (power : Int) (dt : DamageType) (part : BodyPart)
    (h : shieldHit cb u dt = none) :
    applyDamage cb gt u power dt part =
      applyDamageToArmor cb gt (afterRoll cb u power dt) (rolledPower cb u power dt)
        (rolledDamage cb u power dt) dt part := by
  unfold applyDamage
  rw [shieldHit_afterRoll, h]

theorem applyDamage_with_shield (cb : Services G) (gt : GameTime) (u : BattleUnit G)
    (power : Int) (dt : DamageType) (part : BodyPart) (i : Nat) (shield : AEquipment)
    (h : shieldHit cb u dt = some (i, shield)) :
    applyDamage cb gt u power dt part =
      applyDamageToShield cb (afterRoll cb u power dt) (rolledDamage cb u power dt)
        dt i shield := by
  unfold applyDamage
  rw [shieldHit_afterRoll, h]

theorem applyDamage_fst (cb : Services G) (gt : GameTime) (u : BattleUnit G)
    (power : Int) (dt : DamageType) (part : BodyPart) :
    (applyDamage cb gt u power dt part).1 = true ↔
      (dt.ignore_shield = false ∧
        (itemAt u.equipment (cb.getFirstShield u.equipment)).isSome = true) := by
  cases hs : shieldHit cb u dt with
  | none =>
    rw [applyDamage_no_shield cb gt u power dt part hs, applyDamageToArmor_fst]
    unfold shieldHit at hs
    cases hi : dt.ignore_shield
    · rw [hi] at hs
      simp only [Bool.false_eq_true, if_false] at hs
      simp [hs]
    · simp
  | some p =>
    obtain ⟨i, shield⟩ := p
    rw [applyDamage_with_shield cb gt u power dt part i shield hs]
    unfold shieldHit at hs
    cases hi : dt.ignore_shield
    · rw [hi] at hs
      simp only [Bool.false_eq_true, if_false] at hs
      simp [hs, applyDamageToShield]
    · rw [hi] at hs
      simp at hs

/-- C21: when the damage type does not ignore shields and the agent has a
shield, `applyDamage` returns true; health, stun ticks and fatal wounds keep
their values and the equipment changes at the shield only: its charge drops by
the rolled damage passed through its damage-modifier table, it is removed
exactly when that leaves a charge of at most 0, and every other item stays.
In no other case does `applyDamage` return true. -/
theorem applyDamage_shield (cb : Services G) (gt : GameTime) (u : BattleUnit G)
    (power : Int) (dt : DamageType) (part : BodyPart) (i : Nat) (shield : AEquipment)
    (hs : dt.ignore_shield = false)
    (hf : itemAt u.equipment (cb.getFirstShield u.equipment) = some (i, shield)) :
    (applyDamage cb gt u power dt part).1 = true ∧
    (applyDamage cb gt u power dt part).2.health = u.health ∧
    (applyDamage cb gt u power dt part).2.stunDamageInTicks = u.stunDamageInTicks ∧
    (applyDamage cb gt u power dt part).2.fatalWounds = u.fatalWounds ∧
    (shield.ammo - dt.dealDamage (rolledDamage cb u power dt) shield.damage_modifier ≤ 0 →
      (applyDamage cb gt u power dt part).2.equipment = u.equipment.eraseIdx i) ∧
    (0 < shield.ammo - dt.dealDamage (rolledDamage cb u power dt) shield.damage_modifier →
      (applyDamage cb gt u power dt part).2.equipment =
        u.equipment.set i
          { shield with
            ammo := shield.ammo -
              dt.dealDamage (rolledDamage cb u power dt) shield.damage_modifier }) ∧
    (∀ (w : BattleUnit G) (p : Int) (d : DamageType) (b : BodyPart),
      (applyDamage cb gt w p d b).1 = true ↔
        (d.ignore_shield = false ∧
          (itemAt w.equipment (cb.getFirstShield w.equipment)).isSome = true)) := by
  have hh : shieldHit cb u dt = some (i, shield) := by
    unfold shieldHit
    rw [hs]
    simpa using hf
  rw [applyDamage_with_shield cb gt u power dt part i shield hh]
  refine ⟨rfl, rfl, rfl, rfl, ?_, ?_, fun w p d b => applyDamage_fst cb gt w p d b⟩
  · intro h
    show wearDown _ _ _ _ = _
    unfold wearDown
    rw [if_pos h]
    rfl
  · intro h
    show wearDown _ _ _ _ = _
    unfold wearDown
    rw [if_neg (not_le.mpr h)]
    rfl

theorem applyDamage_shield_demo :
    (applyDamage demoServices demoGameTime (demoEquipped true) 10 demoDamageType
      BodyPart.Body).1 = true ∧
    (applyDamage demoServices demoGameTime (demoEquipped true) 10 demoDamageType
      BodyPart.Body).2.health = 50 ∧
    (applyDamage demoServices demoGameTime (demoEquipped true) 10 demoDamageType
      BodyPart.Body).2.equipment = [demoArmor, { demoShield with ammo := 10 }] := by
  refine ⟨rfl, rfl, rfl⟩

theorem applyDamage_shield_witness :
    (applyDamage demoServices demoGameTime (demoEquipped true) 10 demoDamageType
      BodyPart.Body).1 = true ∧
    (applyDamage demoServices demoGameTime (demoEquipped true) 10 demoDamageType
      BodyPart.Body).2.health = (demoEquipped true).health :=
  ⟨(applyDamage_shield demoServices demoGameTime (demoEquipped true) 10 demoDamageType
      BodyPart.Body 1 demoShield rfl rfl).1,
   (applyDamage_shield demoServices demoGameTime (demoEquipped true) 10 demoDamageType
      BodyPart.Body 1 demoShield rfl rfl).2.1⟩

theorem wearDown_tdiv (eq : List AEquipment) (j : Nat) (a : AEquipment) (residual : Int)
    (h : 0 < residual) :
    wearDown eq j a (Int.tdiv residual 10 + 1) =
      if a.ammo - (residual / 10 + 1) ≤ 0 then eq.eraseIdx j
      else eq.set j { a with ammo := a.ammo - (residual / 10 + 1) } := by
  rw [Int.tdiv_eq_ediv (le_of_lt h) (by decide)]
  rfl

/-- C22: when no shield intervenes (the damage type ignores shields or the
agent has none), the residual damage is the rolled damage passed through the
modifier table, less the armor value unless the damage type ignores it; table
and value are those of the armor worn on the hit part, else of the agent type.
With a residual of at most 0, `applyDamage` returns false and changes nothing
of the unit (health, stun ticks, wounds, equipment). With a positive residual
the armor worn loses `residual / 10 + 1` durability exactly when the damage
type deals armor damage, it is removed exactly when that leaves at most 0, and
`dealDamage` is applied with the residual. -/
theorem applyDamage_armor (cb : Services G) (gt : GameTime) (u : BattleUnit G)
    (power : Int) (dt : DamageType) (part : BodyPart)
    (hno : dt.ignore_shield = true ∨
      itemAt u.equipment (cb.getFirstShield u.equipment) = none) :
    (∀ (j : Nat) (a : AEquipment),
      itemAt u.equipment (cb.getArmor u.equipment part) = some (j, a) →
      ((dt.dealDamage (rolledDamage cb u power dt) a.damage_modifier -
          (if dt.ignoresArmorValue then 0 else a.ammo) ≤ 0 →
        applyDamage cb gt u power dt part = (false, afterRoll cb u power dt)) ∧
       (∀ residual : Int,
        residual = dt.dealDamage (rolledDamage cb u power dt) a.damage_modifier -
          (if dt.ignoresArmorValue then 0 else a.ammo) →
        0 < residual →
        applyDamage cb gt u power dt part =
          (false,
            dealDamage cb gt
              { afterRoll cb u power dt with
                equipment :=
                  if dt.dealsArmorDamage then
                    if a.ammo - (residual / 10 + 1) ≤ 0 then u.equipment.eraseIdx j
                    else u.equipment.set j { a with ammo := a.ammo - (residual / 10 + 1) }
                  else u.equipment }
              residual dt.dealsFatalWounds part
              (if dt.dealsStunDamage then rolledPower cb u power dt else 0))))) ∧
    (itemAt u.equipment (cb.getArmor u.equipment part) = none →
      ((dt.dealDamage (rolledDamage cb u power dt) u.typeDamageModifier -
          (if dt.ignoresArmorValue then 0 else u.typeArmor part) ≤ 0 →
        applyDamage cb gt u power dt part = (false, afterRoll cb u power dt)) ∧
       (∀ residual : Int,
        residual = dt.dealDamage (rolledDamage cb u power dt) u.typeDamageModifier -
          (if dt.ignoresArmorValue then 0 else u.typeArmor part) →
        0 < residual →
        applyDamage cb gt u power dt part =
          (false,
            dealDamage cb gt (afterRoll cb u power dt) residual dt.dealsFatalWounds part
              (if dt.dealsStunDamage then rolledPower cb u power dt else 0))))) ∧
    (afterRoll cb u power dt).health = u.health ∧
    (afterRoll cb u power dt).stunDamageInTicks = u.stunDamageInTicks ∧
    (afterRoll cb u power dt).fatalWounds = u.fatalWounds ∧
    (afterRoll cb u power dt).equipment = u.equipment ∧
    (afterRoll cb u power dt).missions = u.missions := by
  have hh : shieldHit cb u dt = none := by
    unfold shieldHit
    rcases hno with h | h
    · rw [h]; rfl
    · rw [h]; simp
  rw [applyDamage_no_shield cb gt u power dt part hh]
  refine ⟨?_, ?_, rfl, rfl, rfl, rfl, rfl⟩
  · intro j a ha
    have ha1 : itemAt (afterRoll cb u power dt).equipment
        (cb.getArmor (afterRoll cb u power dt).equipment part) = some (j, a) := ha
    constructor
    · intro h
      unfold applyDamageToArmor
      rw [ha1]
      rw [if_pos (by simpa [residualDamage, armorValueAndModifier] using h)]
    · intro residual hr hpos
      unfold applyDamageToArmor
      rw [ha1]
      have hres : residualDamage (afterRoll cb u power dt) (rolledDamage cb u power dt) dt part
          (some (j, a)) = residual := by
        rw [hr]; rfl
      dsimp only
      rw [hres, if_neg (not_le.mpr hpos)]
      unfold damageArmor
      cases hd : dt.dealsArmorDamage
      · simp only [Bool.false_eq_true, if_false]
        rfl
      · simp only [if_true]
        rw [wearDown_tdiv _ _ _ _ hpos]
        rfl
  · intro ha
    have ha1 : itemAt (afterRoll cb u power dt).equipment
        (cb.getArmor (afterRoll cb u power dt).equipment part) = none := ha
    constructor
    · intro h
      unfold applyDamageToArmor
      rw [ha1]
      rw [if_pos (by simpa [residualDamage, armorValueAndModifier] using h)]
    · intro residual hr hpos
      unfold applyDamageToArmor
      rw [ha1]
      have hres : residualDamage (afterRoll cb u power dt) (rolledDamage cb u power dt) dt part
          none = residual := by
        rw [hr]; rfl
      dsimp only
      rw [hres, if_neg (not_le.mpr hpos)]
      rfl

theorem applyDamage_armor_witness :
    applyDamage demoServices demoGameTime (demoEquipped false) 30
        { demoDamageType with dealsFatalWounds := false } BodyPart.Body =
      (false,
        dealDamage demoServices demoGameTime
          { demoEquipped false with equipment := [{ demoArmor with ammo := 10 }] }
          18 false BodyPart.Body 0) ∧
    (applyDamage demoServices demoGameTime (demoEquipped false) 30
        { demoDamageType with dealsFatalWounds := false } BodyPart.Body).2.health = 32 :=
  ⟨((applyDamage_armor demoServices demoGameTime (demoEquipped false) 30
      { demoDamageType with dealsFatalWounds := false } BodyPart.Body (Or.inr rfl)).1
      0 demoArmor rfl).2 18 rfl (by decide), rfl⟩


/-! ## Attacking in a turn-based battle -/

theorem prepareWeapon_weaponStatus (cb : Services G) (u : BattleUnit G)
    (slot : AEquipmentSlotType) :
    (prepareWeapon cb u slot).1.weaponStatus = u.weaponStatus := by
  unfold prepareWeapon
  cases handItem cb u slot with
  | none => rfl
  | some w =>
    dsimp only
    by_cases hr : cb.needsReload w = true
    · rw [if_pos hr]
      split <;> rfl
    · rw [if_neg hr]
      split <;> rfl

theorem prepareWeapons_weaponStatus (cb : Services G) (u : BattleUnit G) :
    (prepareWeapons cb u).unit.weaponStatus = u.weaponStatus := by
  unfold prepareWeapons
  cases h : u.weaponStatus <;> dsimp only <;>
    first
    | exact h
    | (rw [prepareWeapon_weaponStatus]; exact h)
    | (rw [prepareWeapon_weaponStatus, prepareWeapon_weaponStatus]; exact h)

theorem addMission_weaponStatus (cb : Services G) (hk : KeepsWeaponStatus cb)
    (u : BattleUnit G) (m : BattleUnitMission) (toBack : Bool) :
    (addMission cb u m toBack).2.weaponStatus = u.weaponStatus := by
  have he : ∀ w : BattleUnit G, (emplaceFrontAndStart cb w m).weaponStatus = w.weaponStatus :=
    fun w => hk _ _
  unfold addMission
  cases toBack
  · simp only [Bool.false_eq_true, if_false]
    cases hm : m.type <;> simp only [] <;>
      first
      | exact he u
      | (split <;> first | rfl | exact hk _ _)
      | (cases hq : u.missions <;> simp only [] <;>
          first
          | exact he u
          | (split <;> first | rfl | exact he u))
  · rfl

theorem turnToTarget_weaponStatus (cb : Services G) (hk : KeepsWeaponStatus cb)
    (u : BattleUnit G) : (turnToTarget cb u).weaponStatus = u.weaponStatus := by
  unfold turnToTarget
  split
  · split
    · rfl
    · exact addMission_weaponStatus cb hk u _ false
  · rfl

theorem trackTarget_weaponStatus (cb : Services G) (losCheckInterval : Nat)
    (u : BattleUnit G) :
    (trackTarget cb losCheckInterval u).weaponStatus = u.weaponStatus := by
  unfold trackTarget
  split <;> rfl

theorem countDownTargetCheck_weaponStatus (u : BattleUnit G) (ticks : Nat) :
    (countDownTargetCheck u ticks).weaponStatus = u.weaponStatus := by
  unfold countDownTargetCheck
  split <;> rfl

theorem targetCheck_weaponStatus (cb : Services G) (hk : KeepsWeaponStatus cb)
    (losCheckInterval : Nat) (s : FiringLocals G) (targetPosition : Vec3f) :
    (targetCheck cb losCheckInterval s targetPosition).1.unit.weaponStatus =
      s.unit.weaponStatus := by
  unfold targetCheck
  by_cases h1 : targetConscious cb losCheckInterval s.unit = true
  · rw [if_pos h1]
    by_cases h2 : (inRange cb (trackTarget cb losCheckInterval s.unit)
          AEquipmentSlotType.LeftHand s.weaponLeft targetPosition ||
        inRange cb (trackTarget cb losCheckInterval s.unit) AEquipmentSlotType.RightHand
          s.weaponRight targetPosition) = true
    · rw [if_pos h2]
      show (turnToTarget cb _).weaponStatus = _
      rw [turnToTarget_weaponStatus cb hk, trackTarget_weaponStatus]
    · rw [if_neg h2]
      exact trackTarget_weaponStatus cb losCheckInterval s.unit
  · rw [if_neg h1]
    exact trackTarget_weaponStatus cb losCheckInterval s.unit

theorem stopAttacking_weaponStatus (u : BattleUnit G) :
    (stopAttacking u).weaponStatus = WeaponStatus.NotFiring := rfl

theorem checkStopFiring_weaponStatus (cb : Services G) (hk : KeepsWeaponStatus cb)
    (losCheckInterval : Nat) (s : FiringLocals G) (ticks : Nat) (targetPosition : Vec3f) :
    (checkStopFiring cb losCheckInterval s ticks targetPosition).unit.weaponStatus =
        s.unit.weaponStatus ∨
    (checkStopFiring cb losCheckInterval s ticks targetPosition).unit.weaponStatus =
        WeaponStatus.NotFiring := by
  unfold checkStopFiring
  by_cases h1 : isAttacking s.unit = true
  · rw [if_pos h1]
    by_cases h2 : (s.weaponLeft || s.weaponRight) = true
    · rw [if_pos h2]
      by_cases h3 : (countDownTargetCheck s.unit ticks).ticksTillNextTargetCheck = 0
      · rw [if_pos h3]
        by_cases h4 : (targetCheck cb losCheckInterval
            { s with unit := countDownTargetCheck s.unit ticks } targetPosition).2 = true
        · rw [if_pos h4]
          left
          rw [targetCheck_weaponStatus cb hk]
          exact countDownTargetCheck_weaponStatus s.unit ticks
        · rw [if_neg h4]
          right
          rfl
      · rw [if_neg h3]
        left
        exact countDownTargetCheck_weaponStatus s.unit ticks
    · rw [if_neg h2]
      right
      rfl
  · rw [if_neg h1]
    left
    rfl

theorem setHandState_weaponStatus (gt : GameTime) (ap : BattleUnitAnimationPack)
    (u : BattleUnit G) (state : HandState) :
    (setHandState gt ap u state).weaponStatus = u.weaponStatus := rfl

theorem beginHandStateChange_weaponStatus (gt : GameTime) (ap : BattleUnitAnimationPack)
    (u : BattleUnit G) (state : HandState) :
    (beginHandStateChange gt ap u state).weaponStatus = u.weaponStatus := by
  unfold beginHandStateChange
  dsimp only
  split <;> rfl

theorem startFiringWeapons_weaponStatus (cb : Services G) (s : FiringLocals G) :
    (startFiringWeapons cb s).weaponStatus = s.unit.weaponStatus := by
  unfold startFiringWeapons
  dsimp only
  split
  · split
    · split <;> rfl
    · split <;> rfl
  · rfl

theorem fireIfReady_weaponStatus (cb : Services G) (gt : GameTime)
    (ap : BattleUnitAnimationPack) (s : FiringLocals G) (targetPosition muzzleLocation : Vec3f) :
    (fireIfReady cb gt ap s targetPosition muzzleLocation).1.unit.weaponStatus =
      s.unit.weaponStatus := by
  unfold fireIfReady
  split
  · split <;> rfl
  · rfl

theorem stopFiredHand_weaponStatus (s : FiringLocals G)
    (h : s.unit.weaponStatus ≠ WeaponStatus.FiringBothHands) :
    (stopFiredHand s).weaponStatus ≠ WeaponStatus.FiringBothHands := by
  unfold stopFiredHand
  cases hw : s.unit.weaponStatus
  · dsimp only
    rw [hw]
    decide
  · dsimp only
    split
    · rw [stopAttacking_weaponStatus]
      decide
    · rw [hw]
      decide
  · dsimp only
    split
    · rw [stopAttacking_weaponStatus]
      decide
    · rw [hw]
      decide
  · exact absurd hw h

theorem collapseFiredHand_weaponStatus (cb : Services G) (f : FiringLocals G × Bool)
    (h : f.1.unit.weaponStatus ≠ WeaponStatus.FiringBothHands) :
    (collapseFiredHand cb f).weaponStatus ≠ WeaponStatus.FiringBothHands := by
  unfold collapseFiredHand
  split
  · exact stopFiredHand_weaponStatus _ h
  · exact h

theorem startAiming_weaponStatus (gt : GameTime) (ap : BattleUnitAnimationPack)
    (u : BattleUnit G) : (startAiming gt ap u).weaponStatus = u.weaponStatus := by
  unfold startAiming
  split
  · exact beginHandStateChange_weaponStatus gt ap u _
  · rfl

theorem processFiring_weaponStatus (cb : Services G) (gt : GameTime)
    (ap : BattleUnitAnimationPack) (s : FiringLocals G) (targetPosition muzzleLocation : Vec3f)
    (h : s.unit.weaponStatus ≠ WeaponStatus.FiringBothHands) :
    (processFiring cb gt ap s targetPosition muzzleLocation).weaponStatus ≠
      WeaponStatus.FiringBothHands := by
  unfold processFiring
  split
  · rw [startAiming_weaponStatus]
    apply collapseFiredHand_weaponStatus
    rw [fireIfReady_weaponStatus, startFiringWeapons_weaponStatus]
    exact h
  · exact h

theorem notFiring_weaponStatus (gt : GameTime) (ap : BattleUnitAnimationPack)
    (u : BattleUnit G) (ticks : Nat) :
    (notFiring gt ap u ticks).weaponStatus = u.weaponStatus := by
  unfold notFiring
  split
  · split
    · rfl
    · split
      · exact beginHandStateChange_weaponStatus gt ap u _
      · rfl
  · rfl

theorem updateFiring_weaponStatus (cb : Services G) (hk : KeepsWeaponStatus cb)
    (gt : GameTime) (ap : BattleUnitAnimationPack) (losCheckInterval : Nat)
    (u : BattleUnit G) (ticks : Nat)
    (h : u.weaponStatus ≠ WeaponStatus.FiringBothHands) :
    (updateFiring cb gt ap losCheckInterval u ticks).weaponStatus ≠
      WeaponStatus.FiringBothHands := by
  unfold updateFiring
  rw [notFiring_weaponStatus]
  apply processFiring_weaponStatus
  rcases checkStopFiring_weaponStatus cb hk losCheckInterval (prepareWeapons cb u) ticks
    (targetPositionOf cb u) with h1 | h1
  · rw [h1, prepareWeapons_weaponStatus]
    exact h
  · rw [h1]
    decide

theorem turnBasedStatus_ne (cb : Services G) (u : BattleUnit G) (status : WeaponStatus) :
    turnBasedStatus cb u status ≠ WeaponStatus.FiringBothHands := by
  unfold turnBasedStatus
  split
  · split
    · split <;> decide
    · decide
  · assumption

theorem startAttacking_weaponStatus (cb : Services G) (hm : TurnBasedBattle cb)
    (u : BattleUnit G) (status : WeaponStatus)
    (h : u.weaponStatus ≠ WeaponStatus.FiringBothHands) :
    (startAttacking cb u status).weaponStatus ≠ WeaponStatus.FiringBothHands := by
  unfold startAttacking
  rw [hm u.state]
  simp only [Bool.false_eq_true, if_false]
  split
  · exact h
  · exact turnBasedStatus_ne cb u status

/-- C23: in a turn-based battle `startAttacking` with FiringBothHands on a
unit that is not attacking sets the firing status to FiringRightHand when the
right hand holds an item that can fire and to FiringLeftHand otherwise; and no
state reachable from a unit that is not firing through the overloads of
`startAttacking`, `stopAttacking` and the firing stage of `update` has the
status FiringBothHands. -/
theorem turnBased_never_both_hands (cb : Services G) (gt : GameTime)
    (ap : BattleUnitAnimationPack) (losCheckInterval : Nat)
    (hm : TurnBasedBattle cb) (hk : KeepsWeaponStatus cb) :
    (∀ u : BattleUnit G, u.weaponStatus = WeaponStatus.NotFiring →
      ((∃ rhItem, handItem cb u AEquipmentSlotType.RightHand = some rhItem ∧
          cb.canFire rhItem = true) →
        (startAttacking cb u WeaponStatus.FiringBothHands).weaponStatus =
          WeaponStatus.FiringRightHand) ∧
      ((∀ rhItem, handItem cb u AEquipmentSlotType.RightHand = some rhItem →
          cb.canFire rhItem = false) →
        (startAttacking cb u WeaponStatus.FiringBothHands).weaponStatus =
          WeaponStatus.FiringLeftHand)) ∧
    (∀ u : BattleUnit G, AttackReachable cb gt ap losCheckInterval u →
      u.weaponStatus ≠ WeaponStatus.FiringBothHands) := by
  constructor
  · intro u hu
    have hs : startAttacking cb u WeaponStatus.FiringBothHands =
        { u with weaponStatus := turnBasedStatus cb u WeaponStatus.FiringBothHands
                 ticksTillNextTargetCheck := 0 } := by
      unfold startAttacking
      rw [hm u.state]
      simp [isAttacking, hu]
    rw [hs]
    constructor
    · rintro ⟨rh, h1, h2⟩
      show turnBasedStatus cb u WeaponStatus.FiringBothHands = _
      simp [turnBasedStatus, h1, h2]
    · intro hall
      show turnBasedStatus cb u WeaponStatus.FiringBothHands = _
      unfold turnBasedStatus
      cases h1 : handItem cb u AEquipmentSlotType.RightHand with
      | none => simp
      | some rh => simp [hall rh h1]
  · intro u hr
    induction hr with
    | init u h =>
      rw [h]
      decide
    | step u w _ hs ih =>
      cases hs with
      | start status => exact startAttacking_weaponStatus cb hm u status ih
      | startUnit unit status => exact startAttacking_weaponStatus cb hm u status ih
      | startTile tile status atGround => exact startAttacking_weaponStatus cb hm u status ih
      | stop =>
        rw [stopAttacking_weaponStatus]
        exact WeaponStatus.noConfusion
      | firing ticks => exact updateFiring_weaponStatus cb hk gt ap losCheckInterval u ticks ih

theorem turnBased_never_both_hands_witness :
    (startAttacking demoServices demoArmed WeaponStatus.FiringBothHands).weaponStatus =
      WeaponStatus.FiringRightHand ∧
    (updateFiring demoServices demoGameTime demoAnimationPack 10
      (startAttacking demoServices demoArmed WeaponStatus.FiringBothHands) 1).weaponStatus ≠
      WeaponStatus.FiringBothHands :=
  ⟨((turnBased_never_both_hands demoServices demoGameTime demoAnimationPack 10
      (fun _ => rfl) (fun _ _ => rfl)).1 demoArmed rfl).1 ⟨demoGun, rfl, rfl⟩,
   (turnBased_never_both_hands demoServices demoGameTime demoAnimationPack 10
      (fun _ => rfl) (fun _ _ => rfl)).2 _
      (AttackReachable.step _ _
        (AttackReachable.step _ _ (AttackReachable.init demoArmed rfl)
          (AttackStep.start _ WeaponStatus.FiringBothHands))
        (AttackStep.firing _ 1))⟩

theorem updateFiring_demo :
    (updateFiring demoServices demoGameTime demoAnimationPack 10
      (startAttacking demoServices demoArmed WeaponStatus.FiringBothHands) 1).weaponStatus =
      WeaponStatus.FiringRightHand := by
  decide


/-! ## The movement step -/

theorem u32_eq_of_lt {x : Nat} (h : x < 2 ^ 32) : u32 x = x := Nat.mod_eq_of_lt h

theorem updateUnitVision_position (cb : Services G) (u : BattleUnit G) :
    (updateUnitVision cb u).position = u.position := rfl

theorem setPosition_position (cb : Services G) (u : BattleUnit G) (pos : Vec3f) :
    (setPosition cb u pos).position = pos := by
  unfold setPosition
  dsimp only
  split
  · rfl
  · split <;> rfl

theorem setPosition_goalPosition (cb : Services G) (u : BattleUnit G) (pos : Vec3f) :
    (setPosition cb u pos).goalPosition = u.goalPosition := by
  unfold setPosition
  dsimp only
  split
  · rfl
  · split <;> rfl

theorem accelerate_goalPosition (u : BattleUnit G) (gain : Nat) :
    (accelerate u gain).goalPosition = u.goalPosition := by
  unfold accelerate
  split <;> rfl

theorem speedModifierOf_pos (u : BattleUnit G) : 1 ≤ speedModifierOf u := by
  unfold speedModifierOf
  split
  · exact le_max_left 1 _
  · decide

theorem moveTicksConsumeRateOf_cases (u : BattleUnit G) :
    moveTicksConsumeRateOf u = 1 ∨ moveTicksConsumeRateOf u = 2 := by
  unfold moveTicksConsumeRateOf
  split
  · exact Or.inl rfl
  · exact Or.inr rfl

/-! ## The flying speed modifier stays a percentage -/

theorem setPosition_fsm (cb : Services G) (u : BattleUnit G) (pos : Vec3f) :
    (setPosition cb u pos).flyingSpeedModifier = u.flyingSpeedModifier := by
  unfold setPosition
  dsimp only
  split
  · rfl
  · split <;> rfl

theorem setBodyState_fsm (cb : Services G) (u : BattleUnit G) (bodyState : BodyState) :
    (setBodyState cb u bodyState).flyingSpeedModifier = u.flyingSpeedModifier := by
  unfold setBodyState
  dsimp only
  split
  · show (setPosition cb _ _).flyingSpeedModifier = _
    rw [setPosition_fsm]
  · rfl

theorem setFacing_fsm (cb : Services G) (u : BattleUnit G) (newFacing : Vec2) :
    (setFacing cb u newFacing).flyingSpeedModifier = u.flyingSpeedModifier := rfl

theorem setHandState_fsm (gt : GameTime) (ap : BattleUnitAnimationPack)
    (u : BattleUnit G) (state : HandState) :
    (setHandState gt ap u state).flyingSpeedModifier = u.flyingSpeedModifier := rfl

theorem setMovementState_fsm (gt : GameTime) (ap : BattleUnitAnimationPack)
    (u : BattleUnit G) (state : MovementState) :
    (setMovementState gt ap u state).flyingSpeedModifier = u.flyingSpeedModifier := by
  unfold setMovementState
  cases state <;> dsimp only <;> first | rfl | (split <;> rfl)

theorem beginHandStateChange_fsm (gt : GameTime) (ap : BattleUnitAnimationPack)
    (u : BattleUnit G) (state : HandState) :
    (beginHandStateChange gt ap u state).flyingSpeedModifier = u.flyingSpeedModifier := by
  unfold beginHandStateChange
  dsimp only
  split <;> rfl

theorem updateHandStep_fsm (gt : GameTime) (ap : BattleUnitAnimationPack)
    (u : BattleUnit G) (budget : Nat) :
    (updateHandStep gt ap u budget).1.flyingSpeedModifier = u.flyingSpeedModifier := by
  unfold updateHandStep
  split
  · split
    · split <;> rfl
    · split
      · rfl
      · split <;> rfl
  · rfl

theorem PopRun.flyingSpeedOK {cb : Services G} {u : BattleUnit G}
    {res : Bool × BattleUnit G} (h : PopRun cb u res) (hk : KeepsFlyingSpeed cb)
    (hu : FlyingSpeedOK u.toUnitVars) : FlyingSpeedOK res.2.toUnitVars := by
  induction h with
  | idle u hq => exact hu
  | unfinished u m rest hq hf => exact hk.1 u m hu
  | retreated u m rest hq hf hr => exact hk.1 u m hu
  | last u m hq hf hr => exact hk.1 u m hu
  | next u m n rest res hq hf hr hrun ih =>
    apply ih
    exact hk.2.1 _ n (hk.1 u m hu)

theorem popFinishedMissions_flyingSpeedOK (cb : Services G) (hk : KeepsFlyingSpeed cb)
    (u : BattleUnit G) (hu : FlyingSpeedOK u.toUnitVars) :
    FlyingSpeedOK (popFinishedMissions cb u).2.toUnitVars :=
  (popFinishedMissions_run cb u).flyingSpeedOK hk hu

theorem addMission_flyingSpeedOK (cb : Services G) (hk : KeepsFlyingSpeed cb)
    (u : BattleUnit G) (m : BattleUnitMission) (toBack : Bool)
    (hu : FlyingSpeedOK u.toUnitVars) :
    FlyingSpeedOK (addMission cb u m toBack).2.toUnitVars := by
  have he : ∀ w : BattleUnit G, FlyingSpeedOK w.toUnitVars →
      FlyingSpeedOK (emplaceFrontAndStart cb w m).toUnitVars :=
    fun w hw => hk.2.1 _ _ hw
  unfold addMission
  cases toBack
  · simp only [Bool.false_eq_true, if_false]
    cases hm : m.type <;> simp only [] <;>
      first
      | exact he u hu
      | (split <;> first | exact hu | exact hk.2.1 _ _ hu)
      | (cases hq : u.missions <;> simp only [] <;>
          first
          | exact he u hu
          | (split <;> first | exact hu | exact he u hu))
  · exact hu

theorem addMissionByType_flyingSpeedOK (cb : Services G) (hk : KeepsFlyingSpeed cb)
    (u : BattleUnit G) (t : MissionType) (hu : FlyingSpeedOK u.toUnitVars) :
    FlyingSpeedOK (addMissionByType cb u t).2.toUnitVars := by
  unfold addMissionByType
  cases t <;> first
    | exact hu
    | exact addMission_flyingSpeedOK cb hk u _ false hu

theorem getNextBodyState_flyingSpeedOK (cb : Services G) (hk : KeepsFlyingSpeed cb)
    (u : BattleUnit G) (dest : BodyState) (hu : FlyingSpeedOK u.toUnitVars) :
    FlyingSpeedOK (getNextBodyState cb u dest).2.2.toUnitVars := by
  unfold getNextBodyState
  cases hq : u.missions with
  | nil => exact hu
  | cons m rest => exact hk.2.2.1 u m hu

theorem commitBodyStateChange_fsm (cb : Services G) (gt : GameTime) (u : BattleUnit G)
    (frameCount : Nat) (bodyState : BodyState) :
    (commitBodyStateChange cb gt u frameCount bodyState).flyingSpeedModifier =
      u.flyingSpeedModifier := by
  unfold commitBodyStateChange
  dsimp only
  split
  · split
    · rw [setPosition_fsm]
    · rfl
  · exact setBodyState_fsm cb u bodyState

theorem beginBodyStateChange_fsm (cb : Services G) (gt : GameTime)
    (ap : BattleUnitAnimationPack) (u : BattleUnit G) (bodyState : BodyState) :
    (beginBodyStateChange cb gt ap u bodyState).flyingSpeedModifier =
      u.flyingSpeedModifier := by
  unfold beginBodyStateChange
  dsimp only
  rw [commitBodyStateChange_fsm]
  split_ifs <;> simp only [setHandState_fsm, setMovementState_fsm]

theorem tryNextBodyState_flyingSpeedOK (cb : Services G) (hk : KeepsFlyingSpeed cb)
    (gt : GameTime) (ap : BattleUnitAnimationPack) (u : BattleUnit G)
    (hu : FlyingSpeedOK u.toUnitVars) :
    FlyingSpeedOK (tryNextBodyState cb gt ap u).toUnitVars := by
  unfold tryNextBodyState
  have hn := getNextBodyState_flyingSpeedOK cb hk u BodyState.Downed hu
  split
  · dsimp only
    split
    · unfold FlyingSpeedOK
      rw [beginBodyStateChange_fsm]
      exact hn
    · exact hn
  · exact hu

theorem updateBodyStep_flyingSpeedOK (cb : Services G) (hk : KeepsFlyingSpeed cb)
    (gt : GameTime) (ap : BattleUnitAnimationPack) (u : BattleUnit G) (budget : Nat)
    (hu : FlyingSpeedOK u.toUnitVars) :
    FlyingSpeedOK (updateBodyStep cb gt ap u budget).unit.toUnitVars := by
  unfold updateBodyStep
  by_cases hb : budget > 0
  · rw [if_pos hb]
    by_cases hgt : u.body_animation_ticks_remaining > budget
    · rw [if_pos hgt]
      exact hu
    · rw [if_neg hgt]
      have ha : FlyingSpeedOK (finishBodyAnimation cb u budget).1.toUnitVars := by
        unfold finishBodyAnimation
        by_cases hpos : u.body_animation_ticks_remaining > 0
        · rw [if_pos hpos]
          unfold FlyingSpeedOK
          rw [setBodyState_fsm]
          exact hu
        · rw [if_neg hpos]
          exact hu
      have hp := popFinishedMissions_flyingSpeedOK cb hk _ ha
      by_cases hr : (popFinishedMissions cb (finishBodyAnimation cb u budget).1).1 = true
      · simp only [hr, if_true]
        exact hp
      · simp only [hr, if_false]
        exact tryNextBodyState_flyingSpeedOK cb hk gt ap _ hp
  · rw [if_neg hb]
    exact hu

theorem takeOff_fsm (cb : Services G) (u : BattleUnit G) :
    (takeOff cb u).flyingSpeedModifier = u.flyingSpeedModifier := by
  unfold takeOff
  split
  · show (setBodyState cb u BodyState.Flying).flyingSpeedModifier = _
    exact setBodyState_fsm cb u _
  · exact setBodyState_fsm cb u _

theorem startFlying_fsm (cb : Services G) (gt : GameTime) (u : BattleUnit G)
    (fullySupported : Bool) :
    (startFlying cb gt u fullySupported).flyingSpeedModifier = u.flyingSpeedModifier := by
  unfold startFlying
  split
  · split
    · exact takeOff_fsm cb u
    · rfl
  · rfl

theorem startFalling_fsm (gt : GameTime) (ap : BattleUnitAnimationPack) (u : BattleUnit G) :
    (startFalling gt ap u).flyingSpeedModifier = u.flyingSpeedModifier :=
  setMovementState_fsm gt ap u MovementState.None

theorem beginFallingOrFlying_fsm (cb : Services G) (gt : GameTime)
    (ap : BattleUnitAnimationPack) (u : BattleUnit G) :
    (beginFallingOrFlying cb gt ap u).flyingSpeedModifier = u.flyingSpeedModifier := by
  unfold beginFallingOrFlying
  split
  · split
    · split
      · rw [startFlying_fsm, startFalling_fsm]
      · rw [startFlying_fsm]
    · rfl
  · rfl

theorem dealDamage_flyingSpeedOK (cb : Services G) (hk : KeepsFlyingSpeed cb)
    (gt : GameTime) (u : BattleUnit G) (d : Int) (p : BodyPart) (sp : Int)
    (hu : FlyingSpeedOK u.toUnitVars) :
    FlyingSpeedOK (dealDamage cb gt u d false p sp).toUnitVars := by
  have hd : (damaged cb gt u d false p sp).1.flyingSpeedModifier = u.flyingSpeedModifier := by
    unfold damaged dealStunOrHealthDamage
    simp only [Bool.false_eq_true, if_false]
    split <;> rfl
  have hw : FlyingSpeedOK (damaged cb gt u d false p sp).1.toUnitVars := by
    unfold FlyingSpeedOK
    rw [hd]
    exact hu
  unfold dealDamage
  simp only
  by_cases hdead : isDead (damaged cb gt u d false p sp).1 = true
  · rw [if_pos hdead]
    unfold die
    exact hk.2.2.2.2.2.1 _ hw
  · rw [if_neg hdead]
    unfold dealDamageTail fallUnconscious
    simp only
    have hdrop := hk.2.2.2.2.2.1 _ hw
    split <;> split <;> first
      | exact hdrop
      | exact hw
      | (split <;> first | exact hdrop | exact hw)

theorem fellIntoUnit_flyingSpeedOK (cb : Services G) (hk : KeepsFlyingSpeed cb)
    (gt : GameTime) (u : BattleUnit G) (newPosition : Vec3f)
    (hu : FlyingSpeedOK u.toUnitVars) :
    FlyingSpeedOK (fellIntoUnit cb gt u newPosition).toUnitVars := by
  unfold fellIntoUnit
  split
  · unfold fallUnconscious
    apply hk.2.2.2.2.2.1
    exact dealDamage_flyingSpeedOK cb hk gt _ _ _ _ hu
  · exact hu

theorem landAt_flyingSpeedOK (cb : Services G) (hk : KeepsFlyingSpeed cb)
    (u : BattleUnit G) (newPosition : Vec3f) (hu : FlyingSpeedOK u.toUnitVars) :
    FlyingSpeedOK (landAt cb u newPosition).toUnitVars := by
  have h1 : FlyingSpeedOK (setPosition cb u newPosition).toUnitVars := by
    unfold FlyingSpeedOK
    rw [setPosition_fsm]
    exact hu
  exact hk.2.2.2.2.2.2 _ h1

theorem reachGround_flyingSpeedOK (cb : Services G) (hk : KeepsFlyingSpeed cb)
    (gt : GameTime) (u : BattleUnit G) (hu : FlyingSpeedOK u.toUnitVars) :
    FlyingSpeedOK (reachGround cb gt u).toUnitVars := by
  unfold reachGround
  split
  · show FlyingSpeedOK (cb.triggerProximity _).toUnitVars
    apply hk.2.2.2.2.2.2
    split
    · unfold FlyingSpeedOK
      rw [setPosition_fsm]
      exact hu
    · unfold FlyingSpeedOK
      rw [setPosition_fsm]
      exact hu
  · exact hu

theorem processFalling_flyingSpeedOK (cb : Services G) (hk : KeepsFlyingSpeed cb)
    (gt : GameTime) (mc : MoveConsts) (u : BattleUnit G) (moveTicksRemaining : Nat)
    (hu : FlyingSpeedOK u.toUnitVars) :
    FlyingSpeedOK (processFalling cb gt mc u moveTicksRemaining).toUnitVars := by
  unfold processFalling
  apply reachGround_flyingSpeedOK cb hk
  apply landAt_flyingSpeedOK cb hk
  apply fellIntoUnit_flyingSpeedOK cb hk
  exact hu

theorem liftCheck_fsm (cb : Services G) (u : BattleUnit G) (wasUsingLift : Bool) :
    (liftCheck cb u wasUsingLift).flyingSpeedModifier = u.flyingSpeedModifier := by
  unfold liftCheck
  split <;> rfl

theorem accelerate_flyingSpeedOK (u : BattleUnit G) (gain : Nat)
    (hu : FlyingSpeedOK u.toUnitVars) : FlyingSpeedOK (accelerate u gain).toUnitVars := by
  unfold accelerate
  split
  · exact min_le_left 100 _
  · exact hu

theorem moveTowardsGoal_flyingSpeedOK (cb : Services G) (hk : KeepsFlyingSpeed cb)
    (mc : MoveConsts) (u : BattleUnit G) (M r s : Nat) (hu : FlyingSpeedOK u.toUnitVars) :
    FlyingSpeedOK (moveTowardsGoal cb mc u M r s).toUnitVars := by
  show FlyingSpeedOK (cb.triggerProximity _).toUnitVars
  apply hk.2.2.2.2.2.2
  unfold FlyingSpeedOK
  rw [setPosition_fsm]
  exact accelerate_flyingSpeedOK u _ hu

theorem arriveAtGoal_flyingSpeedOK (cb : Services G) (hk : KeepsFlyingSpeed cb)
    (mc : MoveConsts) (u : BattleUnit G) (D : Nat) (hu : FlyingSpeedOK u.toUnitVars) :
    FlyingSpeedOK (arriveAtGoal cb mc u D).toUnitVars := by
  unfold arriveAtGoal
  split
  · show FlyingSpeedOK (cb.triggerProximity _).toUnitVars
    apply hk.2.2.2.2.2.2
    unfold FlyingSpeedOK
    rw [setPosition_fsm]
    exact accelerate_flyingSpeedOK u _ hu
  · exact hu

theorem requestNextDestination_flyingSpeedOK (cb : Services G) (hk : KeepsFlyingSpeed cb)
    (u : BattleUnit G) (hu : FlyingSpeedOK u.toUnitVars) :
    FlyingSpeedOK (requestNextDestination cb u).toUnitVars := by
  unfold requestNextDestination
  cases hq : u.missions with
  | nil => exact hu
  | cons m rest =>
    dsimp only
    split
    · exact hk.2.2.2.1 u m hu
    · exact hk.2.2.2.1 u m hu

theorem shouldPlaySoundNow_fsm (cb : Services G) (mc : MoveConsts) (u : BattleUnit G) :
    (shouldPlaySoundNow cb mc u).2.flyingSpeedModifier = u.flyingSpeedModifier := by
  unfold shouldPlaySoundNow
  split <;> rfl

theorem footsteps_fsm (cb : Services G) (mc : MoveConsts) (u : BattleUnit G) (acc : Nat) :
    (footsteps cb mc u acc).flyingSpeedModifier = u.flyingSpeedModifier := by
  unfold footsteps
  split
  · show (shouldPlaySoundNow cb mc (passTicks u acc)).2.flyingSpeedModifier = _
    rw [shouldPlaySoundNow_fsm]
    rfl
  · rw [shouldPlaySoundNow_fsm]
    rfl

theorem moveToGoal_flyingSpeedOK (cb : Services G) (hk : KeepsFlyingSpeed cb)
    (mc : MoveConsts) (u : BattleUnit G) (M D r : Nat) (hu : FlyingSpeedOK u.toUnitVars) :
    FlyingSpeedOK (moveToGoal cb mc u M D r).unit.toUnitVars := by
  have h1 : FlyingSpeedOK
      ({ arriveAtGoal cb mc u D with atGoal := true } : BattleUnit G).toUnitVars :=
    arriveAtGoal_flyingSpeedOK cb hk mc u D hu
  have h2 := popFinishedMissions_flyingSpeedOK cb hk _ h1
  unfold moveToGoal
  split
  · exact h2
  · show FlyingSpeedOK (footsteps cb mc _ _).toUnitVars
    unfold FlyingSpeedOK
    rw [footsteps_fsm]
    exact requestNextDestination_flyingSpeedOK cb hk _ h2

theorem processMoving_flyingSpeedOK (cb : Services G) (hk : KeepsFlyingSpeed cb)
    (mc : MoveConsts) (u : BattleUnit G) (wasUsingLift : Bool) (M : Nat)
    (hu : FlyingSpeedOK u.toUnitVars) :
    FlyingSpeedOK (processMoving cb mc u wasUsingLift M).unit.toUnitVars := by
  have hl : FlyingSpeedOK (liftCheck cb u wasUsingLift).toUnitVars := by
    unfold FlyingSpeedOK
    rw [liftCheck_fsm]
    exact hu
  unfold processMoving
  split
  · show FlyingSpeedOK (footsteps cb mc _ _).toUnitVars
    unfold FlyingSpeedOK
    rw [footsteps_fsm]
    exact moveTowardsGoal_flyingSpeedOK cb hk mc _ _ _ _ hl
  · exact moveToGoal_flyingSpeedOK cb hk mc _ _ _ _ hl

theorem settleGoal_fsm (cb : Services G) (u : BattleUnit G) :
    (settleGoal cb u).flyingSpeedModifier = u.flyingSpeedModifier := by
  unfold settleGoal
  split <;> rfl

theorem processStanding_flyingSpeedOK (cb : Services G) (hk : KeepsFlyingSpeed cb)
    (u : BattleUnit G) (hu : FlyingSpeedOK u.toUnitVars) :
    FlyingSpeedOK (processStanding cb u).2.toUnitVars := by
  have hs : FlyingSpeedOK (settleGoal cb u).toUnitVars := by
    unfold FlyingSpeedOK
    rw [settleGoal_fsm]
    exact hu
  unfold processStanding
  split
  · exact addMissionByType_flyingSpeedOK cb hk _ _ hs
  · split
    · exact popFinishedMissions_flyingSpeedOK cb hk _ hs
    · apply requestNextDestination_flyingSpeedOK cb hk
      exact popFinishedMissions_flyingSpeedOK cb hk _ hs

theorem updateMoveStep_flyingSpeedOK (cb : Services G) (hk : KeepsFlyingSpeed cb)
    (gt : GameTime) (mc : MoveConsts) (u : BattleUnit G) (wasUsingLift : Bool) (M : Nat)
    (hu : FlyingSpeedOK u.toUnitVars) :
    FlyingSpeedOK (updateMoveStep cb gt mc u wasUsingLift M).unit.toUnitVars := by
  unfold updateMoveStep
  split
  · split
    · exact processFalling_flyingSpeedOK cb hk gt mc u M hu
    · split
      · exact processMoving_flyingSpeedOK cb hk mc u wasUsingLift M hu
      · exact processStanding_flyingSpeedOK cb hk u hu
  · exact hu

theorem requestNextFacing_flyingSpeedOK (cb : Services G) (hk : KeepsFlyingSpeed cb)
    (gt : GameTime) (u : BattleUnit G) (hu : FlyingSpeedOK u.toUnitVars) :
    FlyingSpeedOK (requestNextFacing cb gt u).toUnitVars := by
  unfold requestNextFacing
  cases hq : u.missions with
  | nil => exact hu
  | cons m rest =>
    dsimp only
    split
    · exact hk.2.2.2.2.1 u m hu
    · exact hk.2.2.2.2.1 u m hu

theorem updateTurnStep_flyingSpeedOK (cb : Services G) (hk : KeepsFlyingSpeed cb)
    (gt : GameTime) (u : BattleUnit G) (budget : Nat) (hu : FlyingSpeedOK u.toUnitVars) :
    FlyingSpeedOK (updateTurnStep cb gt u budget).unit.toUnitVars := by
  have hf : FlyingSpeedOK (finishTurning cb u budget).1.toUnitVars := by
    unfold finishTurning
    split
    · exact hu
    · exact hu
  have hp := popFinishedMissions_flyingSpeedOK cb hk _ hf
  unfold updateTurnStep
  split
  · split
    · exact hu
    · split
      · exact hp
      · exact requestNextFacing_flyingSpeedOK cb hk gt _ hp
  · exact hu

theorem easeHands_fsm (gt : GameTime) (ap : BattleUnitAnimationPack) (u : BattleUnit G)
    (atOnce : Bool) : (easeHands gt ap u atOnce).flyingSpeedModifier = u.flyingSpeedModifier := by
  unfold easeHands
  split <;> rfl

theorem updateDisplayedItem_fsm (cb : Services G) (gt : GameTime)
    (ap : BattleUnitAnimationPack) (u : BattleUnit G) :
    (updateDisplayedItem cb gt ap u).flyingSpeedModifier = u.flyingSpeedModifier := by
  unfold updateDisplayedItem
  split <;> rw [easeHands_fsm]

theorem passTurn_flyingSpeedOK (cb : Services G) (hk : KeepsFlyingSpeed cb) (gt : GameTime)
    (ap : BattleUnitAnimationPack) (u : BattleUnit G) (b : Budgets)
    (hu : FlyingSpeedOK u.toUnitVars) :
    FlyingSpeedOK (passTurn cb gt ap u b).unit.toUnitVars := by
  have ht := updateTurnStep_flyingSpeedOK cb hk gt u b.turn hu
  unfold passTurn
  split
  · exact ht
  · show FlyingSpeedOK (updateDisplayedItem cb gt ap _).toUnitVars
    unfold FlyingSpeedOK
    rw [updateDisplayedItem_fsm]
    exact ht

theorem passMove_flyingSpeedOK (cb : Services G) (hk : KeepsFlyingSpeed cb) (gt : GameTime)
    (ap : BattleUnitAnimationPack) (mc : MoveConsts) (wasUsingLift : Bool) (u : BattleUnit G)
    (b : Budgets) (hu : FlyingSpeedOK u.toUnitVars) :
    FlyingSpeedOK (passMove cb gt ap mc wasUsingLift u b).unit.toUnitVars := by
  have hm := updateMoveStep_flyingSpeedOK cb hk gt mc u wasUsingLift b.move hu
  unfold passMove
  split
  · exact hm
  · exact passTurn_flyingSpeedOK cb hk gt ap _ _ hm

theorem passBody_flyingSpeedOK (cb : Services G) (hk : KeepsFlyingSpeed cb) (gt : GameTime)
    (ap : BattleUnitAnimationPack) (mc : MoveConsts) (wasUsingLift : Bool) (u : BattleUnit G)
    (b : Budgets) (hu : FlyingSpeedOK u.toUnitVars) :
    FlyingSpeedOK (passBody cb gt ap mc wasUsingLift u b).unit.toUnitVars := by
  have hb := updateBodyStep_flyingSpeedOK cb hk gt ap u b.body hu
  unfold passBody
  split
  · exact hb
  · apply passMove_flyingSpeedOK cb hk
    unfold FlyingSpeedOK
    rw [updateHandStep_fsm]
    exact hb

theorem convergencePass_flyingSpeedOK (cb : Services G) (hk : KeepsFlyingSpeed cb)
    (gt : GameTime) (ap : BattleUnitAnimationPack) (mc : MoveConsts) (wasUsingLift : Bool)
    (u : BattleUnit G) (b : Budgets) (hu : FlyingSpeedOK u.toUnitVars) :
    FlyingSpeedOK (convergencePass cb gt ap mc wasUsingLift u b).unit.toUnitVars := by
  unfold convergencePass
  apply passBody_flyingSpeedOK cb hk
  unfold FlyingSpeedOK
  rw [beginFallingOrFlying_fsm]
  exact hu

/-! ## The budgets of the convergence loop -/

theorem updateBodyStep_budget (cb : Services G) (gt : GameTime)
    (ap : BattleUnitAnimationPack) (u : BattleUnit G) (budget : Nat) :
    (updateBodyStep cb gt ap u budget).ticksRemaining ≤ budget := by
  have hf : (finishBodyAnimation cb u budget).2 ≤ budget := by
    unfold finishBodyAnimation
    split
    · exact Nat.sub_le _ _
    · exact le_refl _
  unfold updateBodyStep
  split
  · split
    · exact Nat.zero_le _
    · dsimp only
      split
      · exact hf
      · exact hf
  · exact le_refl _

theorem updateHandStep_budget (gt : GameTime) (ap : BattleUnitAnimationPack)
    (u : BattleUnit G) (budget : Nat) : (updateHandStep gt ap u budget).2 ≤ budget := by
  unfold updateHandStep
  split
  · split
    · split
      · exact Nat.zero_le _
      · exact Nat.sub_le _ _
    · split
      · exact Nat.zero_le _
      · split
        · exact Nat.sub_le _ _
        · exact le_refl _
  · exact le_refl _

theorem updateTurnStep_budget (cb : Services G) (gt : GameTime) (u : BattleUnit G)
    (budget : Nat) : (updateTurnStep cb gt u budget).ticksRemaining ≤ budget := by
  have hf : (finishTurning cb u budget).2 ≤ budget := by
    unfold finishTurning
    split
    · exact Nat.sub_le _ _
    · exact le_refl _
  unfold updateTurnStep
  split
  · split
    · exact Nat.zero_le _
    · split
      · exact hf
      · exact hf
  · exact le_refl _

theorem usub32_eq (a b : Nat) (ha : a < 2 ^ 32) (hb : b ≤ a) : usub32 a b = a - b := by
  unfold usub32
  have h1 : b % 2 ^ 32 = b := Nat.mod_eq_of_lt (lt_of_le_of_lt hb ha)
  rw [h1]
  have h2 : a + 2 ^ 32 - b = (a - b) + 2 ^ 32 := by omega
  rw [h2, Nat.add_mod_right]
  exact Nat.mod_eq_of_lt (by omega)

theorem reach_covers (D r s M : Nat) (hr : r = 1 ∨ r = 2) (hs1 : 1 ≤ s) (hs : s ≤ 100)
    (hD : D * 200 < 2 ^ 32) (h : cannotReach D r s M = false) :
    u32 (D * r) = D * r ∧ D * r ≤ M := by
  have h1 : D * r * 100 < 2 ^ 32 := by
    rcases hr with h | h <;> subst h <;> omega
  have h2 : D * r < 2 ^ 32 := by omega
  have e1 : u32 (D * r) = D * r := u32_eq_of_lt h2
  have e2 : u32 (D * r * 100) = D * r * 100 := u32_eq_of_lt h1
  unfold cannotReach at h
  rw [e1, e2] at h
  have h3 : D * r * 100 / s ≤ M := by simpa using h
  have h4 : D * r ≤ D * r * 100 / s := by
    rw [Nat.le_div_iff_mul_le (by omega)]
    exact Nat.mul_le_mul_left _ hs
  exact ⟨e1, le_trans h4 h3⟩

theorem speedModifierOf_le (u : BattleUnit G) (hu : FlyingSpeedOK u.toUnitVars) :
    speedModifierOf u ≤ 100 := by
  unfold speedModifierOf
  split
  · exact max_le (by decide) hu
  · exact le_refl _

theorem moveToGoal_ticks (cb : Services G) (mc : MoveConsts) (u : BattleUnit G)
    (M D r : Nat) :
    (moveToGoal cb mc u M D r).ticksRemaining =
      if D > 0 then usub32 M (u32 (D * r)) else M := by
  unfold moveToGoal
  split <;> rfl

theorem processMoving_budget (cb : Services G) (hr : DistancesInRange cb) (mc : MoveConsts)
    (u : BattleUnit G) (wasUsingLift : Bool) (M : Nat) (hu : FlyingSpeedOK u.toUnitVars)
    (hM : M < 2 ^ 32) : (processMoving cb mc u wasUsingLift M).ticksRemaining ≤ M := by
  unfold processMoving
  by_cases hc : cannotReach (cb.distanceToGoal u) (moveTicksConsumeRateOf u)
      (speedModifierOf u) M = true
  · rw [if_pos hc]
    exact Nat.mod_le _ _
  · rw [if_neg hc, moveToGoal_ticks]
    have hc1 : cannotReach (cb.distanceToGoal u) (moveTicksConsumeRateOf u)
        (speedModifierOf u) M = false := by simpa using hc
    obtain ⟨e1, e2⟩ := reach_covers _ _ _ _ (moveTicksConsumeRateOf_cases u)
      (speedModifierOf_pos u) (speedModifierOf_le u hu) (hr u) hc1
    split
    · rw [e1, usub32_eq M _ hM e2]
      exact Nat.sub_le _ _
    · exact le_refl _

theorem updateMoveStep_budget (cb : Services G) (hr : DistancesInRange cb) (gt : GameTime)
    (mc : MoveConsts) (u : BattleUnit G) (wasUsingLift : Bool) (M : Nat)
    (hu : FlyingSpeedOK u.toUnitVars) (hM : M < 2 ^ 32) :
    (updateMoveStep cb gt mc u wasUsingLift M).ticksRemaining ≤ M := by
  unfold updateMoveStep
  split
  · split
    · exact Nat.zero_le _
    · split
      · exact processMoving_budget cb hr mc u wasUsingLift M hu hM
      · exact le_refl _
  · exact le_refl _

theorem passTurn_budgets (cb : Services G) (gt : GameTime) (ap : BattleUnitAnimationPack)
    (u : BattleUnit G) (b : Budgets) :
    Budgets.le (passTurn cb gt ap u b).budgets b := by
  have ht := updateTurnStep_budget cb gt u b.turn
  unfold passTurn
  split
  · exact ⟨le_refl _, le_refl _, le_refl _, ht⟩
  · exact ⟨le_refl _, le_refl _, le_refl _, ht⟩

theorem passMove_budgets (cb : Services G) (hr : DistancesInRange cb) (gt : GameTime)
    (ap : BattleUnitAnimationPack) (mc : MoveConsts) (wasUsingLift : Bool) (u : BattleUnit G)
    (b : Budgets) (hu : FlyingSpeedOK u.toUnitVars) (hM : b.move < 2 ^ 32) :
    Budgets.le (passMove cb gt ap mc wasUsingLift u b).budgets b := by
  have hm := updateMoveStep_budget cb hr gt mc u wasUsingLift b.move hu hM
  unfold passMove
  split
  · exact ⟨hm, le_refl _, le_refl _, le_refl _⟩
  · obtain ⟨h1, h2, h3, h4⟩ := passTurn_budgets cb gt ap
      (updateMoveStep cb gt mc u wasUsingLift b.move).unit
      { b with move := (updateMoveStep cb gt mc u wasUsingLift b.move).ticksRemaining }
    exact ⟨le_trans h1 hm, h2, h3, h4⟩

theorem passBody_budgets (cb : Services G) (hk : KeepsFlyingSpeed cb)
    (hr : DistancesInRange cb) (gt : GameTime)
    (ap : BattleUnitAnimationPack) (mc : MoveConsts) (wasUsingLift : Bool) (u : BattleUnit G)
    (b : Budgets) (hu : FlyingSpeedOK u.toUnitVars) (hM : b.move < 2 ^ 32) :
    Budgets.le (passBody cb gt ap mc wasUsingLift u b).budgets b := by
  have hb := updateBodyStep_budget cb gt ap u b.body
  have hh := updateHandStep_budget gt ap (updateBodyStep cb gt ap u b.body).unit b.hand
  have ho : FlyingSpeedOK
      (updateHandStep gt ap (updateBodyStep cb gt ap u b.body).unit b.hand).1.toUnitVars := by
    unfold FlyingSpeedOK
    rw [updateHandStep_fsm]
    exact updateBodyStep_flyingSpeedOK cb hk gt ap u b.body hu
  unfold passBody
  split
  · exact ⟨le_refl _, hb, le_refl _, le_refl _⟩
  · obtain ⟨h1, h2, h3, h4⟩ := passMove_budgets cb hr gt ap mc wasUsingLift
      (updateHandStep gt ap (updateBodyStep cb gt ap u b.body).unit b.hand).1
      { b with body := (updateBodyStep cb gt ap u b.body).ticksRemaining
               hand := (updateHandStep gt ap (updateBodyStep cb gt ap u b.body).unit b.hand).2 }
      ho hM
    exact ⟨h1, le_trans h2 hb, le_trans h3 hh, h4⟩

theorem convergencePass_budgets (cb : Services G) (hk : KeepsFlyingSpeed cb)
    (hr : DistancesInRange cb) (gt : GameTime)
    (ap : BattleUnitAnimationPack) (mc : MoveConsts) (wasUsingLift : Bool) (u : BattleUnit G)
    (b : Budgets) (hu : FlyingSpeedOK u.toUnitVars) (hM : b.move < 2 ^ 32) :
    Budgets.le (convergencePass cb gt ap mc wasUsingLift u b).budgets b := by
  unfold convergencePass
  apply passBody_budgets cb hk hr
  · unfold FlyingSpeedOK
    rw [beginFallingOrFlying_fsm]
    exact hu
  · exact hM

theorem Budgets.total_lt_of_le_of_ne {a b : Budgets} (h : Budgets.le a b) (hne : b ≠ a) :
    a.total < b.total := by
  obtain ⟨h1, h2, h3, h4⟩ := h
  unfold Budgets.total
  by_contra hcon
  apply hne
  obtain ⟨am, ab, ah, at_⟩ := a
  obtain ⟨bm, bb, bh, bt⟩ := b
  simp only at h1 h2 h3 h4 hcon
  have e1 : bm = am := by omega
  have e2 : bb = ab := by omega
  have e3 : bh = ah := by omega
  have e4 : bt = at_ := by omega
  rw [e1, e2, e3, e4]

theorem convergenceLoop_isSome (cb : Services G) (hk : KeepsFlyingSpeed cb)
    (hr : DistancesInRange cb) (gt : GameTime) (ap : BattleUnitAnimationPack)
    (mc : MoveConsts) (wasUsingLift : Bool) :
    ∀ (fuel : Nat) (last b : Budgets) (u : BattleUnit G),
      FlyingSpeedOK u.toUnitVars → b.move < 2 ^ 32 → (last = b ∨ b.total + 1 ≤ fuel) →
      ∃ res, convergenceLoop cb gt ap mc wasUsingLift fuel last b u = some res := by
  intro fuel
  induction fuel with
  | zero =>
    intro last b u _ _ h
    have hl : last = b := by
      rcases h with h | h
      · exact h
      · omega
    exact ⟨_, by unfold convergenceLoop; rw [if_pos hl]⟩
  | succ fuel ih =>
    intro last b u hu hM h
    unfold convergenceLoop
    by_cases hl : last = b
    · rw [if_pos hl]
      exact ⟨_, rfl⟩
    · rw [if_neg hl]
      by_cases hret : (convergencePass cb gt ap mc wasUsingLift u b).returned = true
      · rw [if_pos hret]
        exact ⟨_, rfl⟩
      · rw [if_neg hret]
        have hle := convergencePass_budgets cb hk hr gt ap mc wasUsingLift u b hu hM
        apply ih
        · exact convergencePass_flyingSpeedOK cb hk gt ap mc wasUsingLift u b hu
        · exact lt_of_le_of_lt hle.1 hM
        · by_cases he : b = (convergencePass cb gt ap mc wasUsingLift u b).budgets
          · exact Or.inl he
          · right
            have hlt := Budgets.total_lt_of_le_of_ne hle he
            rcases h with h | h
            · exact absurd h hl
            · omega

theorem convergenceLoop_mono (cb : Services G) (gt : GameTime) (ap : BattleUnitAnimationPack)
    (mc : MoveConsts) (wasUsingLift : Bool) :
    ∀ (fuel : Nat) (last b : Budgets) (u : BattleUnit G) (res : PassResult G),
      convergenceLoop cb gt ap mc wasUsingLift fuel last b u = some res →
      ∀ fuel', fuel ≤ fuel' →
        convergenceLoop cb gt ap mc wasUsingLift fuel' last b u = some res := by
  intro fuel
  induction fuel with
  | zero =>
    intro last b u res h fuel' _
    unfold convergenceLoop at h
    by_cases hl : last = b
    · rw [if_pos hl] at h
      cases fuel' with
      | zero => unfold convergenceLoop; rw [if_pos hl]; exact h
      | succ n => unfold convergenceLoop; rw [if_pos hl]; exact h
    · rw [if_neg hl] at h
      exact absurd h (by simp)
  | succ fuel ih =>
    intro last b u res h fuel' hf
    cases fuel' with
    | zero => omega
    | succ n =>
      unfold convergenceLoop at h ⊢
      by_cases hl : last = b
      · rw [if_pos hl] at h ⊢
        exact h
      · rw [if_neg hl] at h ⊢
        by_cases hret : (convergencePass cb gt ap mc wasUsingLift u b).returned = true
        · rw [if_pos hret] at h ⊢
          exact h
        · rw [if_neg hret] at h ⊢
          exact ih _ _ _ _ h n (by omega)

theorem beforeLoop_flyingSpeedOK (u : BattleUnit G) (hu : FlyingSpeedOK u.toUnitVars) :
    FlyingSpeedOK (beforeLoop u).toUnitVars := by
  unfold beforeLoop
  split
  · exact Nat.zero_le _
  · exact hu

theorem demoMoveServices_keeps : KeepsFlyingSpeed demoMoveServices := by
  refine ⟨?_, fun _ _ h => h, fun _ _ h => h, fun _ _ h => h, fun _ _ h => h,
    fun _ h => h, fun _ h => h⟩
  intro u m h
  show FlyingSpeedOK (if _ then _ else _)
  split
  · exact h
  · exact h

/-- C30, amended: the tick convergence loop of `update` terminates. For a unit whose
flying speed modifier is a percentage (the external services keep it so and
distances to the goal are in the range where the products of the movement
guard do not wrap around), in each pass none of the four budgets increases;
the subtraction on the move budget is guarded and does not wrap around; the
loop stops as soon as a pass leaves the budgets unchanged; and with fuel above
the sum of the budgets the loop yields a result, the same for any larger fuel,
for every tick count. -/
theorem convergenceLoop_terminates (cb : Services G) (gt : GameTime)
    (ap : BattleUnitAnimationPack) (mc : MoveConsts) (wasUsingLift : Bool)
    (hk : KeepsFlyingSpeed cb) (hr : DistancesInRange cb)
    (u : BattleUnit G) (b : Budgets)
    (hu : FlyingSpeedOK u.toUnitVars) (hb : b.move < 2 ^ 32) :
    Budgets.le (convergencePass cb gt ap mc wasUsingLift u b).budgets b ∧
    (cannotReach (cb.distanceToGoal u) (moveTicksConsumeRateOf u) (speedModifierOf u)
        b.move = false →
      cb.distanceToGoal u * moveTicksConsumeRateOf u ≤ b.move ∧
      usub32 b.move (u32 (cb.distanceToGoal u * moveTicksConsumeRateOf u)) =
        b.move - cb.distanceToGoal u * moveTicksConsumeRateOf u) ∧
    (∀ fuel, convergenceLoop cb gt ap mc wasUsingLift fuel b b u =
      some { returned := false, unit := u, budgets := b }) ∧
    (∀ last fuel, b.total + 1 ≤ fuel →
      ∃ res, convergenceLoop cb gt ap mc wasUsingLift fuel last b u = some res ∧
        ∀ fuel', fuel ≤ fuel' →
          convergenceLoop cb gt ap mc wasUsingLift fuel' last b u = some res) ∧
    (∀ ticks fuel, (initialBudgets cb gt (beforeLoop u) ticks).total + 1 ≤ fuel →
      ∃ res, movementAndBody cb gt ap mc fuel u ticks = some res ∧
        ∀ fuel', fuel ≤ fuel' → movementAndBody cb gt ap mc fuel' u ticks = some res) := by
  refine ⟨convergencePass_budgets cb hk hr gt ap mc wasUsingLift u b hu hb, ?_, ?_, ?_, ?_⟩
  · intro hc
    obtain ⟨e1, e2⟩ := reach_covers _ _ _ _ (moveTicksConsumeRateOf_cases u)
      (speedModifierOf_pos u) (speedModifierOf_le u hu) (hr u) hc
    exact ⟨e2, by rw [e1]; exact usub32_eq _ _ hb e2⟩
  · intro fuel
    cases fuel with
    | zero => unfold convergenceLoop; rw [if_pos rfl]
    | succ n => unfold convergenceLoop; rw [if_pos rfl]
  · intro last fuel hf
    obtain ⟨res, hres⟩ := convergenceLoop_isSome cb hk hr gt ap mc wasUsingLift fuel last b u
      hu hb (Or.inr hf)
    exact ⟨res, hres, convergenceLoop_mono cb gt ap mc wasUsingLift fuel last b u res hres⟩
  · intro ticks fuel hf
    have hm : (initialBudgets cb gt (beforeLoop u) ticks).move < 2 ^ 32 :=
      Nat.mod_lt _ (by decide)
    obtain ⟨res, hres⟩ := convergenceLoop_isSome cb hk hr gt ap mc u.usingLift fuel
      { move := 0, body := 0, hand := 0, turn := 0 }
      (initialBudgets cb gt (beforeLoop u) ticks) (beforeLoop u)
      (beforeLoop_flyingSpeedOK u hu) hm (Or.inr hf)
    exact ⟨res, hres, convergenceLoop_mono cb gt ap mc u.usingLift fuel _ _ _ res hres⟩

theorem convergenceLoop_terminates_witness :
    Budgets.le
      (convergencePass demoMoveServices demoGameTime demoAnimationPack demoMoveConsts false
        demoWalker { move := 20, body := 1, hand := 1, turn := 1 }).budgets
      { move := 20, body := 1, hand := 1, turn := 1 } ∧
    ∃ res, movementAndBody demoMoveServices demoGameTime demoAnimationPack demoMoveConsts 10
      demoWalker 1 = some res :=
  ⟨(convergenceLoop_terminates demoMoveServices demoGameTime demoAnimationPack demoMoveConsts
      false demoMoveServices_keeps (fun _ => (by decide : 4 * 200 < 2 ^ 32)) demoWalker
      { move := 20, body := 1, hand := 1, turn := 1 } (Nat.zero_le 100) (by decide)).1,
   ((convergenceLoop_terminates demoMoveServices demoGameTime demoAnimationPack demoMoveConsts
      false demoMoveServices_keeps (fun _ => (by decide : 4 * 200 < 2 ^ 32)) demoWalker
      { move := 20, body := 1, hand := 1, turn := 1 } (Nat.zero_le 100)
      (by decide)).2.2.2.2 1 10 (by decide)).imp (fun _ h => h.1)⟩


/-! ## The per-owner index of visible units -/

theorem foldl_invariant {α β : Type} (P : β → Prop) (f : β → α → β)
    (hf : ∀ s a, P s → P (f s a)) : ∀ (l : List α) (s : β), P s → P (l.foldl f s) := by
  intro l
  induction l with
  | nil => intro s hs; exact hs
  | cons a l ih => intro s hs; exact ih _ (hf s a hs)

theorem mem_addNewlyVisible (last : List String) :
    ∀ (new index : List String) (x : String),
      x ∈ addNewlyVisible last new index ↔ x ∈ index ∨ (x ∈ new ∧ x ∉ last) := by
  intro new
  induction new with
  | nil => intro index x; simp [addNewlyVisible]
  | cons v vs ih =>
    intro index x
    have h := ih (if v ∈ last then index else List.insert v index) x
    unfold addNewlyVisible at h ⊢
    rw [List.foldl_cons, h]
    by_cases hv : v ∈ last
    · rw [if_pos hv]
      constructor
      · rintro (h1 | ⟨h1, h2⟩)
        · exact Or.inl h1
        · exact Or.inr ⟨List.mem_cons_of_mem _ h1, h2⟩
      · rintro (h1 | ⟨h1, h2⟩)
        · exact Or.inl h1
        · rcases List.mem_cons.mp h1 with h3 | h3
          · exact absurd (h3 ▸ hv) h2
          · exact Or.inr ⟨h3, h2⟩
    · rw [if_neg hv, List.mem_insert_iff]
      constructor
      · rintro ((h1 | h1) | ⟨h1, h2⟩)
        · exact Or.inr ⟨h1 ▸ List.mem_cons_self _ _, h1 ▸ hv⟩
        · exact Or.inl h1
        · exact Or.inr ⟨List.mem_cons_of_mem _ h1, h2⟩
      · rintro (h1 | ⟨h1, h2⟩)
        · exact Or.inl (Or.inr h1)
        · rcases List.mem_cons.mp h1 with h3 | h3
          · exact Or.inl (Or.inl h3)
          · exact Or.inr ⟨h3, h2⟩

theorem mem_eraseUnseen (owner : String) (others : List BattleUnitView) (new : List String) :
    ∀ (last index : List String) (x : String),
      x ∈ eraseUnseen owner others last new index ↔
        x ∈ index ∧ ¬ (x ∈ last ∧ x ∉ new ∧ someoneElseSees owner others new x = false) := by
  intro last
  induction last with
  | nil => intro index x; simp [eraseUnseen]
  | cons v vs ih =>
    intro index x
    have h := ih
      (if v ∈ new then index
        else if someoneElseSees owner others new v then index
        else index.filter (fun y => decide (y ≠ v))) x
    unfold eraseUnseen at h ⊢
    rw [List.foldl_cons, h]
    by_cases hv : v ∈ new
    · rw [if_pos hv]
      constructor
      · rintro ⟨h1, h2⟩
        refine ⟨h1, ?_⟩
        rintro ⟨h3, h4, h5⟩
        rcases List.mem_cons.mp h3 with h6 | h6
        · exact h4 (h6 ▸ hv)
        · exact h2 ⟨h6, h4, h5⟩
      · rintro ⟨h1, h2⟩
        exact ⟨h1, fun ⟨h3, h4, h5⟩ => h2 ⟨List.mem_cons_of_mem _ h3, h4, h5⟩⟩
    · rw [if_neg hv]
      by_cases hs : someoneElseSees owner others new v = true
      · rw [if_pos hs]
        constructor
        · rintro ⟨h1, h2⟩
          refine ⟨h1, ?_⟩
          rintro ⟨h3, h4, h5⟩
          rcases List.mem_cons.mp h3 with h6 | h6
          · rw [h6, hs] at h5
            exact Bool.noConfusion h5
          · exact h2 ⟨h6, h4, h5⟩
        · rintro ⟨h1, h2⟩
          exact ⟨h1, fun ⟨h3, h4, h5⟩ => h2 ⟨List.mem_cons_of_mem _ h3, h4, h5⟩⟩
      · rw [if_neg hs]
        have hs' : someoneElseSees owner others new v = false := by simpa using hs
        constructor
        · rintro ⟨h1, h2⟩
          rw [List.mem_filter] at h1
          obtain ⟨h1a, h1b⟩ := h1
          have hne : x ≠ v := by simpa using h1b
          refine ⟨h1a, ?_⟩
          rintro ⟨h3, h4, h5⟩
          rcases List.mem_cons.mp h3 with h6 | h6
          · exact hne h6
          · exact h2 ⟨h6, h4, h5⟩
        · rintro ⟨h1, h2⟩
          have hne : x ≠ v := by
            intro he
            exact h2 ⟨he ▸ List.mem_cons_self _ _, he ▸ hv, he ▸ hs'⟩
          refine ⟨?_, fun ⟨h3, h4, h5⟩ => h2 ⟨List.mem_cons_of_mem _ h3, h4, h5⟩⟩
          rw [List.mem_filter]
          exact ⟨h1, by simpa using hne⟩

theorem someoneElseSees_iff (owner : String) (others : List BattleUnitView)
    (new : List String) (x : String) :
    someoneElseSees owner others new x = true ↔ SeenByOwner owner others new x := by
  unfold someoneElseSees SeenByOwner
  simp only [Bool.or_eq_true, decide_eq_true_eq, List.any_eq_true, Bool.and_eq_true]

theorem index_update_consistent (owner : String) (others : List BattleUnitView)
    (last new index : List String)
    (h : ∀ x, x ∈ index ↔ SeenByOwner owner others last x) (x : String) :
    x ∈ eraseUnseen owner others last new (addNewlyVisible last new index) ↔
      SeenByOwner owner others new x := by
  rw [mem_eraseUnseen, mem_addNewlyVisible, h x]
  have hs := someoneElseSees_iff owner others new x
  by_cases hsee : someoneElseSees owner others new x = true
  · have hS := hs.mp hsee
    constructor
    · intro _
      exact hS
    · intro _
      refine ⟨?_, fun ⟨_, _, h5⟩ => by rw [hsee] at h5; exact Bool.noConfusion h5⟩
      rcases hS with h1 | h1
      · by_cases hl : x ∈ last
        · exact Or.inl (Or.inl hl)
        · exact Or.inr ⟨h1, hl⟩
      · exact Or.inl (Or.inr h1)
  · have hS : ¬ SeenByOwner owner others new x := fun hc => hsee (hs.mpr hc)
    have hsee' : someoneElseSees owner others new x = false := by simpa using hsee
    constructor
    · rintro ⟨h1, h2⟩
      exfalso
      rcases h1 with (h1 | h1) | ⟨h1, _⟩
      · exact h2 ⟨h1, fun hn => hS (Or.inl hn), hsee'⟩
      · exact hS (Or.inr h1)
      · exact hS (Or.inl h1)
    · intro hc
      exact absurd hc hS

theorem seeLosBlock_frame (m : VisionMap) (b : Battle) (owner : String) (position : Vec3f) :
    (seeLosBlock m b owner position).units = b.units ∧
    (seeLosBlock m b owner position).visibleUnits = b.visibleUnits ∧
    (seeLosBlock m b owner position).size_z = b.size_z := by
  unfold seeLosBlock
  split
  · exact ⟨rfl, rfl, rfl⟩
  · exact foldl_invariant
      (fun s : Battle => s.units = b.units ∧ s.visibleUnits = b.visibleUnits ∧
        s.size_z = b.size_z)
      (fun acc t => acc.setVisible owner t) (fun s _ hs => hs) _ _ ⟨rfl, rfl, rfl⟩

theorem walkRay_frame (m : VisionMap) (LOS_RANGE : Int) (owner : String) (position : Vec3f) :
    ∀ (tiles : List Tile) (a : RayBlockage) (s : Sight),
      (walkRay m LOS_RANGE owner position tiles a s).battle.units = s.battle.units ∧
      (walkRay m LOS_RANGE owner position tiles a s).battle.visibleUnits =
        s.battle.visibleUnits ∧
      (walkRay m LOS_RANGE owner position tiles a s).battle.size_z = s.battle.size_z := by
  intro tiles
  induction tiles with
  | nil => intro a s; exact ⟨rfl, rfl, rfl⟩
  | cons t rest ih =>
    intro a s
    unfold walkRay
    split
    · exact ih a s
    · split
      · exact ⟨rfl, rfl, rfl⟩
      · exact ih _ (s.see owner t)

theorem castColumn_frame (m : VisionMap) (LOS_RANGE : Int) (owner : String)
    (position eyesPos : Vec3f) (s : Sight) (o : Int × Int) :
    (castColumn m LOS_RANGE owner position eyesPos s o).battle.units = s.battle.units ∧
    (castColumn m LOS_RANGE owner position eyesPos s o).battle.visibleUnits =
      s.battle.visibleUnits ∧
    (castColumn m LOS_RANGE owner position eyesPos s o).battle.size_z = s.battle.size_z := by
  unfold castColumn
  refine foldl_invariant
    (fun acc : Sight => acc.battle.units = s.battle.units ∧
      acc.battle.visibleUnits = s.battle.visibleUnits ∧ acc.battle.size_z = s.battle.size_z)
    _ ?_ _ _ ⟨rfl, rfl, rfl⟩
  intro acc z hacc
  obtain ⟨h1, h2, h3⟩ := walkRay_frame m LOS_RANGE owner position
    (rayTiles m position eyesPos (rayEnd position o).1 (rayEnd position o).2 (z : Int)) {} acc
  exact ⟨h1.trans hacc.1, h2.trans hacc.2.1, h3.trans hacc.2.2⟩

theorem castRays_frame (m : VisionMap) (LOS_RANGE : Int) (owner : String)
    (position eyesPos : Vec3f) (facing : Vec2) (s : Sight) :
    (castRays m LOS_RANGE owner position eyesPos facing s).battle.units = s.battle.units ∧
    (castRays m LOS_RANGE owner position eyesPos facing s).battle.visibleUnits =
      s.battle.visibleUnits := by
  unfold castRays
  refine foldl_invariant
    (fun acc : Sight => acc.battle.units = s.battle.units ∧
      acc.battle.visibleUnits = s.battle.visibleUnits)
    _ ?_ _ _ ⟨rfl, rfl⟩
  intro acc o hacc
  obtain ⟨h1, h2, _⟩ := castColumn_frame m LOS_RANGE owner position eyesPos acc o
  exact ⟨h1.trans hacc.1, h2.trans hacc.2⟩

theorem gatherSight_frame (cb : Services Battle) (gt : GameTime) (LOS_RANGE : Int)
    (m : VisionMap) (u : BattleUnit Battle) :
    (gatherSight cb gt LOS_RANGE m u).battle.units = u.state.units ∧
    (gatherSight cb gt LOS_RANGE m u).battle.visibleUnits = u.state.visibleUnits := by
  unfold gatherSight
  split
  · obtain ⟨h1, h2⟩ := castRays_frame m LOS_RANGE u.owner u.position (cb.getMuzzleLocation u)
      u.facing { battle := seeLosBlock m u.state u.owner u.position, visibleUnits := [] }
    obtain ⟨h3, h4, _⟩ := seeLosBlock_frame m u.state u.owner u.position
    exact ⟨h1.trans h3, h2.trans h4⟩
  · exact ⟨rfl, rfl⟩

/-- C26: `updateUnitVision` keeps the per-owner index consistent with the
visible sets of the units. If before the call `battle.visibleUnits[owner]` is
the union of `visibleUnits` over the units of that owner, so it is after the
call: a unit newly seen is in the index, a unit no longer seen by this unit
stays in the index exactly when another unit of the same owner has it in its
visible set, and the index of every other owner is untouched. -/
theorem updateUnitVision_index (cb : Services Battle) (gt : GameTime) (LOS_RANGE : Int)
    (m : VisionMap) (u : BattleUnit Battle)
    (h : IndexConsistent u.state u.owner u.visibleUnits) :
    IndexConsistent (updateUnitVisionOn cb gt LOS_RANGE m u).state
      (updateUnitVisionOn cb gt LOS_RANGE m u).owner
      (updateUnitVisionOn cb gt LOS_RANGE m u).visibleUnits ∧
    (∀ x, x ∈ (updateUnitVisionOn cb gt LOS_RANGE m u).visibleUnits →
      x ∈ (updateUnitVisionOn cb gt LOS_RANGE m u).state.visibleUnits u.owner) ∧
    (∀ x, x ∈ u.visibleUnits → x ∉ (updateUnitVisionOn cb gt LOS_RANGE m u).visibleUnits →
      (x ∈ (updateUnitVisionOn cb gt LOS_RANGE m u).state.visibleUnits u.owner ↔
        ∃ w ∈ u.state.units, w.owner = u.owner ∧ x ∈ w.visibleUnits)) ∧
    (∀ o, o ≠ u.owner →
      (updateUnitVisionOn cb gt LOS_RANGE m u).state.visibleUnits o = u.state.visibleUnits o) ∧
    (updateUnitVisionOn cb gt LOS_RANGE m u).state.units = u.state.units := by
  obtain ⟨hu, hv⟩ := gatherSight_frame cb gt LOS_RANGE m u
  have hst : (updateUnitVisionOn cb gt LOS_RANGE m u).state.visibleUnits =
      Function.update (gatherSight cb gt LOS_RANGE m u).battle.visibleUnits u.owner
        (eraseUnseen u.owner (gatherSight cb gt LOS_RANGE m u).battle.units u.visibleUnits
          (gatherSight cb gt LOS_RANGE m u).visibleUnits
          (addNewlyVisible u.visibleUnits (gatherSight cb gt LOS_RANGE m u).visibleUnits
            ((gatherSight cb gt LOS_RANGE m u).battle.visibleUnits u.owner))) := rfl
  have key : ∀ x, x ∈ (updateUnitVisionOn cb gt LOS_RANGE m u).state.visibleUnits u.owner ↔
      SeenByOwner u.owner u.state.units (gatherSight cb gt LOS_RANGE m u).visibleUnits x := by
    intro x
    rw [hst, Function.update_same, hu, hv]
    exact index_update_consistent u.owner u.state.units u.visibleUnits _ _ h x
  refine ⟨?_, ?_, ?_, ?_, hu⟩
  · intro x
    show x ∈ (updateUnitVisionOn cb gt LOS_RANGE m u).state.visibleUnits u.owner ↔
      SeenByOwner u.owner (gatherSight cb gt LOS_RANGE m u).battle.units
        (gatherSight cb gt LOS_RANGE m u).visibleUnits x
    rw [hu]
    exact key x
  · intro x hx
    exact (key x).mpr (Or.inl hx)
  · intro x _ hx
    rw [key x]
    constructor
    · rintro (h1 | h1)
      · exact absurd h1 hx
      · exact h1
    · intro h1
      exact Or.inr h1
  · intro o ho
    rw [hst, Function.update_noteq ho, hv]


/-! ## What a ray makes visible -/

theorem Sight.Within.refl (owner : String) (s : Sight) : Sight.Within owner s s :=
  ⟨fun _ h => h, fun _ h => h⟩

theorem Sight.Within.trans {owner : String} {a b c : Sight}
    (h1 : Sight.Within owner a b) (h2 : Sight.Within owner b c) : Sight.Within owner a c :=
  ⟨fun p h => h2.1 p (h1.1 p h), fun x h => h2.2 x (h1.2 x h)⟩

theorem Sight.Marked.mono {owner : String} {tiles : List Tile} {a b : Sight}
    (h : Sight.Marked owner tiles a) (hw : Sight.Within owner a b) :
    Sight.Marked owner tiles b :=
  fun t ht => ⟨hw.1 _ (h t ht).1, fun id o h1 h2 => hw.2 _ ((h t ht).2 id o h1 h2)⟩

theorem see_visibleTiles (s : Sight) (owner : String) (t : Tile) :
    (s.see owner t).battle.visibleTiles owner =
      List.insert t.position (s.battle.visibleTiles owner) := by
  show Function.update s.battle.visibleTiles owner _ owner = _
  rw [Function.update_same]

theorem see_within (s : Sight) (owner : String) (t : Tile) :
    Sight.Within owner s (s.see owner t) := by
  constructor
  · intro p hp
    rw [see_visibleTiles, List.mem_insert_iff]
    exact Or.inr hp
  · intro x hx
    unfold Sight.see
    dsimp only
    split
    · split
      · rw [List.mem_insert_iff]
        exact Or.inr hx
      · exact hx
    · exact hx

theorem see_marks (s : Sight) (owner : String) (t : Tile) :
    Sight.Marked owner [t] (s.see owner t) := by
  intro t' ht'
  rw [List.mem_singleton] at ht'
  subst ht'
  constructor
  · rw [see_visibleTiles, List.mem_insert_iff]
    exact Or.inl rfl
  · intro id o h1 h2
    unfold Sight.see
    dsimp only
    rw [h1]
    dsimp only
    rw [if_pos h2, List.mem_insert_iff]
    exact Or.inl rfl

theorem walkRay_within (m : VisionMap) (LOS_RANGE : Int) (owner : String) (position : Vec3f) :
    ∀ (tiles : List Tile) (a : RayBlockage) (s : Sight),
      Sight.Within owner s (walkRay m LOS_RANGE owner position tiles a s) := by
  intro tiles
  induction tiles with
  | nil => intro a s; exact Sight.Within.refl owner s
  | cons t rest ih =>
    intro a s
    unfold walkRay
    split
    · exact ih a s
    · split
      · exact Sight.Within.refl owner s
      · exact (see_within s owner t).trans (ih _ _)

theorem pass_clear (a : RayBlockage) (d : ℚ) (h : a.Clear) : (a.pass d).Clear := by
  obtain ⟨h1, h2, h3⟩ := h
  unfold RayBlockage.pass
  split
  · refine ⟨?_, rfl, rfl⟩
    show (if a.numberTilesWithBlockage > 0 then _ else a.blockageAccumulatedSoFar) = 0
    rw [if_neg (by rw [h3]; decide), h1]
  · exact ⟨h1, h2, h3⟩

theorem add_clear (a : RayBlockage) (blockage : Int) (h : a.Clear) (hb : blockage = 0) :
    (a.add blockage).Clear := by
  unfold RayBlockage.add
  rw [if_neg (by rw [hb]; decide)]
  exact h

theorem walkRay_marks (m : VisionMap) (LOS_RANGE : Int) (owner : String) (position : Vec3f) :
    ∀ (tiles : List Tile) (a : RayBlockage) (s : Sight), a.Clear →
      (∀ t, t ∈ tiles → t.visionBlockage = 0) →
      Sight.Marked owner (visiblePrefix m LOS_RANGE position tiles)
        (walkRay m LOS_RANGE owner position tiles a s) := by
  intro tiles
  induction tiles with
  | nil =>
    intro a s _ _ t ht
    simp [visiblePrefix] at ht
  | cons t rest ih =>
    intro a s ha hb
    have hrest : ∀ t', t' ∈ rest → t'.visionBlockage = 0 :=
      fun t' ht' => hb t' (List.mem_cons_of_mem _ ht')
    unfold walkRay visiblePrefix
    by_cases h1 : t.position = position.toTile
    · rw [if_pos h1, if_pos h1]
      exact ih a s ha hrest
    · rw [if_neg h1, if_neg h1]
      have hp := pass_clear a (m.tileDistance position t.position) ha
      rw [hp.1, add_zero]
      by_cases h2 : truncToInt (m.tileDistance position t.position) > LOS_RANGE
      · rw [if_pos h2, if_pos h2]
        intro t' ht'
        simp at ht'
      · rw [if_neg h2, if_neg h2]
        have hc := add_clear _ t.visionBlockage hp (hb t (List.mem_cons_self _ _))
        intro t' ht'
        rcases List.mem_cons.mp ht' with h3 | h3
        · subst h3
          exact (see_marks s owner t').mono (walkRay_within m LOS_RANGE owner position rest _ _)
            t' (List.mem_singleton.mpr rfl)
        · exact ih _ _ hc hrest t' h3

theorem foldl_within {α : Type} (owner : String) (f : Sight → α → Sight)
    (hf : ∀ s a, Sight.Within owner s (f s a)) :
    ∀ (l : List α) (s : Sight), Sight.Within owner s (l.foldl f s) := by
  intro l
  induction l with
  | nil => intro s; exact Sight.Within.refl owner s
  | cons a l ih => intro s; exact (hf s a).trans (ih _)

theorem foldl_marked {α : Type} (owner : String) (tiles : List Tile) (f : Sight → α → Sight)
    (hf : ∀ s a, Sight.Within owner s (f s a)) (a : α)
    (ha : ∀ s, Sight.Marked owner tiles (f s a)) :
    ∀ (l : List α) (s : Sight), a ∈ l → Sight.Marked owner tiles (l.foldl f s) := by
  intro l
  induction l with
  | nil => intro s h; simp at h
  | cons b l ih =>
    intro s h
    rcases List.mem_cons.mp h with h1 | h1
    · subst h1
      exact (ha s).mono (foldl_within owner f hf l _)
    · exact ih _ h1

theorem foldl_marked_inv {α : Type} (owner : String) (tiles : List Tile) (I : Sight → Prop)
    (f : Sight → α → Sight) (hI : ∀ s a, I s → I (f s a))
    (hf : ∀ s a, Sight.Within owner s (f s a)) (a : α)
    (ha : ∀ s, I s → Sight.Marked owner tiles (f s a)) :
    ∀ (l : List α) (s : Sight), I s → a ∈ l → Sight.Marked owner tiles (l.foldl f s) := by
  intro l
  induction l with
  | nil => intro s _ h; simp at h
  | cons b l ih =>
    intro s hs h
    rcases List.mem_cons.mp h with h1 | h1
    · subst h1
      exact (ha s hs).mono (foldl_within owner f hf l _)
    · exact ih _ (hI s b hs) h1

theorem castRay_within (m : VisionMap) (LOS_RANGE : Int) (owner : String)
    (position eyesPos : Vec3f) (s : Sight) (o : Int × Int) (z : Nat) :
    Sight.Within owner s (castRay m LOS_RANGE owner position eyesPos s o z) :=
  walkRay_within m LOS_RANGE owner position _ _ s

theorem castColumn_within (m : VisionMap) (LOS_RANGE : Int) (owner : String)
    (position eyesPos : Vec3f) (s : Sight) (o : Int × Int) :
    Sight.Within owner s (castColumn m LOS_RANGE owner position eyesPos s o) :=
  foldl_within owner _ (fun acc z => castRay_within m LOS_RANGE owner position eyesPos acc o z)
    _ s

theorem castColumn_marks (m : VisionMap) (LOS_RANGE : Int) (owner : String)
    (position eyesPos : Vec3f) (s : Sight) (o : Int × Int) (z : Nat)
    (hz : z < s.battle.size_z)
    (hb : ∀ t, t ∈ rayTiles m position eyesPos (rayEnd position o).1 (rayEnd position o).2
      (z : Int) → t.visionBlockage = 0) :
    Sight.Marked owner
      (visiblePrefix m LOS_RANGE position
        (rayTiles m position eyesPos (rayEnd position o).1 (rayEnd position o).2 (z : Int)))
      (castColumn m LOS_RANGE owner position eyesPos s o) := by
  unfold castColumn
  refine foldl_marked_inv owner _ (fun _ => True) _ (fun _ _ _ => trivial)
    (fun acc z' => castRay_within m LOS_RANGE owner position eyesPos acc o z') z ?_ _ s
    trivial (List.mem_range.mpr hz)
  intro acc _
  exact walkRay_marks m LOS_RANGE owner position _ {} acc ⟨rfl, rfl, rfl⟩ hb

theorem castRays_marks (m : VisionMap) (LOS_RANGE : Int) (owner : String)
    (position eyesPos : Vec3f) (facing : Vec2) (s : Sight) (o : Int × Int) (z : Nat)
    (ho : o ∈ rayOffsets facing) (hz : z < s.battle.size_z)
    (hb : ∀ t, t ∈ rayTiles m position eyesPos (rayEnd position o).1 (rayEnd position o).2
      (z : Int) → t.visionBlockage = 0) :
    Sight.Marked owner
      (visiblePrefix m LOS_RANGE position
        (rayTiles m position eyesPos (rayEnd position o).1 (rayEnd position o).2 (z : Int)))
      (castRays m LOS_RANGE owner position eyesPos facing s) := by
  unfold castRays
  refine foldl_marked_inv owner _ (fun acc => acc.battle.size_z = s.battle.size_z) _ ?_
    (fun acc o' => castColumn_within m LOS_RANGE owner position eyesPos acc o') o ?_ _ s
    rfl ho
  · intro acc o' hacc
    exact (castColumn_frame m LOS_RANGE owner position eyesPos acc o').2.2.trans hacc
  · intro acc hacc
    exact castColumn_marks m LOS_RANGE owner position eyesPos acc o z (by rw [hacc]; exact hz) hb

theorem rayTiles_subset (m : VisionMap) (position eyesPos : Vec3f) (x y z : Int) (t : Tile)
    (h : t ∈ rayTiles m position eyesPos x y z) :
    t ∈ (m.findCollision eyesPos
      { x := (x : ℚ) + 1 / 2, y := (y : ℚ) + 1 / 2, z := (z : ℚ) + 1 / 2 }).tilesPassed := by
  unfold rayTiles at h
  split at h
  · split at h
    · exact List.dropLast_subset _ h
    · exact h
  · exact h

theorem walkRay_rivals (m : VisionMap) (LOS_RANGE : Int) (owner : String)
    (position eyesPos : Vec3f) (target : Vec3f) :
    ∀ (tiles : List Tile) (a : RayBlockage) (s : Sight),
      (∀ t, t ∈ tiles → t ∈ (m.findCollision eyesPos target).tilesPassed) →
      Sight.Rivals m owner eyesPos s →
      Sight.Rivals m owner eyesPos (walkRay m LOS_RANGE owner position tiles a s) := by
  intro tiles
  induction tiles with
  | nil => intro a s _ hs; exact hs
  | cons t rest ih =>
    intro a s ht hs
    have hrest : ∀ t', t' ∈ rest → t' ∈ (m.findCollision eyesPos target).tilesPassed :=
      fun t' ht' => ht t' (List.mem_cons_of_mem _ ht')
    unfold walkRay
    split
    · exact ih a s hrest hs
    · split
      · exact hs
      · apply ih _ _ hrest
        intro x hx
        unfold Sight.see at hx
        dsimp only at hx
        split at hx
        · rename_i id unitOwner hu
          split at hx
          · rename_i hne
            rcases List.mem_insert_iff.mp hx with h1 | h1
            · subst h1
              exact ⟨target, t, unitOwner, ht t (List.mem_cons_self _ _), hu, hne⟩
            · exact hs x h1
          · exact hs x hx
        · exact hs x hx

theorem castRays_rivals (m : VisionMap) (LOS_RANGE : Int) (owner : String)
    (position eyesPos : Vec3f) (facing : Vec2) (s : Sight)
    (hs : Sight.Rivals m owner eyesPos s) :
    Sight.Rivals m owner eyesPos (castRays m LOS_RANGE owner position eyesPos facing s) := by
  unfold castRays
  refine foldl_invariant (Sight.Rivals m owner eyesPos) _ ?_ _ s hs
  intro acc o hacc
  unfold castColumn
  refine foldl_invariant (Sight.Rivals m owner eyesPos) _ ?_ _ acc hacc
  intro acc' z hacc'
  exact walkRay_rivals m LOS_RANGE owner position eyesPos _ _ _ _
    (fun t ht => rayTiles_subset m position eyesPos _ _ _ t ht) hacc'

/-- C27: for a conscious unit and a ray whose tiles all have zero vision
blockage, `updateUnitVision` sets visible for the unit's owner every tile of
the ray, the unit's own tile apart, up to the first tile whose truncated
distance from the unit exceeds `LOS_RANGE`, and every unit of another owner
that such a tile reports is in `visibleUnits` afterwards. Every unit in
`visibleUnits` afterwards was reported with another owner: units of the same
owner are never added. -/
theorem updateUnitVision_sees (cb : Services Battle) (gt : GameTime) (LOS_RANGE : Int)
    (m : VisionMap) (u : BattleUnit Battle) (o : Int × Int) (z : Nat)
    (hc : isConscious gt u = true) (ho : o ∈ rayOffsets u.facing) (hz : z < u.state.size_z)
    (hb : ∀ t, t ∈ rayTiles m u.position (cb.getMuzzleLocation u)
      (rayEnd u.position o).1 (rayEnd u.position o).2 (z : Int) → t.visionBlockage = 0) :
    (∀ t, t ∈ visiblePrefix m LOS_RANGE u.position
        (rayTiles m u.position (cb.getMuzzleLocation u)
          (rayEnd u.position o).1 (rayEnd u.position o).2 (z : Int)) →
      t.position ∈ (updateUnitVisionOn cb gt LOS_RANGE m u).state.visibleTiles u.owner ∧
      ∀ id unitOwner, t.unitPresent = some (id, unitOwner) → unitOwner ≠ u.owner →
        id ∈ (updateUnitVisionOn cb gt LOS_RANGE m u).visibleUnits) ∧
    (∀ x, x ∈ (updateUnitVisionOn cb gt LOS_RANGE m u).visibleUnits →
      ∃ target t unitOwner,
        t ∈ (m.findCollision (cb.getMuzzleLocation u) target).tilesPassed ∧
        t.unitPresent = some (x, unitOwner) ∧ unitOwner ≠ u.owner) := by
  have hg : gatherSight cb gt LOS_RANGE m u =
      castRays m LOS_RANGE u.owner u.position (cb.getMuzzleLocation u) u.facing
        { battle := seeLosBlock m u.state u.owner u.position, visibleUnits := [] } := by
    unfold gatherSight
    rw [if_pos hc]
  constructor
  · have hM := castRays_marks m LOS_RANGE u.owner u.position (cb.getMuzzleLocation u) u.facing
      { battle := seeLosBlock m u.state u.owner u.position, visibleUnits := [] } o z ho
      (by rw [(seeLosBlock_frame m u.state u.owner u.position).2.2]; exact hz) hb
    rw [← hg] at hM
    exact hM
  · have hR := castRays_rivals m LOS_RANGE u.owner u.position (cb.getMuzzleLocation u) u.facing
      { battle := seeLosBlock m u.state u.owner u.position, visibleUnits := [] }
      (fun x hx => by simp at hx)
    rw [← hg] at hR
    exact hR


/-! ## Vision on a flat map -/

theorem truncToInt_intCast (n : Int) : truncToInt (n : ℚ) = n := by
  unfold truncToInt
  split
  · exact Int.floor_intCast n
  · exact Int.ceil_intCast n

theorem visiblePrefix_eq_self (m : VisionMap) (LOS_RANGE : Int) (position : Vec3f) :
    ∀ tiles : List Tile,
      (∀ t, t ∈ tiles → t.position ≠ position.toTile ∧
        truncToInt (m.tileDistance position t.position) ≤ LOS_RANGE) →
      visiblePrefix m LOS_RANGE position tiles = tiles := by
  intro tiles
  induction tiles with
  | nil => intro _; rfl
  | cons t rest ih =>
    intro h
    unfold visiblePrefix
    rw [if_neg (h t (List.mem_cons_self _ _)).1,
      if_neg (not_lt.mpr (h t (List.mem_cons_self _ _)).2),
      ih (fun t' ht' => h t' (List.mem_cons_of_mem _ ht'))]

theorem demoWatcher_tile (health : Int) :
    (demoWatcher health).position.toTile = { x := 0, y := 0, z := 0 } := by
  have h1 : truncToInt (1 / 2 : ℚ) = 0 := by
    unfold truncToInt
    rw [if_pos (by norm_num)]
    rw [Int.floor_eq_iff]
    constructor <;> norm_num
  have h2 : truncToInt (0 : ℚ) = 0 := truncToInt_intCast 0
  show ({ x := truncToInt (1 / 2 : ℚ), y := truncToInt (1 / 2 : ℚ), z := truncToInt (0 : ℚ) }
    : Vec3) = _
  rw [h1, h2]

theorem demoWatcher_rayEnd (health : Int) :
    rayEnd (demoWatcher health).position (20, 0) = (20, 0) := by
  have h1 : truncToInt ((1 / 2 : ℚ) + ((20 : Int) : ℚ)) = 20 := by
    unfold truncToInt
    rw [if_pos (by norm_num)]
    rw [Int.floor_eq_iff]
    constructor <;> norm_num
  have h2 : truncToInt ((1 / 2 : ℚ) + ((0 : Int) : ℚ)) = 0 := by
    unfold truncToInt
    rw [if_pos (by norm_num)]
    rw [Int.floor_eq_iff]
    constructor <;> norm_num
  show (truncToInt ((1 / 2 : ℚ) + ((20 : Int) : ℚ)),
    truncToInt ((1 / 2 : ℚ) + ((0 : Int) : ℚ))) = _
  rw [h1, h2]

theorem demoWatcher_rayTiles (health : Int) :
    rayTiles demoVisionMap (demoWatcher health).position
      (demoVisionServices.getMuzzleLocation (demoWatcher health))
      (rayEnd (demoWatcher health).position (20, 0)).1
      (rayEnd (demoWatcher health).position (20, 0)).2 ((0 : Nat) : Int) = demoCorridor := by
  rw [demoWatcher_rayEnd]
  have hc : demoVisionMap.findCollision
      (demoVisionServices.getMuzzleLocation (demoWatcher health))
      { x := (((20 : Int), (0 : Int)).1 : ℚ) + 1 / 2, y := (((20 : Int), (0 : Int)).2 : ℚ) + 1 / 2
        z := (((0 : Nat) : Int) : ℚ) + 1 / 2 } = { tilesPassed := demoCorridor } := by
    show (if _ then _ else _) = _
    rw [if_pos]
    refine ⟨?_, ?_, ?_⟩ <;> norm_num
  unfold rayTiles
  rw [hc]

theorem demoCorridor_clear (t : Tile) (ht : t ∈ demoCorridor) : t.visionBlockage = 0 := by
  unfold demoCorridor at ht
  obtain ⟨k, _, hk⟩ := List.mem_map.mp ht
  rw [← hk]

theorem demoCorridor_prefix (health : Int) :
    visiblePrefix demoVisionMap 20 (demoWatcher health).position demoCorridor =
      demoCorridor := by
  apply visiblePrefix_eq_self
  intro t ht
  unfold demoCorridor at ht
  obtain ⟨k, hk1, hk⟩ := List.mem_map.mp ht
  have hk2 := List.mem_range.mp hk1
  rw [← hk, demoWatcher_tile]
  constructor
  · intro h
    have hx := congrArg Vec3.x h
    simp only at hx
    omega
  · show truncToInt ((((k : Int) + 1 : Int)) : ℚ) ≤ 20
    rw [truncToInt_intCast]
    omega

theorem updateUnitVision_sees_witness :
    ({ x := 15, y := 0, z := 0 } : Vec3) ∈
      (updateUnitVisionOn demoVisionServices demoGameTime 20 demoVisionMap
        (demoWatcher 50)).state.visibleTiles "xcom" ∧
    "raider" ∈
      (updateUnitVisionOn demoVisionServices demoGameTime 20 demoVisionMap
        (demoWatcher 50)).visibleUnits :=
  have h := (updateUnitVision_sees demoVisionServices demoGameTime 20 demoVisionMap
    (demoWatcher 50) (20, 0) 0 (by decide) (by decide) (by decide)
    (fun t ht => demoCorridor_clear t (by rw [demoWatcher_rayTiles] at ht; exact ht))).1
    { position := { x := 15, y := 0, z := 0 }, unitPresent := some ("raider", "aliens") }
    (by rw [demoWatcher_rayTiles, demoCorridor_prefix]; decide)
  ⟨h.1, h.2 "raider" "aliens" rfl (by decide)⟩

theorem demoBattle_consistent (health : Int) :
    IndexConsistent (demoWatcher health).state (demoWatcher health).owner
      (demoWatcher health).visibleUnits := by
  intro x
  show x ∈ ["sniper", "raider"] ↔
    (x ∈ ["raider"] ∨ ∃ w ∈ [({ id := "scout", owner := "xcom", visibleUnits := ["sniper"] } :
      BattleUnitView)], w.owner = "xcom" ∧ x ∈ w.visibleUnits)
  simp only [List.mem_cons, List.mem_singleton, List.not_mem_nil, or_false, exists_eq_left,
    true_and]
  tauto

theorem updateUnitVision_index_witness :
    IndexConsistent
      (updateUnitVisionOn demoVisionServices demoGameTime 20 demoVisionMap
        (demoWatcher 0)).state "xcom"
      (updateUnitVisionOn demoVisionServices demoGameTime 20 demoVisionMap
        (demoWatcher 0)).visibleUnits ∧
    ("raider" ∈ (updateUnitVisionOn demoVisionServices demoGameTime 20 demoVisionMap
        (demoWatcher 0)).state.visibleUnits "xcom" ↔
      ∃ w ∈ demoBattle.units, w.owner = "xcom" ∧ "raider" ∈ w.visibleUnits) :=
  ⟨(updateUnitVision_index demoVisionServices demoGameTime 20 demoVisionMap (demoWatcher 0)
      (demoBattle_consistent 0)).1,
   (updateUnitVision_index demoVisionServices demoGameTime 20 demoVisionMap (demoWatcher 0)
      (demoBattle_consistent 0)).2.2.1 "raider" (by decide) (by decide)⟩


/-! ## The frontal arc test of the firing stage -/

theorem withinArc_some (cb : Services G) (u : BattleUnit G)
    (firingWeapon : Option AEquipmentSlotType) (targetPosition muzzleLocation : Vec3f)
    (slot : AEquipmentSlotType)
    (h : withinArc cb u firingWeapon targetPosition muzzleLocation = some slot) :
    cb.outsideFrontalArc
      { x := targetPosition.x - muzzleLocation.x, y := targetPosition.y - muzzleLocation.y
        z := 0 } u.facing = false := by
  unfold withinArc at h
  cases firingWeapon with
  | none => simp at h
  | some w =>
    dsimp only at h
    by_cases ho : cb.outsideFrontalArc
        { x := targetPosition.x - muzzleLocation.x, y := targetPosition.y - muzzleLocation.y
          z := 0 } u.facing = true
    · rw [if_pos ho] at h
      simp at h
    · simpa using ho

theorem fireIfReady_fired (cb : Services G) (gt : GameTime) (ap : BattleUnitAnimationPack)
    (s : FiringLocals G) (targetPosition muzzleLocation : Vec3f)
    (h : (fireIfReady cb gt ap s targetPosition muzzleLocation).2 = true) :
    cb.outsideFrontalArc
      { x := targetPosition.x - muzzleLocation.x, y := targetPosition.y - muzzleLocation.y
        z := 0 } s.unit.facing = false := by
  unfold fireIfReady at h
  by_cases hc : s.unit.firing_animation_ticks_remaining = 0 ∧
      s.unit.target_hand_state = HandState.Aiming
  · rw [if_pos hc] at h
    cases hw : withinArc cb s.unit (pickFiringWeapon cb s).firingWeapon
        targetPosition muzzleLocation with
    | none =>
      rw [hw] at h
      simp at h
    | some slot => exact withinArc_some cb s.unit _ _ _ slot hw
  · rw [if_neg hc] at h
    simp at h
/-! ## Starting an attack while already attacking, turn based -/

theorem startAttacking_turnBased_attacking (cb : Services G) (u : BattleUnit G)
    (status : WeaponStatus) (htb : TurnBasedBattle cb) (h : isAttacking u = true) :
    startAttacking cb u status = u := by
  unfold startAttacking
  rw [htb u.state]
  simp [h]

/-- C37: in a turn-based battle, for a unit that is already attacking, the
status-only overload of `startAttacking` changes nothing, but the two target
overloads, which write the target after the status-only call has returned, do
override the target: the unit overload sets `targetUnit` and `targetingMode`,
the tile overload sets `targetTile` and `targetingMode`. All three keep
`weaponStatus` and `ticksTillNextTargetCheck`. -/
theorem startAttacking_turnBased_overrides_target (cb : Services G) (u : BattleUnit G)
    (status : WeaponStatus) (unit : String) (tile : Vec3) (atGround : Bool)
    (htb : TurnBasedBattle cb) (h : isAttacking u = true) :
    startAttacking cb u status = u ∧
    startAttackingUnit cb u unit status =
      { u with targetUnit := some unit, targetingMode := TargetingMode.Unit } ∧
    startAttackingTile cb u tile status atGround =
      { u with targetTile := tile
               targetingMode :=
                 if atGround then TargetingMode.TileGround else TargetingMode.TileCenter } ∧
    (startAttackingUnit cb u unit status).weaponStatus = u.weaponStatus ∧
    (startAttackingUnit cb u unit status).ticksTillNextTargetCheck =
      u.ticksTillNextTargetCheck ∧
    (startAttackingTile cb u tile status atGround).weaponStatus = u.weaponStatus ∧
    (startAttackingTile cb u tile status atGround).ticksTillNextTargetCheck =
      u.ticksTillNextTargetCheck := by
  have h0 := startAttacking_turnBased_attacking cb u status htb h
  refine ⟨h0, ?_, ?_, ?_, ?_, ?_, ?_⟩ <;>
    first
    | (unfold startAttackingUnit; rw [h0])
    | (unfold startAttackingTile; rw [h0])

theorem startAttacking_turnBased_overrides_target_witness :
    (startAttackingUnit demoServices (demoAttacking []) "other"
        WeaponStatus.FiringRightHand).targetUnit = some "other" ∧
    (demoAttacking []).targetUnit = some "rival" ∧
    (startAttackingTile demoServices (demoAttacking []) { x := 3, y := 4, z := 0 }
        WeaponStatus.FiringRightHand false).targetingMode = TargetingMode.TileCenter ∧
    (demoAttacking []).targetingMode = TargetingMode.Unit := by
  have h := startAttacking_turnBased_overrides_target demoServices (demoAttacking [])
    WeaponStatus.FiringRightHand "other" { x := 3, y := 4, z := 0 } false
    (fun _ => rfl) (by decide)
  refine ⟨?_, rfl, ?_, rfl⟩
  · rw [h.2.1]
  · rw [h.2.2.1]
    rfl

/-! ## The advance of a partial move -/

theorem liftCheck_goalPosition (cb : Services G) (u : BattleUnit G) (wasUsingLift : Bool) :
    (liftCheck cb u wasUsingLift).goalPosition = u.goalPosition := by
  unfold liftCheck
  split <;> rfl

theorem shouldPlaySoundNow_frame (cb : Services G) (mc : MoveConsts) (u : BattleUnit G) :
    (shouldPlaySoundNow cb mc u).2.goalPosition = u.goalPosition ∧
    (shouldPlaySoundNow cb mc u).2.position = u.position ∧
    (shouldPlaySoundNow cb mc u).2.atGoal = u.atGoal := by
  unfold shouldPlaySoundNow
  split <;> exact ⟨rfl, rfl, rfl⟩

theorem footsteps_frame (cb : Services G) (mc : MoveConsts) (u : BattleUnit G) (acc : Nat) :
    (footsteps cb mc u acc).goalPosition = u.goalPosition ∧
    (footsteps cb mc u acc).position = u.position ∧
    (footsteps cb mc u acc).atGoal = u.atGoal := by
  have h := shouldPlaySoundNow_frame cb mc (passTicks u acc)
  unfold footsteps
  split
  · exact h
  · exact h

theorem partialAdvance_zero (M r s : Nat) (hs : s < 100) : partialAdvance M r s = 0 := by
  unfold partialAdvance
  rw [Nat.div_eq_of_lt hs, Nat.mul_zero]

theorem partialAdvance_full (M r : Nat) : partialAdvance M r 100 = M / r := by
  unfold partialAdvance
  simp

/-- C33: the branch of the movement step taken when the budget `M` cannot
cover the distance. It leaves `M mod r` of the budget, `atGoal` false and
`goalPosition` unchanged, and moves the unit along the direction to the goal
by the product of the integer quotients `M / r` and `s / 100`, where
`1 ≤ s ≤ 100`. The second quotient is taken before the conversion to float,
so the advance is `M / r` (positive when `M ≥ r`) only for `s = 100`; for
every `s < 100`, that is for a flying unit below full speed, the advance is 0
whatever the budget. -/
theorem partial_move_advance (cb : Services G) (mc : MoveConsts) (u : BattleUnit G)
    (wasUsingLift : Bool) (M : Nat) (hu : FlyingSpeedOK u.toUnitVars)
    (hp : ∀ w, (cb.triggerProximity w).position = w.position ∧
      (cb.triggerProximity w).goalPosition = w.goalPosition)
    (hc : cannotReach (cb.distanceToGoal u) (moveTicksConsumeRateOf u) (speedModifierOf u) M =
      true) :
    (processMoving cb mc u wasUsingLift M).ticksRemaining = M % moveTicksConsumeRateOf u ∧
    (processMoving cb mc u wasUsingLift M).unit.atGoal = false ∧
    (processMoving cb mc u wasUsingLift M).unit.goalPosition = u.goalPosition ∧
    (processMoving cb mc u wasUsingLift M).unit.position =
      cb.advanceToGoal (liftCheck cb u wasUsingLift) (M / moveTicksConsumeRateOf u)
        (speedModifierOf u / 100) ∧
    1 ≤ speedModifierOf u ∧ speedModifierOf u ≤ 100 ∧
    (speedModifierOf u < 100 →
      speedModifierOf u / 100 = 0 ∧
      partialAdvance M (moveTicksConsumeRateOf u) (speedModifierOf u) = 0) ∧
    (speedModifierOf u = 100 →
      partialAdvance M (moveTicksConsumeRateOf u) (speedModifierOf u) =
        M / moveTicksConsumeRateOf u ∧
      (moveTicksConsumeRateOf u ≤ M →
        0 < partialAdvance M (moveTicksConsumeRateOf u) (speedModifierOf u))) := by
  have hpm : processMoving cb mc u wasUsingLift M =
      { returned := false
        unit :=
          footsteps cb mc
            (moveTowardsGoal cb mc (liftCheck cb u wasUsingLift) M
              (moveTicksConsumeRateOf u) (speedModifierOf u))
            (M / moveTicksConsumeRateOf u)
        ticksRemaining := M % moveTicksConsumeRateOf u } := by
    unfold processMoving
    rw [if_pos hc]
  have hf := footsteps_frame cb mc
    (moveTowardsGoal cb mc (liftCheck cb u wasUsingLift) M
      (moveTicksConsumeRateOf u) (speedModifierOf u))
    (M / moveTicksConsumeRateOf u)
  have hr1 : 0 < moveTicksConsumeRateOf u := by
    rcases moveTicksConsumeRateOf_cases u with h1 | h1 <;> omega
  rw [hpm]
  refine ⟨rfl, ?_, ?_, ?_, speedModifierOf_pos u, speedModifierOf_le u hu, ?_, ?_⟩
  · exact hf.2.2.trans rfl
  · refine hf.1.trans ?_
    show (cb.triggerProximity _).goalPosition = _
    rw [(hp _).2, setPosition_goalPosition, accelerate_goalPosition, liftCheck_goalPosition]
  · refine hf.2.1.trans ?_
    show (cb.triggerProximity _).position = _
    rw [(hp _).1, setPosition_position]
  · intro hs
    exact ⟨Nat.div_eq_of_lt hs, partialAdvance_zero _ _ _ hs⟩
  · intro hs
    rw [hs, partialAdvance_full]
    exact ⟨rfl, fun hle => Nat.div_pos hle hr1⟩

theorem partial_move_advance_witness :
    moveTicksConsumeRateOf demoFlyer ≤ 10 ∧
    partialAdvance 10 (moveTicksConsumeRateOf demoFlyer) (speedModifierOf demoFlyer) = 0 ∧
    (processMoving demoMoveServices demoMoveConsts demoFlyer false 10).ticksRemaining = 0 :=
  ⟨by decide,
   ((partial_move_advance demoMoveServices demoMoveConsts demoFlyer false 10
      (by unfold FlyingSpeedOK; decide)
      (fun _ => ⟨rfl, rfl⟩) (by decide)).2.2.2.2.2.2.1 (by decide)).2,
   (partial_move_advance demoMoveServices demoMoveConsts demoFlyer false 10
      (by unfold FlyingSpeedOK; decide)
      (fun _ => ⟨rfl, rfl⟩) (by decide)).1⟩

/-! ## The falling check and the end of a fall -/

theorem startFalling_isConscious (gt : GameTime) (ap : BattleUnitAnimationPack)
    (u : BattleUnit G) : isConscious gt (startFalling gt ap u) = isConscious gt u := rfl

theorem startFalling_canFly (cb : Services G) (gt : GameTime) (ap : BattleUnitAnimationPack)
    (u : BattleUnit G)
    (hty : ∀ w, cb.isBodyStateAllowed w BodyState.Flying =
      cb.isBodyStateAllowed u BodyState.Flying) :
    canFly cb gt (startFalling gt ap u) = canFly cb gt u := by
  unfold canFly
  rw [hty (startFalling gt ap u), startFalling_isConscious]

theorem supportCheck_none (cb : Services G) (u : BattleUnit G)
    (h : cb.canStandHere u = false ∧ (u.atGoal = true ∨ cb.canStandAtGoal u = false)) :
    (supportCheck cb u).1 = false := by
  unfold supportCheck
  rcases h with ⟨h1, h2 | h2⟩
  · rw [if_pos h2]
    exact h1
  · by_cases ha : u.atGoal = true
    · rw [if_pos ha]
      exact h1
    · rw [if_neg ha, h2]
      simpa using h1

theorem supportCheck_some (cb : Services G) (u : BattleUnit G)
    (h : cb.canStandHere u = true ∨ (u.atGoal = false ∧ cb.canStandAtGoal u = true)) :
    (supportCheck cb u).1 = true := by
  unfold supportCheck
  by_cases ha : u.atGoal = true
  · rw [if_pos ha]
    rcases h with h | ⟨h1, _⟩
    · exact h
    · rw [h1] at ha
      exact absurd ha (by decide)
  · rw [if_neg ha]
    by_cases hg : cb.canStandAtGoal u = true
    · rw [if_pos hg]
    · rw [if_neg hg]
      rcases h with h | ⟨_, h2⟩
      · exact h
      · exact absurd h2 hg

theorem startFlying_cannotFly (cb : Services G) (gt : GameTime) (u : BattleUnit G)
    (fullySupported : Bool) (h : canFly cb gt u = false) :
    startFlying cb gt u fullySupported = u := by
  unfold startFlying
  rw [h]
  simp

/-- C34, amended: the falling check that opens a pass of the convergence loop,
on a unit that is not falling and cannot fly (the agent type decides whether
flying is allowed). If the current tile gives no standing support and the
unit is at its goal or the goal tile gives none either, the check is
`startFalling`: right after it `falling` is true and the movement state is
None. If the current tile or, when not at goal, the goal tile gives support,
the check leaves the unit as it is, so no fall is started. The rest of the
pass then processes the fall and may end it. -/
theorem fallingCheck_starts_fall (cb : Services G) (gt : GameTime)
    (ap : BattleUnitAnimationPack) (u : BattleUnit G) (hf : u.falling = false)
    (hcf : canFly cb gt u = false)
    (hty : ∀ w, cb.isBodyStateAllowed w BodyState.Flying =
      cb.isBodyStateAllowed u BodyState.Flying) :
    (cb.canStandHere u = false ∧ (u.atGoal = true ∨ cb.canStandAtGoal u = false) →
      beginFallingOrFlying cb gt ap u = startFalling gt ap u ∧
      (beginFallingOrFlying cb gt ap u).falling = true ∧
      (beginFallingOrFlying cb gt ap u).current_movement_state = MovementState.None) ∧
    (cb.canStandHere u = true ∨ (u.atGoal = false ∧ cb.canStandAtGoal u = true) →
      beginFallingOrFlying cb gt ap u = u ∧
      (beginFallingOrFlying cb gt ap u).falling = false) := by
  constructor
  · intro h
    have h1 : beginFallingOrFlying cb gt ap u = startFalling gt ap u := by
      unfold beginFallingOrFlying
      rw [hf, hcf, supportCheck_none cb u h]
      simp only [Bool.not_false, Bool.true_or, Bool.and_self, if_true]
      exact startFlying_cannotFly cb gt _ _ ((startFalling_canFly cb gt ap u hty).trans hcf)
    rw [h1]
    exact ⟨rfl, rfl, rfl⟩
  · intro h
    have h1 : beginFallingOrFlying cb gt ap u = u := by
      unfold beginFallingOrFlying
      rw [hf, hcf, supportCheck_some cb u h]
      simp only [Bool.not_false, Bool.true_or, Bool.not_true, Bool.false_and, if_true,
        Bool.false_eq_true, if_false]
      exact startFlying_cannotFly cb gt _ _ hcf
    rw [h1]
    exact ⟨rfl, hf⟩

theorem fallingCheck_starts_fall_witness :
    (beginFallingOrFlying demoFallServices demoGameTime demoAnimationPack demoLedgeUnit).falling =
      true ∧
    (beginFallingOrFlying demoFallServices demoGameTime demoAnimationPack
      demoLedgeUnit).current_movement_state = MovementState.None :=
  ((fallingCheck_starts_fall demoFallServices demoGameTime demoAnimationPack demoLedgeUnit
    rfl rfl (fun _ => rfl)).1 ⟨by decide, Or.inl rfl⟩).2

theorem setPosition_demoFall (u : BattleUnit Nat) (pos : Vec3f) :
    setPosition demoFallServices u pos = { u with position := pos } := by
  unfold setPosition
  dsimp only
  split
  · rfl
  · split <;> rfl

theorem demoLedge_afterHands :
    (updateHandStep demoGameTime demoAnimationPack
      (updateBodyStep demoFallServices demoGameTime demoAnimationPack
        (beginFallingOrFlying demoFallServices demoGameTime demoAnimationPack demoLedgeUnit)
        1).unit 1) = (startFalling demoGameTime demoAnimationPack demoLedgeUnit, 1) := by
  rfl

theorem demoLedge_body :
      (updateBodyStep demoFallServices demoGameTime demoAnimationPack
        (beginFallingOrFlying demoFallServices demoGameTime demoAnimationPack demoLedgeUnit)
        1).returned = false := by
  rfl

theorem demoLedge_fall :
    processFalling demoFallServices demoGameTime demoMoveConsts
      (startFalling demoGameTime demoAnimationPack demoLedgeUnit) 2 =
    { demoLedgeUnit with position := { x := 0, y := 0, z := 999 / 1000 }
                         goalPosition := { x := 0, y := 0, z := 999 / 1000 } } := by
  unfold processFalling
  have h : (2 : Nat) / u32 (demoFallServices.getActualSpeedValue
      (startFalling demoGameTime demoAnimationPack demoLedgeUnit) * 2) = 1 := by decide
  rw [h]
  have hl : fallLoop demoMoveConsts 1
      ((startFalling demoGameTime demoAnimationPack demoLedgeUnit).fallingSpeed,
       (startFalling demoGameTime demoAnimationPack demoLedgeUnit).position) =
      (1, { x := 0, y := 0, z := 575 / 576 }) := by
    show ((0 : ℚ) + 1, ({ x := 0, y := 0, z := (1 : ℚ) - (0 + 1) / 36 / 16 } : Vec3f)) = _
    norm_num
  rw [hl]
  have hland : landAt demoFallServices
      (fellIntoUnit demoFallServices demoGameTime
        { startFalling demoGameTime demoAnimationPack demoLedgeUnit with fallingSpeed := 1 }
        { x := 0, y := 0, z := 575 / 576 })
      { x := 0, y := 0, z := 575 / 576 } =
      { startFalling demoGameTime demoAnimationPack demoLedgeUnit with
        fallingSpeed := 1
        position := { x := 0, y := 0, z := 575 / 576 }
        goalPosition := { x := 0, y := 0, z := 575 / 576 }
        atGoal := true } := by
    unfold landAt
    rw [setPosition_demoFall]
    rfl
  dsimp only
  rw [hland]
  have hrest : demoFallServices.getRestingPosition
      { startFalling demoGameTime demoAnimationPack demoLedgeUnit with
        fallingSpeed := 1
        position := { x := 0, y := 0, z := 575 / 576 }
        goalPosition := { x := 0, y := 0, z := 575 / 576 }
        atGoal := true } = { x := 0, y := 0, z := 999 / 1000 } := by
    show ({ x := 0, y := 0, z := if (575 / 576 : ℚ) < 1 then 999 / 1000 else 1 } : Vec3f) = _
    norm_num
  unfold reachGround
  rw [hrest]
  have hz : (575 / 576 : ℚ) < 999 / 1000 := by norm_num
  rw [if_pos hz]
  simp only [setPosition_demoFall]
  rfl

theorem demoLedge_pass :
    convergencePass demoFallServices demoGameTime demoAnimationPack demoMoveConsts false
      demoLedgeUnit (initialBudgets demoFallServices demoGameTime demoLedgeUnit 1) =
    { returned := false
      unit :=
        { demoLedgeUnit with position := { x := 0, y := 0, z := 999 / 1000 }
                             goalPosition := { x := 0, y := 0, z := 999 / 1000 } }
      budgets := { move := 0, body := 1, hand := 1, turn := 1 } } := by
  have e1 : convergencePass demoFallServices demoGameTime demoAnimationPack demoMoveConsts false
      demoLedgeUnit (initialBudgets demoFallServices demoGameTime demoLedgeUnit 1) =
      passTurn demoFallServices demoGameTime demoAnimationPack
        (processFalling demoFallServices demoGameTime demoMoveConsts
          (startFalling demoGameTime demoAnimationPack demoLedgeUnit) 2)
        { move := 0, body := 1, hand := 1, turn := 1 } := rfl
  rw [e1, demoLedge_fall]
  rfl

/-- C34, the claim as stated fails: a unit that is not falling, cannot fly, is
at its goal and stands at height 1 on a tile that gives no support. With one
elapsed tick the falling check of the first pass starts the fall, the
movement step of the same pass drops the unit by 1/576 to 575/576, below the
resting height 999/1000 of the tile underneath, and ends the fall: after the
first pass `falling` is false. -/
theorem fall_ends_within_first_pass :
    demoLedgeUnit.falling = false ∧
    canFly demoFallServices demoGameTime demoLedgeUnit = false ∧
    demoFallServices.canStandHere demoLedgeUnit = false ∧
    demoLedgeUnit.atGoal = true ∧
    (beginFallingOrFlying demoFallServices demoGameTime demoAnimationPack demoLedgeUnit).falling =
      true ∧
    (convergencePass demoFallServices demoGameTime demoAnimationPack demoMoveConsts false
      demoLedgeUnit (initialBudgets demoFallServices demoGameTime demoLedgeUnit 1)).returned =
      false ∧
    (convergencePass demoFallServices demoGameTime demoAnimationPack demoMoveConsts false
      demoLedgeUnit (initialBudgets demoFallServices demoGameTime demoLedgeUnit 1)).unit.falling =
      false := by
  refine ⟨rfl, rfl, by decide, rfl, rfl, ?_, ?_⟩
  · rw [demoLedge_pass]
  · rw [demoLedge_pass]
    rfl

/-! ## Calling `cancelMissions` twice -/

/-- C39: `cancelMissions` is not idempotent. Take a unit that is turning
(facing ≠ goalFacing) whose front mission `m` must be let finish and has a
prepaid cost `c > 0`, no mission reporting finished. The first call answers
true, keeps `m` as a Turn with its prepaid cost still `c`, and credits `c - 1`
plus the costs of the missions behind. The second call answers true and keeps
the same queue, but credits `c - 1` again: for `c ≥ 2` the time units after
two calls exceed those after one call. -/
theorem cancelMissions_refunds_again (cb : Services G) (u : BattleUnit G)
    (m : BattleUnitMission) (rest : List BattleUnitMission)
    (hq : u.missions = m :: rest)
    (hlet : m.type ∈ [MissionType.ChangeBodyState, MissionType.Turn, MissionType.GotoLocation,
      MissionType.ReachGoal])
    (hturn : u.facing ≠ u.goalFacing) (hc : 0 < m.costPaidUpFront)
    (hnf : ReportsUnfinished cb u m)
    (hnf2 : ReportsUnfinished cb
      { u with
        time_units := u.time_units + (m.costPaidUpFront - 1) + prepaidSum rest
        missions := [{ m with type := MissionType.Turn, targetFacing := u.goalFacing }] }
      { m with type := MissionType.Turn, targetFacing := u.goalFacing }) :
    (cancelMissions cb u).1 = true ∧
    (cancelMissions cb u).2.missions =
      [{ m with type := MissionType.Turn, targetFacing := u.goalFacing }] ∧
    (cancelMissions cb u).2.time_units =
      u.time_units + (m.costPaidUpFront - 1) + prepaidSum rest ∧
    (cancelMissions cb (cancelMissions cb u).2).1 = true ∧
    (cancelMissions cb (cancelMissions cb u).2).2.missions = (cancelMissions cb u).2.missions ∧
    (cancelMissions cb (cancelMissions cb u).2).2.time_units =
      (cancelMissions cb u).2.time_units + (m.costPaidUpFront - 1) ∧
    (2 ≤ m.costPaidUpFront →
      (cancelMissions cb (cancelMissions cb u).2).2 ≠ (cancelMissions cb u).2) := by
  have hp := popFinishedMissions_unfinished cb u m rest hq hnf
  have hpol := cancelPolicy_letFinish m.type hlet
  have h1 := cancelMissions_turn_stub cb u u m rest hp hq hpol hturn
  rw [if_pos hc] at h1
  have hp2 := popFinishedMissions_unfinished cb _ _ [] rfl hnf2
  have h2 := cancelMissions_turn_stub cb _ _
    { m with type := MissionType.Turn, targetFacing := u.goalFacing } [] hp2 rfl rfl hturn
  rw [if_pos hc] at h2
  rw [h1]
  dsimp only
  rw [h2]
  refine ⟨rfl, rfl, rfl, rfl, rfl, ?_, ?_⟩
  · simp [prepaidSum]
  · intro hc2 he
    have ht := congrArg (fun w : BattleUnit G => w.time_units) he
    simp [prepaidSum] at ht
    omega

theorem cancelMissions_refunds_again_witness :
    (cancelMissions demoServices
      (demoTurning [demoMission MissionType.GotoLocation 5] 10)).2.time_units = 14 ∧
    (cancelMissions demoServices
      (cancelMissions demoServices
        (demoTurning [demoMission MissionType.GotoLocation 5] 10)).2).2.time_units = 18 := by
  have h := cancelMissions_refunds_again demoServices
    (demoTurning [demoMission MissionType.GotoLocation 5] 10)
    (demoMission MissionType.GotoLocation 5) [] rfl (by simp [demoMission]) (by decide)
    (by decide) rfl rfl
  refine ⟨h.2.2.1, ?_⟩
  rw [h.2.2.2.2.2.1, h.2.2.1]
  rfl

/-! ## The bool-vector value of a serialization node -/

theorem readBoolVector_write (vec : List Bool) :
    readBoolVector (writeBoolVector vec) = Except.ok vec := by
  induction vec with
  | nil => rfl
  | cons b rest ih =>
    unfold writeBoolVector at ih ⊢
    cases b
    · show readBoolVector ('0' :: List.map _ rest) = _
      rw [readBoolVector, if_neg (by decide), if_pos rfl, ih]
      rfl
    · show readBoolVector ('1' :: List.map _ rest) = _
      rw [readBoolVector, if_pos rfl, ih]
      rfl

theorem readBoolVector_error_iff (s : List Char) :
    (∃ e, readBoolVector s = Except.error e) ↔ ∃ c ∈ s, c ≠ '0' ∧ c ≠ '1' := by
  induction s with
  | nil =>
    constructor
    · rintro ⟨e, he⟩
      simp [readBoolVector] at he
    · rintro ⟨c, hc, _⟩
      simp at hc
  | cons a rest ih =>
    have hmap : ∀ (b : Bool),
        (∃ e, (readBoolVector rest).map (List.cons b) = Except.error e) ↔
          ∃ e, readBoolVector rest = Except.error e := by
      intro b
      cases h : readBoolVector rest with
      | error e => exact ⟨fun _ => ⟨e, rfl⟩, fun _ => ⟨e, rfl⟩⟩
      | ok v =>
        constructor
        · rintro ⟨e, he⟩
          cases he
        · rintro ⟨e, he⟩
          cases he
    by_cases h1 : a = '1'
    · have hr : readBoolVector (a :: rest) = (readBoolVector rest).map (List.cons true) := by
        rw [readBoolVector, if_pos h1]
      rw [hr, hmap, ih]
      constructor
      · rintro ⟨c, hc, hne⟩
        exact ⟨c, List.mem_cons_of_mem _ hc, hne⟩
      · rintro ⟨c, hc, hne⟩
        rcases List.mem_cons.mp hc with rfl | hc
        · exact absurd h1 hne.2
        · exact ⟨c, hc, hne⟩
    · by_cases h0 : a = '0'
      · have hr : readBoolVector (a :: rest) =
            (readBoolVector rest).map (List.cons false) := by
          rw [readBoolVector, if_neg h1, if_pos h0]
        rw [hr, hmap, ih]
        constructor
        · rintro ⟨c, hc, hne⟩
          exact ⟨c, List.mem_cons_of_mem _ hc, hne⟩
        · rintro ⟨c, hc, hne⟩
          rcases List.mem_cons.mp hc with rfl | hc
          · exact absurd h0 hne.1
          · exact ⟨c, hc, hne⟩
      · have hr : readBoolVector (a :: rest) =
            Except.error (SerializationException.unknownChar a) := by
          rw [readBoolVector, if_neg h1, if_neg h0]
        rw [hr]
        exact ⟨fun _ => ⟨a, List.mem_cons_self _ _, h0, h1⟩, fun _ => ⟨_, rfl⟩⟩

/-- C40: the bool-vector encoding of a serialization node round-trips. For
every node and every vector `v` of booleans, `setValueBoolVector(v)` stores a
text of length `|v|` whose characters are '1' for true and '0' for false, and
`getValueBoolVector` on the node so written returns `v`; on any node,
`getValueBoolVector` throws a SerializationException if and only if the text
contains a character other than '0' and '1'. -/
theorem boolVector_roundtrip :
    (∀ (node : XMLSerializationNode) (v : List Bool),
      (node.setValueBoolVector v).getValueBoolVector = Except.ok v ∧
      (node.setValueBoolVector v).getValue.length = v.length ∧
      ∀ (i : Nat) (b : Bool), v[i]? = some b →
        (node.setValueBoolVector v).getValue[i]? = some (if b then '1' else '0')) ∧
    (∀ node : XMLSerializationNode,
      (∃ e, node.getValueBoolVector = Except.error e) ↔
        ∃ c ∈ node.getValue, c ≠ '0' ∧ c ≠ '1') := by
  refine ⟨fun node v => ⟨readBoolVector_write v, ?_, ?_⟩,
    fun node => readBoolVector_error_iff node.text⟩
  · show (writeBoolVector v).length = v.length
    unfold writeBoolVector
    rw [List.length_map]
  · intro i b hb
    show (writeBoolVector v)[i]? = _
    unfold writeBoolVector
    rw [List.getElem?_map, hb]
    rfl

/-! ## Fatal wounds and healing -/

theorem dealDamageTail_quiet (cb : Services G) (gt : GameTime) (u : BattleUnit G)
    (wasConscious : Bool) :
    dealDamageTail cb gt u wasConscious false false 0 = u ∨
    dealDamageTail cb gt u wasConscious false false 0 = cb.dropDown u := by
  unfold dealDamageTail
  simp only [Bool.false_eq_true, if_false, and_false]
  by_cases hc : (!isConscious gt u && wasConscious) = true
  · rw [if_pos hc]
    exact Or.inr rfl
  · rw [if_neg hc]
    exact Or.inl rfl

theorem dealDamage_bleed (cb : Services G) (hk : KeepsVitals cb) (hh : KeepsHealing cb)
    (gt : GameTime) (u : BattleUnit G) (d : Int) (p : BodyPart) :
    (dealDamage cb gt u d false p 0).health = u.health - d ∧
    (dealDamage cb gt u d false p 0).fatalWounds = u.fatalWounds ∧
    (dealDamage cb gt u d false p 0).isHealing = u.isHealing ∧
    (dealDamage cb gt u d false p 0).healingBodyPart = u.healingBodyPart ∧
    (dealDamage cb gt u d false p 0).current_stats_health = u.current_stats_health := by
  obtain ⟨h1, _, h3, _⟩ := dealDamage_vitals cb hk gt u d false p 0
  have hd : damaged cb gt u d false p 0 = ({ u with health := u.health - d }, false) := by
    unfold damaged dealStunOrHealthDamage
    simp
  rw [hd] at h1 h3
  refine ⟨h1, h3, ?_⟩
  unfold dealDamage
  simp only
  rw [hd]
  by_cases hdead : isDead ({ u with health := u.health - d } : BattleUnit G) = true
  · rw [if_pos hdead]
    unfold die
    exact hh _
  · rw [if_neg hdead]
    rcases dealDamageTail_quiet cb gt ({ u with health := u.health - d } : BattleUnit G)
      (isConscious gt u) with h | h
    · rw [h]
      exact ⟨rfl, rfl, rfl⟩
    · rw [h]
      exact hh _

theorem woundEffect_healed (cb : Services G) (hk : KeepsVitals cb) (hh : KeepsHealing cb)
    (gt : GameTime) (u : BattleUnit G) (part : BodyPart) (hn : 0 < u.fatalWounds part)
    (hheal : u.isHealing = true ∧ u.healingBodyPart = part) :
    (woundEffect cb gt u part).fatalWounds =
      Function.update u.fatalWounds part (u.fatalWounds part - 1) ∧
    (woundEffect cb gt u part).health =
      min (u.health - u.fatalWounds part + 4) u.current_stats_health := by
  obtain ⟨b1, b2, b3, b4, b5⟩ := dealDamage_bleed cb hk hh gt u (u.fatalWounds part) BodyPart.Body
  unfold woundEffect
  rw [if_pos hn]
  unfold healWound
  rw [if_pos (by rw [b3, b4]; exact hheal)]
  dsimp only
  rw [b1, b2, b5]
  exact ⟨rfl, rfl⟩

theorem woundEffect_unhealed (cb : Services G) (hk : KeepsVitals cb) (hh : KeepsHealing cb)
    (gt : GameTime) (u : BattleUnit G) (part : BodyPart) (hn : 0 < u.fatalWounds part)
    (hheal : ¬ (u.isHealing = true ∧ u.healingBodyPart = part)) :
    (woundEffect cb gt u part).fatalWounds = u.fatalWounds ∧
    (woundEffect cb gt u part).health = u.health - u.fatalWounds part := by
  obtain ⟨b1, b2, b3, b4, b5⟩ := dealDamage_bleed cb hk hh gt u (u.fatalWounds part) BodyPart.Body
  unfold woundEffect
  rw [if_pos hn]
  unfold healWound
  rw [if_neg (by rw [b3, b4]; exact hheal)]
  exact ⟨b2, b1⟩

theorem woundEffect_none (cb : Services G) (gt : GameTime) (u : BattleUnit G) (part : BodyPart)
    (hn : u.fatalWounds part = 0) : woundEffect cb gt u part = u := by
  unfold woundEffect
  rw [hn]
  simp

theorem woundEffects_unwounded (cb : Services G) (gt : GameTime) (parts : List BodyPart) :
    ∀ u : BattleUnit G, (∀ q ∈ parts, u.fatalWounds q = 0) → woundEffects cb gt parts u = u := by
  induction parts with
  | nil => intro u _; rfl
  | cons a rest ih =>
    intro u h
    show woundEffects cb gt rest (woundEffect cb gt u a) = u
    rw [woundEffect_none cb gt u a (h a (List.mem_cons_self _ _))]
    exact ih u (fun q hq => h q (List.mem_cons_of_mem _ hq))

theorem woundEffects_single (cb : Services G) (hk : KeepsVitals cb) (hh : KeepsHealing cb)
    (gt : GameTime) (part : BodyPart) (parts : List BodyPart) :
    ∀ u : BattleUnit G, part ∈ parts → parts.Nodup →
      (∀ q, q ≠ part → u.fatalWounds q = 0) →
      woundEffects cb gt parts u = woundEffect cb gt u part := by
  induction parts with
  | nil => intro u hm; simp at hm
  | cons a rest ih =>
    intro u hm hnd ho
    have hnd2 := List.nodup_cons.mp hnd
    show woundEffects cb gt rest (woundEffect cb gt u a) = _
    by_cases ha : a = part
    · subst ha
      apply woundEffects_unwounded
      intro q hq
      have hqa : q ≠ a := fun h => hnd2.1 (h ▸ hq)
      by_cases hn : 0 < u.fatalWounds a
      · by_cases hheal : u.isHealing = true ∧ u.healingBodyPart = a
        · rw [(woundEffect_healed cb hk hh gt u a hn hheal).1, Function.update_noteq hqa]
          exact ho q hqa
        · rw [(woundEffect_unhealed cb hk hh gt u a hn hheal).1]
          exact ho q hqa
      · unfold woundEffect
        rw [if_neg hn]
        exact ho q hqa
    · rw [woundEffect_none cb gt u a (ho a ha)]
      rcases List.mem_cons.mp hm with h | h
      · exact absurd h.symm ha
      · exact ih u h hnd2.2 ho

/-- C38, the claim as stated fails: a unit of 10 health out of 20 whose body
has 2 fatal wounds and is being healed. One wound effect deals 2 damage,
removes one wound and adds 4: the health becomes 12, a net +2, not +3. -/
theorem woundEffect_two_wounds :
    (demoBleeding 2 true).fatalWounds BodyPart.Body = 2 ∧
    (demoBleeding 2 true).health = 10 ∧
    (woundEffect demoServices demoGameTime (demoBleeding 2 true) BodyPart.Body).fatalWounds
      BodyPart.Body = 1 ∧
    (woundEffect demoServices demoGameTime (demoBleeding 2 true) BodyPart.Body).health = 12 ∧
    (woundEffects demoServices demoGameTime
      [BodyPart.Body, BodyPart.Legs, BodyPart.Helmet, BodyPart.LeftArm, BodyPart.RightArm]
      (demoBleeding 2 true)).health = 12 :=
  ⟨rfl, rfl, rfl, rfl, rfl⟩

/-- C38, amended: the effect of one wound effect period on a body part with
`n ≥ 1` fatal wounds, the sequences run on death or loss of consciousness
leaving vitals and healing flags alone. If the part is being healed, one wound
is removed from it (the other parts keep theirs) and the health becomes
`min (h - n + 4) max`: the `n` points of wound damage are dealt and 4 are given
back, so below the cap the net change is `4 - n`, which is +3 exactly when
`n = 1`. If the part is not being healed the health drops by `n` and all
wounds are kept. When no other part is wounded this is the effect of the whole
period. -/
theorem woundEffect_net_change (cb : Services G) (gt : GameTime) (u : BattleUnit G)
    (part : BodyPart) (parts : List BodyPart) (hk : KeepsVitals cb) (hh : KeepsHealing cb)
    (hn : 1 ≤ u.fatalWounds part) :
    (u.isHealing = true ∧ u.healingBodyPart = part →
      (woundEffect cb gt u part).fatalWounds part = u.fatalWounds part - 1 ∧
      (∀ q, q ≠ part → (woundEffect cb gt u part).fatalWounds q = u.fatalWounds q) ∧
      (woundEffect cb gt u part).health =
        min (u.health - u.fatalWounds part + 4) u.current_stats_health ∧
      (u.health - u.fatalWounds part + 4 ≤ u.current_stats_health →
        (woundEffect cb gt u part).health - u.health = 4 - u.fatalWounds part) ∧
      (u.fatalWounds part = 1 →
        (woundEffect cb gt u part).health = min (u.health + 3) u.current_stats_health)) ∧
    (¬ (u.isHealing = true ∧ u.healingBodyPart = part) →
      (woundEffect cb gt u part).fatalWounds = u.fatalWounds ∧
      (woundEffect cb gt u part).health = u.health - u.fatalWounds part) ∧
    (part ∈ parts → parts.Nodup → (∀ q, q ≠ part → u.fatalWounds q = 0) →
      woundEffects cb gt parts u = woundEffect cb gt u part) := by
  have hn0 : 0 < u.fatalWounds part := by omega
  refine ⟨?_, woundEffect_unhealed cb hk hh gt u part hn0, ?_⟩
  · intro hheal
    obtain ⟨h1, h2⟩ := woundEffect_healed cb hk hh gt u part hn0 hheal
    refine ⟨?_, ?_, h2, ?_, ?_⟩
    · rw [h1, Function.update_same]
    · intro q hq
      rw [h1, Function.update_noteq hq]
    · intro hcap
      rw [h2, min_eq_left hcap]
      omega
    · intro h1w
      rw [h2, h1w]
      congr 1
      omega
  · intro hm hnd ho
    exact woundEffects_single cb hk hh gt part parts u hm hnd ho

theorem woundEffect_net_change_witness :
    (woundEffect demoServices demoGameTime (demoBleeding 1 true) BodyPart.Body).health =
      min ((10 : Int) + 3) 20 ∧
    (woundEffect demoServices demoGameTime (demoBleeding 3 false) BodyPart.Body).health =
      10 - 3 :=
  ⟨((woundEffect_net_change demoServices demoGameTime (demoBleeding 1 true) BodyPart.Body []
      (fun _ => ⟨rfl, rfl, rfl, rfl⟩) (fun _ => ⟨rfl, rfl, rfl⟩) (by decide)).1
      ⟨rfl, rfl⟩).2.2.2.2 rfl,
   ((woundEffect_net_change demoServices demoGameTime (demoBleeding 3 false) BodyPart.Body []
      (fun _ => ⟨rfl, rfl, rfl, rfl⟩) (fun _ => ⟨rfl, rfl, rfl⟩) (by decide)).2.1
      (by decide)).2⟩


theorem boolVector_roundtrip_witness :
    (({} : XMLSerializationNode).setValueBoolVector [true, false, true]).getValueBoolVector =
      Except.ok [true, false, true] ∧
    (({} : XMLSerializationNode).setValueBoolVector [true, false, true]).getValue =
      ['1', '0', '1'] ∧
    ∃ e, ({ text := ['1', '2'] } : XMLSerializationNode).getValueBoolVector = Except.error e :=
  ⟨(boolVector_roundtrip.1 {} [true, false, true]).1, rfl,
   (boolVector_roundtrip.2 { text := ['1', '2'] }).mpr ⟨'2', by decide, by decide, by decide⟩⟩

/-! ## The give-way direction table -/

theorem giveWayTry_eq (u requestor : BattleUnit G) (plannedPath : List Vec3)
    (data : List Vec2) (dir : Nat) :
    giveWayTry u requestor plannedPath data dir =
      (dir_facing_map dir).map
        (fun f => data ++ [f].filter (headingFree u requestor plannedPath)) := by
  unfold giveWayTry
  cases dir_facing_map dir with
  | none => rfl
  | some f =>
    dsimp only [Option.map]
    by_cases h : nextPosOf u f = requestor.position.toTile ∨ nextPosOf u f ∈ plannedPath
    · rw [if_pos h]
      have hf : headingFree u requestor plannedPath f = false := by
        unfold headingFree
        rw [decide_eq_false_iff_not]
        tauto
      simp [hf]
    · rw [if_neg h]
      have hf : headingFree u requestor plannedPath f = true := by
        unfold headingFree
        rw [decide_eq_true_iff]
        tauto
      simp [hf]

theorem filter_cons_cons {α : Type} (p : α → Bool) (a b : α) (l : List α) :
    (a :: b :: l).filter p = [a].filter p ++ (b :: l).filter p :=
  List.filter_append [a] (b :: l)

theorem giveWayOuter_order (u requestor : BattleUnit G) (plannedPath : List Vec3)
    (data : List Vec2) (f : Vec2) (hf : f ∈ compassFacings) :
    ∃ dir, facing_dir_map f = some dir ∧
      giveWayOuter u requestor plannedPath [0, 1, 2, 3, 4] (dir, dir) data =
        some (data ++ (giveWayOrder f).filter (headingFree u requestor plannedPath)) := by
  have d0 : dir_facing_map 0 = some { x := 0, y := -1 } := rfl
  have d1 : dir_facing_map 1 = some { x := 1, y := -1 } := rfl
  have d2 : dir_facing_map 2 = some { x := 1, y := 0 } := rfl
  have d3 : dir_facing_map 3 = some { x := 1, y := 1 } := rfl
  have d4 : dir_facing_map 4 = some { x := 0, y := 1 } := rfl
  have d5 : dir_facing_map 5 = some { x := -1, y := 1 } := rfl
  have d6 : dir_facing_map 6 = some { x := -1, y := 0 } := rfl
  have d7 : dir_facing_map 7 = some { x := -1, y := -1 } := rfl
  simp only [compassFacings, List.mem_cons, List.mem_singleton, List.not_mem_nil, or_false] at hf
  rcases hf with rfl | rfl | rfl | rfl | rfl | rfl | rfl | rfl
  · refine ⟨0, rfl, ?_⟩
    have ho : giveWayOrder { x := 0, y := -1 } =
        [{ x := 0, y := -1 }, { x := 1, y := -1 }, { x := -1, y := -1 },
         { x := 1, y := 0 }, { x := -1, y := 0 }, { x := 1, y := 1 },
         { x := -1, y := 1 }, { x := 0, y := 1 }] := by
      decide
    rw [ho]
    simp [giveWayOuter, giveWayInner, giveWayTry_eq, d0, d1, d2, d3, d4, d5, d6, d7,
      filter_cons_cons]
  · refine ⟨1, rfl, ?_⟩
    have ho : giveWayOrder { x := 1, y := -1 } =
        [{ x := 1, y := -1 }, { x := 1, y := 0 }, { x := 0, y := -1 },
         { x := 1, y := 1 }, { x := -1, y := -1 }, { x := 0, y := 1 },
         { x := -1, y := 0 }, { x := -1, y := 1 }] := by
      decide
    rw [ho]
    simp [giveWayOuter, giveWayInner, giveWayTry_eq, d0, d1, d2, d3, d4, d5, d6, d7,
      filter_cons_cons]
  · refine ⟨2, rfl, ?_⟩
    have ho : giveWayOrder { x := 1, y := 0 } =
        [{ x := 1, y := 0 }, { x := 1, y := 1 }, { x := 1, y := -1 },
         { x := 0, y := 1 }, { x := 0, y := -1 }, { x := -1, y := 1 },
         { x := -1, y := -1 }, { x := -1, y := 0 }] := by
      decide
    rw [ho]
    simp [giveWayOuter, giveWayInner, giveWayTry_eq, d0, d1, d2, d3, d4, d5, d6, d7,
      filter_cons_cons]
  · refine ⟨3, rfl, ?_⟩
    have ho : giveWayOrder { x := 1, y := 1 } =
        [{ x := 1, y := 1 }, { x := 0, y := 1 }, { x := 1, y := 0 },
         { x := -1, y := 1 }, { x := 1, y := -1 }, { x := -1, y := 0 },
         { x := 0, y := -1 }, { x := -1, y := -1 }] := by
      decide
    rw [ho]
    simp [giveWayOuter, giveWayInner, giveWayTry_eq, d0, d1, d2, d3, d4, d5, d6, d7,
      filter_cons_cons]
  · refine ⟨4, rfl, ?_⟩
    have ho : giveWayOrder { x := 0, y := 1 } =
        [{ x := 0, y := 1 }, { x := -1, y := 1 }, { x := 1, y := 1 },
         { x := -1, y := 0 }, { x := 1, y := 0 }, { x := -1, y := -1 },
         { x := 1, y := -1 }, { x := 0, y := -1 }] := by
      decide
    rw [ho]
    simp [giveWayOuter, giveWayInner, giveWayTry_eq, d0, d1, d2, d3, d4, d5, d6, d7,
      filter_cons_cons]
  · refine ⟨5, rfl, ?_⟩
    have ho : giveWayOrder { x := -1, y := 1 } =
        [{ x := -1, y := 1 }, { x := -1, y := 0 }, { x := 0, y := 1 },
         { x := -1, y := -1 }, { x := 1, y := 1 }, { x := 0, y := -1 },
         { x := 1, y := 0 }, { x := 1, y := -1 }] := by
      decide
    rw [ho]
    simp [giveWayOuter, giveWayInner, giveWayTry_eq, d0, d1, d2, d3, d4, d5, d6, d7,
      filter_cons_cons]
  · refine ⟨6, rfl, ?_⟩
    have ho : giveWayOrder { x := -1, y := 0 } =
        [{ x := -1, y := 0 }, { x := -1, y := -1 }, { x := -1, y := 1 },
         { x := 0, y := -1 }, { x := 0, y := 1 }, { x := 1, y := -1 },
         { x := 1, y := 1 }, { x := 1, y := 0 }] := by
      decide
    rw [ho]
    simp [giveWayOuter, giveWayInner, giveWayTry_eq, d0, d1, d2, d3, d4, d5, d6, d7,
      filter_cons_cons]
  · refine ⟨7, rfl, ?_⟩
    have ho : giveWayOrder { x := -1, y := -1 } =
        [{ x := -1, y := -1 }, { x := 0, y := -1 }, { x := -1, y := 0 },
         { x := 1, y := -1 }, { x := -1, y := 1 }, { x := 1, y := 0 },
         { x := 0, y := 1 }, { x := 1, y := 1 }] := by
      decide
    rw [ho]
    simp [giveWayOuter, giveWayInner, giveWayTry_eq, d0, d1, d2, d3, d4, d5, d6, d7,
      filter_cons_cons]

theorem requestGiveWay_idle (cb : Services G) (u requestor : BattleUnit G)
    (plannedPath : List Vec3) (pos : Vec3) (hd : u.giveWayRequestData = [])
    (hb : isBusy u = false)
    (hp : ¬ (u.current_body_state = BodyState.Prone ∧ cb.getOwningTilePosition u ≠ pos)) :
    requestGiveWay cb u requestor plannedPath pos =
      match facing_dir_map u.facing with
      | none => none
      | some dir =>
        (giveWayOuter u requestor plannedPath [0, 1, 2, 3, 4] (dir, dir) []).map
          (fun data => { u with giveWayRequestData := data }) := by
  unfold requestGiveWay
  rw [hd, hb, if_neg (by simp), if_neg hp]

/-- C32: the give-way direction table. The two maps between facings and
indices are mutually inverse bijections between the 8 compass facings and
0..7. For every compass facing, when the unit is not busy, holds no request
and is not asked to move its prone legs, `requestGiveWay` stores the headings
in the order facing, +45, -45, +90, -90, +135, -135, 180 degrees, leaving out
exactly those whose adjacent tile is the requestor's tile or lies on the
planned path; that order lists each of the eight compass headings once. If
the unit is busy or already holds a request the call changes nothing. -/
theorem requestGiveWay_table (cb : Services G) (u requestor : BattleUnit G)
    (plannedPath : List Vec3) (pos : Vec3) :
    (∀ f ∈ compassFacings, ∃ d, d < 8 ∧ facing_dir_map f = some d ∧ dir_facing_map d = some f) ∧
    (∀ d, d < 8 → ∃ f ∈ compassFacings, dir_facing_map d = some f ∧ facing_dir_map f = some d) ∧
    (u.facing ∈ compassFacings → u.giveWayRequestData = [] → isBusy u = false →
      ¬ (u.current_body_state = BodyState.Prone ∧ cb.getOwningTilePosition u ≠ pos) →
      requestGiveWay cb u requestor plannedPath pos =
        some { u with giveWayRequestData :=
          (giveWayOrder u.facing).filter (headingFree u requestor plannedPath) } ∧
      ((∀ h ∈ giveWayOrder u.facing, headingFree u requestor plannedPath h = true) →
        requestGiveWay cb u requestor plannedPath pos =
          some { u with giveWayRequestData := giveWayOrder u.facing })) ∧
    (∀ f ∈ compassFacings, (giveWayOrder f).Nodup ∧ (giveWayOrder f).length = 8 ∧
      ∀ h, h ∈ giveWayOrder f ↔ h ∈ compassFacings) ∧
    (u.giveWayRequestData ≠ [] ∨ isBusy u = true →
      requestGiveWay cb u requestor plannedPath pos = some u) := by
  refine ⟨by decide, by decide, ?_, ?_, ?_⟩
  · intro hf hd hb hp
    have h1 : requestGiveWay cb u requestor plannedPath pos =
        some { u with giveWayRequestData :=
          (giveWayOrder u.facing).filter (headingFree u requestor plannedPath) } := by
      rw [requestGiveWay_idle cb u requestor plannedPath pos hd hb hp]
      obtain ⟨dir, e1, e2⟩ := giveWayOuter_order u requestor plannedPath [] u.facing hf
      rw [e1]
      dsimp only
      rw [e2]
      rfl
    refine ⟨h1, ?_⟩
    intro hall
    rw [h1, List.filter_eq_self.mpr hall]
  · intro f hf
    simp only [compassFacings, List.mem_cons, List.mem_singleton, List.not_mem_nil,
      or_false] at hf
    rcases hf with rfl | rfl | rfl | rfl | rfl | rfl | rfl | rfl <;>
      refine ⟨by decide, by decide, ?_⟩ <;> intro h <;>
      simp [giveWayOrder, compassTurn, compassFacings] <;> tauto
  · intro h
    unfold requestGiveWay
    rcases h with h | h
    · have : u.giveWayRequestData.isEmpty = false := by
        cases hq : u.giveWayRequestData with
        | nil => exact absurd hq h
        | cons a l => rfl
      rw [this]
      simp
    · rw [h]
      simp

theorem requestGiveWay_table_witness :
    requestGiveWay demoServices (demoBystander { x := 1, y := 0 })
      (demoBystander { x := 0, y := 1 }) [] {} =
    some { demoBystander { x := 1, y := 0 } with
      giveWayRequestData :=
        (giveWayOrder { x := 1, y := 0 }).filter
          (headingFree (demoBystander { x := 1, y := 0 }) (demoBystander { x := 0, y := 1 })
            []) } :=
  ((requestGiveWay_table demoServices (demoBystander { x := 1, y := 0 })
    (demoBystander { x := 0, y := 1 }) [] {}).2.2.1 (by decide) rfl rfl (by decide)).1
/-! ## The approach direction of a group move -/

theorem clamp_unit (v : Int) : clamp v (-1) 1 = -1 ∨ clamp v (-1) 1 = 0 ∨ clamp v (-1) 1 = 1 := by
  unfold clamp
  split
  · exact Or.inl rfl
  · split
    · exact Or.inr (Or.inr rfl)
    · omega

theorem formationRotation_found (targetLocation fromTile : Vec3) :
    ∃ r, formationRotation (approachDir targetLocation fromTile) = some r ∧ 0 ≤ r ∧ r ≤ 3 := by
  unfold approachDir
  rcases clamp_unit (targetLocation.x - fromTile.x) with hx | hx | hx <;>
    rcases clamp_unit (targetLocation.y - fromTile.y) with hy | hy | hy <;>
    rw [hx, hy] <;> decide

theorem approachFrom_eq (path : List Vec3) :
    (1 ≤ path.length → path.length ≤ 3 → approachFrom path = none) ∧
    (4 ≤ path.length → approachFrom path = path[path.length - 4]?) := by
  unfold approachFrom
  constructor
  · intro _ h3
    rw [min_eq_right h3]
    apply List.getElem?_eq_none
    rw [List.length_reverse]
  · intro h4
    rw [min_eq_left (by omega : 3 ≤ path.length), List.getElem?_reverse (by omega)]
    congr 1

/-- C36: the approach direction of `groupMove`. The reverse iterator over the
leader's planned path is advanced `min(3, length)` times from the last
element: for a path of 1, 2 or 3 tiles it ends on `rend()`, past the first
element, and the element read there is not an element of the path; only for 4
tiles or more it is one, the fourth from the end. For every pair of tiles the
clamped direction, with north replacing (0, 0), is a key of the rotation table
chosen for it, and the rotation found is one of 0..3. -/
theorem approach_direction_lookup (path : List Vec3) (targetLocation fromTile : Vec3) :
    (1 ≤ path.length → path.length ≤ 3 → approachFrom path = none) ∧
    (4 ≤ path.length → approachFrom path = path[path.length - 4]?) ∧
    (4 ≤ path.length → ∃ t ∈ path, approachFrom path = some t) ∧
    (∃ r, formationRotation (approachDir targetLocation fromTile) = some r ∧ 0 ≤ r ∧ r ≤ 3) := by
  refine ⟨(approachFrom_eq path).1, (approachFrom_eq path).2, ?_,
    formationRotation_found targetLocation fromTile⟩
  intro h4
  have hlt : path.length - 4 < path.length := by omega
  refine ⟨path[path.length - 4], List.getElem_mem _, ?_⟩
  rw [(approachFrom_eq path).2 h4, List.getElem?_eq_getElem hlt]

theorem approach_direction_lookup_witness :
    approachFrom [{ x := 4, y := 5, z := 0 }, { x := 5, y := 5, z := 0 }] = none ∧
    approachFrom [{ x := 1, y := 5, z := 0 }, { x := 2, y := 5, z := 0 },
      { x := 3, y := 5, z := 0 }, { x := 4, y := 5, z := 0 }, { x := 5, y := 5, z := 0 }] =
      some { x := 2, y := 5, z := 0 } :=
  ⟨(approach_direction_lookup [{ x := 4, y := 5, z := 0 }, { x := 5, y := 5, z := 0 }] {} {}).1
      (by decide) (by decide),
   (approach_direction_lookup [{ x := 1, y := 5, z := 0 }, { x := 2, y := 5, z := 0 },
      { x := 3, y := 5, z := 0 }, { x := 4, y := 5, z := 0 }, { x := 5, y := 5, z := 0 }]
      {} {}).2.1 (by decide)⟩

/-! ## The formation of a group move -/

theorem formationPoint_diagonal (o : Vec3) : o ∈ targetOffsetsDiagonal ↔ FormationPoint o := by
  constructor
  · intro h
    simp only [targetOffsetsDiagonal, List.mem_cons, List.mem_singleton, List.not_mem_nil,
      or_false] at h
    rcases h with h | h | h | h | h | h | h | h | h | h | h | h | h | h | h | h | h | h | h | h
      | h | h | h | h <;> subst h <;> unfold FormationPoint <;> decide
  · rintro ⟨hz, hp, hs⟩
    obtain ⟨x, y, z⟩ := o
    simp only at hz hp hs
    subst hz
    have hx : -4 ≤ x ∧ x ≤ 4 := by
      rcases abs_cases x with ⟨h1, _⟩ | ⟨h1, _⟩ <;> rcases abs_cases y with ⟨h2, _⟩ | ⟨h2, _⟩ <;>
        omega
    have hy : -4 ≤ y ∧ y ≤ 4 := by
      rcases abs_cases x with ⟨h1, _⟩ | ⟨h1, _⟩ <;> rcases abs_cases y with ⟨h2, _⟩ | ⟨h2, _⟩ <;>
        omega
    obtain ⟨hx1, hx2⟩ := hx
    obtain ⟨hy1, hy2⟩ := hy
    interval_cases x <;> interval_cases y <;> first | decide | (exfalso; revert hp hs; decide)

theorem formationPoint_linear (o : Vec3) : o ∈ targetOffsetsLinear ↔ FormationPoint o := by
  rw [← formationPoint_diagonal]
  constructor
  · intro h
    simp only [targetOffsetsLinear, List.mem_cons, List.mem_singleton, List.not_mem_nil,
      or_false] at h
    rcases h with h | h | h | h | h | h | h | h | h | h | h | h | h | h | h | h | h | h | h | h
      | h | h | h | h <;> subst h <;> decide
  · intro h
    simp only [targetOffsetsDiagonal, List.mem_cons, List.mem_singleton, List.not_mem_nil,
      or_false] at h
    rcases h with h | h | h | h | h | h | h | h | h | h | h | h | h | h | h | h | h | h | h | h
      | h | h | h | h <;> subst h <;> decide

theorem formationOffsets_point (dir : Vec2) (o : Vec3) :
    o ∈ formationOffsets dir ↔ FormationPoint o := by
  unfold formationOffsets
  split
  · exact formationPoint_diagonal o
  · exact formationPoint_linear o

theorem formationOffsets_nodup (dir : Vec2) :
    (formationOffsets dir).Nodup ∧ (formationOffsets dir).length = 24 := by
  unfold formationOffsets
  split <;> decide

theorem rotate_injective (rotation : Int) : Function.Injective (fun o => rotate o rotation) := by
  intro a b h
  obtain ⟨ax, ay, az⟩ := a
  obtain ⟨bx, b_y, bz⟩ := b
  simp only [rotate] at h
  split_ifs at h <;> simp only [Vec3.mk.injEq] at h ⊢ <;> omega

theorem rotate_formationPoint (rotation : Int) (o : Vec3) :
    FormationPoint (rotate o rotation) ↔ FormationPoint o := by
  obtain ⟨x, y, z⟩ := o
  unfold rotate FormationPoint
  split_ifs <;> simp only [abs_neg] <;> constructor <;> rintro ⟨h1, h2, h3⟩ <;>
    refine ⟨h1, by omega, ?_⟩ <;> omega

theorem formationPoint_nonzero (o : Vec3) (h : FormationPoint o) : o.x ≠ 0 ∨ o.y ≠ 0 := by
  obtain ⟨_, _, h3⟩ := h
  by_contra hc
  push_neg at hc
  rw [hc.1, hc.2] at h3
  simp at h3

theorem add_injective (t : Vec3) : Function.Injective (fun o => t.add o) := by
  intro a b h
  obtain ⟨ax, ay, az⟩ := a
  obtain ⟨bx, b_y, bz⟩ := b
  simp only [Vec3.add, Vec3.mk.injEq] at h ⊢
  omega

theorem add_ne_self (t o : Vec3) (h : o.x ≠ 0 ∨ o.y ≠ 0) : t.add o ≠ t := by
  intro he
  obtain ⟨tx, ty, tz⟩ := t
  simp only [Vec3.add, Vec3.mk.injEq] at he
  omega

theorem assignOffset_sublist (cb : Services G) (leadUnit : BattleUnit G)
    (size targetLocation : Vec3) (rotation : Int) (unit : BattleUnit G) :
    ∀ offsets : List Vec3,
      List.Sublist
        ((assignOffset cb leadUnit size targetLocation rotation unit offsets).2.2.toList ++
          (assignOffset cb leadUnit size targetLocation rotation unit offsets).2.1.map
            (fun o => targetLocation.add (rotate o rotation)))
        (offsets.map (fun o => targetLocation.add (rotate o rotation))) := by
  intro offsets
  induction offsets with
  | nil => exact List.Sublist.refl _
  | cons o more ih =>
    unfold assignOffset
    split
    · exact List.Sublist.cons _ ih
    · split
      · exact List.Sublist.refl _
      · exact List.Sublist.cons _ ih

theorem assignOffset_inside (cb : Services G) (leadUnit : BattleUnit G)
    (size targetLocation : Vec3) (rotation : Int) (unit : BattleUnit G) :
    ∀ (offsets : List Vec3) (t : Vec3),
      (assignOffset cb leadUnit size targetLocation rotation unit offsets).2.2 = some t →
      insideMap size t = true := by
  intro offsets
  induction offsets with
  | nil =>
    intro t h
    simp [assignOffset] at h
  | cons o more ih =>
    intro t h
    unfold assignOffset at h
    by_cases hin : (!insideMap size (targetLocation.add (rotate o rotation))) = true
    · rw [if_pos hin] at h
      exact ih t h
    · rw [if_neg hin] at h
      split at h
      · simp only [Option.some.injEq] at h
        rw [← h]
        simpa using hin
      · exact ih t h

theorem followerLoop_sublist (cb : Services G) (leadUnit : BattleUnit G)
    (size targetLocation : Vec3) (rotation : Int) :
    ∀ (units : List (BattleUnit G)) (offsets : List Vec3) (state : G),
      List.Sublist
        (sentTiles (followerLoop cb leadUnit size targetLocation rotation units offsets state).1)
        (offsets.map (fun o => targetLocation.add (rotate o rotation))) := by
  intro units
  induction units with
  | nil =>
    intro offsets state
    exact List.nil_sublist _
  | cons unit more ih =>
    intro offsets state
    unfold followerLoop
    split
    · have : sentTiles ((unit :: more).map (fun u => (u, (none : Option Vec3)))) = [] := by
        unfold sentTiles
        rw [List.filterMap_map]
        exact List.filterMap_eq_nil_iff.mpr (fun _ _ => rfl)
      rw [this]
      exact List.nil_sublist _
    · have h1 := assignOffset_sublist cb leadUnit size targetLocation rotation
        { unit with state := state } offsets
      have h2 := ih
        (assignOffset cb leadUnit size targetLocation rotation { unit with state := state }
          offsets).2.1
        (assignOffset cb leadUnit size targetLocation rotation { unit with state := state }
          offsets).1.state
      refine List.Sublist.trans ?_ h1
      show List.Sublist (sentTiles (_ :: _)) _
      unfold sentTiles
      cases hs : (assignOffset cb leadUnit size targetLocation rotation
          { unit with state := state } offsets).2.2 with
      | none =>
        simp only [List.filterMap_cons, hs]
        exact h2
      | some t =>
        simp only [List.filterMap_cons, hs]
        exact List.Sublist.cons₂ _ h2

theorem followerLoop_inside (cb : Services G) (leadUnit : BattleUnit G)
    (size targetLocation : Vec3) (rotation : Int) :
    ∀ (units : List (BattleUnit G)) (offsets : List Vec3) (state : G),
      ∀ t ∈ sentTiles
          (followerLoop cb leadUnit size targetLocation rotation units offsets state).1,
        insideMap size t = true := by
  intro units
  induction units with
  | nil =>
    intro offsets state t ht
    simp [followerLoop, sentTiles] at ht
  | cons unit more ih =>
    intro offsets state t ht
    unfold followerLoop at ht
    split at ht
    · have : sentTiles ((unit :: more).map (fun u => (u, (none : Option Vec3)))) = [] := by
        unfold sentTiles
        rw [List.filterMap_map]
        exact List.filterMap_eq_nil_iff.mpr (fun _ _ => rfl)
      rw [this] at ht
      simp at ht
    · unfold sentTiles at ht
      rw [List.mem_filterMap] at ht
      obtain ⟨p, hp, hpt⟩ := ht
      rcases List.mem_cons.mp hp with rfl | hp
      · exact assignOffset_inside cb leadUnit size targetLocation rotation _ offsets t hpt
      · exact ih _ _ t (List.mem_filterMap.mpr ⟨p, hp, hpt⟩)

/-- C31: the formation of `groupMove`. Both offset tables list the same 24
pairwise distinct offsets, exactly the points (x, y, 0) with x + y even and
|x| + |y| equal to 2 or 4, none of them zero; `rotate` by any number of
quarter turns is injective and maps this set onto itself. In the follower
loop the tiles the followers are sent to are the target plus the rotated
offset for a sublist of the table (each offset is used for at most one
follower), so they are pairwise distinct, differ from the target, which is the
leader's destination, and lie inside the map bounds. -/
theorem groupMove_formation (cb : Services G) (leadUnit : BattleUnit G)
    (size targetLocation : Vec3) (rotation : Int) (dir : Vec2) (units : List (BattleUnit G))
    (state : G) :
    targetOffsetsDiagonal.length = 24 ∧ targetOffsetsLinear.length = 24 ∧
    targetOffsetsDiagonal.Nodup ∧ targetOffsetsLinear.Nodup ∧
    (∀ o, o ∈ targetOffsetsDiagonal ↔ FormationPoint o) ∧
    (∀ o, o ∈ targetOffsetsLinear ↔ FormationPoint o) ∧
    (∀ o, FormationPoint o → o ≠ { x := 0, y := 0, z := 0 }) ∧
    (∀ r : Int, Function.Injective (fun o => rotate o r) ∧
      ∀ o, FormationPoint (rotate o r) ↔ FormationPoint o) ∧
    (∀ r ∈ [(0 : Int), 1, 2, 3],
      (targetOffsetsDiagonal.map (fun o => rotate o r)).Perm targetOffsetsDiagonal ∧
      (targetOffsetsLinear.map (fun o => rotate o r)).Perm targetOffsetsLinear) ∧
    List.Sublist
      (sentTiles (followerLoop cb leadUnit size targetLocation rotation units
        (formationOffsets dir) state).1)
      ((formationOffsets dir).map (fun o => targetLocation.add (rotate o rotation))) ∧
    (sentTiles (followerLoop cb leadUnit size targetLocation rotation units
      (formationOffsets dir) state).1).Nodup ∧
    (∀ t ∈ sentTiles (followerLoop cb leadUnit size targetLocation rotation units
        (formationOffsets dir) state).1,
      t ≠ targetLocation ∧ insideMap size t = true) := by
  have hsub := followerLoop_sublist cb leadUnit size targetLocation rotation units
    (formationOffsets dir) state
  refine ⟨rfl, rfl, by decide, by decide, formationPoint_diagonal, formationPoint_linear, ?_,
    fun r => ⟨rotate_injective r, rotate_formationPoint r⟩, by decide, hsub, ?_, ?_⟩
  · intro o ho he
    rcases formationPoint_nonzero o ho with h | h <;> rw [he] at h <;> exact h rfl
  · refine List.Nodup.sublist hsub ?_
    have hinj : Function.Injective (fun o => targetLocation.add (rotate o rotation)) :=
      (add_injective targetLocation).comp (rotate_injective rotation)
    exact (formationOffsets_nodup dir).1.map hinj
  · intro t ht
    refine ⟨?_, followerLoop_inside cb leadUnit size targetLocation rotation units _ state t ht⟩
    obtain ⟨o, ho, rfl⟩ := List.mem_map.mp (hsub.subset ht)
    apply add_ne_self
    exact formationPoint_nonzero _
      ((rotate_formationPoint rotation o).mpr ((formationOffsets_point dir o).mp ho))


theorem groupMove_formation_witness :
    sentTiles (followerLoop (demoGroupServices { x := 5, y := 5, z := 0 }) (demoSoldier "a")
      { x := 10, y := 10, z := 1 } { x := 5, y := 5, z := 0 } 0
      [demoSoldier "b", demoSoldier "c"] (formationOffsets { x := 0, y := -1 }) 0).1 =
      [{ x := 4, y := 6, z := 0 }, { x := 6, y := 6, z := 0 }] ∧
    (sentTiles (followerLoop (demoGroupServices { x := 5, y := 5, z := 0 }) (demoSoldier "a")
      { x := 10, y := 10, z := 1 } { x := 5, y := 5, z := 0 } 0
      [demoSoldier "b", demoSoldier "c"] (formationOffsets { x := 0, y := -1 }) 0).1).Nodup :=
  ⟨rfl,
   (groupMove_formation (demoGroupServices { x := 5, y := 5, z := 0 }) (demoSoldier "a")
      { x := 10, y := 10, z := 1 } { x := 5, y := 5, z := 0 } 0 { x := 0, y := -1 }
      [demoSoldier "b", demoSoldier "c"] 0).2.2.2.2.2.2.2.2.2.2.1⟩

/-! ## The leader of a group move -/

theorem addMission_added_nonempty (cb : Services G) (u : BattleUnit G)
    (mission : BattleUnitMission) (h : (addMission cb u mission false).1 = true) :
    (addMission cb u mission false).2.missions ≠ [] := by
  unfold addMission at h ⊢
  simp only [Bool.false_eq_true, if_false] at h ⊢
  cases ht : mission.type <;> simp only [ht] at h ⊢
  case ReachGoal =>
    cases hq : u.missions with
    | nil => simp [emplaceFrontAndStart]
    | cons front tail =>
      rw [hq] at h
      by_cases hp : preventsReachGoal front.type = true
      · simp [hp] at h
      · simp [hp, emplaceFrontAndStart]
  all_goals first
    | (unfold emplaceFrontAndStart; simp)
    | (split <;> simp)

theorem setMission_added_nonempty (cb : Services G) (u : BattleUnit G)
    (mission : BattleUnitMission) (h : (setMission cb u (some mission)).1 = true) :
    (setMission cb u (some mission)).2.missions ≠ [] := by
  rw [setMission_some] at h ⊢
  by_cases hc : ¬ (cancelMissions cb (afterPreAction u mission)).1 = true
  · rw [if_pos hc] at h
    exact absurd h (by simp)
  · rw [if_neg hc] at h ⊢
    exact addMission_added_nonempty cb _ _ h

theorem trialMission_concat (v : UnitVars G) (q : List BattleUnitMission)
    (m : BattleUnitMission) :
    trialMission ({ toUnitVars := v, missions := q ++ [m] } : BattleUnit G) = some m :=
  List.getLast?_concat q

theorem trialMission_some (u : BattleUnit G) (h : u.missions ≠ []) :
    ∃ m, trialMission u = some m := by
  unfold trialMission
  cases hq : u.missions.getLast? with
  | none => exact absurd (List.getLast?_eq_none_iff.mp hq) h
  | some m => exact ⟨m, rfl⟩

theorem startTrial_nonempty (cb : Services G) (u : BattleUnit G) (h : u.missions ≠ []) :
    (startTrial cb u).missions ≠ [] := by
  obtain ⟨m, hm⟩ := trialMission_some u h
  unfold startTrial
  rw [hm]
  simp

theorem cancelTrial_cancelled (u : BattleUnit G) (h : u.missions ≠ []) :
    TrialCancelled (cancelTrial u) := by
  obtain ⟨m, hm⟩ := trialMission_some u h
  unfold cancelTrial
  rw [hm]
  exact ⟨{ m with cancelled := true }, trialMission_concat _ _ _, rfl⟩

theorem trialCancelled_nonempty (u : BattleUnit G) (h : TrialCancelled u) : u.missions ≠ [] := by
  obtain ⟨m, hm, _⟩ := h
  intro he
  unfold trialMission at hm
  rw [he] at hm
  simp at hm

theorem cancelTrialAt_cancelled :
    ∀ (l : List (BattleUnit G)) (i : Nat), (∀ u ∈ l, TrialCancelled u) →
      ∀ u ∈ cancelTrialAt l i, TrialCancelled u := by
  intro l
  induction l with
  | nil =>
    intro i _ u hu
    simp [cancelTrialAt] at hu
  | cons a rest ih =>
    intro i h u hu
    cases i with
    | zero =>
      rcases List.mem_cons.mp hu with rfl | hu
      · exact cancelTrial_cancelled a
          (trialCancelled_nonempty a (h a (List.mem_cons_self _ _)))
      · exact h u (List.mem_cons_of_mem _ hu)
    | succ i =>
      rcases List.mem_cons.mp hu with rfl | hu
      · exact h _ (List.mem_cons_self _ _)
      · exact ih i (fun w hw => h w (List.mem_cons_of_mem _ hw)) u hu

theorem cancelTrialAt_length :
    ∀ (l : List (BattleUnit G)) (i : Nat), (cancelTrialAt l i).length = l.length := by
  intro l
  induction l with
  | nil => intro i; rfl
  | cons a rest ih =>
    intro i
    cases i with
    | zero => rfl
    | succ i => simp [cancelTrialAt, ih i]

theorem rememberLeader_tried (s : LeaderSearch G) (distance : Int)
    (h : ∀ u ∈ s.tried, TrialCancelled u) :
    (∀ u ∈ (rememberLeader s distance).tried, TrialCancelled u) ∧
    (rememberLeader s distance).tried.length = s.tried.length := by
  unfold rememberLeader
  split
  · cases hl : s.lead with
    | none => exact ⟨h, rfl⟩
    | some i => exact ⟨cancelTrialAt_cancelled s.tried i h, cancelTrialAt_length s.tried i⟩
  · exact ⟨h, rfl⟩

theorem leaderDistance_nonneg (a b : Vec3) : 0 ≤ leaderDistance a b := by
  unfold leaderDistance
  have h1 : (0 : Int) ≤ ((a.x - b.x).natAbs : Int) := Int.ofNat_nonneg _
  have h2 : (0 : Int) ≤ ((a.y - b.y).natAbs : Int) := Int.ofNat_nonneg _
  have h3 : (0 : Int) ≤ ((a.z - b.z).natAbs : Int) := Int.ofNat_nonneg _
  have h4 : (0 : Int) ≤ max (max ((a.x - b.x).natAbs : Int) ((a.y - b.y).natAbs : Int))
      ((a.z - b.z).natAbs : Int) := le_trans h3 (le_max_right _ _)
  omega

theorem leaderDistance_zero (a b : Vec3) (h : leaderDistance a b = 0) : b = a := by
  unfold leaderDistance at h
  have h4 : (0 : Int) ≤ max (max ((a.x - b.x).natAbs : Int) ((a.y - b.y).natAbs : Int))
      ((a.z - b.z).natAbs : Int) :=
    le_trans (Int.ofNat_nonneg (a.z - b.z).natAbs) (le_max_right _ _)
  generalize max (max ((a.x - b.x).natAbs : Int) ((a.y - b.y).natAbs : Int))
      ((a.z - b.z).natAbs : Int) = m at h h4
  have hx : (a.x - b.x).natAbs = 0 := by omega
  have hy : (a.y - b.y).natAbs = 0 := by omega
  have hz : (a.z - b.z).natAbs = 0 := by omega
  rw [Int.natAbs_eq_zero] at hx hy hz
  obtain ⟨ax, ay, az⟩ := a
  obtain ⟨bx, b_y, bz⟩ := b
  simp only [Vec3.mk.injEq] at hx hy hz ⊢
  omega

theorem rememberLeader_lead (s : LeaderSearch G) (distance : Int)
    (h : ∀ i, s.lead = some i → i < s.tried.length) :
    (∀ i, (rememberLeader s distance).lead = some i → i < s.tried.length + 1) ∧
    (distance < s.minDistance → (rememberLeader s distance).lead = some s.tried.length) ∧
    (rememberLeader s distance).minDistance = min distance s.minDistance := by
  unfold rememberLeader
  by_cases hd : distance < s.minDistance
  · rw [if_pos hd]
    refine ⟨?_, fun _ => rfl, (min_eq_left (le_of_lt hd)).symm⟩
    intro i hi
    simp only [Option.some.injEq] at hi
    omega
  · rw [if_neg hd]
    refine ⟨fun i hi => Nat.lt_succ_of_lt (h i hi), fun hc => absurd hc hd,
      (min_eq_right (not_lt.mp hd)).symm⟩

theorem tryUnit_added (cb : Services G) (targetLocation : Vec3) (state : G)
    (curUnit : BattleUnit G) (h : (tryUnit cb targetLocation state curUnit).1 = true) :
    (tryUnit cb targetLocation state curUnit).2.missions ≠ [] := by
  unfold tryUnit at h ⊢
  by_cases hs : (setMission cb { curUnit with state := state }
      (some (cb.gotoLocation { curUnit with state := state } targetLocation))).1 = true
  · rw [if_pos hs]
    exact startTrial_nonempty cb _ (setMission_added_nonempty cb _ _ hs)
  · rw [if_neg hs] at h
    exact absurd h (by simp)


theorem considerUnit_step (targetLocation : Vec3) (s : LeaderSearch G) (u : BattleUnit G)
    (hs : s.AllCancelled) (hu : u.missions ≠ []) :
    ((considerUnit targetLocation s u).2 = false →
      (considerUnit targetLocation s u).1.AllCancelled) ∧
    ((considerUnit targetLocation s u).2 = true →
      ∃ front, (considerUnit targetLocation s u).1.tried = front ++ [u] ∧
        (∀ w ∈ front, TrialCancelled w) ∧
        (considerUnit targetLocation s u).1.lead = some front.length ∧
        pathEnd u = some targetLocation) := by
  obtain ⟨h1, h2, h3⟩ := hs
  unfold considerUnit
  cases hp : pathEnd u with
  | none =>
    dsimp only
    refine ⟨fun _ => ⟨?_, ?_, h3⟩, fun h => absurd h (by simp)⟩
    · intro w hw
      rcases List.mem_append.mp hw with hw | hw
      · exact h1 w hw
      · rw [List.mem_singleton.mp hw]
        exact cancelTrial_cancelled u hu
    · intro i hi
      rw [List.length_append]
      exact Nat.lt_add_right _ (h2 i hi)
  | some unitTarget =>
    dsimp only
    obtain ⟨r1, r2⟩ := rememberLeader_tried s (leaderDistance targetLocation unitTarget) h1
    obtain ⟨l1, l2, l3⟩ := rememberLeader_lead s (leaderDistance targetLocation unitTarget) h2
    by_cases hd : leaderDistance targetLocation unitTarget = 0
    · rw [if_pos hd]
      refine ⟨fun h => absurd h (by simp), fun _ => ⟨_, rfl, r1, ?_, ?_⟩⟩
      · show (rememberLeader s (leaderDistance targetLocation unitTarget)).lead = _
        rw [l2 (by rw [hd]; exact h3), r2]
      · rw [leaderDistance_zero targetLocation unitTarget hd]
    · rw [if_neg hd]
      refine ⟨fun _ => ⟨?_, ?_, ?_⟩, fun h => absurd h (by simp)⟩
      · intro w hw
        rcases List.mem_append.mp hw with hw | hw
        · exact r1 w hw
        · rw [List.mem_singleton.mp hw]
          exact cancelTrial_cancelled u hu
      · intro i hi
        show i < ((rememberLeader s (leaderDistance targetLocation unitTarget)).tried ++
          [cancelTrial u]).length
        rw [List.length_append, r2]
        exact l1 i hi
      · show 0 < (rememberLeader s (leaderDistance targetLocation unitTarget)).minDistance
        rw [l3]
        have := leaderDistance_nonneg targetLocation unitTarget
        exact lt_min (lt_of_le_of_ne this (Ne.symm hd)) h3

theorem leaderStep_step (cb : Services G) (targetLocation : Vec3) (s : LeaderSearch G)
    (curUnit : BattleUnit G) (hs : s.AllCancelled) :
    ((leaderStep cb targetLocation s curUnit).2 = false →
      (leaderStep cb targetLocation s curUnit).1.AllCancelled) ∧
    ((leaderStep cb targetLocation s curUnit).2 = true →
      ∃ front l, (leaderStep cb targetLocation s curUnit).1.tried = front ++ [l] ∧
        (∀ w ∈ front, TrialCancelled w) ∧
        (leaderStep cb targetLocation s curUnit).1.lead = some front.length ∧
        pathEnd l = some targetLocation) := by
  unfold leaderStep
  by_cases ha : (tryUnit cb targetLocation s.state curUnit).1 = true
  · rw [if_pos ha]
    obtain ⟨c1, c2⟩ := considerUnit_step targetLocation s
      (tryUnit cb targetLocation s.state curUnit).2 hs (tryUnit_added cb _ _ _ ha)
    refine ⟨c1, fun h => ?_⟩
    obtain ⟨front, e1, e2, e3, e4⟩ := c2 h
    exact ⟨front, _, e1, e2, e3, e4⟩
  · rw [if_neg ha]
    exact ⟨fun _ => hs, fun h => absurd h (by simp)⟩

theorem leaderLoop_outcome (cb : Services G) (targetLocation : Vec3) :
    ∀ (units : List (BattleUnit G)) (s : LeaderSearch G), s.AllCancelled →
      ((leaderLoop cb targetLocation units s).reached = false →
        (leaderLoop cb targetLocation units s).search.AllCancelled) ∧
      ((leaderLoop cb targetLocation units s).reached = true →
        ∃ front l, (leaderLoop cb targetLocation units s).search.tried = front ++ [l] ∧
          (∀ w ∈ front, TrialCancelled w) ∧
          (leaderLoop cb targetLocation units s).search.lead = some front.length ∧
          pathEnd l = some targetLocation) := by
  intro units
  induction units with
  | nil =>
    intro s hs
    exact ⟨fun _ => hs, fun h => absurd h (by simp [leaderLoop])⟩
  | cons curUnit rest ih =>
    intro s hs
    obtain ⟨s1, s2⟩ := leaderStep_step cb targetLocation s curUnit hs
    unfold leaderLoop
    by_cases hb : (leaderStep cb targetLocation s curUnit).2 = true
    · rw [if_pos hb]
      exact ⟨fun h => absurd h (by simp), fun _ => s2 hb⟩
    · rw [if_neg hb]
      exact ih _ (s1 (by simpa using hb))

theorem leadUnit_mem (s : LeaderSearch G) (l : BattleUnit G) (h : s.leadUnit = some l) :
    l ∈ s.tried := by
  unfold LeaderSearch.leadUnit at h
  cases hl : s.lead with
  | none =>
    rw [hl] at h
    simp at h
  | some i =>
    rw [hl] at h
    simp only [Option.some_bind] at h
    exact List.mem_iff_getElem?.mpr ⟨i, h⟩

/-- C35: the leader loop of `groupMove`, entered with no unit gone through.
If no unit's path ends on the target, the loop ends with the trial mission of
every unit gone through cancelled, and this includes the unit remembered as
the leader when there is one: its GotoLocation mission is cancelled by the
assignment `mission->cancelled = true` that follows the choice. Only when a
unit's path ends on the target is the loop left by `break`; that unit is the
leader, it is the last unit gone through, its trial mission is left as the
start callback made it and those of the units before it are cancelled. -/
theorem leaderLoop_cancels_leader (cb : Services G) (targetLocation : Vec3)
    (units : List (BattleUnit G)) (state : G) :
    ((leaderLoop cb targetLocation units { state := state }).reached = false →
      (∀ u ∈ (leaderLoop cb targetLocation units { state := state }).search.tried,
        TrialCancelled u) ∧
      ∀ l, (leaderLoop cb targetLocation units { state := state }).search.leadUnit = some l →
        TrialCancelled l) ∧
    ((leaderLoop cb targetLocation units { state := state }).reached = true →
      ∃ front l,
        (leaderLoop cb targetLocation units { state := state }).search.tried = front ++ [l] ∧
        (∀ w ∈ front, TrialCancelled w) ∧
        (leaderLoop cb targetLocation units { state := state }).search.leadUnit = some l ∧
        pathEnd l = some targetLocation) := by
  have h0 : ({ state := state } : LeaderSearch G).AllCancelled :=
    ⟨fun u hu => absurd hu (List.not_mem_nil u), fun i hi => absurd hi (by simp),
      (by decide : (0 : Int) < 2147483647)⟩
  obtain ⟨o1, o2⟩ := leaderLoop_outcome cb targetLocation units _ h0
  refine ⟨fun h => ⟨(o1 h).1, fun l hl => (o1 h).1 l (leadUnit_mem _ l hl)⟩, fun h => ?_⟩
  obtain ⟨front, l, e1, e2, e3, e4⟩ := o2 h
  refine ⟨front, l, e1, e2, ?_, e4⟩
  unfold LeaderSearch.leadUnit
  rw [e3, e1]
  simp

theorem leaderLoop_cancels_leader_witness :
    (leaderLoop (demoGroupServices { x := 5, y := 5, z := 0 }) { x := 7, y := 5, z := 0 }
      [demoSoldier "a", demoSoldier "b"] { state := 0 }).search.lead = some 0 ∧
    ∃ l, (leaderLoop (demoGroupServices { x := 5, y := 5, z := 0 }) { x := 7, y := 5, z := 0 }
      [demoSoldier "a", demoSoldier "b"] { state := 0 }).search.leadUnit = some l ∧
      l.id = "a" ∧ TrialCancelled l :=
  ⟨by decide,
   _, rfl, rfl,
   ((leaderLoop_cancels_leader (demoGroupServices { x := 5, y := 5, z := 0 })
      { x := 7, y := 5, z := 0 } [demoSoldier "a", demoSoldier "b"] 0).1 (by decide)).2 _ rfl⟩

/-! ## A move budget that wraps around -/

theorem passTurn_move (cb : Services G) (gt : GameTime) (ap : BattleUnitAnimationPack)
    (u : BattleUnit G) (b : Budgets) : (passTurn cb gt ap u b).budgets.move = b.move := by
  unfold passTurn
  split <;> rfl

theorem passMove_move (cb : Services G) (gt : GameTime) (ap : BattleUnitAnimationPack)
    (mc : MoveConsts) (wasUsingLift : Bool) (u : BattleUnit G) (b : Budgets) :
    (passMove cb gt ap mc wasUsingLift u b).budgets.move =
      (updateMoveStep cb gt mc u wasUsingLift b.move).ticksRemaining := by
  unfold passMove
  split
  · rfl
  · rw [passTurn_move]

/-- C30, the claim as stated fails: a flying unit whose flying speed modifier
is 200, 4 tick units from its goal, updated for 2 ticks. The move budget is 4;
the guard compares 4 * 2 * 100 / 200 = 4 with the budget, finds that the
budget covers the distance, and the subtraction of 4 * 2 = 8 from the
unsigned budget 4 wraps around: after the first pass the move budget is
4294967292, more than before. -/
theorem convergencePass_budget_wraps :
    demoOverdrive.flyingSpeedModifier = 200 ∧
    initialBudgets demoMoveServices demoGameTime (beforeLoop demoOverdrive) 2 =
      { move := 4, body := 2, hand := 2, turn := 2 } ∧
    cannotReach (demoMoveServices.distanceToGoal (beforeLoop demoOverdrive))
      (moveTicksConsumeRateOf (beforeLoop demoOverdrive))
      (speedModifierOf (beforeLoop demoOverdrive)) 4 = false ∧
    (convergencePass demoMoveServices demoGameTime demoAnimationPack demoMoveConsts
      demoOverdrive.usingLift (beforeLoop demoOverdrive)
      (initialBudgets demoMoveServices demoGameTime (beforeLoop demoOverdrive) 2)).budgets.move =
      4294967292 ∧
    ¬ Budgets.le
      (convergencePass demoMoveServices demoGameTime demoAnimationPack demoMoveConsts
        demoOverdrive.usingLift (beforeLoop demoOverdrive)
        (initialBudgets demoMoveServices demoGameTime (beforeLoop demoOverdrive) 2)).budgets
      (initialBudgets demoMoveServices demoGameTime (beforeLoop demoOverdrive) 2) := by
  have e1 : convergencePass demoMoveServices demoGameTime demoAnimationPack demoMoveConsts
      demoOverdrive.usingLift (beforeLoop demoOverdrive)
      (initialBudgets demoMoveServices demoGameTime (beforeLoop demoOverdrive) 2) =
      passMove demoMoveServices demoGameTime demoAnimationPack demoMoveConsts false
        (beforeLoop demoOverdrive) { move := 4, body := 2, hand := 2, turn := 2 } := rfl
  have e2 : updateMoveStep demoMoveServices demoGameTime demoMoveConsts
      (beforeLoop demoOverdrive) false 4 =
      moveToGoal demoMoveServices demoMoveConsts
        (liftCheck demoMoveServices (beforeLoop demoOverdrive) false) 4 4 2 := rfl
  have hm : (convergencePass demoMoveServices demoGameTime demoAnimationPack demoMoveConsts
      demoOverdrive.usingLift (beforeLoop demoOverdrive)
      (initialBudgets demoMoveServices demoGameTime (beforeLoop demoOverdrive) 2)).budgets.move =
      4294967292 := by
    rw [e1, passMove_move, e2, moveToGoal_ticks]
    decide
  refine ⟨rfl, rfl, by decide, hm, ?_⟩
  intro hle
  have h1 := hle.1
  rw [hm] at h1
  exact absurd h1 (by decide)

/-! ## A partial move and the goal -/

end OpenApoc
